import Mathlib

/-! # Traffic-light controllers: shallow embedding and verified properties

Three controllers of the repository are embedded here.

* `Demo1`: `src/demo1/src/demo1.c` (Local Control 1, pedestrian *overlay* mode): a
  table-driven ring (`NORM`), a train mini-FSM and a pedestrian window flag.
* `Fsm`: `src/traffic_fsm.c` (pedestrian *exclusive* mode): one flat `state_t` cursor
  stepped by `SingleStep_SM`.
* `Demo3`: `src/demo3/src/demo3.c` (Local Control 2), the sibling of `Demo1` for the
  second intersection.

Conventions of the embedding.

* The C `int` flags only ever hold `0` or `1`; they are `Bool` here.
* C enums are their integer values (`Nat`), so that a cursor outside the enumerated
  range can be expressed and the `default:` branches are part of the model.
* The process-wide globals, the `static` locals and the cursor owned by `main` are the
  fields of one record (`Ctl`), passed explicitly.
* Input is an event schedule `evs`: `evs i` is what the `i`-th call of the poll function
  (counted from 0 over the whole run, field `polls`) receives.
* Output (`printf`) is an append-only trace `out` of status lines and notifications.
* `nanosleep` only advances the ghost field `slept_ms`.
-/

namespace Demo1

/-! ## Events and timings (`#define`s of demo1.c) -/

@[simp] def EVT_TRAIN_DETECT : Char := 't'
@[simp] def EVT_TRAIN_CLEAR : Char := 'c'
@[simp] def EVT_PED_PRESS : Char := 'p'

@[simp] def T_RS_GREEN : Nat := 20
@[simp] def T_L_GREEN : Nat := 12
@[simp] def T_YELLOW : Nat := 5
@[simp] def T_ALL_RED : Nat := 5
@[simp] def T_PREP_Y : Nat := 5

@[simp] def T_TR_2_G : Nat := 12
@[simp] def T_TR_3_G : Nat := 15
@[simp] def T_TR_Y : Nat := 5
@[simp] def T_TR_R : Nat := 5
@[simp] def T_TR_PREP_Y : Nat := 5

/-- Width of the C type `unsigned`. -/
def UINT_MOD : Nat := 2 ^ 32

/-! ## Output trace -/

/-- The six `notify_*` banners. -/
inductive Notify where
  | train_begin
  | train_over
  | train_preempt
  | train_clear
  | ped_begin
  | ped_over
deriving DecidableEq, Repr

/-- One status line, as printed by `print_normal_line` / `print_train_line`:
the mode tag, the `S%02d` label, the duration and the four indications. -/
structure StatusLine where
  mode : String
  label : Int
  dur : Nat
  r3 : String
  r1_we : String
  r1_ew : String
  ped : String
deriving DecidableEq, Repr

/-- An item written to stdout. -/
inductive Out where
  | line (l : StatusLine)
  | note (n : Notify)
deriving DecidableEq, Repr

/-! ## State enums -/

/-! The enum `normal_state_t`, by integer value. -/

@[simp] def N_ALL_RED_1 : Nat := 0
@[simp] def N_PREP_R3 : Nat := 1
@[simp] def N_R3_RS_G : Nat := 2
@[simp] def N_R3_RS_Y : Nat := 3
@[simp] def N_R3_L_G : Nat := 4
@[simp] def N_R3_L_Y : Nat := 5
@[simp] def N_ALL_RED_2 : Nat := 6
@[simp] def N_PREP_R1 : Nat := 7
@[simp] def N_R1_RS_G : Nat := 8
@[simp] def N_R1_RS_Y : Nat := 9
@[simp] def N_R1_L_G : Nat := 10
@[simp] def N_R1_L_Y : Nat := 11

/-! The enum `train_state_t`, by integer value. -/

@[simp] def TR_S01_PREP_R3 : Nat := 0
@[simp] def TR_S02_R3_LR_G : Nat := 1
@[simp] def TR_S03_R3_LR_Y : Nat := 2
@[simp] def TR_S04_ALL_RED_A : Nat := 3
@[simp] def TR_S05_PREP_R1 : Nat := 4
@[simp] def TR_S06_R1_SPLIT_G : Nat := 5
@[simp] def TR_S07_R1_SPLIT_Y : Nat := 6
@[simp] def TR_S08_ALL_RED_B : Nat := 7

/-! ## Controller state -/

/-- The globals of demo1.c (`train_request` .. `tr`), the `static` local
`clear_notified_once` of `train_run_until_exit`, the ring cursor `ns` owned by `main`,
and the ghost fields `slept_ms`, `polls`, `out`. -/
structure Ctl where
  train_request : Bool
  train_active : Bool
  train_clear_pending : Bool
  ped_request : Bool
  in_train_state : Bool
  train_preempt_to_allred : Bool
  normal_ui_base : Int
  ped_window_active : Bool
  ped_window_stop_after_prep : Bool
  tr : Nat
  clear_notified_once : Bool
  ns : Nat
  slept_ms : Nat
  polls : Nat
  out : List Out
deriving DecidableEq, Repr

/-- Append a notification banner to the trace. -/
def notify (n : Notify) (s : Ctl) : Ctl :=
  { s with out := s.out ++ [Out.note n] }

/-! ## Pedestrian window -/

def ped_output (s : Ctl) : String :=
  if s.ped_window_active then "WALK" else "RED"

def ped_try_start_at_safe_allred (is_safe_allred_now : Bool) (s : Ctl) : Ctl :=
  if !is_safe_allred_now then s
  else if !s.ped_request then s
  else
    notify Notify.ped_begin
      { s with ped_request := false, ped_window_active := true,
               ped_window_stop_after_prep := true }

def ped_stop_if_prep_finished (s : Ctl) : Ctl :=
  if s.ped_window_active && s.ped_window_stop_after_prep then
    notify Notify.ped_over
      { s with ped_window_active := false, ped_window_stop_after_prep := false }
  else s

/-! ## Event input -/

/-- The `if (ev == ...)` chain at the end of `poll_events_from_qnet_nonblock`. -/
def apply_event (ev : Char) (s : Ctl) : Ctl :=
  if ev = EVT_TRAIN_DETECT then
    { notify Notify.train_preempt s with
        train_request := true, train_active := true, train_clear_pending := false }
  else if ev = EVT_TRAIN_CLEAR then
    { s with train_clear_pending := true, train_request := false }
  else if ev = EVT_PED_PRESS then
    { s with ped_request := true }
  else s

/-- One call of `poll_events_from_qnet_nonblock`. `evs s.polls = none` stands for every
path that returns before the event byte is read (receive timeout or error, a connect
message, an I/O message); `some ev` is a received event message with byte `ev`. -/
def poll_events_from_qnet_nonblock (evs : Nat → Option Char) (s : Ctl) : Ctl :=
  match evs s.polls with
  | none => { s with polls := s.polls + 1 }
  | some ev => apply_event ev { s with polls := s.polls + 1 }

def nanosleep_ms (ms : Nat) (s : Ctl) : Ctl :=
  { s with slept_ms := s.slept_ms + ms }

/-- The `for` loop of `wait_with_poll_ms`, `n` iterations left. -/
def wait_poll_loop (evs : Nat → Option Char) : Nat → Ctl → Ctl
  | 0, s => s
  | n + 1, s => wait_poll_loop evs n (poll_events_from_qnet_nonblock evs (nanosleep_ms 100 s))

def wait_with_poll_ms (total_ms : Nat) (evs : Nat → Option Char) (s : Ctl) : Ctl :=
  let steps := total_ms / 100
  let rem := total_ms % 100
  let s1 := wait_poll_loop evs steps s
  if rem ≠ 0 then poll_events_from_qnet_nonblock evs (nanosleep_ms rem s1) else s1

/-! ## The ring table -/

structure normal_def_t where
  id : Nat
  dur_s : Nat
  r3 : String
  r1_we : String
  r1_ew : String
  is_safe_allred : Bool
  is_prep_y : Bool
  is_green : Bool
  to_yellow : Nat
  next : Nat
deriving DecidableEq, Repr

def NORM : List normal_def_t :=
  [ ⟨N_ALL_RED_1, T_ALL_RED, "RED", "RED", "RED", true, false, false, N_ALL_RED_1, N_PREP_R3⟩,
    ⟨N_PREP_R3, T_PREP_Y, "PRE-Y", "RED", "RED", false, true, false, N_PREP_R3, N_R3_RS_G⟩,
    ⟨N_R3_RS_G, T_RS_GREEN, "RS-G", "RED", "RED", false, false, true, N_R3_RS_Y, N_R3_RS_Y⟩,
    ⟨N_R3_RS_Y, T_YELLOW, "RS-Y", "RED", "RED", false, false, false, N_R3_RS_Y, N_R3_L_G⟩,
    ⟨N_R3_L_G, T_L_GREEN, "L-G", "RED", "RED", false, false, true, N_R3_L_Y, N_R3_L_Y⟩,
    ⟨N_R3_L_Y, T_YELLOW, "L-Y", "RED", "RED", false, false, false, N_R3_L_Y, N_ALL_RED_2⟩,
    ⟨N_ALL_RED_2, T_ALL_RED, "RED", "RED", "RED", true, false, false, N_ALL_RED_2, N_PREP_R1⟩,
    ⟨N_PREP_R1, T_PREP_Y, "RED", "PRE-Y", "PRE-Y", false, true, false, N_PREP_R1, N_R1_RS_G⟩,
    ⟨N_R1_RS_G, T_RS_GREEN, "RED", "RS-G", "RS-G", false, false, true, N_R1_RS_Y, N_R1_RS_Y⟩,
    ⟨N_R1_RS_Y, T_YELLOW, "RED", "RS-Y", "RS-Y", false, false, false, N_R1_RS_Y, N_R1_L_G⟩,
    ⟨N_R1_L_G, T_L_GREEN, "RED", "L-G", "L-G", false, false, true, N_R1_L_Y, N_R1_L_Y⟩,
    ⟨N_R1_L_Y, T_YELLOW, "RED", "L-Y", "L-Y", false, false, false, N_R1_L_Y, N_ALL_RED_1⟩ ]

/-- Linear scan of `NORM`; `none` is the C `NULL`. -/
def find_norm (id : Nat) : Option normal_def_t :=
  NORM.find? (fun d => d.id == id)

/-- The scan of `normal_ui_index_raw` over the remaining entries, `i` the current index. -/
def normal_ui_index_raw_scan (s : Nat) : List normal_def_t → Nat → Int
  | [], _ => 1
  | d :: ds, i => if d.id = s then (i : Int) + 1 else normal_ui_index_raw_scan s ds (i + 1)

def normal_ui_index_raw (s : Nat) : Int :=
  normal_ui_index_raw_scan s NORM 0

def normal_ui_set_start (start_state : Nat) (s : Ctl) : Ctl :=
  { s with normal_ui_base := normal_ui_index_raw start_state - 1 }

def normal_ui_index_shifted (s : Ctl) (p : Nat) : Int :=
  let raw := normal_ui_index_raw p
  let shifted := raw - s.normal_ui_base
  let total : Int := NORM.length
  if shifted ≤ 0 then shifted + total else shifted

def is_normal_green (s : Nat) : Bool :=
  match find_norm s with
  | some st => st.is_green
  | none => false

/-! ## The train mini-FSM -/

def train_is_safe_allred (s : Nat) : Bool :=
  s == TR_S04_ALL_RED_A || s == TR_S08_ALL_RED_B

def train_duration (s : Nat) : Nat :=
  if s = TR_S01_PREP_R3 then T_TR_PREP_Y
  else if s = TR_S02_R3_LR_G then T_TR_2_G
  else if s = TR_S03_R3_LR_Y then T_TR_Y
  else if s = TR_S04_ALL_RED_A then T_TR_R
  else if s = TR_S05_PREP_R1 then T_TR_PREP_Y
  else if s = TR_S06_R1_SPLIT_G then T_TR_3_G
  else if s = TR_S07_R1_SPLIT_Y then T_TR_Y
  else if s = TR_S08_ALL_RED_B then T_TR_R
  else 1

def train_ui_label (s : Nat) : Nat :=
  (s + 1) % UINT_MOD

def train_is_prep (s : Nat) : Bool :=
  s == TR_S01_PREP_R3 || s == TR_S05_PREP_R1

/-- The three vehicle indications chosen by the `switch` of `print_train_line`. -/
def train_lights (s : Nat) : String × String × String :=
  if s = TR_S01_PREP_R3 then ("PRE-Y", "RED", "RED")
  else if s = TR_S02_R3_LR_G then ("LR-G", "RED", "RED")
  else if s = TR_S03_R3_LR_Y then ("LR-Y", "RED", "RED")
  else if s = TR_S05_PREP_R1 then ("RED", "PRE-Y", "PRE-Y")
  else if s = TR_S06_R1_SPLIT_G then ("RED", "SR-G", "SL-G")
  else if s = TR_S07_R1_SPLIT_Y then ("RED", "SR-Y", "SL-Y")
  else ("RED", "RED", "RED")

def print_train_line (t : Nat) (s : Ctl) : Ctl :=
  { s with out := s.out ++
      [Out.line ⟨"TRAIN", train_ui_label t, train_duration t,
        (train_lights t).1, (train_lights t).2.1, (train_lights t).2.2, ped_output s⟩] }

/-- The `switch (tr)` at the end of `train_step`. -/
def train_next (s : Ctl) : Nat :=
  if s.tr = TR_S01_PREP_R3 then TR_S02_R3_LR_G
  else if s.tr = TR_S02_R3_LR_G then TR_S03_R3_LR_Y
  else if s.tr = TR_S03_R3_LR_Y then TR_S04_ALL_RED_A
  else if s.tr = TR_S04_ALL_RED_A then TR_S05_PREP_R1
  else if s.tr = TR_S05_PREP_R1 then TR_S06_R1_SPLIT_G
  else if s.tr = TR_S06_R1_SPLIT_G then TR_S07_R1_SPLIT_Y
  else if s.tr = TR_S07_R1_SPLIT_Y then TR_S08_ALL_RED_B
  else if s.tr = TR_S08_ALL_RED_B then
    (if s.train_active && !s.train_clear_pending then TR_S01_PREP_R3 else TR_S08_ALL_RED_B)
  else TR_S01_PREP_R3

/-- The part of `train_step` after the wait: stop the pedestrian window at the end of a
PRE-Y, then the `switch (tr)`. -/
def train_after_wait (s : Ctl) : Ctl :=
  let s1 := if train_is_prep s.tr then ped_stop_if_prep_finished s else s
  { s1 with tr := train_next s1 }

def train_step (evs : Nat → Option Char) (s : Ctl) : Ctl :=
  let s1 := ped_try_start_at_safe_allred (train_is_safe_allred s.tr) s
  let s2 := print_train_line s1.tr s1
  train_after_wait (wait_with_poll_ms ((train_duration s2.tr * 1000) % UINT_MOD) evs s2)

/-! ## The ring step -/

def print_normal_line (p : Nat) (st : normal_def_t) (s : Ctl) : Ctl :=
  { s with out := s.out ++
      [Out.line ⟨"NORMAL", normal_ui_index_shifted s p, st.dur_s,
        st.r3, st.r1_we, st.r1_ew, ped_output s⟩] }

/-- The body of the preemption test inside the wait of `normal_step` (the same block
follows the loop poll and the remainder poll), up to its `return`. -/
def preempt_block (st : normal_def_t) (s : Ctl) : Ctl :=
  { s with train_preempt_to_allred := true, ns := st.to_yellow }

/-- One quantum of the wait inside `normal_step`: sleep `ms`, poll, then the preemption
test. The `Bool` is `true` when the `return` inside the test was taken. -/
def normal_wait_quantum (st : normal_def_t) (evs : Nat → Option Char) (ms : Nat)
    (s : Ctl) : Bool × Ctl :=
  let s1 := poll_events_from_qnet_nonblock evs (nanosleep_ms ms s)
  if s1.train_request && is_normal_green s1.ns then
    (true, preempt_block st s1)
  else (false, s1)

/-- The `for` loop of `normal_step`, `n` iterations left. -/
def normal_wait_loop (st : normal_def_t) (evs : Nat → Option Char) : Nat → Ctl → Bool × Ctl
  | 0, s => (false, s)
  | n + 1, s =>
    match normal_wait_quantum st evs 100 s with
    | (true, s1) => (true, s1)
    | (false, s1) => normal_wait_loop st evs n s1

/-- The whole wait of `normal_step` (loop and remainder quantum). -/
def normal_wait (st : normal_def_t) (evs : Nat → Option Char) (s : Ctl) : Bool × Ctl :=
  let total_ms := (st.dur_s * 1000) % UINT_MOD
  let steps := total_ms / 100
  let rem := total_ms % 100
  match normal_wait_loop st evs steps s with
  | (true, s1) => (true, s1)
  | (false, s1) => if rem ≠ 0 then normal_wait_quantum st evs rem s1 else (false, s1)

/-- The part of `normal_step` after the wait has run to completion. -/
def normal_after_wait (st : normal_def_t) (s : Ctl) : Ctl :=
  let s1 := if st.is_prep_y then ped_stop_if_prep_finished s else s
  if s1.train_request && s1.train_preempt_to_allred
      && (s1.ns == N_R3_RS_Y || s1.ns == N_R3_L_Y) then
    { s1 with ns := N_ALL_RED_1 }
  else if s1.train_request && s1.train_preempt_to_allred
      && (s1.ns == N_R1_RS_Y || s1.ns == N_R1_L_Y) then
    { s1 with ns := N_ALL_RED_2 }
  else if st.is_safe_allred then
    let s2 := { s1 with train_preempt_to_allred := false }
    if s2.train_request then
      notify Notify.train_begin
        { s2 with train_request := false, train_active := true, train_clear_pending := false,
                  in_train_state := true, tr := TR_S01_PREP_R3 }
    else { s2 with ns := st.next }
  else { s1 with ns := st.next }

def normal_step (evs : Nat → Option Char) (s : Ctl) : Ctl :=
  match find_norm s.ns with
  | none => { s with ns := N_ALL_RED_1 }
  | some st =>
    let s1 := ped_try_start_at_safe_allred st.is_safe_allred s
    let s2 := print_normal_line s1.ns st s1
    match normal_wait st evs s2 with
    | (true, s3) => s3
    | (false, s3) => normal_after_wait st s3

/-- The notify-once logic at the top of `train_run_until_exit`. -/
def clear_notice (s : Ctl) : Ctl :=
  let s1 := if s.train_clear_pending && !s.clear_notified_once then
      { notify Notify.train_clear s with clear_notified_once := true } else s
  if !s1.train_clear_pending then { s1 with clear_notified_once := false } else s1

/-- The exit test at the bottom of `train_run_until_exit`. -/
def train_exit_check (s : Ctl) : Ctl :=
  if s.train_clear_pending && train_is_safe_allred s.tr then
    normal_ui_set_start N_ALL_RED_1
      { notify Notify.train_over
          { s with train_active := false, train_clear_pending := false,
                   in_train_state := false } with ns := N_ALL_RED_1 }
  else s

def train_run_until_exit (evs : Nat → Option Char) (s : Ctl) : Ctl :=
  train_exit_check (train_step evs (clear_notice s))

/-- State of `main` on entry to its `while (1)` loop. -/
def init : Ctl :=
  normal_ui_set_start N_ALL_RED_1
    { train_request := false, train_active := false, train_clear_pending := false,
      ped_request := false, in_train_state := false, train_preempt_to_allred := false,
      normal_ui_base := 0, ped_window_active := false, ped_window_stop_after_prep := false,
      tr := TR_S01_PREP_R3, clear_notified_once := false, ns := N_ALL_RED_1,
      slept_ms := 0, polls := 0, out := [] }

/-- One iteration of the `while (1)` loop of `main`. -/
def main_iter (evs : Nat → Option Char) (s : Ctl) : Ctl :=
  if !s.in_train_state then normal_step evs s else train_run_until_exit evs s

/-- The state after `n` iterations of the main loop. -/
def run (evs : Nat → Option Char) : Nat → Ctl → Ctl
  | 0, s => s
  | n + 1, s => run evs n (main_iter evs s)

/-! ## Reading the output trace -/

def Out.asLine : Out → Option StatusLine
  | Out.line l => some l
  | Out.note _ => none

def Out.asNote : Out → Option Notify
  | Out.line _ => none
  | Out.note n => some n

/-- The status lines of a trace, in order. -/
def status_lines (o : List Out) : List StatusLine := o.filterMap Out.asLine

/-- The notifications of a trace, in order. -/
def notices (o : List Out) : List Notify := o.filterMap Out.asNote

/-- A status line is safe: no non-RED indication on R3 together with a non-RED
indication on an R1 direction, and PED=WALK only when every vehicle indication is RED or
PRE-Y. -/
def SafeLine (l : StatusLine) : Prop :=
  ¬ (l.r3 ≠ "RED" ∧ (l.r1_we ≠ "RED" ∨ l.r1_ew ≠ "RED")) ∧
  (l.ped = "WALK" →
    (l.r3 = "RED" ∨ l.r3 = "PRE-Y") ∧ (l.r1_we = "RED" ∨ l.r1_we = "PRE-Y") ∧
    (l.r1_ew = "RED" ∨ l.r1_ew = "PRE-Y"))

/-- The state invariant behind the safety of the printed lines: cursors in range, the
train layer only with `train_active`, and an open pedestrian window only at a safe
all-red or preparatory-yellow of the active layer. -/
def Inv (s : Ctl) : Prop :=
  s.ns < 12 ∧ s.tr < 8 ∧ (s.in_train_state = true → s.train_active = true) ∧
  (s.ped_window_active = true → s.ped_window_stop_after_prep = true) ∧
  (s.ped_window_active = true → s.in_train_state = true →
    s.tr = 0 ∨ s.tr = 3 ∨ s.tr = 4 ∨ s.tr = 7) ∧
  (s.ped_window_active = true → s.in_train_state = false →
    s.ns = 0 ∨ s.ns = 1 ∨ s.ns = 6 ∨ s.ns = 7)

/-- A TrainCleared has been received, or is received within the next `n` polls, and no
TrainDetected comes later: a clear is pending at poll `p` and the schedule has no `'t'`
from `p` on, or the schedule has a `'c'` at some poll in `[p, p + n)` and no `'t'` after
it. -/
def ClearedWithin (evs : Nat → Option Char) (pending : Bool) (p n : Nat) : Prop :=
  (pending = true ∧ ∀ i, p ≤ i → evs i ≠ some 't') ∨
  (∃ j, p ≤ j ∧ j < p + n ∧ evs j = some 'c' ∧ ∀ i, j < i → evs i ≠ some 't')

/-- With a clear pending, the number of train steps after which the train cursor next
arrives at a safe all-red (`S04` or `S08`), counted from train state `t`. -/
def steps_to_checkpoint (t : Nat) : Nat :=
  if t = TR_S03_R3_LR_Y ∨ t = TR_S07_R1_SPLIT_Y ∨ t = TR_S08_ALL_RED_B then 1
  else if t = TR_S02_R3_LR_G ∨ t = TR_S06_R1_SPLIT_G then 2
  else if t = TR_S01_PREP_R3 ∨ t = TR_S05_PREP_R1 then 3
  else 4

/-- What sleeping and polling can do to the state: the layer, the cursors, the preempt
flag, the UI base, the pedestrian window and the printed lines stay; `train_active` can
only be raised. -/
def Polled (s s' : Ctl) : Prop :=
  s'.in_train_state = s.in_train_state ∧
  s'.train_preempt_to_allred = s.train_preempt_to_allred ∧
  s'.normal_ui_base = s.normal_ui_base ∧
  s'.ped_window_active = s.ped_window_active ∧
  s'.ped_window_stop_after_prep = s.ped_window_stop_after_prep ∧
  s'.tr = s.tr ∧
  s'.clear_notified_once = s.clear_notified_once ∧
  s'.ns = s.ns ∧
  status_lines s'.out = status_lines s.out ∧
  (s.train_active = true → s'.train_active = true)

/-- An output item with the pedestrian part removed: a status line loses its PED field, a
PED BEGIN or PED OVER banner disappears, every other banner stays. -/
def Out.vehicle : Out → Option Out
  | Out.line l => some (Out.line { l with ped := "" })
  | Out.note Notify.ped_begin => none
  | Out.note Notify.ped_over => none
  | Out.note n => some (Out.note n)

/-- The output trace with the pedestrian part removed. -/
def vehicle_trace (o : List Out) : List Out := o.filterMap Out.vehicle

/-- The state with the pedestrian part removed: `ped_request`, the two pedestrian window
flags, the PED field of the printed lines and the PED banners. -/
def core (s : Ctl) : Ctl :=
  { s with ped_request := false, ped_window_active := false,
           ped_window_stop_after_prep := false, out := vehicle_trace s.out }

/-- Two event schedules that are identical except for the presence of pedestrian presses:
at every poll they deliver the same event, or each delivers a press or nothing. -/
def SameButPed (e1 e2 : Nat → Option Char) : Prop :=
  ∀ i, e1 i = e2 i ∨
    ((e1 i = none ∨ e1 i = some 'p') ∧ (e2 i = none ∨ e2 i = some 'p'))

/-- Every vehicle indication of the line is RED: the line of a safe all-red phase. -/
def StatusLine.all_red (l : StatusLine) : Bool :=
  l.r3 == "RED" && l.r1_we == "RED" && l.r1_ew == "RED"

/-- The line of a preparatory-yellow phase. -/
def StatusLine.pre_y (l : StatusLine) : Bool :=
  l.r3 == "PRE-Y" || l.r1_we == "PRE-Y" || l.r1_ew == "PRE-Y"

/-- A pedestrian press is received at some poll numbered in `[p, q)`. -/
def PressedIn (evs : Nat → Option Char) (p q : Nat) : Prop :=
  ∃ i, p ≤ i ∧ i < q ∧ evs i = some 'p'

/-- From `s` to `w` polls were made and nothing else touched `ped_request`: the request is
pending in `w` exactly when it was pending in `s` or a press was received in between. -/
def Pressed (evs : Nat → Option Char) (s w : Ctl) : Prop :=
  s.polls ≤ w.polls ∧
  (w.ped_request = true ↔ (s.ped_request = true ∨ PressedIn evs s.polls w.polls))

/-- The `next` pointer of ring phase `p`, `find_norm(p)->next`; a cursor that is not in the
table is sent to `N_ALL_RED_1`, as `normal_step` does. -/
def ring_next (p : Nat) : Nat :=
  match find_norm p with
  | some st => st.next
  | none => N_ALL_RED_1

/-- An output item with the step label of a status line erased. -/
def Out.unlabel : Out → Out
  | Out.line l => Out.line { l with label := 0 }
  | Out.note n => Out.note n

/-- The state with the UI base and the step labels of the printed lines erased: what is left
is every flag, both cursors, the counters, and the printed indications and banners. -/
def unbased (s : Ctl) : Ctl :=
  { s with normal_ui_base := 0, out := s.out.map Out.unlabel }

end Demo1

namespace Fsm

/-! ## Events and timings (`#define`s of traffic_fsm.c) -/

@[simp] def EVT_TRAIN_DETECT : Char := 't'
@[simp] def EVT_TRAIN_CLEAR : Char := 'c'
@[simp] def EVT_PED_PRESS : Char := 'p'

@[simp] def T_RS_GREEN : Nat := 20
@[simp] def T_L_GREEN : Nat := 12
@[simp] def T_YELLOW : Nat := 4
@[simp] def T_ALL_RED : Nat := 2

@[simp] def T_TR_1_G : Nat := 8
@[simp] def T_TR_2_G : Nat := 8
@[simp] def T_TR_3_G : Nat := 15
@[simp] def T_TR_Y : Nat := 4
@[simp] def T_TR_R : Nat := 2

@[simp] def T_PED_WALK : Nat := 8
@[simp] def T_PED_FLASH : Nat := 4
@[simp] def T_PED_CLR : Nat := 2

/-- Width of the C type `unsigned`. -/
def UINT_MOD : Nat := 2 ^ 32

/-! ## The state enum -/

/-! The enum `state_t`, by integer value. -/

@[simp] def N_R3_RS_G : Nat := 0
@[simp] def N_R3_RS_Y : Nat := 1
@[simp] def N_R3_L_G : Nat := 2
@[simp] def N_R3_L_Y : Nat := 3
@[simp] def N_ALL_RED_1 : Nat := 4
@[simp] def N_R1_RS_G : Nat := 5
@[simp] def N_R1_RS_Y : Nat := 6
@[simp] def N_R1_L_G : Nat := 7
@[simp] def N_R1_L_Y : Nat := 8
@[simp] def N_ALL_RED_2 : Nat := 9

@[simp] def T_R3_NS_SRL_G_1 : Nat := 10
@[simp] def T_R3_NS_SRL_Y_1 : Nat := 11
@[simp] def T_ALL_RED_A : Nat := 12
@[simp] def T_R3_SN_LR_G_2 : Nat := 13
@[simp] def T_R3_SN_LR_Y_2 : Nat := 14
@[simp] def T_ALL_RED_B : Nat := 15
@[simp] def T_R1_RESTRICT_G_3 : Nat := 16
@[simp] def T_R1_RESTRICT_Y_3 : Nat := 17
@[simp] def T_DECISION_ALL_RED_4 : Nat := 18

@[simp] def P_WALK : Nat := 20
@[simp] def P_FLASH : Nat := 21
@[simp] def P_CLEAR_ALL_RED : Nat := 22

/-- The 22 enumerators of `state_t`. -/
def all_states : List Nat :=
  [ N_R3_RS_G, N_R3_RS_Y, N_R3_L_G, N_R3_L_Y, N_ALL_RED_1,
    N_R1_RS_G, N_R1_RS_Y, N_R1_L_G, N_R1_L_Y, N_ALL_RED_2,
    T_R3_NS_SRL_G_1, T_R3_NS_SRL_Y_1, T_ALL_RED_A, T_R3_SN_LR_G_2, T_R3_SN_LR_Y_2,
    T_ALL_RED_B, T_R1_RESTRICT_G_3, T_R1_RESTRICT_Y_3, T_DECISION_ALL_RED_4,
    P_WALK, P_FLASH, P_CLEAR_ALL_RED ]

/-! ## Output trace -/

/-- The six `notify_*` banners. -/
inductive Notify where
  | train_begin
  | train_over
  | train_preempt
  | train_clear
  | ped_begin
  | ped_over
deriving DecidableEq, Repr

/-- One status line of `print_state_outputs`. -/
structure StatusLine where
  mode : String
  index : Int
  dur : Nat
  r3_sn : String
  r3_ns : String
  r1_we : String
  r1_ew : String
  ped : String
deriving DecidableEq, Repr

/-- An item written to stdout. -/
inductive Out where
  | line (l : StatusLine)
  | note (n : Notify)
deriving DecidableEq, Repr

/-! ## Controller state -/

/-- The globals of traffic_fsm.c, the `static` local `clear_notified_once` of
`SingleStep_SM`, the cursor `cur` owned by `main`, and the ghost fields. -/
structure Ctl where
  train_request : Bool
  train_active : Bool
  train_clear_pending : Bool
  ped_request : Bool
  in_train_mode : Bool
  in_ped_mode : Bool
  train_preempt_notified : Bool
  train_preempt_to_allred : Bool
  ped_return_state : Nat
  clear_notified_once : Bool
  cur : Nat
  slept_ms : Nat
  polls : Nat
  out : List Out
deriving DecidableEq, Repr

/-- Append a notification banner to the trace. -/
def notify (n : Notify) (s : Ctl) : Ctl :=
  { s with out := s.out ++ [Out.note n] }

/-! ## Event input -/

/-- The `if (ev == ...)` chain in the body of the receive loop. -/
def apply_event (s : Ctl) (ev : Char) : Ctl :=
  if ev = EVT_TRAIN_DETECT then
    { s with train_request := true, train_active := true, train_clear_pending := false,
             train_preempt_notified := false }
  else if ev = EVT_TRAIN_CLEAR then
    { s with train_clear_pending := true, train_request := false }
  else if ev = EVT_PED_PRESS then
    { s with ped_request := true }
  else s

/-- One call of `poll_events_from_mq`: `evs s.polls` lists the first bytes of the messages
that `mq_receive` returns before the queue runs empty (or fails); a queue that could not
be opened behaves as the empty list on every call. -/
def poll_events_from_mq (evs : Nat → List Char) (s : Ctl) : Ctl :=
  (evs s.polls).foldl apply_event { s with polls := s.polls + 1 }

def nanosleep_ms (ms : Nat) (s : Ctl) : Ctl :=
  { s with slept_ms := s.slept_ms + ms }

/-! ## Mode, index, duration -/

def mode_of (s : Nat) : String :=
  if s ≤ N_ALL_RED_2 then "NORMAL"
  else if s ≥ T_R3_NS_SRL_G_1 ∧ s ≤ T_DECISION_ALL_RED_4 then "TRAIN "
  else "PED   "

def mode_index_of (s : Nat) : Int :=
  if s ≤ N_ALL_RED_2 then (s : Int)
  else if s ≤ T_DECISION_ALL_RED_4 then (s : Int) - 10
  else (s : Int) - 20

def duration_of (s : Nat) : Nat :=
  if s = N_R3_RS_G then T_RS_GREEN
  else if s = N_R3_RS_Y then T_YELLOW
  else if s = N_R3_L_G then T_L_GREEN
  else if s = N_R3_L_Y then T_YELLOW
  else if s = N_ALL_RED_1 then T_ALL_RED
  else if s = N_R1_RS_G then T_RS_GREEN
  else if s = N_R1_RS_Y then T_YELLOW
  else if s = N_R1_L_G then T_L_GREEN
  else if s = N_R1_L_Y then T_YELLOW
  else if s = N_ALL_RED_2 then T_ALL_RED
  else if s = T_R3_NS_SRL_G_1 then T_TR_1_G
  else if s = T_R3_NS_SRL_Y_1 then T_TR_Y
  else if s = T_ALL_RED_A then T_TR_R
  else if s = T_R3_SN_LR_G_2 then T_TR_2_G
  else if s = T_R3_SN_LR_Y_2 then T_TR_Y
  else if s = T_ALL_RED_B then T_TR_R
  else if s = T_R1_RESTRICT_G_3 then T_TR_3_G
  else if s = T_R1_RESTRICT_Y_3 then T_TR_Y
  else if s = T_DECISION_ALL_RED_4 then T_TR_R
  else if s = P_WALK then T_PED_WALK
  else if s = P_FLASH then T_PED_FLASH
  else if s = P_CLEAR_ALL_RED then T_PED_CLR
  else 0

def is_train_state (s : Nat) : Bool :=
  decide (s ≥ T_R3_NS_SRL_G_1) && decide (s ≤ T_DECISION_ALL_RED_4)

def is_normal_state (s : Nat) : Bool :=
  decide (s ≥ N_R3_RS_G) && decide (s ≤ N_ALL_RED_2)

def is_normal_green (s : Nat) : Bool :=
  s == N_R3_RS_G || s == N_R3_L_G || s == N_R1_RS_G || s == N_R1_L_G

def normal_green_to_yellow (s : Nat) : Nat :=
  if s = N_R3_RS_G then N_R3_RS_Y
  else if s = N_R3_L_G then N_R3_L_Y
  else if s = N_R1_RS_G then N_R1_RS_Y
  else if s = N_R1_L_G then N_R1_L_Y
  else s

/-! ## Pedestrian claim -/

def ped_safe_checkpoint (s : Nat) : Bool :=
  s == N_ALL_RED_1 || s == N_ALL_RED_2 ||
  s == T_ALL_RED_A || s == T_ALL_RED_B || s == T_DECISION_ALL_RED_4

/-- The function `try_start_ped_if_safe`; the `Bool` is its return value. -/
def try_start_ped_if_safe (s : Ctl) : Bool × Ctl :=
  if !s.ped_request then (false, s)
  else if !ped_safe_checkpoint s.cur then (false, s)
  else if s.train_active && !s.train_clear_pending then
    if !(s.cur == T_ALL_RED_A || s.cur == T_ALL_RED_B || s.cur == T_DECISION_ALL_RED_4) then
      (false, s)
    else
      let s1 := { s with ped_return_state := T_R3_SN_LR_G_2 }
      let s2 := { s1 with ped_request := false, cur := P_WALK }
      (true, if !s2.in_ped_mode then notify Notify.ped_begin { s2 with in_ped_mode := true }
             else s2)
  else
    let s1 := { s with ped_return_state :=
      if s.cur = N_ALL_RED_1 then N_R1_RS_G
      else if s.cur = N_ALL_RED_2 then N_R3_RS_G
      else N_R3_RS_G }
    let s2 := { s1 with ped_request := false, cur := P_WALK }
    (true, if !s2.in_ped_mode then notify Notify.ped_begin { s2 with in_ped_mode := true }
           else s2)

/-! ## Output -/

/-- The five indications chosen by the `switch` of `print_state_outputs`:
`(r3_sn, r3_ns, r1_we, r1_ew, ped)`. -/
def state_outputs (s : Nat) : String × String × String × String × String :=
  if s = N_R3_RS_G then ("RS-G", "RS-G", "RED", "RED", "RED")
  else if s = N_R3_RS_Y then ("RS-Y", "RS-Y", "RED", "RED", "RED")
  else if s = N_R3_L_G then ("L-G", "L-G", "RED", "RED", "RED")
  else if s = N_R3_L_Y then ("L-Y", "L-Y", "RED", "RED", "RED")
  else if s = N_R1_RS_G then ("RED", "RED", "RS-G", "RS-G", "RED")
  else if s = N_R1_RS_Y then ("RED", "RED", "RS-Y", "RS-Y", "RED")
  else if s = N_R1_L_G then ("RED", "RED", "L-G", "L-G", "RED")
  else if s = N_R1_L_Y then ("RED", "RED", "L-Y", "L-Y", "RED")
  else if s = T_R3_NS_SRL_G_1 then ("RED", "SRL-G", "RED", "RED", "RED")
  else if s = T_R3_NS_SRL_Y_1 then ("RED", "SRL-Y", "RED", "RED", "RED")
  else if s = T_R3_SN_LR_G_2 then ("LR-G", "RED", "RED", "RED", "RED")
  else if s = T_R3_SN_LR_Y_2 then ("LR-Y", "RED", "RED", "RED", "RED")
  else if s = T_R1_RESTRICT_G_3 then ("RED", "RED", "SR-G", "SL-G", "RED")
  else if s = T_R1_RESTRICT_Y_3 then ("RED", "RED", "SR-Y", "SL-Y", "RED")
  else if s = P_WALK then ("RED", "RED", "RED", "RED", "WALK")
  else if s = P_FLASH then ("RED", "RED", "RED", "RED", "FLASH")
  else ("RED", "RED", "RED", "RED", "RED")

/-- The status line that `print_state_outputs` prints for state `c`. -/
def status_line (c : Nat) : StatusLine :=
  ⟨mode_of c, mode_index_of c, duration_of c,
   (state_outputs c).1, (state_outputs c).2.1, (state_outputs c).2.2.1,
   (state_outputs c).2.2.2.1, (state_outputs c).2.2.2.2⟩

def print_state_outputs (c : Nat) (s : Ctl) : Ctl :=
  { s with out := s.out ++ [Out.line (status_line c)] }

/-! ## Interruptible wait -/

/-- The body of the `PREEMPT` test of `wait_seconds_interruptible` (the same block follows
the loop poll and the remainder poll), up to its `return`. -/
def preempt_block (s : Ctl) : Ctl :=
  let s1 := if !s.train_preempt_notified then
      { notify Notify.train_preempt s with train_preempt_notified := true } else s
  { s1 with train_preempt_to_allred := true, cur := normal_green_to_yellow s1.cur }

/-- One quantum of `wait_seconds_interruptible`: sleep `ms`, poll, then the preemption
test. The `Bool` is `true` when the `return` inside the test was taken. -/
def wait_quantum (evs : Nat → List Char) (ms : Nat) (s : Ctl) : Bool × Ctl :=
  let s1 := poll_events_from_mq evs (nanosleep_ms ms s)
  if s1.train_request && !s1.in_train_mode && is_normal_green s1.cur then
    (true, preempt_block s1)
  else (false, s1)

/-- The `for` loop of `wait_seconds_interruptible`, `n` iterations left. -/
def wait_loop (evs : Nat → List Char) : Nat → Ctl → Bool × Ctl
  | 0, s => (false, s)
  | n + 1, s =>
    match wait_quantum evs 100 s with
    | (true, s1) => (true, s1)
    | (false, s1) => wait_loop evs n s1

def wait_seconds_interruptible (total_sec : Nat) (evs : Nat → List Char) (s : Ctl) : Ctl :=
  if total_sec = 0 then s
  else
    let steps := ((total_sec * 1000) % UINT_MOD) / 100
    let rem_ms := ((total_sec * 1000) % UINT_MOD) % 100
    match wait_loop evs steps s with
    | (true, s1) => s1
    | (false, s1) => if rem_ms > 0 then (wait_quantum evs rem_ms s1).2 else s1

/-! ## Train exit -/

def should_exit_train_now (s : Ctl) (c : Nat) : Bool :=
  if !s.train_clear_pending then false
  else c == T_ALL_RED_A || c == T_ALL_RED_B || c == T_DECISION_ALL_RED_4

def do_exit_train_to_normal (s : Ctl) : Ctl :=
  let s1 := { s with train_active := false, train_clear_pending := false,
                     train_request := false, cur := N_R3_RS_G }
  if s1.in_train_mode then notify Notify.train_over { s1 with in_train_mode := false } else s1

/-! ## The FSM step -/

/-- The train-entry block shared by the `N_ALL_RED_1` and `N_ALL_RED_2` cases. -/
def enter_train (s : Ctl) : Ctl :=
  let s1 := { s with train_request := false, train_active := true,
                     train_clear_pending := false, cur := T_R3_NS_SRL_G_1 }
  if !s1.in_train_mode then notify Notify.train_begin { s1 with in_train_mode := true } else s1

/-- The `switch (*cur)` of `SingleStep_SM`. -/
def step_switch (evs : Nat → List Char) (s : Ctl) : Ctl :=
  if s.cur = N_R3_RS_G then
    let s1 := wait_seconds_interruptible T_RS_GREEN evs s
    if s1.cur ≠ N_R3_RS_G then s1 else { s1 with cur := N_R3_RS_Y }
  else if s.cur = N_R3_RS_Y then
    let s1 := wait_seconds_interruptible T_YELLOW evs s
    if s1.cur ≠ N_R3_RS_Y then s1
    else if s1.train_request && s1.train_preempt_to_allred then { s1 with cur := N_ALL_RED_1 }
    else { s1 with cur := N_R3_L_G }
  else if s.cur = N_R3_L_G then
    let s1 := wait_seconds_interruptible T_L_GREEN evs s
    if s1.cur ≠ N_R3_L_G then s1 else { s1 with cur := N_R3_L_Y }
  else if s.cur = N_R3_L_Y then
    let s1 := wait_seconds_interruptible T_YELLOW evs s
    if s1.cur ≠ N_R3_L_Y then s1 else { s1 with cur := N_ALL_RED_1 }
  else if s.cur = N_ALL_RED_1 then
    let s0 := { s with train_preempt_to_allred := false }
    let s1 := wait_seconds_interruptible T_ALL_RED evs s0
    let s2 := poll_events_from_mq evs s1
    if s2.train_request then enter_train s2
    else
      match try_start_ped_if_safe s2 with
      | (true, s3) => s3
      | (false, s3) => { s3 with cur := N_R1_RS_G }
  else if s.cur = N_R1_RS_G then
    let s1 := wait_seconds_interruptible T_RS_GREEN evs s
    if s1.cur ≠ N_R1_RS_G then s1 else { s1 with cur := N_R1_RS_Y }
  else if s.cur = N_R1_RS_Y then
    let s1 := wait_seconds_interruptible T_YELLOW evs s
    if s1.cur ≠ N_R1_RS_Y then s1
    else if s1.train_request && s1.train_preempt_to_allred then { s1 with cur := N_ALL_RED_2 }
    else { s1 with cur := N_R1_L_G }
  else if s.cur = N_R1_L_G then
    let s1 := wait_seconds_interruptible T_L_GREEN evs s
    if s1.cur ≠ N_R1_L_G then s1 else { s1 with cur := N_R1_L_Y }
  else if s.cur = N_R1_L_Y then
    let s1 := wait_seconds_interruptible T_YELLOW evs s
    if s1.cur ≠ N_R1_L_Y then s1 else { s1 with cur := N_ALL_RED_2 }
  else if s.cur = N_ALL_RED_2 then
    let s0 := { s with train_preempt_to_allred := false }
    let s1 := wait_seconds_interruptible T_ALL_RED evs s0
    let s2 := poll_events_from_mq evs s1
    if s2.train_request then enter_train s2
    else
      match try_start_ped_if_safe s2 with
      | (true, s3) => s3
      | (false, s3) => { s3 with cur := N_R3_RS_G }
  else if s.cur = T_R3_NS_SRL_G_1 then
    { wait_seconds_interruptible T_TR_1_G evs s with cur := T_R3_NS_SRL_Y_1 }
  else if s.cur = T_R3_NS_SRL_Y_1 then
    { wait_seconds_interruptible T_TR_Y evs s with cur := T_ALL_RED_A }
  else if s.cur = T_ALL_RED_A then
    let s1 := wait_seconds_interruptible T_TR_R evs s
    let s2 := poll_events_from_mq evs s1
    if should_exit_train_now s2 s2.cur then do_exit_train_to_normal s2
    else
      match try_start_ped_if_safe s2 with
      | (true, s3) => s3
      | (false, s3) => { s3 with cur := T_R3_SN_LR_G_2 }
  else if s.cur = T_R3_SN_LR_G_2 then
    { wait_seconds_interruptible T_TR_2_G evs s with cur := T_R3_SN_LR_Y_2 }
  else if s.cur = T_R3_SN_LR_Y_2 then
    { wait_seconds_interruptible T_TR_Y evs s with cur := T_ALL_RED_B }
  else if s.cur = T_ALL_RED_B then
    let s1 := wait_seconds_interruptible T_TR_R evs s
    let s2 := poll_events_from_mq evs s1
    if should_exit_train_now s2 s2.cur then do_exit_train_to_normal s2
    else
      match try_start_ped_if_safe s2 with
      | (true, s3) => s3
      | (false, s3) => { s3 with cur := T_R1_RESTRICT_G_3 }
  else if s.cur = T_R1_RESTRICT_G_3 then
    { wait_seconds_interruptible T_TR_3_G evs s with cur := T_R1_RESTRICT_Y_3 }
  else if s.cur = T_R1_RESTRICT_Y_3 then
    { wait_seconds_interruptible T_TR_Y evs s with cur := T_DECISION_ALL_RED_4 }
  else if s.cur = T_DECISION_ALL_RED_4 then
    let s1 := wait_seconds_interruptible T_TR_R evs s
    let s2 := poll_events_from_mq evs s1
    if should_exit_train_now s2 s2.cur then do_exit_train_to_normal s2
    else
      match try_start_ped_if_safe s2 with
      | (true, s3) => s3
      | (false, s3) =>
        if s3.train_active && !s3.train_clear_pending then { s3 with cur := T_R3_SN_LR_G_2 }
        else do_exit_train_to_normal s3
  else if s.cur = P_WALK then
    { wait_seconds_interruptible T_PED_WALK evs s with cur := P_FLASH }
  else if s.cur = P_FLASH then
    { wait_seconds_interruptible T_PED_FLASH evs s with cur := P_CLEAR_ALL_RED }
  else if s.cur = P_CLEAR_ALL_RED then
    let s1 := wait_seconds_interruptible T_PED_CLR evs s
    let s2 := if s1.in_ped_mode then notify Notify.ped_over { s1 with in_ped_mode := false }
              else s1
    { s2 with cur := s2.ped_return_state }
  else { s with cur := N_R3_RS_G }

/-- The part of `SingleStep_SM` before the `switch`: print the status line, poll once,
and the notify-once logic for a pending clear. -/
def step_prologue (evs : Nat → List Char) (s : Ctl) : Ctl :=
  let s1 := print_state_outputs s.cur s
  let s2 := poll_events_from_mq evs s1
  let s3 := if s2.train_clear_pending && !s2.clear_notified_once then
      { notify Notify.train_clear s2 with clear_notified_once := true } else s2
  if !s3.train_clear_pending then { s3 with clear_notified_once := false } else s3

/-- The part of `SingleStep_SM` after the `switch`: the two begin/over fix-ups. -/
def step_epilogue (s : Ctl) : Ctl :=
  let s1 := if is_train_state s.cur && !s.in_train_mode then
      notify Notify.train_begin { s with in_train_mode := true } else s
  if is_normal_state s1.cur && s1.in_train_mode then
    notify Notify.train_over { s1 with in_train_mode := false }
  else s1

def SingleStep_SM (evs : Nat → List Char) (s : Ctl) : Ctl :=
  step_epilogue (step_switch evs (step_prologue evs s))

/-- State of `main` on entry to its `while (1)` loop. -/
def init : Ctl :=
  { train_request := false, train_active := false, train_clear_pending := false,
    ped_request := false, in_train_mode := false, in_ped_mode := false,
    train_preempt_notified := false, train_preempt_to_allred := false,
    ped_return_state := N_R3_RS_G, clear_notified_once := false, cur := N_R3_RS_G,
    slept_ms := 0, polls := 0, out := [] }

/-- The state after `n` iterations of the main loop. -/
def run (evs : Nat → List Char) : Nat → Ctl → Ctl
  | 0, s => s
  | n + 1, s => run evs n (SingleStep_SM evs s)

/-! ## Reading the output trace -/

def Out.asLine : Out → Option StatusLine
  | Out.line l => some l
  | Out.note _ => none

def Out.asNote : Out → Option Notify
  | Out.line _ => none
  | Out.note n => some n

/-- The status lines of a trace, in order. -/
def status_lines (o : List Out) : List StatusLine := o.filterMap Out.asLine

/-- The notifications of a trace, in order. -/
def notices (o : List Out) : List Notify := o.filterMap Out.asNote

/-- The fields that handling an event never writes. -/
def unpolled (s : Ctl) : Nat × Bool × Bool × Bool × Nat × Bool × Nat × List Out :=
  (s.cur, s.in_train_mode, s.in_ped_mode, s.train_preempt_to_allred, s.ped_return_state,
   s.clear_notified_once, s.slept_ms, s.out)

/-- A TrainCleared has been received, or is received within the next `n` polls, and no
TrainDetected comes later: a clear is pending at poll `p` and no batch from `p` on holds a
`'t'`, or some batch at a poll in `[p, p + n)` holds a `'c'` that no `'t'` follows in the
batch, and no later batch holds a `'t'`. -/
def ClearedWithin (evs : Nat → List Char) (pending : Bool) (p n : Nat) : Prop :=
  (pending = true ∧ ∀ i, p ≤ i → 't' ∉ evs i) ∨
  (∃ j, p ≤ j ∧ j < p + n ∧ (∃ a b, evs j = a ++ 'c' :: b ∧ 't' ∉ b) ∧
    ∀ i, j < i → 't' ∉ evs i)

/-- The three all-red states of the train sequence at which `SingleStep_SM` tests
`should_exit_train_now`. -/
def is_train_checkpoint (c : Nat) : Bool :=
  c == T_ALL_RED_A || c == T_ALL_RED_B || c == T_DECISION_ALL_RED_4

/-- The number of calls of `poll_events_from_mq` in one `SingleStep_SM` at train state `c`:
one before the `switch`, ten per second of the wait, and one more after the wait at a
checkpoint. -/
def step_polls (c : Nat) : Nat :=
  1 + 10 * duration_of c + (if is_train_checkpoint c then 1 else 0)

/-- The number of steps from train state `c` to the next checkpoint of the train sequence
(`0` at a checkpoint). -/
def steps_to_checkpoint (c : Nat) : Nat :=
  if c = T_ALL_RED_A ∨ c = T_ALL_RED_B ∨ c = T_DECISION_ALL_RED_4 then 0
  else if c = T_R3_NS_SRL_Y_1 ∨ c = T_R3_SN_LR_Y_2 ∨ c = T_R1_RESTRICT_Y_3 then 1
  else 2

/-- What sleeping and polling leave alone: the cursor, the mode flags, the preempt flag,
the return state, the notify-once flag and the output; a pending pedestrian request stays
pending. -/
def Polled (s w : Ctl) : Prop :=
  w.cur = s.cur ∧ w.in_train_mode = s.in_train_mode ∧ w.in_ped_mode = s.in_ped_mode ∧
  w.train_preempt_to_allred = s.train_preempt_to_allred ∧
  w.ped_return_state = s.ped_return_state ∧
  w.clear_notified_once = s.clear_notified_once ∧ w.out = s.out ∧
  (s.ped_request = true → w.ped_request = true)

/-- The return state that `try_start_ped_if_safe` stores when it claims the request. -/
def ped_return_of (s : Ctl) : Nat :=
  if s.train_active && !s.train_clear_pending then T_R3_SN_LR_G_2
  else if s.cur = N_ALL_RED_1 then N_R1_RS_G
  else N_R3_RS_G

/-- The state at the completion of an all-red checkpoint inside `SingleStep_SM`: after the
status line, the poll and the notify-once logic that precede the `switch`, the wait of the
checkpoint (the two ring all-reds first clear `train_preempt_to_allred`) and the poll that
follows the wait. The decisions of the checkpoint are taken on this state. -/
def at_completion (evs : Nat → List Char) (s : Ctl) : Ctl :=
  let p := step_prologue evs s
  let p0 := if p.cur = N_ALL_RED_1 ∨ p.cur = N_ALL_RED_2 then
      { p with train_preempt_to_allred := false } else p
  poll_events_from_mq evs (wait_seconds_interruptible (duration_of p.cur) evs p0)

/-- The three states of the exclusive pedestrian sequence. -/
def is_ped_state (c : Nat) : Bool :=
  c == P_WALK || c == P_FLASH || c == P_CLEAR_ALL_RED

/-- The invariant of the pedestrian side: `in_ped_mode` is set exactly while the cursor is
in the pedestrian sequence, and the stored return state is one of the three phases that
`try_start_ped_if_safe` can store (or the initial `N_R3_RS_G`). -/
def PedInv (s : Ctl) : Prop :=
  (s.in_ped_mode = true ↔ is_ped_state s.cur = true) ∧
  (s.ped_return_state = N_R3_RS_G ∨ s.ped_return_state = N_R1_RS_G ∨
    s.ped_return_state = T_R3_SN_LR_G_2)

/-- The TRAIN BEGIN and TRAIN OVER banners of a trace, in order. -/
def train_notes (o : List Out) : List Notify :=
  (notices o).filter (fun n => n == Notify.train_begin || n == Notify.train_over)

/-- What the parts of a step other than train entry, train exit and the two fix-ups leave
alone: `in_train_mode` and the TRAIN BEGIN / TRAIN OVER banners printed so far; and
`train_active` is not cleared. -/
def Kept (s w : Ctl) : Prop :=
  w.in_train_mode = s.in_train_mode ∧ train_notes w.out = train_notes s.out ∧
  (s.train_active = true → w.train_active = true)

/-- The invariant that links `in_train_mode` to the cursor: set in every train state, clear
in every ring state, and during a pedestrian sequence set exactly when the sequence returns
to a train state; the train layer is only left with `train_active` cleared. -/
def TrainInv (s : Ctl) : Prop :=
  (is_train_state s.cur = true → s.in_train_mode = true) ∧
  (is_normal_state s.cur = true → s.in_train_mode = false) ∧
  (s.in_train_mode = true → s.train_active = true) ∧
  (is_ped_state s.cur = true → s.in_train_mode = is_train_state s.ped_return_state) ∧
  (is_normal_state s.cur = true ∨ is_train_state s.cur = true ∨ is_ped_state s.cur = true)

/-- What one step does to the TRAIN BEGIN / TRAIN OVER banners: one TRAIN BEGIN is added
when `in_train_mode` goes from 0 to 1, one TRAIN OVER when it goes from 1 to 0, nothing
otherwise; and a step that starts or ends in a pedestrian state leaves `in_train_mode`
alone. -/
def TrainStep (s w : Ctl) : Prop :=
  train_notes w.out = train_notes s.out ++
    (if !s.in_train_mode && w.in_train_mode then [Notify.train_begin]
     else if s.in_train_mode && !w.in_train_mode then [Notify.train_over] else []) ∧
  (is_ped_state s.cur = true ∨ is_ped_state w.cur = true →
    w.in_train_mode = s.in_train_mode)

/-- The invariant of the train flags: a pending train request implies `train_active` and
no pending clear; and outside the train layer (`in_train_mode` clear) a train that is
active and not being cleared is one whose request is still pending. -/
def FlagInv (s : Ctl) : Prop :=
  (s.train_request = true → s.train_active = true ∧ s.train_clear_pending = false) ∧
  (s.in_train_mode = false → s.train_active = true → s.train_clear_pending = false →
    s.train_request = true)

/-- Two states with the same train flags and the same `in_train_mode`. -/
def SameFlags (a b : Ctl) : Prop :=
  b.train_request = a.train_request ∧ b.train_active = a.train_active ∧
  b.train_clear_pending = a.train_clear_pending ∧ b.in_train_mode = a.in_train_mode

end Fsm

/-! # The second local controller

`src/demo3/src/demo3.c` is "Local Control 2 (Intersection 2)": the same program text as
demo1.c with the side road named R2, shorter timings, the split indications of the train
phases S06/S07 exchanged, the targets of the forced-yellow jumps exchanged, a different
`else` target in the `TR_S08_ALL_RED_B` case of `train_step`, and one more global,
`train_ui_step`. (`src/demo2/src/demo2.c` is the keyboard sender process; it holds no
controller.) -/

namespace Demo3

/-! ## Events and timings (`#define`s of demo3.c) -/

@[simp] def EVT_TRAIN_DETECT : Char := 't'
@[simp] def EVT_TRAIN_CLEAR : Char := 'c'
@[simp] def EVT_PED_PRESS : Char := 'p'

@[simp] def T_RS_GREEN : Nat := 20
@[simp] def T_L_GREEN : Nat := 12
@[simp] def T_YELLOW : Nat := 4
@[simp] def T_ALL_RED : Nat := 2
@[simp] def T_PREP_Y : Nat := 2

@[simp] def T_TR_2_G : Nat := 8
@[simp] def T_TR_3_G : Nat := 15
@[simp] def T_TR_Y : Nat := 4
@[simp] def T_TR_R : Nat := 2
@[simp] def T_TR_PREP_Y : Nat := 2

/-- Width of the C type `unsigned`. -/
def UINT_MOD : Nat := 2 ^ 32

/-! ## Output trace -/

/-- The six `notify_*` banners. -/
inductive Notify where
  | train_begin
  | train_over
  | train_preempt
  | train_clear
  | ped_begin
  | ped_over
deriving DecidableEq, Repr

/-- One status line, as printed by `print_normal_line` / `print_train_line`:
the mode tag, the `S%02d` label, the duration and the four indications. -/
structure StatusLine where
  mode : String
  label : Int
  dur : Nat
  r3 : String
  r2_we : String
  r2_ew : String
  ped : String
deriving DecidableEq, Repr

/-- An item written to stdout. -/
inductive Out where
  | line (l : StatusLine)
  | note (n : Notify)
deriving DecidableEq, Repr

/-! ## State enums -/

/-! The enum `normal_state_t`, by integer value. -/

@[simp] def N_ALL_RED_1 : Nat := 0
@[simp] def N_PREP_R3 : Nat := 1
@[simp] def N_R3_RS_G : Nat := 2
@[simp] def N_R3_RS_Y : Nat := 3
@[simp] def N_R3_L_G : Nat := 4
@[simp] def N_R3_L_Y : Nat := 5
@[simp] def N_ALL_RED_2 : Nat := 6
@[simp] def N_PREP_R2 : Nat := 7
@[simp] def N_R2_RS_G : Nat := 8
@[simp] def N_R2_RS_Y : Nat := 9
@[simp] def N_R2_L_G : Nat := 10
@[simp] def N_R2_L_Y : Nat := 11

/-! The enum `train_state_t`, by integer value. -/

@[simp] def TR_S01_PREP_R3 : Nat := 0
@[simp] def TR_S02_R3_LR_G : Nat := 1
@[simp] def TR_S03_R3_LR_Y : Nat := 2
@[simp] def TR_S04_ALL_RED_A : Nat := 3
@[simp] def TR_S05_PREP_R2 : Nat := 4
@[simp] def TR_S06_R2_SPLIT_G : Nat := 5
@[simp] def TR_S07_R2_SPLIT_Y : Nat := 6
@[simp] def TR_S08_ALL_RED_B : Nat := 7

/-! ## Controller state -/

/-- The globals of demo3.c (`train_request` .. `tr`, with `train_ui_step`, which the
program writes at train entry and never reads), the `static` local
`clear_notified_once` of `train_run_until_exit`, the ring cursor `ns` owned by `main`,
and the ghost fields `slept_ms`, `polls`, `out`. -/
structure Ctl where
  train_request : Bool
  train_active : Bool
  train_clear_pending : Bool
  ped_request : Bool
  in_train_state : Bool
  train_preempt_to_allred : Bool
  normal_ui_base : Int
  train_ui_step : Nat
  ped_window_active : Bool
  ped_window_stop_after_prep : Bool
  tr : Nat
  clear_notified_once : Bool
  ns : Nat
  slept_ms : Nat
  polls : Nat
  out : List Out
deriving DecidableEq, Repr

/-- Append a notification banner to the trace. -/
def notify (n : Notify) (s : Ctl) : Ctl :=
  { s with out := s.out ++ [Out.note n] }

/-! ## Pedestrian window -/

def ped_output (s : Ctl) : String :=
  if s.ped_window_active then "WALK" else "RED"

def ped_try_start_at_safe_allred (is_safe_allred_now : Bool) (s : Ctl) : Ctl :=
  if !is_safe_allred_now then s
  else if !s.ped_request then s
  else
    notify Notify.ped_begin
      { s with ped_request := false, ped_window_active := true,
               ped_window_stop_after_prep := true }

def ped_stop_if_prep_finished (s : Ctl) : Ctl :=
  if s.ped_window_active && s.ped_window_stop_after_prep then
    notify Notify.ped_over
      { s with ped_window_active := false, ped_window_stop_after_prep := false }
  else s

/-! ## Event input -/

/-- The `if (ev == ...)` chain at the end of `poll_events_from_qnet_nonblock`. -/
def apply_event (ev : Char) (s : Ctl) : Ctl :=
  if ev = EVT_TRAIN_DETECT then
    { notify Notify.train_preempt s with
        train_request := true, train_active := true, train_clear_pending := false }
  else if ev = EVT_TRAIN_CLEAR then
    { s with train_clear_pending := true, train_request := false }
  else if ev = EVT_PED_PRESS then
    { s with ped_request := true }
  else s

/-- One call of `poll_events_from_qnet_nonblock`. `evs s.polls = none` stands for every
path that returns before the event byte is read (receive timeout or error, a connect
message, an I/O message); `some ev` is a received event message with byte `ev`. -/
def poll_events_from_qnet_nonblock (evs : Nat → Option Char) (s : Ctl) : Ctl :=
  match evs s.polls with
  | none => { s with polls := s.polls + 1 }
  | some ev => apply_event ev { s with polls := s.polls + 1 }

def nanosleep_ms (ms : Nat) (s : Ctl) : Ctl :=
  { s with slept_ms := s.slept_ms + ms }

/-- The `for` loop of `wait_with_poll_ms`, `n` iterations left. -/
def wait_poll_loop (evs : Nat → Option Char) : Nat → Ctl → Ctl
  | 0, s => s
  | n + 1, s => wait_poll_loop evs n (poll_events_from_qnet_nonblock evs (nanosleep_ms 100 s))

def wait_with_poll_ms (total_ms : Nat) (evs : Nat → Option Char) (s : Ctl) : Ctl :=
  let steps := total_ms / 100
  let rem := total_ms % 100
  let s1 := wait_poll_loop evs steps s
  if rem ≠ 0 then poll_events_from_qnet_nonblock evs (nanosleep_ms rem s1) else s1

/-! ## The ring table -/

structure normal_def_t where
  id : Nat
  dur_s : Nat
  r3_ns : String
  r2_we : String
  r2_ew : String
  is_safe_allred : Bool
  is_prep_y : Bool
  is_green : Bool
  to_yellow : Nat
  next : Nat
deriving DecidableEq, Repr

def NORM : List normal_def_t :=
  [ ⟨N_ALL_RED_1, T_ALL_RED, "RED", "RED", "RED", true, false, false, N_ALL_RED_1, N_PREP_R3⟩,
    ⟨N_PREP_R3, T_PREP_Y, "PRE-Y", "RED", "RED", false, true, false, N_PREP_R3, N_R3_RS_G⟩,
    ⟨N_R3_RS_G, T_RS_GREEN, "RS-G", "RED", "RED", false, false, true, N_R3_RS_Y, N_R3_RS_Y⟩,
    ⟨N_R3_RS_Y, T_YELLOW, "RS-Y", "RED", "RED", false, false, false, N_R3_RS_Y, N_R3_L_G⟩,
    ⟨N_R3_L_G, T_L_GREEN, "L-G", "RED", "RED", false, false, true, N_R3_L_Y, N_R3_L_Y⟩,
    ⟨N_R3_L_Y, T_YELLOW, "L-Y", "RED", "RED", false, false, false, N_R3_L_Y, N_ALL_RED_2⟩,
    ⟨N_ALL_RED_2, T_ALL_RED, "RED", "RED", "RED", true, false, false, N_ALL_RED_2, N_PREP_R2⟩,
    ⟨N_PREP_R2, T_PREP_Y, "RED", "PRE-Y", "PRE-Y", false, true, false, N_PREP_R2, N_R2_RS_G⟩,
    ⟨N_R2_RS_G, T_RS_GREEN, "RED", "RS-G", "RS-G", false, false, true, N_R2_RS_Y, N_R2_RS_Y⟩,
    ⟨N_R2_RS_Y, T_YELLOW, "RED", "RS-Y", "RS-Y", false, false, false, N_R2_RS_Y, N_R2_L_G⟩,
    ⟨N_R2_L_G, T_L_GREEN, "RED", "L-G", "L-G", false, false, true, N_R2_L_Y, N_R2_L_Y⟩,
    ⟨N_R2_L_Y, T_YELLOW, "RED", "L-Y", "L-Y", false, false, false, N_R2_L_Y, N_ALL_RED_1⟩ ]

/-- Linear scan of `NORM`; `none` is the C `NULL`. -/
def find_norm (id : Nat) : Option normal_def_t :=
  NORM.find? (fun d => d.id == id)

/-- The scan of `normal_ui_index_raw` over the remaining entries, `i` the current index. -/
def normal_ui_index_raw_scan (s : Nat) : List normal_def_t → Nat → Int
  | [], _ => 1
  | d :: ds, i => if d.id = s then (i : Int) + 1 else normal_ui_index_raw_scan s ds (i + 1)

def normal_ui_index_raw (s : Nat) : Int :=
  normal_ui_index_raw_scan s NORM 0

def normal_ui_set_start (start_state : Nat) (s : Ctl) : Ctl :=
  { s with normal_ui_base := normal_ui_index_raw start_state - 1 }

def normal_ui_index_shifted (s : Ctl) (p : Nat) : Int :=
  let raw := normal_ui_index_raw p
  let shifted := raw - s.normal_ui_base
  let total : Int := NORM.length
  if shifted ≤ 0 then shifted + total else shifted

def is_normal_green (s : Nat) : Bool :=
  match find_norm s with
  | some st => st.is_green
  | none => false

/-! ## The train mini-FSM -/

def train_is_safe_allred (s : Nat) : Bool :=
  s == TR_S04_ALL_RED_A || s == TR_S08_ALL_RED_B

def train_duration (s : Nat) : Nat :=
  if s = TR_S01_PREP_R3 then T_TR_PREP_Y
  else if s = TR_S02_R3_LR_G then T_TR_2_G
  else if s = TR_S03_R3_LR_Y then T_TR_Y
  else if s = TR_S04_ALL_RED_A then T_TR_R
  else if s = TR_S05_PREP_R2 then T_TR_PREP_Y
  else if s = TR_S06_R2_SPLIT_G then T_TR_3_G
  else if s = TR_S07_R2_SPLIT_Y then T_TR_Y
  else if s = TR_S08_ALL_RED_B then T_TR_R
  else 1

def train_ui_label (s : Nat) : Nat :=
  (s + 1) % UINT_MOD

def train_is_prep (s : Nat) : Bool :=
  s == TR_S01_PREP_R3 || s == TR_S05_PREP_R2

/-- The three vehicle indications chosen by the `switch` of `print_train_line`. -/
def train_lights (s : Nat) : String × String × String :=
  if s = TR_S01_PREP_R3 then ("PRE-Y", "RED", "RED")
  else if s = TR_S02_R3_LR_G then ("LR-G", "RED", "RED")
  else if s = TR_S03_R3_LR_Y then ("LR-Y", "RED", "RED")
  else if s = TR_S05_PREP_R2 then ("RED", "PRE-Y", "PRE-Y")
  else if s = TR_S06_R2_SPLIT_G then ("RED", "SL-G", "SR-G")
  else if s = TR_S07_R2_SPLIT_Y then ("RED", "SL-Y", "SR-Y")
  else ("RED", "RED", "RED")

def print_train_line (t : Nat) (s : Ctl) : Ctl :=
  { s with out := s.out ++
      [Out.line ⟨"TRAIN", train_ui_label t, train_duration t,
        (train_lights t).1, (train_lights t).2.1, (train_lights t).2.2, ped_output s⟩] }

/-- The `switch (tr)` at the end of `train_step`. -/
def train_next (s : Ctl) : Nat :=
  if s.tr = TR_S01_PREP_R3 then TR_S02_R3_LR_G
  else if s.tr = TR_S02_R3_LR_G then TR_S03_R3_LR_Y
  else if s.tr = TR_S03_R3_LR_Y then TR_S04_ALL_RED_A
  else if s.tr = TR_S04_ALL_RED_A then TR_S05_PREP_R2
  else if s.tr = TR_S05_PREP_R2 then TR_S06_R2_SPLIT_G
  else if s.tr = TR_S06_R2_SPLIT_G then TR_S07_R2_SPLIT_Y
  else if s.tr = TR_S07_R2_SPLIT_Y then TR_S08_ALL_RED_B
  else if s.tr = TR_S08_ALL_RED_B then
    (if s.train_active && !s.train_clear_pending then TR_S01_PREP_R3 else TR_S04_ALL_RED_A)
  else TR_S01_PREP_R3

/-- The part of `train_step` after the wait: stop the pedestrian window at the end of a
PRE-Y, then the `switch (tr)`. -/
def train_after_wait (s : Ctl) : Ctl :=
  let s1 := if train_is_prep s.tr then ped_stop_if_prep_finished s else s
  { s1 with tr := train_next s1 }

def train_step (evs : Nat → Option Char) (s : Ctl) : Ctl :=
  let s1 := ped_try_start_at_safe_allred (train_is_safe_allred s.tr) s
  let s2 := print_train_line s1.tr s1
  train_after_wait (wait_with_poll_ms ((train_duration s2.tr * 1000) % UINT_MOD) evs s2)

/-! ## The ring step -/

def print_normal_line (p : Nat) (st : normal_def_t) (s : Ctl) : Ctl :=
  { s with out := s.out ++
      [Out.line ⟨"NORMAL", normal_ui_index_shifted s p, st.dur_s,
        st.r3_ns, st.r2_we, st.r2_ew, ped_output s⟩] }

/-- The body of the preemption test inside the wait of `normal_step` (the same block
follows the loop poll and the remainder poll), up to its `return`. -/
def preempt_block (st : normal_def_t) (s : Ctl) : Ctl :=
  { s with train_preempt_to_allred := true, ns := st.to_yellow }

/-- One quantum of the wait inside `normal_step`: sleep `ms`, poll, then the preemption
test. The `Bool` is `true` when the `return` inside the test was taken. -/
def normal_wait_quantum (st : normal_def_t) (evs : Nat → Option Char) (ms : Nat)
    (s : Ctl) : Bool × Ctl :=
  let s1 := poll_events_from_qnet_nonblock evs (nanosleep_ms ms s)
  if s1.train_request && is_normal_green s1.ns then
    (true, preempt_block st s1)
  else (false, s1)

/-- The `for` loop of `normal_step`, `n` iterations left. -/
def normal_wait_loop (st : normal_def_t) (evs : Nat → Option Char) : Nat → Ctl → Bool × Ctl
  | 0, s => (false, s)
  | n + 1, s =>
    match normal_wait_quantum st evs 100 s with
    | (true, s1) => (true, s1)
    | (false, s1) => normal_wait_loop st evs n s1

/-- The whole wait of `normal_step` (loop and remainder quantum). -/
def normal_wait (st : normal_def_t) (evs : Nat → Option Char) (s : Ctl) : Bool × Ctl :=
  let total_ms := (st.dur_s * 1000) % UINT_MOD
  let steps := total_ms / 100
  let rem := total_ms % 100
  match normal_wait_loop st evs steps s with
  | (true, s1) => (true, s1)
  | (false, s1) => if rem ≠ 0 then normal_wait_quantum st evs rem s1 else (false, s1)

/-- The part of `normal_step` after the wait has run to completion. -/
def normal_after_wait (st : normal_def_t) (s : Ctl) : Ctl :=
  let s1 := if st.is_prep_y then ped_stop_if_prep_finished s else s
  if s1.train_request && s1.train_preempt_to_allred
      && (s1.ns == N_R3_RS_Y || s1.ns == N_R3_L_Y) then
    { s1 with ns := N_ALL_RED_2 }
  else if s1.train_request && s1.train_preempt_to_allred
      && (s1.ns == N_R2_RS_Y || s1.ns == N_R2_L_Y) then
    { s1 with ns := N_ALL_RED_1 }
  else if st.is_safe_allred then
    let s2 := { s1 with train_preempt_to_allred := false }
    if s2.train_request then
      notify Notify.train_begin
        { s2 with train_request := false, train_active := true, train_clear_pending := false,
                  in_train_state := true, tr := TR_S01_PREP_R3, train_ui_step := 1 }
    else { s2 with ns := st.next }
  else { s1 with ns := st.next }

def normal_step (evs : Nat → Option Char) (s : Ctl) : Ctl :=
  match find_norm s.ns with
  | none => { s with ns := N_ALL_RED_1 }
  | some st =>
    let s1 := ped_try_start_at_safe_allred st.is_safe_allred s
    let s2 := print_normal_line s1.ns st s1
    match normal_wait st evs s2 with
    | (true, s3) => s3
    | (false, s3) => normal_after_wait st s3

/-- The notify-once logic at the top of `train_run_until_exit`. -/
def clear_notice (s : Ctl) : Ctl :=
  let s1 := if s.train_clear_pending && !s.clear_notified_once then
      { notify Notify.train_clear s with clear_notified_once := true } else s
  if !s1.train_clear_pending then { s1 with clear_notified_once := false } else s1

/-- The exit test at the bottom of `train_run_until_exit`. -/
def train_exit_check (s : Ctl) : Ctl :=
  if s.train_clear_pending && train_is_safe_allred s.tr then
    normal_ui_set_start N_ALL_RED_1
      { notify Notify.train_over
          { s with train_active := false, train_clear_pending := false,
                   in_train_state := false } with ns := N_ALL_RED_1 }
  else s

def train_run_until_exit (evs : Nat → Option Char) (s : Ctl) : Ctl :=
  train_exit_check (train_step evs (clear_notice s))

/-- State of `main` on entry to its `while (1)` loop. -/
def init : Ctl :=
  normal_ui_set_start N_ALL_RED_1
    { train_request := false, train_active := false, train_clear_pending := false,
      ped_request := false, in_train_state := false, train_preempt_to_allred := false,
      normal_ui_base := 0, train_ui_step := 1, ped_window_active := false,
      ped_window_stop_after_prep := false,
      tr := TR_S01_PREP_R3, clear_notified_once := false, ns := N_ALL_RED_1,
      slept_ms := 0, polls := 0, out := [] }

/-- One iteration of the `while (1)` loop of `main`. -/
def main_iter (evs : Nat → Option Char) (s : Ctl) : Ctl :=
  if !s.in_train_state then normal_step evs s else train_run_until_exit evs s

/-- The state after `n` iterations of the main loop. -/
def run (evs : Nat → Option Char) : Nat → Ctl → Ctl
  | 0, s => s
  | n + 1, s => run evs n (main_iter evs s)

/-! ## Reading the output trace -/

def Out.asLine : Out → Option StatusLine
  | Out.line l => some l
  | Out.note _ => none

def Out.asNote : Out → Option Notify
  | Out.line _ => none
  | Out.note n => some n

/-- The status lines of a trace, in order. -/
def status_lines (o : List Out) : List StatusLine := o.filterMap Out.asLine

/-- The notifications of a trace, in order. -/
def notices (o : List Out) : List Notify := o.filterMap Out.asNote

end Demo3

/-! # What the two local controllers share -/

/-- The part of the controller state that the two local controllers have in common: the
layer (`in_train_state`), the ring cursor `ns`, the train cursor `tr` and every flag.
Durations, counters and printed text are left out. -/
structure Logic where
  train_request : Bool
  train_active : Bool
  train_clear_pending : Bool
  ped_request : Bool
  in_train_state : Bool
  train_preempt_to_allred : Bool
  ped_window_active : Bool
  ped_window_stop_after_prep : Bool
  clear_notified_once : Bool
  normal_ui_base : Int
  tr : Nat
  ns : Nat
deriving DecidableEq, Repr

/-- The layer, cursors and flags of a state of demo1.c. -/
def Demo1.logic (s : Demo1.Ctl) : Logic :=
  { train_request := s.train_request, train_active := s.train_active,
    train_clear_pending := s.train_clear_pending, ped_request := s.ped_request,
    in_train_state := s.in_train_state, train_preempt_to_allred := s.train_preempt_to_allred,
    ped_window_active := s.ped_window_active,
    ped_window_stop_after_prep := s.ped_window_stop_after_prep,
    clear_notified_once := s.clear_notified_once, normal_ui_base := s.normal_ui_base,
    tr := s.tr, ns := s.ns }

/-- The layer, cursors and flags of a state of demo3.c, under the renaming of R2 to R1. -/
def Demo3.logic (s : Demo3.Ctl) : Logic :=
  { train_request := s.train_request, train_active := s.train_active,
    train_clear_pending := s.train_clear_pending, ped_request := s.ped_request,
    in_train_state := s.in_train_state, train_preempt_to_allred := s.train_preempt_to_allred,
    ped_window_active := s.ped_window_active,
    ped_window_stop_after_prep := s.ped_window_stop_after_prep,
    clear_notified_once := s.clear_notified_once, normal_ui_base := s.normal_ui_base,
    tr := s.tr, ns := s.ns }

/-- The flag update that the event byte `ev` causes. -/
def Logic.event (l : Logic) (ev : Char) : Logic :=
  if ev = 't' then
    { l with train_request := true, train_active := true, train_clear_pending := false }
  else if ev = 'c' then { l with train_clear_pending := true, train_request := false }
  else if ev = 'p' then { l with ped_request := true }
  else l

/-- The event bytes received by the `n` polls numbered from `p`, in order. -/
def delivered (evs : Nat → Option Char) : Nat → Nat → List Char
  | _, 0 => []
  | p, n + 1 => (match evs p with | some ev => [ev] | none => []) ++ delivered evs (p + 1) n

/-! # Theorems -/

namespace Demo1

/-! ## Frame lemmas for sleeping and polling -/

theorem Polled.refl (s : Ctl) : Polled s s :=
  ⟨rfl, rfl, rfl, rfl, rfl, rfl, rfl, rfl, rfl, id⟩

theorem Polled.trans {a b c : Ctl} (h1 : Polled a b) (h2 : Polled b c) : Polled a c := by
  obtain ⟨a1, a2, a3, a4, a5, a6, a7, a8, a9, a10⟩ := h1
  obtain ⟨b1, b2, b3, b4, b5, b6, b7, b8, b9, b10⟩ := h2
  exact ⟨b1.trans a1, b2.trans a2, b3.trans a3, b4.trans a4, b5.trans a5, b6.trans a6,
    b7.trans a7, b8.trans a8, b9.trans a9, fun h => b10 (a10 h)⟩

theorem status_lines_append_note (o : List Out) (n : Notify) :
    status_lines (o ++ [Out.note n]) = status_lines o := by
  simp [status_lines, List.filterMap_append, Out.asLine]

theorem status_lines_append_line (o : List Out) (l : StatusLine) :
    status_lines (o ++ [Out.line l]) = status_lines o ++ [l] := by
  simp [status_lines, List.filterMap_append, Out.asLine]

theorem apply_event_polled (ev : Char) (s : Ctl) : Polled s (apply_event ev s) := by
  unfold apply_event
  split_ifs
  · exact ⟨rfl, rfl, rfl, rfl, rfl, rfl, rfl, rfl, status_lines_append_note _ _, fun _ => rfl⟩
  · exact ⟨rfl, rfl, rfl, rfl, rfl, rfl, rfl, rfl, rfl, id⟩
  · exact ⟨rfl, rfl, rfl, rfl, rfl, rfl, rfl, rfl, rfl, id⟩
  · exact Polled.refl s

theorem poll_polled (evs : Nat → Option Char) (s : Ctl) :
    Polled s (poll_events_from_qnet_nonblock evs s) := by
  unfold poll_events_from_qnet_nonblock
  split
  · exact ⟨rfl, rfl, rfl, rfl, rfl, rfl, rfl, rfl, rfl, id⟩
  · exact Polled.trans ⟨rfl, rfl, rfl, rfl, rfl, rfl, rfl, rfl, rfl, id⟩ (apply_event_polled _ _)

theorem nanosleep_polled (ms : Nat) (s : Ctl) : Polled s (nanosleep_ms ms s) :=
  ⟨rfl, rfl, rfl, rfl, rfl, rfl, rfl, rfl, rfl, id⟩

theorem quantum_polled (evs : Nat → Option Char) (ms : Nat) (s : Ctl) :
    Polled s (poll_events_from_qnet_nonblock evs (nanosleep_ms ms s)) :=
  Polled.trans (nanosleep_polled ms s) (poll_polled evs _)

theorem wait_poll_loop_polled (evs : Nat → Option Char) (n : Nat) (s : Ctl) :
    Polled s (wait_poll_loop evs n s) := by
  induction n generalizing s with
  | zero => exact Polled.refl s
  | succ n ih => exact Polled.trans (quantum_polled evs 100 s) (ih _)

theorem wait_with_poll_ms_polled (total_ms : Nat) (evs : Nat → Option Char) (s : Ctl) :
    Polled s (wait_with_poll_ms total_ms evs s) := by
  unfold wait_with_poll_ms
  simp only []
  split_ifs
  · exact Polled.trans (wait_poll_loop_polled evs _ s) (quantum_polled evs _ _)
  · exact wait_poll_loop_polled evs _ s

/-- The wait of `normal_step` either runs to completion, or is cut short in a green phase
with `train_request` set; in both cases the state `w` at the last poll is `Polled`. -/
theorem normal_wait_quantum_shape (st : normal_def_t) (evs : Nat → Option Char) (ms : Nat)
    (s : Ctl) :
    ∃ w, Polled s w ∧
      (normal_wait_quantum st evs ms s = (false, w) ∨
       (is_normal_green s.ns = true ∧ w.train_request = true ∧
        normal_wait_quantum st evs ms s = (true, preempt_block st w))) := by
  refine ⟨poll_events_from_qnet_nonblock evs (nanosleep_ms ms s), quantum_polled evs ms s, ?_⟩
  unfold normal_wait_quantum
  simp only []
  split_ifs with h
  · right
    simp only [Bool.and_eq_true] at h
    have hns := (quantum_polled evs ms s).2.2.2.2.2.2.2.1
    rw [hns] at h
    exact ⟨h.2, h.1, rfl⟩
  · left; rfl

theorem normal_wait_loop_shape (st : normal_def_t) (evs : Nat → Option Char) (n : Nat)
    (s : Ctl) :
    ∃ w, Polled s w ∧
      (normal_wait_loop st evs n s = (false, w) ∨
       (is_normal_green s.ns = true ∧ w.train_request = true ∧
        normal_wait_loop st evs n s = (true, preempt_block st w))) := by
  induction n generalizing s with
  | zero => exact ⟨s, Polled.refl s, Or.inl rfl⟩
  | succ n ih =>
    obtain ⟨w, hw, h | ⟨hg, hr, h⟩⟩ := normal_wait_quantum_shape st evs 100 s
    · obtain ⟨w2, hw2, h2 | ⟨hg2, hr2, h2⟩⟩ := ih w
      · exact ⟨w2, hw.trans hw2, Or.inl (by simp [normal_wait_loop, h, h2])⟩
      · refine ⟨w2, hw.trans hw2, Or.inr ⟨?_, hr2, by simp [normal_wait_loop, h, h2]⟩⟩
        rw [← hw.2.2.2.2.2.2.2.1]; exact hg2
    · exact ⟨w, hw, Or.inr ⟨hg, hr, by simp [normal_wait_loop, h]⟩⟩

theorem normal_wait_shape (st : normal_def_t) (evs : Nat → Option Char) (s : Ctl) :
    ∃ w, Polled s w ∧
      (normal_wait st evs s = (false, w) ∨
       (is_normal_green s.ns = true ∧ w.train_request = true ∧
        normal_wait st evs s = (true, preempt_block st w))) := by
  obtain ⟨w, hw, h | ⟨hg, hr, h⟩⟩ :=
    normal_wait_loop_shape st evs (st.dur_s * 1000 % UINT_MOD / 100) s
  · by_cases hrem : st.dur_s * 1000 % UINT_MOD % 100 ≠ 0
    · obtain ⟨w2, hw2, h2 | ⟨hg2, hr2, h2⟩⟩ :=
        normal_wait_quantum_shape st evs (st.dur_s * 1000 % UINT_MOD % 100) w
      · exact ⟨w2, hw.trans hw2, Or.inl (by simp [normal_wait, h, h2, hrem])⟩
      · refine ⟨w2, hw.trans hw2, Or.inr ⟨?_, hr2, by simp [normal_wait, h, h2, hrem]⟩⟩
        rw [← hw.2.2.2.2.2.2.2.1]; exact hg2
    · exact ⟨w, hw, Or.inl (by simp [normal_wait, h, hrem])⟩
  · exact ⟨w, hw, Or.inr ⟨hg, hr, by simp [normal_wait, h]⟩⟩

end Demo1

namespace Demo1

theorem find_norm_some {n : Nat} {st : normal_def_t} (h : find_norm n = some st) :
    st ∈ NORM ∧ st.id = n := by
  unfold find_norm at h
  exact ⟨List.mem_of_find?_eq_some h, by simpa using List.find?_some h⟩

theorem find_norm_lt {n : Nat} (h : n < 12) : ∃ st, find_norm n = some st := by
  interval_cases n <;> exact ⟨_, rfl⟩

theorem ped_try_start_ns (b : Bool) (s : Ctl) :
    (ped_try_start_at_safe_allred b s).ns = s.ns := by
  unfold ped_try_start_at_safe_allred
  split_ifs <;> rfl

theorem ped_try_start_in_train (b : Bool) (s : Ctl) :
    (ped_try_start_at_safe_allred b s).in_train_state = s.in_train_state := by
  unfold ped_try_start_at_safe_allred
  split_ifs <;> rfl

theorem ped_try_start_tr (b : Bool) (s : Ctl) :
    (ped_try_start_at_safe_allred b s).tr = s.tr := by
  unfold ped_try_start_at_safe_allred
  split_ifs <;> rfl

theorem ped_try_start_cases (b : Bool) (s : Ctl) :
    ped_try_start_at_safe_allred b s = s ∨
    (b = true ∧ s.ped_request = true ∧
      ped_try_start_at_safe_allred b s =
        notify Notify.ped_begin
          { s with ped_request := false, ped_window_active := true,
                   ped_window_stop_after_prep := true }) := by
  unfold ped_try_start_at_safe_allred
  split_ifs with h1 h2
  · left; rfl
  · left; rfl
  · right; simp_all

theorem ped_try_start_lines (b : Bool) (s : Ctl) :
    status_lines (ped_try_start_at_safe_allred b s).out = status_lines s.out := by
  rcases ped_try_start_cases b s with h | ⟨_, _, h⟩ <;> rw [h]
  exact status_lines_append_note _ _

theorem normal_step_shape (evs : Nat → Option Char) (s : Ctl) (st : normal_def_t)
    (h : find_norm s.ns = some st) :
    ∃ w, Polled (print_normal_line s.ns st (ped_try_start_at_safe_allred st.is_safe_allred s)) w ∧
      (normal_step evs s = normal_after_wait st w ∨
       (is_normal_green s.ns = true ∧ w.train_request = true ∧
        normal_step evs s = preempt_block st w)) := by
  obtain ⟨w, hw, hh | ⟨hg, hr, hh⟩⟩ := normal_wait_shape st evs
    (print_normal_line s.ns st (ped_try_start_at_safe_allred st.is_safe_allred s))
  · exact ⟨w, hw, Or.inl (by simp [normal_step, h, ped_try_start_ns, hh])⟩
  · refine ⟨w, hw, Or.inr ⟨?_, hr, by simp [normal_step, h, ped_try_start_ns, hh]⟩⟩
    simpa [print_normal_line, ped_try_start_ns] using hg

theorem after_wait_lines (st : normal_def_t) (w : Ctl) :
    status_lines (normal_after_wait st w).out = status_lines w.out := by
  unfold normal_after_wait ped_stop_if_prep_finished
  simp only []
  split_ifs <;> simp [notify, status_lines, List.filterMap_append, Out.asLine]

/-- The ring step prints exactly one status line: that of the phase at the cursor. -/
theorem normal_step_lines (evs : Nat → Option Char) (s : Ctl) (st : normal_def_t)
    (h : find_norm s.ns = some st) :
    status_lines (normal_step evs s).out = status_lines s.out ++
      [⟨"NORMAL", normal_ui_index_shifted s s.ns, st.dur_s, st.r3, st.r1_we, st.r1_ew,
        ped_output (ped_try_start_at_safe_allred st.is_safe_allred s)⟩] := by
  obtain ⟨w, hw, hh | ⟨_, _, hh⟩⟩ := normal_step_shape evs s st h
  · rw [hh, after_wait_lines, hw.2.2.2.2.2.2.2.2.1, print_normal_line,
      status_lines_append_line, ped_try_start_lines]
    rcases ped_try_start_cases st.is_safe_allred s with h | ⟨_, _, h⟩ <;> rw [h] <;> rfl
  · rw [hh]
    show status_lines w.out = _
    rw [hw.2.2.2.2.2.2.2.2.1, print_normal_line,
      status_lines_append_line, ped_try_start_lines]
    rcases ped_try_start_cases st.is_safe_allred s with h | ⟨_, _, h⟩ <;> rw [h] <;> rfl

theorem Inv_of_polled {a b : Ctl} (h : Inv a) (hp : Polled a b) : Inv b := by
  obtain ⟨a1, -, -, a4, a5, a6, -, a8, -, a10⟩ := hp
  unfold Inv
  rw [a1, a4, a5, a6, a8]
  exact ⟨h.1, h.2.1, fun hh => a10 (h.2.2.1 hh), h.2.2.2⟩

theorem Inv_print_normal_line (p : Nat) (st : normal_def_t) (s : Ctl) (h : Inv s) :
    Inv (print_normal_line p st s) := h

theorem Inv_print_train_line (t : Nat) (s : Ctl) (h : Inv s) :
    Inv (print_train_line t s) := h

theorem NORM_safe_ids :
    ∀ st ∈ NORM, st.is_safe_allred = true → st.id = 0 ∨ st.id = 1 ∨ st.id = 6 ∨ st.id = 7 := by
  decide

theorem NORM_to_yellow_lt : ∀ st ∈ NORM, st.to_yellow < 12 := by
  decide

theorem Inv_ped_try_start_normal (st : normal_def_t) (hst : st ∈ NORM) (s : Ctl) (h : Inv s)
    (hl : s.in_train_state = false) (hid : s.ns = st.id) :
    Inv (ped_try_start_at_safe_allred st.is_safe_allred s) := by
  rcases ped_try_start_cases st.is_safe_allred s with hp | ⟨hb, -, hp⟩
  · rw [hp]; exact h
  · rw [hp]
    obtain ⟨h1, h2, h3, -, -, -⟩ := h
    refine ⟨h1, h2, h3, fun _ => rfl, fun _ hh => ?_, fun _ _ => ?_⟩
    · exact absurd hh (by simp [notify, hl])
    · show s.ns = 0 ∨ s.ns = 1 ∨ s.ns = 6 ∨ s.ns = 7
      rw [hid]
      exact NORM_safe_ids st hst hb

theorem after_wait_inv (st : normal_def_t) (hst : st ∈ NORM) (w : Ctl) (h : Inv w)
    (hl : w.in_train_state = false) (hid : w.ns = st.id) :
    Inv (normal_after_wait st w) := by
  obtain ⟨h1, h2, h3, h4, h5, h6⟩ := h
  simp only [NORM, List.mem_cons, List.mem_singleton, List.not_mem_nil, or_false] at hst
  rcases hst with rfl | rfl | rfl | rfl | rfl | rfl | rfl | rfl | rfl | rfl | rfl | rfl <;>
  · simp only [] at hid
    simp only [Inv, normal_after_wait, ped_stop_if_prep_finished, notify,
      Bool.false_eq_true, if_false, if_true, hid]
    split_ifs <;> simp_all

theorem preempt_inv (st : normal_def_t) (hst : st ∈ NORM) (w : Ctl) (h : Inv w)
    (hl : w.in_train_state = false) (hg : is_normal_green w.ns = true) :
    Inv (preempt_block st w) := by
  obtain ⟨h1, h2, h3, h4, h5, h6⟩ := h
  have hy : st.to_yellow < 12 := NORM_to_yellow_lt st hst
  refine ⟨hy, h2, h3, h4, h5, fun hh _ => ?_⟩
  have := h6 hh hl
  rcases this with h0 | h0 | h0 | h0 <;> rw [h0] at hg <;> exact absurd hg (by decide)

theorem normal_step_inv (evs : Nat → Option Char) (s : Ctl) (h : Inv s)
    (hl : s.in_train_state = false) : Inv (normal_step evs s) := by
  obtain ⟨st, hst⟩ := find_norm_lt h.1
  obtain ⟨hmem, hid⟩ := find_norm_some hst
  obtain ⟨w, hw, hh | ⟨hg, _, hh⟩⟩ := normal_step_shape evs s st hst <;> rw [hh]
  · refine after_wait_inv st hmem w (Inv_of_polled ?_ hw) ?_ ?_
    · exact Inv_print_normal_line _ _ _ (Inv_ped_try_start_normal st hmem s h hl hid.symm)
    · rw [hw.1]; simp [print_normal_line, ped_try_start_in_train, hl]
    · rw [hw.2.2.2.2.2.2.2.1]; simp [print_normal_line, ped_try_start_ns, hid]
  · refine preempt_inv st hmem w (Inv_of_polled ?_ hw) ?_ ?_
    · exact Inv_print_normal_line _ _ _ (Inv_ped_try_start_normal st hmem s h hl hid.symm)
    · rw [hw.1]; simp [print_normal_line, ped_try_start_in_train, hl]
    · rw [hw.2.2.2.2.2.2.2.1]; simpa [print_normal_line, ped_try_start_ns] using hg

end Demo1

namespace Demo1

theorem clear_notice_polled (s : Ctl) :
    (clear_notice s).in_train_state = s.in_train_state ∧
    (clear_notice s).ped_window_active = s.ped_window_active ∧
    (clear_notice s).ped_window_stop_after_prep = s.ped_window_stop_after_prep ∧
    (clear_notice s).tr = s.tr ∧ (clear_notice s).ns = s.ns ∧
    (clear_notice s).train_active = s.train_active ∧
    (clear_notice s).ped_request = s.ped_request ∧
    (clear_notice s).normal_ui_base = s.normal_ui_base ∧
    status_lines (clear_notice s).out = status_lines s.out := by
  unfold clear_notice
  simp only []
  split_ifs <;> simp [notify, status_lines_append_note]

theorem clear_notice_inv (s : Ctl) (h : Inv s) : Inv (clear_notice s) := by
  obtain ⟨c1, c2, c3, c4, c5, c6, -, -, -⟩ := clear_notice_polled s
  unfold Inv
  rw [c1, c2, c3, c4, c5, c6]
  exact h

theorem ped_output_try_start (b : Bool) (s : Ctl) :
    ped_output (ped_try_start_at_safe_allred b s) =
      if (b && s.ped_request) || s.ped_window_active then "WALK" else "RED" := by
  unfold ped_try_start_at_safe_allred ped_output
  cases b <;> cases s.ped_request <;> cases h : s.ped_window_active <;> simp [notify, h]

theorem train_step_shape (evs : Nat → Option Char) (s : Ctl) :
    ∃ w, Polled (print_train_line s.tr
          (ped_try_start_at_safe_allred (train_is_safe_allred s.tr) s)) w ∧
      train_step evs s = train_after_wait w :=
  ⟨wait_with_poll_ms (train_duration s.tr * 1000 % UINT_MOD) evs
      (print_train_line s.tr (ped_try_start_at_safe_allred (train_is_safe_allred s.tr) s)),
    wait_with_poll_ms_polled _ evs _,
    by simp [train_step, ped_try_start_tr, print_train_line]⟩

theorem train_after_wait_lines (w : Ctl) :
    status_lines (train_after_wait w).out = status_lines w.out := by
  unfold train_after_wait ped_stop_if_prep_finished
  simp only []
  split_ifs <;> simp [notify, status_lines, List.filterMap_append, Out.asLine]

theorem train_exit_check_lines (w : Ctl) :
    status_lines (train_exit_check w).out = status_lines w.out := by
  unfold train_exit_check
  split_ifs <;> simp [notify, normal_ui_set_start, status_lines, List.filterMap_append, Out.asLine]

/-- The train step prints exactly one status line: that of the phase at the train
cursor. -/
theorem train_run_lines (evs : Nat → Option Char) (s : Ctl) :
    status_lines (train_run_until_exit evs s).out = status_lines s.out ++
      [⟨"TRAIN", train_ui_label s.tr, train_duration s.tr,
        (train_lights s.tr).1, (train_lights s.tr).2.1, (train_lights s.tr).2.2,
        ped_output (ped_try_start_at_safe_allred (train_is_safe_allred s.tr) s)⟩] := by
  obtain ⟨c1, c2, c3, c4, c5, c6, c7, c8, c9⟩ := clear_notice_polled s
  obtain ⟨w, hw, hh⟩ := train_step_shape evs (clear_notice s)
  unfold train_run_until_exit
  rw [train_exit_check_lines, hh, train_after_wait_lines, hw.2.2.2.2.2.2.2.2.1, print_train_line,
    status_lines_append_line, ped_try_start_lines, c4, c9]
  rw [ped_output_try_start, ped_output_try_start, c2, c7]

theorem Inv_ped_try_start_train (s : Ctl) (h : Inv s) (hl : s.in_train_state = true) :
    Inv (ped_try_start_at_safe_allred (train_is_safe_allred s.tr) s) := by
  rcases ped_try_start_cases (train_is_safe_allred s.tr) s with hp | ⟨hb, -, hp⟩
  · rw [hp]; exact h
  · rw [hp]
    obtain ⟨h1, h2, h3, -, -, -⟩ := h
    refine ⟨h1, h2, h3, fun _ => rfl, fun _ _ => ?_, fun _ hh => ?_⟩
    · show s.tr = 0 ∨ s.tr = 3 ∨ s.tr = 4 ∨ s.tr = 7
      simp [train_is_safe_allred] at hb
      omega
    · exact absurd hh (by simp [notify, hl])

theorem train_after_wait_inv (w : Ctl) (h : Inv w) (hl : w.in_train_state = true) :
    Inv (train_exit_check (train_after_wait w)) := by
  obtain ⟨h1, h2, h3, h4, h5, h6⟩ := h
  have ha := h3 hl
  obtain ⟨rq, ac, cp, pr, its, pa, ub, pw, ps, tr, cn, ns, sl, po, out⟩ := w
  simp only at h1 h2 h3 h4 h5 h6 hl ha
  subst hl ha
  interval_cases tr <;> cases cp <;> cases pw <;> cases ps <;>
    simp_all [Inv, train_exit_check, train_after_wait, train_next, ped_stop_if_prep_finished,
      notify, normal_ui_set_start, train_is_prep, train_is_safe_allred]

theorem train_run_inv (evs : Nat → Option Char) (s : Ctl) (h : Inv s)
    (hl : s.in_train_state = true) : Inv (train_run_until_exit evs s) := by
  have h' := clear_notice_inv s h
  have hl' : (clear_notice s).in_train_state = true := by rw [(clear_notice_polled s).1, hl]
  unfold train_run_until_exit
  generalize clear_notice s = c at h' hl' ⊢
  obtain ⟨w, hw, hh⟩ := train_step_shape evs c
  rw [hh]
  refine train_after_wait_inv w (Inv_of_polled ?_ hw) ?_
  · exact Inv_print_train_line _ _ (Inv_ped_try_start_train c h' hl')
  · rw [hw.1]; simp [print_train_line, ped_try_start_in_train, hl']

end Demo1

namespace Demo1

theorem NORM_no_conflict :
    ∀ st ∈ NORM, ¬ (st.r3 ≠ "RED" ∧ (st.r1_we ≠ "RED" ∨ st.r1_ew ≠ "RED")) := by
  decide

theorem NORM_window_lights :
    ∀ st ∈ NORM, (st.id = 0 ∨ st.id = 1 ∨ st.id = 6 ∨ st.id = 7) →
      (st.r3 = "RED" ∨ st.r3 = "PRE-Y") ∧ (st.r1_we = "RED" ∨ st.r1_we = "PRE-Y") ∧
      (st.r1_ew = "RED" ∨ st.r1_ew = "PRE-Y") := by
  decide

theorem train_lights_no_conflict (t : Nat) :
    ¬ ((train_lights t).1 ≠ "RED" ∧
       ((train_lights t).2.1 ≠ "RED" ∨ (train_lights t).2.2 ≠ "RED")) := by
  by_cases h : t ≤ 7
  · interval_cases t <;> decide
  · obtain ⟨d, rfl⟩ : ∃ d, t = d + 8 := ⟨t - 8, by omega⟩
    simp [train_lights]

theorem train_window_lights (t : Nat) (h : t = 0 ∨ t = 3 ∨ t = 4 ∨ t = 7) :
    ((train_lights t).1 = "RED" ∨ (train_lights t).1 = "PRE-Y") ∧
    ((train_lights t).2.1 = "RED" ∨ (train_lights t).2.1 = "PRE-Y") ∧
    ((train_lights t).2.2 = "RED" ∨ (train_lights t).2.2 = "PRE-Y") := by
  rcases h with rfl | rfl | rfl | rfl <;> decide

theorem ped_output_walk (s : Ctl) (h : ped_output s = "WALK") : s.ped_window_active = true := by
  unfold ped_output at h
  split_ifs at h with hw
  · exact hw
  · exact absurd h (by decide)

/-- From a state satisfying the invariant, one iteration of the main loop prints exactly
one status line, and that line is safe. -/
theorem main_iter_line_safe (evs : Nat → Option Char) (s : Ctl) (h : Inv s) :
    ∃ l, status_lines (main_iter evs s).out = status_lines s.out ++ [l] ∧ SafeLine l := by
  unfold main_iter
  cases hl : s.in_train_state
  · obtain ⟨st, hst⟩ := find_norm_lt h.1
    obtain ⟨hmem, hid⟩ := find_norm_some hst
    refine ⟨_, by simpa using normal_step_lines evs s st hst, NORM_no_conflict st hmem, fun hw => ?_⟩
    have hp := Inv_ped_try_start_normal st hmem s h hl hid.symm
    have := hp.2.2.2.2.2 (ped_output_walk _ hw) (by rw [ped_try_start_in_train, hl])
    rw [ped_try_start_ns, ← hid] at this
    exact NORM_window_lights st hmem this
  · refine ⟨_, by simpa using train_run_lines evs s, train_lights_no_conflict s.tr, fun hw => ?_⟩
    have hp := Inv_ped_try_start_train s h hl
    have := hp.2.2.2.2.1 (ped_output_walk _ hw) (by rw [ped_try_start_in_train, hl])
    rw [ped_try_start_tr] at this
    exact train_window_lights s.tr this

theorem main_iter_inv (evs : Nat → Option Char) (s : Ctl) (h : Inv s) :
    Inv (main_iter evs s) := by
  unfold main_iter
  cases hl : s.in_train_state
  · simpa using normal_step_inv evs s h hl
  · simpa using train_run_inv evs s h hl

theorem init_inv : Inv init := by
  unfold Inv
  decide

theorem run_inv (evs : Nat → Option Char) (n : Nat) (s : Ctl) (h : Inv s) :
    Inv (run evs n s) := by
  induction n generalizing s with
  | zero => exact h
  | succ n ih => exact ih _ (main_iter_inv evs s h)

theorem run_lines_safe (evs : Nat → Option Char) (n : Nat) (s : Ctl) (h : Inv s)
    (hs : ∀ l ∈ status_lines s.out, SafeLine l) :
    ∀ l ∈ status_lines (run evs n s).out, SafeLine l := by
  induction n generalizing s with
  | zero => exact hs
  | succ n ih =>
    refine ih _ (main_iter_inv evs s h) ?_
    obtain ⟨l0, hl0, hsafe⟩ := main_iter_line_safe evs s h
    intro l hl
    rw [hl0, List.mem_append, List.mem_singleton] at hl
    rcases hl with hl | rfl
    · exact hs l hl
    · exact hsafe

/-- C1: in every run of demo1.c from its initial state, under every event schedule and
after any number of main-loop iterations, no printed status line (`print_normal_line` or
`print_train_line`) shows a non-RED indication on R3 together with a non-RED indication on
an R1 direction, and a line that prints PED=WALK has every vehicle indication RED or
PRE-Y (so never a vehicle green or yellow). -/
theorem C1_printed_lines_safe (evs : Nat → Option Char) (n : Nat) (l : StatusLine) :
    Out.line l ∈ (run evs n init).out →
    ¬ (l.r3 ≠ "RED" ∧ (l.r1_we ≠ "RED" ∨ l.r1_ew ≠ "RED")) ∧
    (l.ped = "WALK" →
      (l.r3 = "RED" ∨ l.r3 = "PRE-Y") ∧ (l.r1_we = "RED" ∨ l.r1_we = "PRE-Y") ∧
      (l.r1_ew = "RED" ∨ l.r1_ew = "PRE-Y")) := by
  intro hmem
  have hl : l ∈ status_lines (run evs n init).out := by
    unfold status_lines
    exact List.mem_filterMap.mpr ⟨_, hmem, rfl⟩
  exact run_lines_safe evs n init init_inv (fun l h => by simp [init, normal_ui_set_start, status_lines] at h) l hl

set_option maxRecDepth 100000 in
theorem C1_printed_lines_safe_witness :
    Out.line ⟨"NORMAL", 7, 5, "RED", "RED", "RED", "WALK"⟩ ∈
      (run (fun i => if i = 0 then some 'p' else none) 7 init).out ∧
    (¬ (("RED" : String) ≠ "RED" ∧ (("RED" : String) ≠ "RED" ∨ ("RED" : String) ≠ "RED")) ∧
     (("WALK" : String) = "WALK" →
      (("RED" : String) = "RED" ∨ ("RED" : String) = "PRE-Y") ∧
      (("RED" : String) = "RED" ∨ ("RED" : String) = "PRE-Y") ∧
      (("RED" : String) = "RED" ∨ ("RED" : String) = "PRE-Y"))) :=
  ⟨by decide,
   C1_printed_lines_safe (fun i => if i = 0 then some 'p' else none) 7
     ⟨"NORMAL", 7, 5, "RED", "RED", "RED", "WALK"⟩ (by decide)⟩

end Demo1

namespace Fsm

/-! ## Frame lemmas for the event input -/

theorem apply_event_unpolled (s : Ctl) (ev : Char) :
    unpolled (apply_event s ev) = unpolled s := by
  unfold apply_event
  split_ifs <;> rfl

theorem foldl_apply_event_unpolled (l : List Char) (s : Ctl) :
    unpolled (l.foldl apply_event s) = unpolled s := by
  induction l generalizing s with
  | nil => rfl
  | cons a l ih => rw [List.foldl_cons, ih, apply_event_unpolled]

theorem poll_unpolled (evs : Nat → List Char) (s : Ctl) :
    unpolled (poll_events_from_mq evs s) = unpolled s := by
  unfold poll_events_from_mq
  rw [foldl_apply_event_unpolled]
  rfl

theorem poll_cur (evs : Nat → List Char) (s : Ctl) :
    (poll_events_from_mq evs s).cur = s.cur :=
  congrArg (fun p => p.1) (poll_unpolled evs s)

theorem preempt_block_cur (s : Ctl) :
    (preempt_block s).cur = normal_green_to_yellow s.cur := by
  unfold preempt_block
  split_ifs <;> rfl

theorem wait_quantum_cur (evs : Nat → List Char) (ms : Nat) (s : Ctl) :
    ((wait_quantum evs ms s).1 = false ∧ (wait_quantum evs ms s).2.cur = s.cur) ∨
    ((wait_quantum evs ms s).1 = true ∧ is_normal_green s.cur = true ∧
      (wait_quantum evs ms s).2.cur = normal_green_to_yellow s.cur) := by
  unfold wait_quantum
  simp only []
  split_ifs with h
  · right
    simp only [Bool.and_eq_true, poll_cur] at h
    refine ⟨rfl, ?_, ?_⟩
    · simpa [nanosleep_ms] using h.2
    · simp [preempt_block_cur, poll_cur, nanosleep_ms]
  · left
    exact ⟨rfl, by simp [poll_cur, nanosleep_ms]⟩

theorem wait_loop_cur (evs : Nat → List Char) (n : Nat) (s : Ctl) :
    ((wait_loop evs n s).1 = false ∧ (wait_loop evs n s).2.cur = s.cur) ∨
    ((wait_loop evs n s).1 = true ∧ is_normal_green s.cur = true ∧
      (wait_loop evs n s).2.cur = normal_green_to_yellow s.cur) := by
  induction n generalizing s with
  | zero => left; exact ⟨rfl, rfl⟩
  | succ n ih =>
    unfold wait_loop
    rcases wait_quantum_cur evs 100 s with ⟨h1, h2⟩ | ⟨h1, h2, h3⟩
    · rcases hq : wait_quantum evs 100 s with ⟨b, s1⟩
      rw [hq] at h1 h2
      simp only at h1 h2
      subst h1
      simp only []
      rw [← h2]
      exact ih s1
    · rcases hq : wait_quantum evs 100 s with ⟨b, s1⟩
      rw [hq] at h1 h3
      simp only at h1 h3
      subst h1
      right
      exact ⟨rfl, h2, h3⟩

theorem wait_cur (t : Nat) (evs : Nat → List Char) (s : Ctl) :
    (wait_seconds_interruptible t evs s).cur = s.cur ∨
    (is_normal_green s.cur = true ∧
      (wait_seconds_interruptible t evs s).cur = normal_green_to_yellow s.cur) := by
  unfold wait_seconds_interruptible
  split_ifs with h0
  · left; rfl
  · simp only []
    rcases wait_loop_cur evs (t * 1000 % UINT_MOD / 100) s with ⟨h1, h2⟩ | ⟨h1, h2, h3⟩
    · rcases hq : wait_loop evs (t * 1000 % UINT_MOD / 100) s with ⟨b, s1⟩
      rw [hq] at h1 h2
      simp only at h1 h2
      subst h1
      simp only []
      split_ifs with hr
      · rcases wait_quantum_cur evs (t * 1000 % UINT_MOD % 100) s1 with ⟨_, h4⟩ | ⟨_, h4, h5⟩
        · left; rw [h4, h2]
        · right; rw [← h2]; exact ⟨h4, h5⟩
      · left; exact h2
    · rcases hq : wait_loop evs (t * 1000 % UINT_MOD / 100) s with ⟨b, s1⟩
      rw [hq] at h1 h3
      simp only at h1 h3
      subst h1
      right
      exact ⟨h2, h3⟩

end Fsm

namespace Fsm

/-! ## The output table of `print_state_outputs` -/

theorem state_outputs_default (c : Nat) (h : 22 < c) :
    state_outputs c = ("RED", "RED", "RED", "RED", "RED") := by
  obtain ⟨d, rfl⟩ : ∃ d, c = d + 23 := ⟨c - 23, by omega⟩
  simp [state_outputs]

/-- C2: for every value of the cursor (the 22 enumerators of `state_t` and any other
integer), the status line printed by `print_state_outputs` never has a non-RED indication
on an R3 direction together with a non-RED indication on an R1 direction; its pedestrian
indication is non-RED exactly in `P_WALK` and `P_FLASH`, where it is WALK or FLASH and
all four vehicle indications are RED. -/
theorem C2_print_state_outputs_safe (c : Nat) (s : Ctl) :
    (print_state_outputs c s).out = s.out ++ [Out.line (status_line c)] ∧
    ¬ (((status_line c).r3_sn ≠ "RED" ∨ (status_line c).r3_ns ≠ "RED") ∧
       ((status_line c).r1_we ≠ "RED" ∨ (status_line c).r1_ew ≠ "RED")) ∧
    ((status_line c).ped ≠ "RED" ↔ (c = P_WALK ∨ c = P_FLASH)) ∧
    ((status_line c).ped ≠ "RED" →
      ((status_line c).ped = "WALK" ∨ (status_line c).ped = "FLASH") ∧
      (status_line c).r3_sn = "RED" ∧ (status_line c).r3_ns = "RED" ∧
      (status_line c).r1_we = "RED" ∧ (status_line c).r1_ew = "RED") := by
  refine ⟨rfl, ?_⟩
  by_cases h : c ≤ 22
  · interval_cases c <;> decide
  · have := state_outputs_default c (by omega)
    simp [status_line, this]
    omega

end Fsm

namespace Fsm

theorem step_prologue_cur (evs : Nat → List Char) (s : Ctl) :
    (step_prologue evs s).cur = s.cur := by
  unfold step_prologue
  simp only []
  split_ifs <;> simp [notify, poll_cur, print_state_outputs]

theorem step_epilogue_cur (s : Ctl) : (step_epilogue s).cur = s.cur := by
  unfold step_epilogue
  simp only []
  split_ifs <;> rfl

/-- C4: from each of the seven green states (the four ring greens and the three train
greens), for every flag valuation and every event schedule, `SingleStep_SM` leaves the
cursor at the matching yellow of the same movement, which is the state numbered one
higher; this covers both a green that ran its full duration and a preempted one. -/
theorem C4_SingleStep_SM_green_to_yellow (evs : Nat → List Char) (s : Ctl)
    (h : s.cur ∈ [N_R3_RS_G, N_R3_L_G, N_R1_RS_G, N_R1_L_G,
                  T_R3_NS_SRL_G_1, T_R3_SN_LR_G_2, T_R1_RESTRICT_G_3]) :
    (s.cur, (SingleStep_SM evs s).cur) ∈
      [(N_R3_RS_G, N_R3_RS_Y), (N_R3_L_G, N_R3_L_Y), (N_R1_RS_G, N_R1_RS_Y),
       (N_R1_L_G, N_R1_L_Y), (T_R3_NS_SRL_G_1, T_R3_NS_SRL_Y_1),
       (T_R3_SN_LR_G_2, T_R3_SN_LR_Y_2), (T_R1_RESTRICT_G_3, T_R1_RESTRICT_Y_3)] ∧
    (SingleStep_SM evs s).cur = s.cur + 1 := by
  have hp := step_prologue_cur evs s
  unfold SingleStep_SM
  rw [step_epilogue_cur]
  generalize step_prologue evs s = p at hp
  simp only [List.mem_cons, List.mem_singleton, List.not_mem_nil, or_false] at h
  rcases h with h | h | h | h | h | h | h
  · have hw := wait_cur T_RS_GREEN evs p
    simp [hp, h, normal_green_to_yellow] at hw
    rcases hw with hw | hw <;> simp [step_switch, hp, h, hw]
  · have hw := wait_cur T_L_GREEN evs p
    simp [hp, h, normal_green_to_yellow] at hw
    rcases hw with hw | hw <;> simp [step_switch, hp, h, hw]
  · have hw := wait_cur T_RS_GREEN evs p
    simp [hp, h, normal_green_to_yellow] at hw
    rcases hw with hw | hw <;> simp [step_switch, hp, h, hw]
  · have hw := wait_cur T_L_GREEN evs p
    simp [hp, h, normal_green_to_yellow] at hw
    rcases hw with hw | hw <;> simp [step_switch, hp, h, hw]
  · simp [step_switch, hp, h]
  · simp [step_switch, hp, h]
  · simp [step_switch, hp, h]

theorem C4_SingleStep_SM_green_to_yellow_witness :
    N_R3_RS_G ∈ [N_R3_RS_G, N_R3_L_G, N_R1_RS_G, N_R1_L_G,
                  T_R3_NS_SRL_G_1, T_R3_SN_LR_G_2, T_R1_RESTRICT_G_3] ∧
    (init.cur, (SingleStep_SM (fun _ => []) init).cur) ∈
      [(N_R3_RS_G, N_R3_RS_Y), (N_R3_L_G, N_R3_L_Y), (N_R1_RS_G, N_R1_RS_Y),
       (N_R1_L_G, N_R1_L_Y), (T_R3_NS_SRL_G_1, T_R3_NS_SRL_Y_1),
       (T_R3_SN_LR_G_2, T_R3_SN_LR_Y_2), (T_R1_RESTRICT_G_3, T_R1_RESTRICT_Y_3)] ∧
    (SingleStep_SM (fun _ => []) init).cur = init.cur + 1 :=
  ⟨by decide, C4_SingleStep_SM_green_to_yellow (fun _ => []) init (by decide)⟩

end Fsm

namespace Demo1

/-! ## Greens are followed by their yellow (C3) -/

theorem ped_try_start_base (b : Bool) (s : Ctl) :
    (ped_try_start_at_safe_allred b s).normal_ui_base = s.normal_ui_base := by
  unfold ped_try_start_at_safe_allred
  split_ifs <;> rfl

theorem NORM_green_facts :
    ∀ st ∈ NORM, st.is_green = true →
      (st.id = 2 ∨ st.id = 4 ∨ st.id = 8 ∨ st.id = 10) ∧ st.to_yellow = st.id + 1 ∧
      st.next = st.to_yellow ∧ st.is_prep_y = false ∧ st.is_safe_allred = false := by
  decide

theorem is_normal_green_find {n : Nat} (h : is_normal_green n = true) :
    ∃ st, find_norm n = some st ∧ st.is_green = true := by
  unfold is_normal_green at h
  split at h
  · exact ⟨_, by assumption, h⟩
  · exact absurd h (by decide)

theorem after_wait_green (st : normal_def_t) (hst : st ∈ NORM) (hg : st.is_green = true)
    (w : Ctl) (hid : w.ns = st.id) :
    normal_after_wait st w = { w with ns := st.to_yellow } := by
  obtain ⟨h1, -, h3, h4, h5⟩ := NORM_green_facts st hst hg
  rw [← hid] at h1
  have e1 : (w.ns == N_R3_RS_Y || w.ns == N_R3_L_Y) = false := by
    rcases h1 with h | h | h | h <;> rw [h] <;> rfl
  have e2 : (w.ns == N_R1_RS_Y || w.ns == N_R1_L_Y) = false := by
    rcases h1 with h | h | h | h <;> rw [h] <;> rfl
  simp only [normal_after_wait, h4, h5, e1, e2, Bool.and_false, Bool.false_eq_true, if_false, h3]

/-- A ring step taken at a green phase: whether the wait completes or is cut short, the
cursor becomes the phase's `to_yellow` and the layer does not change. -/
theorem normal_step_green (evs : Nat → Option Char) (s : Ctl) (st : normal_def_t)
    (h : find_norm s.ns = some st) (hg : st.is_green = true) :
    (normal_step evs s).ns = st.to_yellow ∧
    (normal_step evs s).in_train_state = s.in_train_state ∧
    (normal_step evs s).normal_ui_base = s.normal_ui_base := by
  obtain ⟨hmem, hid⟩ := find_norm_some h
  obtain ⟨w, hw, hh | ⟨-, -, hh⟩⟩ := normal_step_shape evs s st h
  · have hwn : w.ns = st.id := by
      rw [hw.2.2.2.2.2.2.2.1]; simp [print_normal_line, ped_try_start_ns, hid]
    rw [hh, after_wait_green st hmem hg w hwn]
    refine ⟨rfl, ?_, ?_⟩
    · show w.in_train_state = _
      rw [hw.1]; simp [print_normal_line, ped_try_start_in_train]
    · show w.normal_ui_base = _
      rw [hw.2.2.1]; simp [print_normal_line, ped_try_start_base]
  · rw [hh]
    refine ⟨rfl, ?_, ?_⟩
    · show w.in_train_state = _
      rw [hw.1]; simp [print_normal_line, ped_try_start_in_train]
    · show w.normal_ui_base = _
      rw [hw.2.2.1]; simp [print_normal_line, ped_try_start_base]

/-- A train step taken at a train green (`S02` or `S06`): the cursor becomes the next
state, a yellow, and the train layer is kept. -/
theorem train_run_green (evs : Nat → Option Char) (s : Ctl)
    (h : s.tr = TR_S02_R3_LR_G ∨ s.tr = TR_S06_R1_SPLIT_G) (hl : s.in_train_state = true) :
    (train_run_until_exit evs s).tr = s.tr + 1 ∧
    (train_run_until_exit evs s).in_train_state = true := by
  obtain ⟨c1, -, -, c4, -, -, -, -, -⟩ := clear_notice_polled s
  obtain ⟨w, hw, hh⟩ := train_step_shape evs (clear_notice s)
  have hwt : w.tr = s.tr := by
    rw [hw.2.2.2.2.2.1]; simp [print_train_line, ped_try_start_tr, c4]
  have hwl : w.in_train_state = true := by
    rw [hw.1]; simp [print_train_line, ped_try_start_in_train, c1, hl]
  unfold train_run_until_exit
  rw [hh]
  rcases h with h | h <;>
  · rw [h] at hwt
    simp [train_exit_check, train_after_wait, train_next, train_is_prep, train_is_safe_allred,
      hwt, h, hwl]

/-- C3: in demo1.c, from every ring phase with `is_green` set and from both train greens
(`TR_S02_R3_LR_G`, `TR_S06_R1_SPLIT_G`), for every event schedule (so whether the green
runs its full duration or is cut short by a train request), the two status lines printed
by this step and the next one are the green and then the matching yellow of the same
movement (RS-G to RS-Y, L-G to L-Y, LR-G to LR-Y, SR-G/SL-G to SR-Y/SL-Y), all other
approaches RED on both; the layer does not change in between. -/
theorem C3_green_then_matching_yellow (evs : Nat → Option Char) (s : Ctl)
    (h : (s.in_train_state = false ∧ is_normal_green s.ns = true) ∨
         (s.in_train_state = true ∧ (s.tr = TR_S02_R3_LR_G ∨ s.tr = TR_S06_R1_SPLIT_G))) :
    (main_iter evs s).in_train_state = s.in_train_state ∧
    ∃ g y : StatusLine,
      status_lines (main_iter evs (main_iter evs s)).out = status_lines s.out ++ [g, y] ∧
      g.mode = y.mode ∧
      ((g.r3, g.r1_we, g.r1_ew), (y.r3, y.r1_we, y.r1_ew)) ∈
        [ (("RS-G", "RED", "RED"), ("RS-Y", "RED", "RED")),
          (("L-G", "RED", "RED"), ("L-Y", "RED", "RED")),
          (("RED", "RS-G", "RS-G"), ("RED", "RS-Y", "RS-Y")),
          (("RED", "L-G", "L-G"), ("RED", "L-Y", "L-Y")),
          (("LR-G", "RED", "RED"), ("LR-Y", "RED", "RED")),
          (("RED", "SR-G", "SL-G"), ("RED", "SR-Y", "SL-Y")) ] := by
  rcases h with ⟨hl, hg⟩ | ⟨hl, ht⟩
  · obtain ⟨st, hst, hgs⟩ := is_normal_green_find hg
    obtain ⟨hmem, hid⟩ := find_norm_some hst
    obtain ⟨n1, n2, n3⟩ := normal_step_green evs s st hst hgs
    have e1 : main_iter evs s = normal_step evs s := by simp [main_iter, hl]
    have e2 : main_iter evs (normal_step evs s) = normal_step evs (normal_step evs s) := by
      simp [main_iter, n2, hl]
    rw [e1, e2]
    refine ⟨n2, ?_⟩
    obtain ⟨y, hy⟩ : ∃ y, find_norm (normal_step evs s).ns = some y := by
      rw [n1]; exact find_norm_lt (NORM_to_yellow_lt st hmem)
    rw [normal_step_lines evs _ y hy, normal_step_lines evs s st hst, List.append_assoc,
      List.singleton_append]
    rw [n1] at hy
    refine ⟨_, _, rfl, rfl, ?_⟩
    simp only [NORM, List.mem_cons, List.mem_singleton, List.not_mem_nil, or_false] at hmem
    rcases hmem with rfl | rfl | rfl | rfl | rfl | rfl | rfl | rfl | rfl | rfl | rfl | rfl <;>
      first
        | exact absurd hgs (by decide)
        | (cases hy; simp)
  · obtain ⟨t1, t2⟩ := train_run_green evs s ht hl
    have e1 : main_iter evs s = train_run_until_exit evs s := by simp [main_iter, hl]
    have e2 : main_iter evs (train_run_until_exit evs s) =
        train_run_until_exit evs (train_run_until_exit evs s) := by
      simp [main_iter, t2]
    rw [e1, e2]
    refine ⟨by rw [t2, hl], ?_⟩
    rw [train_run_lines, train_run_lines, List.append_assoc, List.singleton_append, t1]
    refine ⟨_, _, rfl, rfl, ?_⟩
    rcases ht with ht | ht <;> rw [ht] <;> simp [train_lights]

theorem C3_green_then_matching_yellow_witness :
    ((init.in_train_state = false ∧ is_normal_green (run (fun _ => none) 2 init).ns = true) ∨
     ((run (fun _ => none) 2 init).in_train_state = true ∧
       ((run (fun _ => none) 2 init).tr = TR_S02_R3_LR_G ∨
        (run (fun _ => none) 2 init).tr = TR_S06_R1_SPLIT_G))) ∧
    (main_iter (fun _ => none) (run (fun _ => none) 2 init)).in_train_state = false :=
  ⟨by decide,
   (C3_green_then_matching_yellow (fun _ => none) (run (fun _ => none) 2 init)
      (Or.inl (by decide))).1⟩

end Demo1

namespace Demo1

/-! ## Counting quanta: preemption latency (C5) -/

theorem apply_event_counters (ev : Char) (s : Ctl) :
    (apply_event ev s).polls = s.polls ∧ (apply_event ev s).slept_ms = s.slept_ms := by
  unfold apply_event
  split_ifs <;> exact ⟨rfl, rfl⟩

theorem quantum_counters (evs : Nat → Option Char) (ms : Nat) (s : Ctl) :
    (poll_events_from_qnet_nonblock evs (nanosleep_ms ms s)).polls = s.polls + 1 ∧
    (poll_events_from_qnet_nonblock evs (nanosleep_ms ms s)).slept_ms = s.slept_ms + ms := by
  unfold poll_events_from_qnet_nonblock
  split
  · exact ⟨rfl, rfl⟩
  · exact ⟨(apply_event_counters _ _).1, (apply_event_counters _ _).2⟩

/-- A poll that receives `'t'` sets `train_request`. -/
theorem quantum_request_of_t (evs : Nat → Option Char) (ms : Nat) (s : Ctl)
    (h : evs s.polls = some 't') :
    (poll_events_from_qnet_nonblock evs (nanosleep_ms ms s)).train_request = true := by
  simp [poll_events_from_qnet_nonblock, nanosleep_ms, h, apply_event, notify]

/-- A poll that does not receive `'t'` cannot raise `train_request`. -/
theorem quantum_request_of_not_t (evs : Nat → Option Char) (ms : Nat) (s : Ctl)
    (h : evs s.polls ≠ some 't') (hr : s.train_request = false) :
    (poll_events_from_qnet_nonblock evs (nanosleep_ms ms s)).train_request = false := by
  unfold poll_events_from_qnet_nonblock
  simp only [nanosleep_ms]
  split
  · exact hr
  · rename_i ev hev
    have hne : ev ≠ 't' := fun he => h (by rw [hev, he])
    unfold apply_event
    split_ifs with h1 h2 h3
    · exact absurd h1 (by simpa using hne)
    · rfl
    · exact hr
    · exact hr

/-- The wait loop of `normal_step` in a green phase with `train_request` clear: if the
first `'t'` arrives at poll number `q` of the loop (counted from 0) and the loop has more
than `q` iterations, the loop returns at that poll, after `q + 1` quanta. -/
theorem normal_wait_loop_preempt (st : normal_def_t) (evs : Nat → Option Char) (q : Nat) :
    ∀ (n : Nat) (s : Ctl), q < n → s.train_request = false → is_normal_green s.ns = true →
      (∀ j, j < q → evs (s.polls + j) ≠ some 't') → evs (s.polls + q) = some 't' →
      ∃ w, normal_wait_loop st evs n s = (true, preempt_block st w) ∧ Polled s w ∧
        w.polls = s.polls + (q + 1) ∧ w.slept_ms = s.slept_ms + 100 * (q + 1) := by
  induction q with
  | zero =>
    intro n s hn hr hg _ ht
    obtain ⟨m, rfl⟩ : ∃ m, n = m + 1 := ⟨n - 1, by omega⟩
    have hreq := quantum_request_of_t evs 100 s (by simpa using ht)
    have hpol := quantum_polled evs 100 s
    have hcnt := quantum_counters evs 100 s
    refine ⟨poll_events_from_qnet_nonblock evs (nanosleep_ms 100 s), ?_, hpol, hcnt.1, by
      rw [hcnt.2]⟩
    simp [normal_wait_loop, normal_wait_quantum, hreq, hpol.2.2.2.2.2.2.2.1, hg]
  | succ q ih =>
    intro n s hn hr hg hno ht
    obtain ⟨m, rfl⟩ : ∃ m, n = m + 1 := ⟨n - 1, by omega⟩
    have hreq := quantum_request_of_not_t evs 100 s (by simpa using hno 0 (by omega)) hr
    have hpol := quantum_polled evs 100 s
    have hcnt := quantum_counters evs 100 s
    obtain ⟨w, hw, hpw, hp, hs⟩ := ih m (poll_events_from_qnet_nonblock evs (nanosleep_ms 100 s))
      (by omega) hreq (by rw [hpol.2.2.2.2.2.2.2.1]; exact hg)
      (fun j hj => by rw [hcnt.1]; have := hno (j + 1) (by omega); rwa [show s.polls + 1 + j = s.polls + (j + 1) by omega])
      (by rw [hcnt.1, show s.polls + 1 + q = s.polls + (q + 1) by omega]; exact ht)
    refine ⟨w, ?_, hpol.trans hpw, by rw [hp, hcnt.1]; omega, by rw [hs, hcnt.2]; omega⟩
    simp [normal_wait_loop, normal_wait_quantum, hreq, hw]

end Demo1

namespace Demo1

theorem NORM_steps :
    ∀ st ∈ NORM, st.dur_s * 1000 % UINT_MOD / 100 = 10 * st.dur_s ∧
      st.dur_s * 1000 % UINT_MOD % 100 = 0 := by
  decide

/-- Preemption latency of `normal_step`: in a green ring phase with `train_request`
clear, if the first `'t'` is received at quantum `q + 1` of the wait, the step returns
after exactly `q + 1` quanta with the cursor at the phase's yellow and
`train_preempt_to_allred` set. -/
theorem normal_step_preempt_latency (evs : Nat → Option Char) (s : Ctl) (st : normal_def_t)
    (q : Nat) (hst : find_norm s.ns = some st) (hg : st.is_green = true)
    (hr : s.train_request = false) (hq : q + 1 ≤ 10 * st.dur_s)
    (hno : ∀ j, j < q → evs (s.polls + j) ≠ some 't') (ht : evs (s.polls + q) = some 't') :
    (normal_step evs s).slept_ms = s.slept_ms + 100 * (q + 1) ∧
    (normal_step evs s).polls = s.polls + (q + 1) ∧
    (normal_step evs s).ns = st.to_yellow ∧ st.to_yellow = s.ns + 1 ∧
    (normal_step evs s).train_preempt_to_allred = true ∧
    (normal_step evs s).in_train_state = s.in_train_state := by
  obtain ⟨hmem, hid⟩ := find_norm_some hst
  obtain ⟨-, hy, -, -, hsafe⟩ := NORM_green_facts st hmem hg
  obtain ⟨hsteps, hrem⟩ := NORM_steps st hmem
  have hgreen : is_normal_green s.ns = true := by simp [is_normal_green, hst, hg]
  obtain ⟨w, hw, hpw, hp, hs⟩ := normal_wait_loop_preempt st evs q (10 * st.dur_s)
    (print_normal_line s.ns st s) (by omega) hr hgreen hno ht
  have hstep : normal_step evs s = preempt_block st w := by
    simp [normal_step, hst, hsafe, ped_try_start_at_safe_allred, normal_wait, hsteps, hw]
  rw [hstep]
  refine ⟨hs, hp, rfl, by rw [hy, hid], rfl, ?_⟩
  show w.in_train_state = _
  rw [hpw.1]; rfl

end Demo1

namespace Fsm

/-! ## Counting quanta: preemption latency (C5) -/

theorem apply_event_polls (s : Ctl) (ev : Char) : (apply_event s ev).polls = s.polls := by
  unfold apply_event
  split_ifs <;> rfl

theorem foldl_apply_event_polls (l : List Char) (s : Ctl) :
    (l.foldl apply_event s).polls = s.polls := by
  induction l generalizing s with
  | nil => rfl
  | cons a l ih => rw [List.foldl_cons, ih, apply_event_polls]

theorem mq_quantum_counters (evs : Nat → List Char) (ms : Nat) (s : Ctl) :
    (poll_events_from_mq evs (nanosleep_ms ms s)).polls = s.polls + 1 ∧
    (poll_events_from_mq evs (nanosleep_ms ms s)).slept_ms = s.slept_ms + ms := by
  constructor
  · unfold poll_events_from_mq
    rw [foldl_apply_event_polls]
    rfl
  · have := congrArg (fun p => p.2.2.2.2.2.2.1) (poll_unpolled evs (nanosleep_ms ms s))
    simpa [unpolled, nanosleep_ms] using this

/-- A batch without `'t'` cannot raise `train_request`. -/
theorem foldl_request_false (l : List Char) (s : Ctl) (h : 't' ∉ l)
    (hr : s.train_request = false) : (l.foldl apply_event s).train_request = false := by
  induction l generalizing s with
  | nil => exact hr
  | cons a l ih =>
    rw [List.foldl_cons]
    simp only [List.mem_cons, not_or] at h
    apply ih _ h.2
    unfold apply_event
    split_ifs with h1 h2 h3
    · exact absurd h1 (by simpa using fun e => h.1 e.symm)
    · rfl
    · exact hr
    · exact hr

/-- A batch without `'c'` cannot clear `train_request`. -/
theorem foldl_request_true (l : List Char) (s : Ctl) (h : 'c' ∉ l)
    (hr : s.train_request = true) : (l.foldl apply_event s).train_request = true := by
  induction l generalizing s with
  | nil => exact hr
  | cons a l ih =>
    rw [List.foldl_cons]
    simp only [List.mem_cons, not_or] at h
    apply ih _ h.2
    unfold apply_event
    split_ifs with h1 h2 h3
    · rfl
    · exact absurd h2 (by simpa using fun e => h.1 e.symm)
    · exact hr
    · exact hr

/-- A batch containing a `'t'` that no `'c'` follows leaves `train_request` set. -/
theorem foldl_request_of_t (pre post : List Char) (s : Ctl) (h : 'c' ∉ post) :
    ((pre ++ 't' :: post).foldl apply_event s).train_request = true := by
  rw [List.foldl_append, List.foldl_cons]
  apply foldl_request_true _ _ h
  simp [apply_event]

theorem quantum_in_train_mode (evs : Nat → List Char) (ms : Nat) (s : Ctl) :
    (poll_events_from_mq evs (nanosleep_ms ms s)).in_train_mode = s.in_train_mode := by
  have := congrArg (fun p => p.2.1) (poll_unpolled evs (nanosleep_ms ms s))
  simpa [unpolled, nanosleep_ms] using this

theorem quantum_cur (evs : Nat → List Char) (ms : Nat) (s : Ctl) :
    (poll_events_from_mq evs (nanosleep_ms ms s)).cur = s.cur := by
  rw [poll_cur]; rfl

/-- The loop of `wait_seconds_interruptible` at a ring green with `train_request` and
`in_train_mode` clear: if the polls before number `q` of the loop (counted from 0) bring no
`'t'`, and poll `q` brings a `'t'` that no `'c'` follows, the loop returns at that poll,
after `q + 1` quanta. -/
theorem wait_loop_preempt (evs : Nat → List Char) (q : Nat) :
    ∀ (n : Nat) (s : Ctl), q < n → s.train_request = false → s.in_train_mode = false →
      is_normal_green s.cur = true →
      (∀ j, j < q → 't' ∉ evs (s.polls + j)) →
      (∃ pre post, evs (s.polls + q) = pre ++ 't' :: post ∧ 'c' ∉ post) →
      ∃ w, wait_loop evs n s = (true, preempt_block w) ∧ w.cur = s.cur ∧
        w.polls = s.polls + (q + 1) ∧ w.slept_ms = s.slept_ms + 100 * (q + 1) := by
  induction q with
  | zero =>
    intro n s hn hr hm hg _ ht
    obtain ⟨m, rfl⟩ : ∃ m, n = m + 1 := ⟨n - 1, by omega⟩
    obtain ⟨pre, post, hb, hc⟩ := ht
    have hreq : (poll_events_from_mq evs (nanosleep_ms 100 s)).train_request = true := by
      unfold poll_events_from_mq
      simp only [nanosleep_ms]
      rw [show s.polls = s.polls + 0 from rfl, hb]
      exact foldl_request_of_t pre post _ hc
    have hcnt := mq_quantum_counters evs 100 s
    refine ⟨poll_events_from_mq evs (nanosleep_ms 100 s), ?_, quantum_cur evs 100 s, hcnt.1, by
      rw [hcnt.2]⟩
    simp [wait_loop, wait_quantum, hreq, quantum_in_train_mode, quantum_cur, hm, hg]
  | succ q ih =>
    intro n s hn hr hm hg hno ht
    obtain ⟨m, rfl⟩ : ∃ m, n = m + 1 := ⟨n - 1, by omega⟩
    have hreq : (poll_events_from_mq evs (nanosleep_ms 100 s)).train_request = false := by
      unfold poll_events_from_mq
      simp only [nanosleep_ms]
      exact foldl_request_false _ _ (by simpa using hno 0 (by omega)) hr
    have hcnt := mq_quantum_counters evs 100 s
    obtain ⟨w, hw, hwc, hp, hs⟩ := ih m (poll_events_from_mq evs (nanosleep_ms 100 s))
      (by omega) hreq (by rw [quantum_in_train_mode, hm]) (by rw [quantum_cur]; exact hg)
      (fun j hj => by
        rw [hcnt.1, show s.polls + 1 + j = s.polls + (j + 1) by omega]
        exact hno (j + 1) (by omega))
      (by rw [hcnt.1, show s.polls + 1 + q = s.polls + (q + 1) by omega]; exact ht)
    refine ⟨w, ?_, by rw [hwc, quantum_cur], by rw [hp, hcnt.1]; omega, by rw [hs, hcnt.2]; omega⟩
    simp [wait_loop, wait_quantum, hreq, hw]

end Fsm

namespace Fsm

theorem preempt_block_fields (w : Ctl) :
    (preempt_block w).cur = normal_green_to_yellow w.cur ∧
    (preempt_block w).slept_ms = w.slept_ms ∧ (preempt_block w).polls = w.polls ∧
    (preempt_block w).train_preempt_to_allred = true ∧
    (preempt_block w).in_train_mode = w.in_train_mode := by
  unfold preempt_block
  simp only []
  split_ifs <;> simp [notify]

theorem is_normal_green_succ {c : Nat} (h : is_normal_green c = true) :
    normal_green_to_yellow c = c + 1 ∧
    (c, normal_green_to_yellow c) ∈
      [(N_R3_RS_G, N_R3_RS_Y), (N_R3_L_G, N_R3_L_Y), (N_R1_RS_G, N_R1_RS_Y),
       (N_R1_L_G, N_R1_L_Y)] := by
  simp [is_normal_green] at h
  rcases h with ((h | h) | h) | h <;> subst h <;> decide

/-- Preemption latency of `wait_seconds_interruptible`. -/
theorem wait_preempt_latency (evs : Nat → List Char) (s : Ctl) (total_sec q : Nat)
    (hov : total_sec * 1000 < UINT_MOD) (hq : q + 1 ≤ 10 * total_sec)
    (hg : is_normal_green s.cur = true) (hm : s.in_train_mode = false)
    (hr : s.train_request = false)
    (hno : ∀ j, j < q → 't' ∉ evs (s.polls + j))
    (ht : ∃ pre post, evs (s.polls + q) = pre ++ 't' :: post ∧ 'c' ∉ post) :
    (wait_seconds_interruptible total_sec evs s).slept_ms = s.slept_ms + 100 * (q + 1) ∧
    (wait_seconds_interruptible total_sec evs s).polls = s.polls + (q + 1) ∧
    (wait_seconds_interruptible total_sec evs s).cur = normal_green_to_yellow s.cur ∧
    (wait_seconds_interruptible total_sec evs s).train_preempt_to_allred = true := by
  have hsteps : total_sec * 1000 % UINT_MOD / 100 = 10 * total_sec := by
    rw [Nat.mod_eq_of_lt hov]; omega
  obtain ⟨w, hw, hwc, hp, hs⟩ := wait_loop_preempt evs q (10 * total_sec) s (by omega) hr hm hg
    hno ht
  obtain ⟨b1, b2, b3, b4, -⟩ := preempt_block_fields w
  have h0 : total_sec ≠ 0 := by omega
  have hstep : wait_seconds_interruptible total_sec evs s = preempt_block w := by
    simp [wait_seconds_interruptible, h0, hsteps, hw]
  rw [hstep, b1, b2, b3, b4, hwc, hp, hs]
  exact ⟨rfl, rfl, rfl, rfl⟩

end Fsm

/-- C5 (as amended): train preemption latency. In demo1.c `normal_step`, and in
traffic_fsm.c `wait_seconds_interruptible` called with a duration of `total_sec` seconds,
if the ring is in a green phase (in traffic_fsm.c: the cursor is a ring green and
`in_train_mode` is clear) with `train_request` false, no TrainDetected is sampled before
quantum `q + 1`, and a TrainDetected is sampled at quantum `q + 1` (at most 10 times the
phase duration in seconds; in traffic_fsm.c, where one poll drains the whole queue, not
followed by a TrainCleared in the same poll), then the wait ends at quantum `q + 1` (it has
slept exactly `100 * (q + 1)` ms and polled `q + 1` times), the cursor is that green's
matching yellow (the next state), and the preempt-to-all-red flag is set. -/
theorem C5_preempt_latency :
    (∀ (evs : Nat → Option Char) (s : Demo1.Ctl) (st : Demo1.normal_def_t) (q : Nat),
      Demo1.find_norm s.ns = some st → st.is_green = true → s.in_train_state = false →
      s.train_request = false → q + 1 ≤ 10 * st.dur_s →
      (∀ j, j < q → evs (s.polls + j) ≠ some 't') → evs (s.polls + q) = some 't' →
      (Demo1.normal_step evs s).slept_ms = s.slept_ms + 100 * (q + 1) ∧
      (Demo1.normal_step evs s).polls = s.polls + (q + 1) ∧
      (Demo1.normal_step evs s).ns = st.to_yellow ∧ st.to_yellow = s.ns + 1 ∧
      (Demo1.normal_step evs s).train_preempt_to_allred = true) ∧
    (∀ (evs : Nat → List Char) (s : Fsm.Ctl) (total_sec q : Nat),
      Fsm.is_normal_green s.cur = true → s.in_train_mode = false →
      s.train_request = false → total_sec * 1000 < Fsm.UINT_MOD → q + 1 ≤ 10 * total_sec →
      (∀ j, j < q → 't' ∉ evs (s.polls + j)) →
      (∃ pre post, evs (s.polls + q) = pre ++ 't' :: post ∧ 'c' ∉ post) →
      (Fsm.wait_seconds_interruptible total_sec evs s).slept_ms = s.slept_ms + 100 * (q + 1) ∧
      (Fsm.wait_seconds_interruptible total_sec evs s).polls = s.polls + (q + 1) ∧
      (Fsm.wait_seconds_interruptible total_sec evs s).cur = Fsm.normal_green_to_yellow s.cur ∧
      Fsm.normal_green_to_yellow s.cur = s.cur + 1 ∧
      (Fsm.wait_seconds_interruptible total_sec evs s).train_preempt_to_allred = true) := by
  constructor
  · intro evs s st q hst hg _ hr hq hno ht
    obtain ⟨h1, h2, h3, h4, h5, -⟩ :=
      Demo1.normal_step_preempt_latency evs s st q hst hg hr hq hno ht
    exact ⟨h1, h2, h3, h4, h5⟩
  · intro evs s total_sec q hg hm hr hov hq hno ht
    obtain ⟨h1, h2, h3, h4⟩ := Fsm.wait_preempt_latency evs s total_sec q hov hq hg hm hr hno ht
    exact ⟨h1, h2, h3, (Fsm.is_normal_green_succ hg).1, h4⟩

set_option maxRecDepth 100000 in
/-- A run of both halves of C5 on concrete inputs: demo1.c in its first through-green with
a `'t'` at the 30th quantum, traffic_fsm.c in its initial green with a `'t'` at the 30th
quantum. -/
theorem C5_preempt_latency_witness :
    (Demo1.normal_step (fun i => if i = 129 then some 't' else none)
        (Demo1.run (fun i => if i = 129 then some 't' else none) 2 Demo1.init)).slept_ms
      = 10000 + 100 * (29 + 1) ∧
    (Fsm.wait_seconds_interruptible 20 (fun i => if i = 29 then ['t'] else []) Fsm.init).slept_ms
      = 0 + 100 * (29 + 1) :=
  ⟨(C5_preempt_latency.1 (fun i => if i = 129 then some 't' else none)
      (Demo1.run (fun i => if i = 129 then some 't' else none) 2 Demo1.init)
      ⟨Demo1.N_R3_RS_G, Demo1.T_RS_GREEN, "RS-G", "RED", "RED", false, false, true,
        Demo1.N_R3_RS_Y, Demo1.N_R3_RS_Y⟩ 29
      (by decide) (by decide) (by decide) (by decide) (by decide)
      (fun j hj => by
        have : (Demo1.run (fun i => if i = 129 then some 't' else none) 2 Demo1.init).polls
            = 100 := by decide
        rw [this]; simp; omega)
      (by decide)).1,
   (C5_preempt_latency.2 (fun i => if i = 29 then ['t'] else []) Fsm.init 20 29
      (by decide) (by decide) (by decide) (by decide) (by decide)
      (fun j hj => by
        have : Fsm.init.polls = 0 := rfl
        rw [this]; simp; omega)
      ⟨[], [], by decide, by decide⟩).1⟩

set_option maxRecDepth 100000 in
/-- C5, counterexample to the claim as stated: in traffic_fsm.c one poll drains the whole
queue, so a TrainDetected that is followed by a TrainCleared in the same poll is sampled at
quantum 1 of a ring green and yet the wait does not end there: it runs the full 20 s, the
cursor stays at the green and the preempt-to-all-red flag stays clear. -/
theorem C5_counterexample :
    Fsm.is_normal_green Fsm.init.cur = true ∧ Fsm.init.in_train_mode = false ∧
    Fsm.init.train_request = false ∧
    't' ∈ (fun i : Nat => if i = 0 then ['t', 'c'] else []) Fsm.init.polls ∧
    (Fsm.wait_seconds_interruptible 20 (fun i => if i = 0 then ['t', 'c'] else [])
      Fsm.init).slept_ms = 20000 ∧
    (Fsm.wait_seconds_interruptible 20 (fun i => if i = 0 then ['t', 'c'] else [])
      Fsm.init).cur = Fsm.N_R3_RS_G ∧
    (Fsm.wait_seconds_interruptible 20 (fun i => if i = 0 then ['t', 'c'] else [])
      Fsm.init).train_preempt_to_allred = false := by
  decide

namespace Demo1

/-! ## Waiting with and without events: exact results (C6) -/

theorem ped_try_start_frame (b : Bool) (s : Ctl) :
    (ped_try_start_at_safe_allred b s).polls = s.polls ∧
    (ped_try_start_at_safe_allred b s).train_request = s.train_request ∧
    (ped_try_start_at_safe_allred b s).slept_ms = s.slept_ms := by
  unfold ped_try_start_at_safe_allred
  split_ifs <;> exact ⟨rfl, rfl, rfl⟩

/-- A quantum in which the poll receives nothing only advances the two counters. -/
theorem idle_quantum (evs : Nat → Option Char) (ms : Nat) (s : Ctl) (h : evs s.polls = none) :
    poll_events_from_qnet_nonblock evs (nanosleep_ms ms s) =
      { s with slept_ms := s.slept_ms + ms, polls := s.polls + 1 } := by
  simp [poll_events_from_qnet_nonblock, nanosleep_ms, h]

theorem idle_wait_poll_loop (evs : Nat → Option Char) (n : Nat) :
    ∀ s : Ctl, (∀ j, j < n → evs (s.polls + j) = none) →
      wait_poll_loop evs n s =
        { s with slept_ms := s.slept_ms + 100 * n, polls := s.polls + n } := by
  induction n with
  | zero => intro s _; rfl
  | succ n ih =>
    intro s h
    rw [wait_poll_loop, idle_quantum evs 100 s (by simpa using h 0 (by omega)), ih]
    · simp only [Ctl.mk.injEq, true_and, and_true]
      constructor <;> omega
    · intro j hj
      have := h (j + 1) (by omega)
      simpa [Nat.add_assoc, Nat.add_comm 1 j] using this

theorem idle_normal_wait_loop (st : normal_def_t) (evs : Nat → Option Char) (n : Nat) :
    ∀ s : Ctl, (∀ j, j < n → evs (s.polls + j) = none) →
      (s.train_request && is_normal_green s.ns) = false →
      normal_wait_loop st evs n s =
        (false, { s with slept_ms := s.slept_ms + 100 * n, polls := s.polls + n }) := by
  induction n with
  | zero => intro s _ _; rfl
  | succ n ih =>
    intro s h hc
    have hq := idle_quantum evs 100 s (by simpa using h 0 (by omega))
    rw [normal_wait_loop, normal_wait_quantum]
    simp only [hq, hc, Bool.false_eq_true, if_false]
    rw [ih]
    · simp only [Ctl.mk.injEq, true_and, and_true, Prod.mk.injEq]
      constructor <;> omega
    · intro j hj
      have := h (j + 1) (by omega)
      simpa [Nat.add_assoc, Nat.add_comm 1 j] using this
    · exact hc

/-- The loop of `normal_step` in a green phase when nothing is received before poll `q`
of the loop and poll `q` receives `'t'`. -/
theorem normal_wait_loop_t_at (st : normal_def_t) (evs : Nat → Option Char) (q : Nat) :
    ∀ (n : Nat) (s : Ctl), q < n → s.train_request = false → is_normal_green s.ns = true →
      (∀ j, j < q → evs (s.polls + j) = none) → evs (s.polls + q) = some 't' →
      normal_wait_loop st evs n s =
        (true, preempt_block st (apply_event 't'
          { s with slept_ms := s.slept_ms + 100 * (q + 1), polls := s.polls + (q + 1) })) := by
  induction q with
  | zero =>
    intro n s hn _ hg _ ht
    obtain ⟨m, rfl⟩ : ∃ m, n = m + 1 := ⟨n - 1, by omega⟩
    have hreq := quantum_request_of_t evs 100 s (by simpa using ht)
    have hpol := quantum_polled evs 100 s
    rw [normal_wait_loop, normal_wait_quantum]
    simp only [hreq, hpol.2.2.2.2.2.2.2.1, hg, Bool.and_self, if_true]
    simp [poll_events_from_qnet_nonblock, nanosleep_ms, show evs s.polls = some 't' by simpa using ht]
  | succ q ih =>
    intro n s hn hr hg hno ht
    obtain ⟨m, rfl⟩ : ∃ m, n = m + 1 := ⟨n - 1, by omega⟩
    have hq := idle_quantum evs 100 s (by simpa using hno 0 (by omega))
    have hstep : normal_wait_quantum st evs 100 s =
        (false, { s with slept_ms := s.slept_ms + 100, polls := s.polls + 1 }) := by
      rw [normal_wait_quantum]
      simp only [hq]
      rw [if_neg (by simp [hr])]
    rw [normal_wait_loop, hstep]
    simp only []
    rw [ih m { s with slept_ms := s.slept_ms + 100, polls := s.polls + 1 } (by omega) hr hg]
    · have e1 : s.slept_ms + 100 + 100 * (q + 1) = s.slept_ms + 100 * (q + 1 + 1) := by omega
      have e2 : s.polls + 1 + (q + 1) = s.polls + (q + 1 + 1) := by omega
      simp only [e1, e2]
    · intro j hj
      have := hno (j + 1) (by omega)
      simpa [Nat.add_assoc, Nat.add_comm 1 j] using this
    · simpa [Nat.add_assoc, Nat.add_comm 1 q] using ht

end Demo1

namespace Demo1

/-- A ring step in a green phase that receives nothing before quantum `q + 1` and `'t'`
at quantum `q + 1`: the exact resulting state. -/
theorem normal_step_t_at (evs : Nat → Option Char) (s : Ctl) (st : normal_def_t) (q : Nat)
    (hst : find_norm s.ns = some st) (hg : st.is_green = true)
    (hr : s.train_request = false) (hq : q + 1 ≤ 10 * st.dur_s)
    (hno : ∀ j, j < q → evs (s.polls + j) = none) (ht : evs (s.polls + q) = some 't') :
    normal_step evs s =
      preempt_block st (apply_event 't'
        { print_normal_line s.ns st s with
            slept_ms := s.slept_ms + 100 * (q + 1), polls := s.polls + (q + 1) }) := by
  obtain ⟨hmem, hid⟩ := find_norm_some hst
  obtain ⟨-, -, -, -, hsafe⟩ := NORM_green_facts st hmem hg
  obtain ⟨hsteps, hrem⟩ := NORM_steps st hmem
  have hgreen : is_normal_green s.ns = true := by simp [is_normal_green, hst, hg]
  have hw := normal_wait_loop_t_at st evs q (10 * st.dur_s) (print_normal_line s.ns st s)
    (by omega) hr hgreen hno ht
  simp [normal_step, hst, hsafe, ped_try_start_at_safe_allred, normal_wait, hsteps, hw]
  rfl

/-- A ring step outside the green phases (or with no train request pending) that receives
nothing during its wait: the exact resulting state. -/
theorem normal_step_idle (evs : Nat → Option Char) (s : Ctl) (st : normal_def_t)
    (hst : find_norm s.ns = some st)
    (hc : (s.train_request && is_normal_green s.ns) = false)
    (hno : ∀ j, j < 10 * st.dur_s → evs (s.polls + j) = none) :
    normal_step evs s =
      normal_after_wait st
        { print_normal_line s.ns st (ped_try_start_at_safe_allred st.is_safe_allred s) with
            slept_ms := s.slept_ms + 100 * (10 * st.dur_s), polls := s.polls + 10 * st.dur_s } := by
  obtain ⟨hmem, hid⟩ := find_norm_some hst
  obtain ⟨hsteps, hrem⟩ := NORM_steps st hmem
  have hf := ped_try_start_frame st.is_safe_allred s
  have hw := idle_normal_wait_loop st evs (10 * st.dur_s)
    (print_normal_line s.ns st (ped_try_start_at_safe_allred st.is_safe_allred s))
    (by simpa [print_normal_line, hf.1] using hno)
    (by simpa [print_normal_line, hf.2.1, ped_try_start_ns] using hc)
  simp only [normal_step, hst, normal_wait, hsteps, hrem, ped_try_start_ns, hw, ne_eq,
    not_true_eq_false, if_false]
  simp [print_normal_line, hf.1, hf.2.2]

/-- A train step that receives nothing during its wait: the exact resulting state. -/
theorem train_step_idle (evs : Nat → Option Char) (s : Ctl) (ht : s.tr < 8)
    (hno : ∀ j, j < 10 * train_duration s.tr → evs (s.polls + j) = none) :
    train_step evs s =
      train_after_wait
        { print_train_line s.tr (ped_try_start_at_safe_allred (train_is_safe_allred s.tr) s) with
            slept_ms := s.slept_ms + 100 * (10 * train_duration s.tr),
            polls := s.polls + 10 * train_duration s.tr } := by
  have hf := ped_try_start_frame (train_is_safe_allred s.tr) s
  have hsteps : train_duration s.tr * 1000 % UINT_MOD / 100 = 10 * train_duration s.tr ∧
      train_duration s.tr * 1000 % UINT_MOD % 100 = 0 := by
    generalize s.tr = t at ht
    interval_cases t <;> decide
  have hw := idle_wait_poll_loop evs (10 * train_duration s.tr)
    (print_train_line s.tr (ped_try_start_at_safe_allred (train_is_safe_allred s.tr) s))
    (by simpa [print_train_line, hf.1] using hno)
  simp only [train_step, wait_with_poll_ms, ped_try_start_tr, print_train_line] at hw ⊢
  simp only [hsteps.1, hsteps.2, hw, ne_eq, not_true_eq_false, if_false]
  simp [hf.1, hf.2.2]

end Demo1

namespace Demo1

/-! ## The concrete preemption scenario (C6) -/

theorem scenario_green_R3 (evs : Nat → Option Char) (ub : Int) (tr : Nat) (cn : Bool)
    (sl po : Nat) (out : List Out) (ht : evs (po + 29) = some 't')
    (hno : ∀ j, j < 29 → evs (po + j) = none) :
    ∃ o lab, main_iter evs ⟨false, false, false, false, false, false, ub, false, false, tr, cn,
        N_R3_RS_G, sl, po, out⟩ =
      ⟨true, true, false, false, false, true, ub, false, false, tr, cn,
        N_R3_RS_Y, sl + 3000, po + 30, o⟩ ∧
      status_lines o = status_lines out ++ [⟨"NORMAL", lab, 20, "RS-G", "RED", "RED", "RED"⟩] := by
  have hst : find_norm N_R3_RS_G = some ⟨N_R3_RS_G, T_RS_GREEN, "RS-G", "RED", "RED",
      false, false, true, N_R3_RS_Y, N_R3_RS_Y⟩ := by decide
  exact ⟨_, _, by
    rw [main_iter]
    simp only [Bool.not_false, if_true]
    rw [normal_step_t_at evs _ _ 29 hst rfl rfl (by decide) hno ht]
    simp only [preempt_block, apply_event, notify, print_normal_line, ped_output,
      EVT_TRAIN_DETECT, if_true, Bool.false_eq_true, if_false]
    rfl, by rw [status_lines_append_note, status_lines_append_line]; rfl⟩

theorem scenario_green_R1 (evs : Nat → Option Char) (ub : Int) (tr : Nat) (cn : Bool)
    (sl po : Nat) (out : List Out) (ht : evs (po + 29) = some 't')
    (hno : ∀ j, j < 29 → evs (po + j) = none) :
    ∃ o lab, main_iter evs ⟨false, false, false, false, false, false, ub, false, false, tr, cn,
        N_R1_RS_G, sl, po, out⟩ =
      ⟨true, true, false, false, false, true, ub, false, false, tr, cn,
        N_R1_RS_Y, sl + 3000, po + 30, o⟩ ∧
      status_lines o = status_lines out ++ [⟨"NORMAL", lab, 20, "RED", "RS-G", "RS-G", "RED"⟩] := by
  have hst : find_norm N_R1_RS_G = some ⟨N_R1_RS_G, T_RS_GREEN, "RED", "RS-G", "RS-G",
      false, false, true, N_R1_RS_Y, N_R1_RS_Y⟩ := by decide
  exact ⟨_, _, by
    rw [main_iter]
    simp only [Bool.not_false, if_true]
    rw [normal_step_t_at evs _ _ 29 hst rfl rfl (by decide) hno ht]
    simp only [preempt_block, apply_event, notify, print_normal_line, ped_output,
      EVT_TRAIN_DETECT, if_true, Bool.false_eq_true, if_false]
    rfl, by rw [status_lines_append_note, status_lines_append_line]; rfl⟩

theorem scenario_yellow_R3 (evs : Nat → Option Char) (ub : Int) (tr : Nat) (cn : Bool)
    (sl po : Nat) (out : List Out) (hno : ∀ j, j < 50 → evs (po + j) = none) :
    ∃ o lab, main_iter evs ⟨true, true, false, false, false, true, ub, false, false, tr, cn,
        N_R3_RS_Y, sl, po, out⟩ =
      ⟨true, true, false, false, false, true, ub, false, false, tr, cn,
        N_ALL_RED_1, sl + 5000, po + 50, o⟩ ∧
      status_lines o = status_lines out ++ [⟨"NORMAL", lab, 5, "RS-Y", "RED", "RED", "RED"⟩] := by
  have hst : find_norm N_R3_RS_Y = some ⟨N_R3_RS_Y, T_YELLOW, "RS-Y", "RED", "RED",
      false, false, false, N_R3_RS_Y, N_R3_L_G⟩ := by decide
  exact ⟨_, _, by
    rw [main_iter]
    simp only [Bool.not_false, if_true]
    rw [normal_step_idle evs ⟨true, true, false, false, false, true, ub, false, false, tr, cn,
      N_R3_RS_Y, sl, po, out⟩ _ hst rfl hno]
    simp only [normal_after_wait, ped_try_start_at_safe_allred, print_normal_line, ped_output,
      Bool.not_false, Bool.not_true, if_true, Bool.false_eq_true, if_false]
    rfl, by rw [status_lines_append_line]; rfl⟩

theorem scenario_yellow_R1 (evs : Nat → Option Char) (ub : Int) (tr : Nat) (cn : Bool)
    (sl po : Nat) (out : List Out) (hno : ∀ j, j < 50 → evs (po + j) = none) :
    ∃ o lab, main_iter evs ⟨true, true, false, false, false, true, ub, false, false, tr, cn,
        N_R1_RS_Y, sl, po, out⟩ =
      ⟨true, true, false, false, false, true, ub, false, false, tr, cn,
        N_ALL_RED_2, sl + 5000, po + 50, o⟩ ∧
      status_lines o = status_lines out ++ [⟨"NORMAL", lab, 5, "RED", "RS-Y", "RS-Y", "RED"⟩] := by
  have hst : find_norm N_R1_RS_Y = some ⟨N_R1_RS_Y, T_YELLOW, "RED", "RS-Y", "RS-Y",
      false, false, false, N_R1_RS_Y, N_R1_L_G⟩ := by decide
  exact ⟨_, _, by
    rw [main_iter]
    simp only [Bool.not_false, if_true]
    rw [normal_step_idle evs ⟨true, true, false, false, false, true, ub, false, false, tr, cn,
      N_R1_RS_Y, sl, po, out⟩ _ hst rfl hno]
    simp only [normal_after_wait, ped_try_start_at_safe_allred, print_normal_line, ped_output,
      Bool.not_false, Bool.not_true, if_true, Bool.false_eq_true, if_false]
    rfl, by rw [status_lines_append_line]; rfl⟩

theorem scenario_all_red (evs : Nat → Option Char) (a : Nat)
    (ha : a = N_ALL_RED_1 ∨ a = N_ALL_RED_2) (ub : Int) (tr : Nat) (cn : Bool)
    (sl po : Nat) (out : List Out) (hno : ∀ j, j < 50 → evs (po + j) = none) :
    ∃ o lab, main_iter evs ⟨true, true, false, false, false, true, ub, false, false, tr, cn,
        a, sl, po, out⟩ =
      ⟨false, true, false, false, true, false, ub, false, false, TR_S01_PREP_R3, cn,
        a, sl + 5000, po + 50, o⟩ ∧
      status_lines o = status_lines out ++ [⟨"NORMAL", lab, 5, "RED", "RED", "RED", "RED"⟩] := by
  rcases ha with rfl | rfl
  · have hst : find_norm N_ALL_RED_1 = some ⟨N_ALL_RED_1, T_ALL_RED, "RED", "RED", "RED",
        true, false, false, N_ALL_RED_1, N_PREP_R3⟩ := by decide
    exact ⟨_, _, by
      rw [main_iter]
      simp only [Bool.not_false, if_true]
      rw [normal_step_idle evs ⟨true, true, false, false, false, true, ub, false, false, tr, cn,
        N_ALL_RED_1, sl, po, out⟩ _ hst rfl hno]
      simp only [normal_after_wait, ped_try_start_at_safe_allred, print_normal_line, ped_output,
        notify, Bool.not_false, Bool.not_true, if_true, Bool.false_eq_true, if_false]
      rfl, by rw [status_lines_append_note, status_lines_append_line]; rfl⟩
  · have hst : find_norm N_ALL_RED_2 = some ⟨N_ALL_RED_2, T_ALL_RED, "RED", "RED", "RED",
        true, false, false, N_ALL_RED_2, N_PREP_R1⟩ := by decide
    exact ⟨_, _, by
      rw [main_iter]
      simp only [Bool.not_false, if_true]
      rw [normal_step_idle evs ⟨true, true, false, false, false, true, ub, false, false, tr, cn,
        N_ALL_RED_2, sl, po, out⟩ _ hst rfl hno]
      simp only [normal_after_wait, ped_try_start_at_safe_allred, print_normal_line, ped_output,
        notify, Bool.not_false, Bool.not_true, if_true, Bool.false_eq_true, if_false]
      rfl, by rw [status_lines_append_note, status_lines_append_line]; rfl⟩

end Demo1

namespace Demo1

theorem scenario_train_line (evs : Nat → Option Char) (ub : Int) (cn : Bool) (a sl po : Nat)
    (o : List Out) :
    status_lines (main_iter evs ⟨false, true, false, false, true, false, ub, false, false,
        TR_S01_PREP_R3, cn, a, sl, po, o⟩).out =
      status_lines o ++ [⟨"TRAIN", 1, 5, "PRE-Y", "RED", "RED", "RED"⟩] := by
  rw [main_iter]
  simp only [Bool.not_true, Bool.false_eq_true, if_false]
  rw [train_run_lines]
  rfl

/-- C6: the concrete scenario on demo1.c (all-red 5 s, prep-yellow 5 s, through-green
20 s, through-yellow 5 s). Start in a through-green (`N_R3_RS_G` or `N_R1_RS_G`) with all
flags clear; the only event of the schedule is one `'t'`, received by the 30th poll of the
green. Then the green step sleeps exactly 30 quanta (3000 ms) and ends at the matching
through-yellow; the next step ends at a safe-all-red of the ring; the third step enters
the train layer at `TR_S01_PREP_R3`; and the four status lines printed by the first four
steps are the green (20 s), its through-yellow (5 s), an all-RED ring line (5 s) and the
TRAIN S01 line with R3=PRE-Y (5 s), so no turn-green or turn-yellow is displayed. -/
theorem C6_preempt_scenario (evs : Nat → Option Char) (s : Ctl)
    (hns : s.ns = N_R3_RS_G ∨ s.ns = N_R1_RS_G)
    (h1 : s.train_request = false) (h2 : s.train_active = false)
    (h3 : s.train_clear_pending = false) (h4 : s.ped_request = false)
    (h5 : s.in_train_state = false) (h6 : s.train_preempt_to_allred = false)
    (h7 : s.ped_window_active = false) (h8 : s.ped_window_stop_after_prep = false)
    (ht : evs (s.polls + 29) = some 't') (hno : ∀ i, i ≠ s.polls + 29 → evs i = none) :
    (run evs 1 s).slept_ms = s.slept_ms + 3000 ∧ (run evs 1 s).polls = s.polls + 30 ∧
    (run evs 1 s).ns = s.ns + 1 ∧ (run evs 1 s).in_train_state = false ∧
    ((run evs 2 s).ns = N_ALL_RED_1 ∨ (run evs 2 s).ns = N_ALL_RED_2) ∧
    (run evs 2 s).in_train_state = false ∧
    (run evs 2 s).slept_ms = s.slept_ms + 3000 + 5000 ∧
    (run evs 3 s).in_train_state = true ∧ (run evs 3 s).tr = TR_S01_PREP_R3 ∧
    (run evs 3 s).slept_ms = s.slept_ms + 3000 + 5000 + 5000 ∧
    ∃ lg ly lr lt : StatusLine,
      status_lines (run evs 4 s).out = status_lines s.out ++ [lg, ly, lr, lt] ∧
      ((lg.mode, lg.dur, lg.r3, lg.r1_we, lg.r1_ew),
       (ly.mode, ly.dur, ly.r3, ly.r1_we, ly.r1_ew)) ∈
        [ (("NORMAL", 20, "RS-G", "RED", "RED"), ("NORMAL", 5, "RS-Y", "RED", "RED")),
          (("NORMAL", 20, "RED", "RS-G", "RS-G"), ("NORMAL", 5, "RED", "RS-Y", "RS-Y")) ] ∧
      (lr.mode, lr.dur, lr.r3, lr.r1_we, lr.r1_ew) = ("NORMAL", 5, "RED", "RED", "RED") ∧
      (lt.mode, lt.label, lt.dur, lt.r3, lt.r1_we, lt.r1_ew) =
        ("TRAIN", 1, 5, "PRE-Y", "RED", "RED") := by
  obtain ⟨rq, ac, cp, pr, its, pa, ub, pw, ps, tr, cn, ns, sl, po, out⟩ := s
  simp only at hns h1 h2 h3 h4 h5 h6 h7 h8 ht hno
  subst h1 h2 h3 h4 h5 h6 h7 h8
  have hbefore : ∀ j, j < 29 → evs (po + j) = none := fun j hj => hno _ (by omega)
  have hafter1 : ∀ j, j < 50 → evs (po + 30 + j) = none := fun j _ => hno _ (by omega)
  have hafter2 : ∀ j, j < 50 → evs (po + 30 + 50 + j) = none := fun j _ => hno _ (by omega)
  simp only [run]
  rcases hns with rfl | rfl
  · obtain ⟨o1, lab1, e1, l1⟩ := scenario_green_R3 evs ub tr cn sl po out ht hbefore
    obtain ⟨o2, lab2, e2, l2⟩ := scenario_yellow_R3 evs ub tr cn (sl + 3000) (po + 30) o1 hafter1
    obtain ⟨o3, lab3, e3, l3⟩ := scenario_all_red evs N_ALL_RED_1 (Or.inl rfl) ub tr cn
      (sl + 3000 + 5000) (po + 30 + 50) o2 hafter2
    rw [e1, e2, e3, scenario_train_line, l3, l2, l1]
    refine ⟨rfl, rfl, rfl, rfl, Or.inl rfl, rfl, rfl, rfl, rfl, rfl,
      ⟨"NORMAL", lab1, 20, "RS-G", "RED", "RED", "RED"⟩,
      ⟨"NORMAL", lab2, 5, "RS-Y", "RED", "RED", "RED"⟩,
      ⟨"NORMAL", lab3, 5, "RED", "RED", "RED", "RED"⟩,
      ⟨"TRAIN", 1, 5, "PRE-Y", "RED", "RED", "RED"⟩, ?_, ?_, rfl, rfl⟩
    · simp
    · simp
  · obtain ⟨o1, lab1, e1, l1⟩ := scenario_green_R1 evs ub tr cn sl po out ht hbefore
    obtain ⟨o2, lab2, e2, l2⟩ := scenario_yellow_R1 evs ub tr cn (sl + 3000) (po + 30) o1 hafter1
    obtain ⟨o3, lab3, e3, l3⟩ := scenario_all_red evs N_ALL_RED_2 (Or.inr rfl) ub tr cn
      (sl + 3000 + 5000) (po + 30 + 50) o2 hafter2
    rw [e1, e2, e3, scenario_train_line, l3, l2, l1]
    refine ⟨rfl, rfl, rfl, rfl, Or.inr rfl, rfl, rfl, rfl, rfl, rfl,
      ⟨"NORMAL", lab1, 20, "RED", "RS-G", "RS-G", "RED"⟩,
      ⟨"NORMAL", lab2, 5, "RED", "RS-Y", "RS-Y", "RED"⟩,
      ⟨"NORMAL", lab3, 5, "RED", "RED", "RED", "RED"⟩,
      ⟨"TRAIN", 1, 5, "PRE-Y", "RED", "RED", "RED"⟩, ?_, ?_, rfl, rfl⟩
    · simp
    · simp

set_option maxRecDepth 100000 in
theorem C6_preempt_scenario_witness :
    (run (fun i => if i = 129 then some 't' else none) 3
      (run (fun i => if i = 129 then some 't' else none) 2 init)).tr = TR_S01_PREP_R3 ∧
    (run (fun i => if i = 129 then some 't' else none) 3
      (run (fun i => if i = 129 then some 't' else none) 2 init)).in_train_state = true :=
  have h := C6_preempt_scenario (fun i => if i = 129 then some 't' else none)
    (run (fun i => if i = 129 then some 't' else none) 2 init)
    (Or.inl (by decide)) (by decide) (by decide) (by decide) (by decide) (by decide)
    (by decide) (by decide) (by decide) (by decide)
    (fun i hi => by
      have hp : (run (fun i => if i = 129 then some 't' else none) 2 init).polls = 100 := by
        decide
      rw [hp] at hi
      simp
      omega)
  ⟨h.2.2.2.2.2.2.2.2.1, h.2.2.2.2.2.2.2.1⟩

end Demo1

namespace Demo1

/-! ## Counting notifications -/

theorem count_note_append (n : Notify) (o : List Out) (x : Out) :
    (notices (o ++ [x])).count n =
      (notices o).count n + (if x = Out.note n then 1 else 0) := by
  cases x with
  | line l => simp [notices, List.filterMap_append, Out.asNote]
  | note m =>
    by_cases h : m = n
    · subst h; simp [notices, List.filterMap_append, Out.asNote]
    · have h' : ¬ (m == n) = true := by simpa using h
      simp [notices, List.filterMap_append, Out.asNote, h, h', List.count_cons]

theorem count_note_notify (n m : Notify) (s : Ctl) :
    (notices (notify m s).out).count n = (notices s.out).count n + (if m = n then 1 else 0) := by
  unfold notify
  rw [count_note_append]
  by_cases h : m = n <;> simp [h]

/-- Polling emits no notification other than the preempt notice. -/
theorem quantum_count_note (n : Notify) (hn : n ≠ Notify.train_preempt)
    (evs : Nat → Option Char) (ms : Nat) (s : Ctl) :
    (notices (poll_events_from_qnet_nonblock evs (nanosleep_ms ms s)).out).count n =
      (notices s.out).count n := by
  unfold poll_events_from_qnet_nonblock
  simp only [nanosleep_ms]
  split
  · rfl
  · unfold apply_event
    split_ifs
    · show (notices (notify Notify.train_preempt _).out).count n = _
      rw [count_note_notify, if_neg (fun h => hn h.symm)]
      rfl
    · rfl
    · rfl
    · rfl

theorem wait_poll_loop_count_note (n : Notify) (hn : n ≠ Notify.train_preempt)
    (evs : Nat → Option Char) (k : Nat) :
    ∀ s : Ctl, (notices (wait_poll_loop evs k s).out).count n = (notices s.out).count n := by
  induction k with
  | zero => intro s; rfl
  | succ k ih =>
    intro s
    rw [wait_poll_loop, ih, quantum_count_note n hn]

theorem wait_with_poll_ms_count_note (n : Notify) (hn : n ≠ Notify.train_preempt)
    (evs : Nat → Option Char) (ms : Nat) (s : Ctl) :
    (notices (wait_with_poll_ms ms evs s).out).count n = (notices s.out).count n := by
  unfold wait_with_poll_ms
  simp only []
  split_ifs
  · rw [quantum_count_note n hn, wait_poll_loop_count_note n hn]
  · rw [wait_poll_loop_count_note n hn]

theorem ped_try_start_count_note (n : Notify) (hn : n ≠ Notify.ped_begin) (b : Bool)
    (s : Ctl) :
    (notices (ped_try_start_at_safe_allred b s).out).count n = (notices s.out).count n := by
  rcases ped_try_start_cases b s with h | ⟨_, _, h⟩ <;> rw [h]
  rw [count_note_notify, if_neg (fun h => hn h.symm)]
  rfl

theorem ped_stop_count_note (n : Notify) (hn : n ≠ Notify.ped_over) (s : Ctl) :
    (notices (ped_stop_if_prep_finished s).out).count n = (notices s.out).count n := by
  unfold ped_stop_if_prep_finished
  split_ifs
  · rw [count_note_notify, if_neg (fun h => hn h.symm)]
    rfl
  · rfl

theorem print_normal_line_count_note (n : Notify) (p : Nat) (st : normal_def_t) (s : Ctl) :
    (notices (print_normal_line p st s).out).count n = (notices s.out).count n := by
  unfold print_normal_line
  rw [count_note_append]
  simp

theorem print_train_line_count_note (n : Notify) (t : Nat) (s : Ctl) :
    (notices (print_train_line t s).out).count n = (notices s.out).count n := by
  unfold print_train_line
  rw [count_note_append]
  simp

end Demo1

namespace Demo1

/-! ## Train entry at a safe all-red (C7) -/

theorem ped_try_start_clear (b : Bool) (s : Ctl) :
    (ped_try_start_at_safe_allred b s).train_clear_pending = s.train_clear_pending := by
  unfold ped_try_start_at_safe_allred
  split_ifs <;> rfl

/-- Outside the green phases the wait of `normal_step` is never cut short: it is the plain
polling loop. -/
theorem normal_wait_loop_not_green (st : normal_def_t) (evs : Nat → Option Char) (n : Nat) :
    ∀ s : Ctl, is_normal_green s.ns = false →
      normal_wait_loop st evs n s = (false, wait_poll_loop evs n s) := by
  induction n with
  | zero => intro s _; rfl
  | succ n ih =>
    intro s hg
    have hns := (quantum_polled evs 100 s).2.2.2.2.2.2.2.1
    rw [normal_wait_loop, normal_wait_quantum]
    simp only [hns, hg, Bool.and_false, Bool.false_eq_true, if_false]
    rw [ih _ (by rw [hns]; exact hg)]
    rfl

/-- The train flags after polling depend only on the train flags and the poll counter
before. -/
theorem quantum_train_flags (evs : Nat → Option Char) (ms ms' : Nat) (a b : Ctl)
    (hp : a.polls = b.polls) (hr : a.train_request = b.train_request)
    (hc : a.train_clear_pending = b.train_clear_pending) :
    (poll_events_from_qnet_nonblock evs (nanosleep_ms ms a)).polls =
      (poll_events_from_qnet_nonblock evs (nanosleep_ms ms' b)).polls ∧
    (poll_events_from_qnet_nonblock evs (nanosleep_ms ms a)).train_request =
      (poll_events_from_qnet_nonblock evs (nanosleep_ms ms' b)).train_request ∧
    (poll_events_from_qnet_nonblock evs (nanosleep_ms ms a)).train_clear_pending =
      (poll_events_from_qnet_nonblock evs (nanosleep_ms ms' b)).train_clear_pending := by
  simp only [poll_events_from_qnet_nonblock, nanosleep_ms, hp]
  cases evs b.polls with
  | none => exact ⟨rfl, hr, hc⟩
  | some ev =>
    simp only [apply_event]
    split_ifs <;> simp [notify, hr, hc]

theorem wait_poll_loop_train_flags (evs : Nat → Option Char) (n : Nat) :
    ∀ a b : Ctl, a.polls = b.polls → a.train_request = b.train_request →
      a.train_clear_pending = b.train_clear_pending →
      (wait_poll_loop evs n a).polls = (wait_poll_loop evs n b).polls ∧
      (wait_poll_loop evs n a).train_request = (wait_poll_loop evs n b).train_request ∧
      (wait_poll_loop evs n a).train_clear_pending =
        (wait_poll_loop evs n b).train_clear_pending := by
  induction n with
  | zero => intro a b hp hr hc; exact ⟨hp, hr, hc⟩
  | succ n ih =>
    intro a b hp hr hc
    obtain ⟨h1, h2, h3⟩ := quantum_train_flags evs 100 100 a b hp hr hc
    exact ih _ _ h1 h2 h3

/-- C7: in demo1.c `normal_step`, when a safe-all-red phase (`N_ALL_RED_1` or
`N_ALL_RED_2`) completes with `train_request` set (that is, polling through the 5 s of the
phase leaves `train_request` set), the step clears `train_request`, sets `train_active`,
clears `train_clear_pending`, switches to the train layer, sets the train cursor to
`TR_S01_PREP_R3` (a preparatory yellow, not an all-red), emits TRAIN BEGIN exactly once,
as its last output, and leaves the ring cursor at that all-red. -/
theorem C7_train_entry_at_all_red (evs : Nat → Option Char) (s : Ctl)
    (hns : s.ns = N_ALL_RED_1 ∨ s.ns = N_ALL_RED_2)
    (hreq : (wait_with_poll_ms (T_ALL_RED * 1000) evs s).train_request = true) :
    (normal_step evs s).train_request = false ∧
    (normal_step evs s).train_active = true ∧
    (normal_step evs s).train_clear_pending = false ∧
    (normal_step evs s).in_train_state = true ∧
    (normal_step evs s).tr = TR_S01_PREP_R3 ∧
    train_is_prep (normal_step evs s).tr = true ∧
    train_is_safe_allred (normal_step evs s).tr = false ∧
    (normal_step evs s).out.getLast? = some (Out.note Notify.train_begin) ∧
    (notices (normal_step evs s).out).count Notify.train_begin =
      (notices s.out).count Notify.train_begin + 1 ∧
    (normal_step evs s).ns = s.ns := by
  have fin : ∀ (st : normal_def_t) (w : Ctl), st.is_safe_allred = true →
      st.is_prep_y = false → w.train_request = true → (w.ns = 0 ∨ w.ns = 6) →
      (normal_after_wait st w).train_request = false ∧
      (normal_after_wait st w).train_active = true ∧
      (normal_after_wait st w).train_clear_pending = false ∧
      (normal_after_wait st w).in_train_state = true ∧
      (normal_after_wait st w).tr = TR_S01_PREP_R3 ∧
      (normal_after_wait st w).out.getLast? = some (Out.note Notify.train_begin) ∧
      (notices (normal_after_wait st w).out).count Notify.train_begin =
        (notices w.out).count Notify.train_begin + 1 ∧
      (normal_after_wait st w).ns = w.ns := by
    intro st w hsafe hprep hr hw
    rcases hw with hw | hw <;>
      simp [normal_after_wait, hsafe, hprep, hr, hw, notify, count_note_append]
  have hns' : s.ns = 0 ∨ s.ns = 6 := hns
  have hng : is_normal_green s.ns = false := by
    rcases hns with h | h <;> rw [h] <;> decide
  have key : ∀ st : normal_def_t, find_norm s.ns = some st → st.is_safe_allred = true →
      st.is_prep_y = false → st.dur_s = T_ALL_RED →
      (normal_step evs s).train_request = false ∧
      (normal_step evs s).train_active = true ∧
      (normal_step evs s).train_clear_pending = false ∧
      (normal_step evs s).in_train_state = true ∧
      (normal_step evs s).tr = TR_S01_PREP_R3 ∧
      (normal_step evs s).out.getLast? = some (Out.note Notify.train_begin) ∧
      (notices (normal_step evs s).out).count Notify.train_begin =
        (notices s.out).count Notify.train_begin + 1 ∧
      (normal_step evs s).ns = s.ns := by
    intro st hst hsafe hprep hdur
    obtain ⟨hmem, hid⟩ := find_norm_some hst
    obtain ⟨hsteps, hrem⟩ := NORM_steps st hmem
    have hf := ped_try_start_frame st.is_safe_allred s
    have hw1 : (wait_poll_loop evs (10 * st.dur_s)
        (print_normal_line s.ns st
          (ped_try_start_at_safe_allred st.is_safe_allred s))).train_request = true := by
      have := (wait_poll_loop_train_flags evs (10 * st.dur_s)
        (print_normal_line s.ns st (ped_try_start_at_safe_allred st.is_safe_allred s)) s
        (by simp [print_normal_line, hf.1]) (by simp [print_normal_line, hf.2.1])
        (by simp [print_normal_line, ped_try_start_clear])).2.1
      rw [this]
      simpa [wait_with_poll_ms, hdur] using hreq
    have hw2 : (wait_poll_loop evs (10 * st.dur_s)
        (print_normal_line s.ns st
          (ped_try_start_at_safe_allred st.is_safe_allred s))).ns = s.ns := by
      rw [(wait_poll_loop_polled evs _ _).2.2.2.2.2.2.2.1]
      simp [print_normal_line, ped_try_start_ns]
    have hw3 : normal_step evs s = normal_after_wait st (wait_poll_loop evs (10 * st.dur_s)
        (print_normal_line s.ns st (ped_try_start_at_safe_allred st.is_safe_allred s))) := by
      simp only [normal_step, hst, normal_wait, hsteps, hrem, ped_try_start_ns, ne_eq,
        not_true_eq_false, if_false]
      rw [normal_wait_loop_not_green st evs _ _
        (by simpa [print_normal_line, ped_try_start_ns] using hng)]
    rw [hw3]
    obtain ⟨f1, f2, f3, f4, f5, f6, f7, f8⟩ :=
      fin st _ hsafe hprep hw1 (by rw [hw2]; exact hns')
    refine ⟨f1, f2, f3, f4, f5, f6, ?_, f8.trans hw2⟩
    rw [f7, wait_poll_loop_count_note _ (by decide), print_normal_line_count_note,
      ped_try_start_count_note _ (by decide)]
  have hfinal : (normal_step evs s).train_request = false ∧
      (normal_step evs s).train_active = true ∧
      (normal_step evs s).train_clear_pending = false ∧
      (normal_step evs s).in_train_state = true ∧
      (normal_step evs s).tr = TR_S01_PREP_R3 ∧
      (normal_step evs s).out.getLast? = some (Out.note Notify.train_begin) ∧
      (notices (normal_step evs s).out).count Notify.train_begin =
        (notices s.out).count Notify.train_begin + 1 ∧
      (normal_step evs s).ns = s.ns := by
    rcases hns with h | h
    · exact key ⟨N_ALL_RED_1, T_ALL_RED, "RED", "RED", "RED", true, false,
        false, N_ALL_RED_1, N_PREP_R3⟩ (by rw [h]; decide) rfl rfl rfl
    · exact key ⟨N_ALL_RED_2, T_ALL_RED, "RED", "RED", "RED", true, false,
        false, N_ALL_RED_2, N_PREP_R1⟩ (by rw [h]; decide) rfl rfl rfl
  obtain ⟨f1, f2, f3, f4, f5, f6, f7, f8⟩ := hfinal
  exact ⟨f1, f2, f3, f4, f5, by rw [f5]; decide, by rw [f5]; decide, f6, f7, f8⟩

set_option maxRecDepth 100000 in
theorem C7_train_entry_at_all_red_witness :
    (init.ns = N_ALL_RED_1 ∨ init.ns = N_ALL_RED_2) ∧
    (normal_step (fun i => if i = 7 then some 't' else none) init).in_train_state = true ∧
    (normal_step (fun i => if i = 7 then some 't' else none) init).ns = init.ns :=
  have h := C7_train_entry_at_all_red (fun i => if i = 7 then some 't' else none) init
    (Or.inl (by decide)) (by decide)
  ⟨Or.inl (by decide), h.2.2.2.1, h.2.2.2.2.2.2.2.2.2⟩

end Demo1


namespace Demo1

/-! ## Leaving the train layer (C8, C9) -/

theorem wait_poll_loop_counters (evs : Nat → Option Char) (n : Nat) :
    ∀ s : Ctl, (wait_poll_loop evs n s).slept_ms = s.slept_ms + 100 * n ∧
      (wait_poll_loop evs n s).polls = s.polls + n := by
  induction n with
  | zero => intro s; exact ⟨rfl, rfl⟩
  | succ n ih =>
    intro s
    obtain ⟨h1, h2⟩ := ih (poll_events_from_qnet_nonblock evs (nanosleep_ms 100 s))
    obtain ⟨c1, c2⟩ := quantum_counters evs 100 s
    rw [wait_poll_loop, h1, h2, c1, c2]
    constructor <;> omega

/-- The plain wait sleeps exactly `total_ms` milliseconds. -/
theorem wait_with_poll_ms_slept (total_ms : Nat) (evs : Nat → Option Char) (s : Ctl) :
    (wait_with_poll_ms total_ms evs s).slept_ms = s.slept_ms + total_ms ∧
    s.polls ≤ (wait_with_poll_ms total_ms evs s).polls := by
  unfold wait_with_poll_ms
  simp only []
  obtain ⟨h1, h2⟩ := wait_poll_loop_counters evs (total_ms / 100) s
  split_ifs
  · obtain ⟨c1, c2⟩ := quantum_counters evs (total_ms % 100) (wait_poll_loop evs (total_ms / 100) s)
    rw [c1, c2, h1, h2]
    constructor <;> omega
  · rw [h1, h2]
    constructor <;> omega

theorem train_duration_ms (t : Nat) :
    train_duration t * 1000 % UINT_MOD = train_duration t * 1000 := by
  by_cases h : t ≤ 7
  · interval_cases t <;> decide
  · obtain ⟨d, rfl⟩ : ∃ d, t = d + 8 := ⟨t - 8, by omega⟩
    simp [train_duration, UINT_MOD]

/-- A poll that does not receive `'t'` keeps a pending clear. -/
theorem quantum_clear_kept (evs : Nat → Option Char) (ms : Nat) (s : Ctl)
    (h : evs s.polls ≠ some 't') (hc : s.train_clear_pending = true) :
    (poll_events_from_qnet_nonblock evs (nanosleep_ms ms s)).train_clear_pending = true := by
  unfold poll_events_from_qnet_nonblock
  simp only [nanosleep_ms]
  split
  · exact hc
  · rename_i ev hev
    have hne : ev ≠ 't' := fun he => h (by rw [hev, he])
    unfold apply_event
    split_ifs with h1 h2 h3
    · exact absurd h1 (by simpa using hne)
    · rfl
    · exact hc
    · exact hc

/-- A poll that receives `'c'` sets the pending clear. -/
theorem quantum_clear_of_c (evs : Nat → Option Char) (ms : Nat) (s : Ctl)
    (h : evs s.polls = some 'c') :
    (poll_events_from_qnet_nonblock evs (nanosleep_ms ms s)).train_clear_pending = true := by
  simp [poll_events_from_qnet_nonblock, nanosleep_ms, h, apply_event]

theorem wait_poll_loop_cleared (evs : Nat → Option Char) (n : Nat) :
    ∀ s : Ctl, ClearedWithin evs s.train_clear_pending s.polls n →
      (wait_poll_loop evs n s).train_clear_pending = true := by
  induction n with
  | zero =>
    intro s h
    rcases h with ⟨h, _⟩ | ⟨j, h1, h2, _, _⟩
    · exact h
    · omega
  | succ n ih =>
    intro s h
    obtain ⟨c1, c2⟩ := quantum_counters evs 100 s
    rw [wait_poll_loop]
    apply ih
    rw [c1]
    rcases h with ⟨h, hno⟩ | ⟨j, h1, h2, hc, hno⟩
    · exact Or.inl ⟨quantum_clear_kept evs 100 s (hno _ (le_refl _)) h,
        fun i hi => hno i (by omega)⟩
    · by_cases hj : j = s.polls
      · subst hj
        exact Or.inl ⟨quantum_clear_of_c evs 100 s hc, fun i hi => hno i (by omega)⟩
      · exact Or.inr ⟨j, by omega, by omega, hc, hno⟩

end Demo1
namespace Demo1

theorem ped_try_start_active (b : Bool) (s : Ctl) :
    (ped_try_start_at_safe_allred b s).train_active = s.train_active := by
  unfold ped_try_start_at_safe_allred
  split_ifs <;> rfl

theorem clear_notice_frame (s : Ctl) :
    (clear_notice s).polls = s.polls ∧ (clear_notice s).slept_ms = s.slept_ms ∧
    (clear_notice s).train_clear_pending = s.train_clear_pending ∧
    (clear_notice s).train_request = s.train_request := by
  unfold clear_notice
  simp only []
  split_ifs <;> simp [notify]

theorem clear_notice_count_over (s : Ctl) :
    (notices (clear_notice s).out).count Notify.train_over =
      (notices s.out).count Notify.train_over := by
  unfold clear_notice
  simp only []
  split_ifs <;> simp [notify, count_note_append]

/-- The state at the end of the wait of a train step started in `s`. -/
theorem train_run_shape (evs : Nat → Option Char) (s : Ctl) :
    ∃ w, train_run_until_exit evs s = train_exit_check (train_after_wait w) ∧
      w.in_train_state = s.in_train_state ∧ w.tr = s.tr ∧
      w.slept_ms = s.slept_ms + train_duration s.tr * 1000 ∧
      w.polls = s.polls + 10 * train_duration s.tr ∧
      (s.train_active = true → w.train_active = true) ∧
      (ClearedWithin evs s.train_clear_pending s.polls (10 * train_duration s.tr) →
        w.train_clear_pending = true) ∧
      (notices w.out).count Notify.train_over = (notices s.out).count Notify.train_over := by
  obtain ⟨c1, -, -, c4, -, c6, -, -, -⟩ := clear_notice_polled s
  obtain ⟨d1, d2, d3, -⟩ := clear_notice_frame s
  have hcnt := clear_notice_count_over s
  unfold train_run_until_exit
  generalize clear_notice s = c at c1 c4 c6 d1 d2 d3 hcnt ⊢
  have hf := ped_try_start_frame (train_is_safe_allred c.tr) c
  have hms : train_duration c.tr * 1000 % UINT_MOD / 100 = 10 * train_duration c.tr ∧
      train_duration c.tr * 1000 % UINT_MOD % 100 = 0 := by
    rw [train_duration_ms]; constructor <;> omega
  have hwait : wait_with_poll_ms (train_duration c.tr * 1000 % UINT_MOD) evs
      (print_train_line c.tr (ped_try_start_at_safe_allred (train_is_safe_allred c.tr) c)) =
      wait_poll_loop evs (10 * train_duration c.tr)
        (print_train_line c.tr (ped_try_start_at_safe_allred (train_is_safe_allred c.tr) c)) := by
    simp [wait_with_poll_ms, hms.1, hms.2]
  have hpol := wait_poll_loop_polled evs (10 * train_duration c.tr)
    (print_train_line c.tr (ped_try_start_at_safe_allred (train_is_safe_allred c.tr) c))
  have hctr := wait_poll_loop_counters evs (10 * train_duration c.tr)
    (print_train_line c.tr (ped_try_start_at_safe_allred (train_is_safe_allred c.tr) c))
  refine ⟨wait_poll_loop evs (10 * train_duration c.tr)
    (print_train_line c.tr (ped_try_start_at_safe_allred (train_is_safe_allred c.tr) c)),
    ?_, ?_, ?_, ?_, ?_, ?_, ?_, ?_⟩
  · unfold train_step
    simp only [ped_try_start_tr]
    rw [show (print_train_line c.tr
      (ped_try_start_at_safe_allred (train_is_safe_allred c.tr) c)).tr = c.tr by
        simp [print_train_line, ped_try_start_tr], hwait]
  · rw [hpol.1]; simp [print_train_line, ped_try_start_in_train, c1]
  · rw [hpol.2.2.2.2.2.1]; simp [print_train_line, ped_try_start_tr, c4]
  · rw [hctr.1]
    show (ped_try_start_at_safe_allred (train_is_safe_allred c.tr) c).slept_ms + _ = _
    rw [hf.2.2, d2, c4]; omega
  · rw [hctr.2]
    show (ped_try_start_at_safe_allred (train_is_safe_allred c.tr) c).polls + _ = _
    rw [hf.1, d1, c4]
  · intro ha
    apply hpol.2.2.2.2.2.2.2.2.2
    simp only [print_train_line]
    rw [ped_try_start_active, c6]; exact ha
  · intro hc
    apply wait_poll_loop_cleared
    show ClearedWithin evs
      (ped_try_start_at_safe_allred (train_is_safe_allred c.tr) c).train_clear_pending
      (ped_try_start_at_safe_allred (train_is_safe_allred c.tr) c).polls _
    rw [hf.1, ped_try_start_clear, d1, d3, c4]
    exact hc
  · rw [wait_poll_loop_count_note _ (by decide), print_train_line_count_note,
      ped_try_start_count_note _ (by decide), hcnt]

end Demo1
namespace Demo1

/-- What the end of a train step (after its wait) does, read off the state `w` at the end
of the wait. -/
theorem exit_check_facts (w : Ctl) (hl : w.in_train_state = true) :
    (train_exit_check (train_after_wait w)).slept_ms = w.slept_ms ∧
    (train_exit_check (train_after_wait w)).polls = w.polls ∧
    ((train_exit_check (train_after_wait w)).in_train_state = false →
      w.train_clear_pending = true ∧
      train_is_safe_allred (train_exit_check (train_after_wait w)).tr = true ∧
      (train_exit_check (train_after_wait w)).train_active = false ∧
      (train_exit_check (train_after_wait w)).train_clear_pending = false ∧
      (train_exit_check (train_after_wait w)).ns = N_ALL_RED_1 ∧
      (train_exit_check (train_after_wait w)).normal_ui_base = 0 ∧
      (notices (train_exit_check (train_after_wait w)).out).count Notify.train_over =
        (notices w.out).count Notify.train_over + 1) ∧
    ((train_exit_check (train_after_wait w)).in_train_state = true →
      (train_exit_check (train_after_wait w)).train_clear_pending = w.train_clear_pending ∧
      (w.train_clear_pending = true →
        train_is_safe_allred (train_exit_check (train_after_wait w)).tr = false) ∧
      (notices (train_exit_check (train_after_wait w)).out).count Notify.train_over =
        (notices w.out).count Notify.train_over) ∧
    (w.train_clear_pending = true → w.tr < 8 →
      (train_exit_check (train_after_wait w)).tr = if w.tr = 7 then 7 else w.tr + 1) := by
  obtain ⟨rq, ac, cp, pr, its, pa, ub, pw, ps, tr, cn, ns, sl, po, out⟩ := w
  simp only at hl
  subst hl
  by_cases h : tr ≤ 7
  · interval_cases tr <;> cases cp <;> cases ac <;> cases pw <;> cases ps <;>
      simp [train_exit_check, train_after_wait, train_next, ped_stop_if_prep_finished,
        notify, normal_ui_set_start, train_is_prep, train_is_safe_allred, normal_ui_index_raw,
        normal_ui_index_raw_scan, NORM, count_note_append]
  · obtain ⟨d, rfl⟩ : ∃ d, tr = d + 8 := ⟨tr - 8, by omega⟩
    cases cp <;>
      simp [train_exit_check, train_after_wait, train_next, ped_stop_if_prep_finished,
        notify, normal_ui_set_start, train_is_prep, train_is_safe_allred]

end Demo1
namespace Demo1

theorem normal_wait_quantum_count_note (n : Notify) (hn : n ≠ Notify.train_preempt)
    (st : normal_def_t) (evs : Nat → Option Char) (ms : Nat) (s : Ctl) :
    (notices (normal_wait_quantum st evs ms s).2.out).count n = (notices s.out).count n := by
  unfold normal_wait_quantum
  simp only []
  split_ifs
  · exact quantum_count_note n hn evs ms s
  · exact quantum_count_note n hn evs ms s

theorem normal_wait_loop_count_note (n : Notify) (hn : n ≠ Notify.train_preempt)
    (st : normal_def_t) (evs : Nat → Option Char) (k : Nat) :
    ∀ s : Ctl, (notices (normal_wait_loop st evs k s).2.out).count n =
      (notices s.out).count n := by
  induction k with
  | zero => intro s; rfl
  | succ k ih =>
    intro s
    have hq := normal_wait_quantum_count_note n hn st evs 100 s
    rw [normal_wait_loop]
    rcases h : normal_wait_quantum st evs 100 s with ⟨b, s1⟩
    rw [h] at hq
    cases b
    · simp only []; rw [ih]; exact hq
    · exact hq

theorem normal_wait_count_note (n : Notify) (hn : n ≠ Notify.train_preempt)
    (st : normal_def_t) (evs : Nat → Option Char) (s : Ctl) :
    (notices (normal_wait st evs s).2.out).count n = (notices s.out).count n := by
  unfold normal_wait
  simp only []
  have hl := normal_wait_loop_count_note n hn st evs (st.dur_s * 1000 % UINT_MOD / 100) s
  rcases h : normal_wait_loop st evs (st.dur_s * 1000 % UINT_MOD / 100) s with ⟨b, s1⟩
  rw [h] at hl
  cases b
  · simp only []
    split_ifs
    · rw [normal_wait_quantum_count_note n hn]; exact hl
    · exact hl
  · exact hl

/-- A ring step never emits TRAIN OVER. -/
theorem normal_step_count_over (evs : Nat → Option Char) (s : Ctl) :
    (notices (normal_step evs s).out).count Notify.train_over =
      (notices s.out).count Notify.train_over := by
  unfold normal_step
  split
  · rfl
  · rename_i st hst
    simp only []
    have hw := normal_wait_count_note Notify.train_over (by decide) st evs
      (print_normal_line (ped_try_start_at_safe_allred st.is_safe_allred s).ns st
        (ped_try_start_at_safe_allred st.is_safe_allred s))
    rw [print_normal_line_count_note, ped_try_start_count_note _ (by decide)] at hw
    rcases h : normal_wait st evs
      (print_normal_line (ped_try_start_at_safe_allred st.is_safe_allred s).ns st
        (ped_try_start_at_safe_allred st.is_safe_allred s)) with ⟨b, s1⟩
    rw [h] at hw
    cases b
    · simp only []
      rw [← hw]
      unfold normal_after_wait ped_stop_if_prep_finished
      simp only []
      split_ifs <;>
        simp [notify, notices, List.filterMap_append, Out.asNote, List.count_cons]
    · exact hw

/-- One train step with a clear pending by the end of its wait. -/
theorem train_step_cleared (evs : Nat → Option Char) (s : Ctl)
    (hl : s.in_train_state = true) (ht : s.tr < 8)
    (hc : ClearedWithin evs s.train_clear_pending s.polls (10 * train_duration s.tr)) :
    (main_iter evs s).tr = (if s.tr = 7 then 7 else s.tr + 1) ∧
    ((main_iter evs s).in_train_state = false ↔
      train_is_safe_allred (main_iter evs s).tr = true) ∧
    ((main_iter evs s).in_train_state = true →
      ∀ n, ClearedWithin evs (main_iter evs s).train_clear_pending (main_iter evs s).polls n) := by
  have hm : main_iter evs s = train_run_until_exit evs s := by simp [main_iter, hl]
  obtain ⟨w, hw, w1, w2, -, w4, -, w6, -⟩ := train_run_shape evs s
  obtain ⟨-, e2, e3, e4, e5⟩ := exit_check_facts w (by rw [w1, hl])
  have hcl := w6 hc
  rw [hm, hw]
  refine ⟨by rw [e5 hcl (by rw [w2]; exact ht), w2], ?_, ?_⟩
  · constructor
    · intro h; exact (e3 h).2.1
    · intro h
      cases hin : (train_exit_check (train_after_wait w)).in_train_state
      · rfl
      · have := (e4 hin).2.1 hcl
        rw [h] at this
        exact absurd this (by decide)
  · intro hin n
    refine Or.inl ⟨by rw [(e4 hin).1, hcl], fun i hi => ?_⟩
    rw [e2, w4] at hi
    rcases hc with ⟨-, hno⟩ | ⟨j, -, hj, -, hno⟩
    · exact hno i (by omega)
    · exact hno i (by omega)

/-- With a clear pending (and no later `'t'`), the train layer is left at the first step
that brings the train cursor to a safe all-red: after exactly `steps_to_checkpoint`
steps. -/
theorem exit_at_first_checkpoint (evs : Nat → Option Char) :
    ∀ (k : Nat) (s : Ctl), s.in_train_state = true → s.tr < 8 →
      ClearedWithin evs s.train_clear_pending s.polls (10 * train_duration s.tr) →
      steps_to_checkpoint s.tr = k →
      (run evs k s).in_train_state = false ∧ train_is_safe_allred (run evs k s).tr = true ∧
      ∀ m, 1 ≤ m → m < k →
        (run evs m s).in_train_state = true ∧ train_is_safe_allred (run evs m s).tr = false := by
  intro k
  induction k with
  | zero =>
    intro s _ ht _ hk
    exfalso
    generalize s.tr = t at ht hk
    interval_cases t <;> simp [steps_to_checkpoint] at hk
  | succ k ih =>
    intro s hl ht hc hk
    obtain ⟨h1, h2, h3⟩ := train_step_cleared evs s hl ht hc
    by_cases hk1 : k = 0
    · subst hk1
      have hsafe : train_is_safe_allred (main_iter evs s).tr = true := by
        rw [h1]
        generalize s.tr = t at ht hk
        interval_cases t <;> simp [steps_to_checkpoint] at hk <;> decide
      refine ⟨h2.mpr hsafe, hsafe, fun m hm1 hm2 => by omega⟩
    · have hns : train_is_safe_allred (main_iter evs s).tr = false ∧
          steps_to_checkpoint (main_iter evs s).tr = k ∧ (main_iter evs s).tr < 8 := by
        rw [h1]
        generalize s.tr = t at ht hk
        interval_cases t <;> simp [steps_to_checkpoint] at hk <;>
          first
            | omega
            | (subst hk; decide)
      have hin : (main_iter evs s).in_train_state = true := by
        cases hh : (main_iter evs s).in_train_state
        · have := h2.mp hh
          rw [hns.1] at this
          exact absurd this (by decide)
        · rfl
      obtain ⟨i1, i2, i3⟩ := ih (main_iter evs s) hin hns.2.2 (h3 hin _) hns.2.1
      refine ⟨i1, i2, fun m hm1 hm2 => ?_⟩
      obtain ⟨m', rfl⟩ : ∃ m', m = m' + 1 := ⟨m - 1, by omega⟩
      by_cases hm0 : m' = 0
      · subst hm0
        exact ⟨hin, hns.1⟩
      · exact i3 m' (by omega) (by omega)

end Demo1
namespace Demo1

theorem train_after_wait_in_train (w : Ctl) :
    (train_after_wait w).in_train_state = w.in_train_state := by
  unfold train_after_wait ped_stop_if_prep_finished
  simp only []
  split_ifs <;> rfl

theorem train_step_in_train (evs : Nat → Option Char) (s : Ctl) :
    (train_step evs s).in_train_state = s.in_train_state := by
  obtain ⟨w, hw, hh⟩ := train_step_shape evs s
  rw [hh, train_after_wait_in_train, hw.1]
  simp [print_train_line, ped_try_start_in_train]

/-- The count of TRAIN OVER notifications goes up by one exactly in the steps that switch
from the train layer to the ring. -/
theorem main_iter_count_over (evs : Nat → Option Char) (s : Ctl) :
    (notices (main_iter evs s).out).count Notify.train_over =
      (notices s.out).count Notify.train_over +
        (if s.in_train_state = true ∧ (main_iter evs s).in_train_state = false then 1 else 0) := by
  cases hl : s.in_train_state
  · have hm : main_iter evs s = normal_step evs s := by simp [main_iter, hl]
    rw [hm, normal_step_count_over]
    simp
  · have hm : main_iter evs s = train_run_until_exit evs s := by simp [main_iter, hl]
    obtain ⟨w, hw, w1, -, -, -, -, -, w7⟩ := train_run_shape evs s
    obtain ⟨-, -, e3, e4, -⟩ := exit_check_facts w (by rw [w1, hl])
    rw [hm, hw]
    cases hin : (train_exit_check (train_after_wait w)).in_train_state
    · rw [(e3 hin).2.2.2.2.2.2, w7]; simp
    · rw [(e4 hin).2.2, w7]; simp

/-- C8: train exit determinism in demo1.c, for every event schedule.
(1) Waiting never changes the layer: neither `wait_with_poll_ms` nor the whole of
`train_step` writes `in_train_state`.
(2) A step that switches from the train layer to the ring is a `train_run_until_exit`
whose phase has slept its full duration (and polled ten times per second of it) and that
ends with the train cursor at a safe all-red, `TR_S04_ALL_RED_A` or `TR_S08_ALL_RED_B`.
(3) If a TrainCleared has been received, or is received during the current train phase,
and no TrainDetected comes later, then the switch happens at the first step that brings
the train cursor to a safe all-red (within at most four steps), and at no earlier step.
(4) Over any step the number of TRAIN OVER notifications grows by exactly one when the
step switches from the train layer to the ring, and not at all otherwise. -/
theorem C8_train_exit_determinism :
    (∀ (evs : Nat → Option Char) (ms : Nat) (s : Ctl),
      (wait_with_poll_ms ms evs s).in_train_state = s.in_train_state) ∧
    (∀ (evs : Nat → Option Char) (s : Ctl),
      (train_step evs s).in_train_state = s.in_train_state) ∧
    (∀ (evs : Nat → Option Char) (s : Ctl), s.in_train_state = true →
      (main_iter evs s).in_train_state = false →
      main_iter evs s = train_run_until_exit evs s ∧
      ((main_iter evs s).tr = TR_S04_ALL_RED_A ∨ (main_iter evs s).tr = TR_S08_ALL_RED_B) ∧
      (main_iter evs s).slept_ms = s.slept_ms + train_duration s.tr * 1000 ∧
      (main_iter evs s).polls = s.polls + 10 * train_duration s.tr) ∧
    (∀ (evs : Nat → Option Char) (s : Ctl), s.in_train_state = true → s.tr < 8 →
      ClearedWithin evs s.train_clear_pending s.polls (10 * train_duration s.tr) →
      ∃ n, 1 ≤ n ∧ n ≤ 4 ∧
        (run evs n s).in_train_state = false ∧
        train_is_safe_allred (run evs n s).tr = true ∧
        ∀ m, 1 ≤ m → m < n →
          (run evs m s).in_train_state = true ∧
          train_is_safe_allred (run evs m s).tr = false) ∧
    (∀ (evs : Nat → Option Char) (s : Ctl),
      (notices (main_iter evs s).out).count Notify.train_over =
        (notices s.out).count Notify.train_over +
          (if s.in_train_state = true ∧ (main_iter evs s).in_train_state = false
            then 1 else 0)) := by
  refine ⟨fun evs ms s => (wait_with_poll_ms_polled ms evs s).1, train_step_in_train, ?_, ?_,
    main_iter_count_over⟩
  · intro evs s hl hout
    have hm : main_iter evs s = train_run_until_exit evs s := by simp [main_iter, hl]
    obtain ⟨w, hw, w1, -, w3, w4, -, -, -⟩ := train_run_shape evs s
    obtain ⟨e1, e2, e3, -, -⟩ := exit_check_facts w (by rw [w1, hl])
    rw [hm, hw] at hout ⊢
    refine ⟨rfl, ?_, by rw [e1, w3], by rw [e2, w4]⟩
    have := (e3 hout).2.1
    simpa [train_is_safe_allred] using this
  · intro evs s hl ht hc
    have hk : 1 ≤ steps_to_checkpoint s.tr ∧ steps_to_checkpoint s.tr ≤ 4 := by
      generalize s.tr = t at ht
      interval_cases t <;> decide
    exact ⟨steps_to_checkpoint s.tr, hk.1, hk.2,
      exit_at_first_checkpoint evs _ s hl ht hc rfl⟩

end Demo1
namespace Demo1

set_option maxRecDepth 100000 in
theorem C8_train_exit_determinism_witness :
    (normal_step (fun i => if i = 7 then some 't' else if i = 60 then some 'c' else none)
      init).in_train_state = true ∧
    (∃ n, 1 ≤ n ∧ n ≤ 4 ∧
      (run (fun i => if i = 7 then some 't' else if i = 60 then some 'c' else none) n
        (normal_step (fun i => if i = 7 then some 't' else if i = 60 then some 'c' else none)
          init)).in_train_state = false ∧
      train_is_safe_allred
        (run (fun i => if i = 7 then some 't' else if i = 60 then some 'c' else none) n
          (normal_step (fun i => if i = 7 then some 't' else if i = 60 then some 'c' else none)
            init)).tr = true ∧
      ∀ m, 1 ≤ m → m < n →
        (run (fun i => if i = 7 then some 't' else if i = 60 then some 'c' else none) m
          (normal_step (fun i => if i = 7 then some 't' else if i = 60 then some 'c' else none)
            init)).in_train_state = true ∧
        train_is_safe_allred
          (run (fun i => if i = 7 then some 't' else if i = 60 then some 'c' else none) m
            (normal_step (fun i => if i = 7 then some 't' else if i = 60 then some 'c' else none)
              init)).tr = false) :=
  ⟨by decide,
    C8_train_exit_determinism.2.2.2.1
      (fun i => if i = 7 then some 't' else if i = 60 then some 'c' else none)
      (normal_step (fun i => if i = 7 then some 't' else if i = 60 then some 'c' else none) init)
      (by decide) (by decide)
      (Or.inr ⟨60, by decide, by decide, by decide, fun i hi => by
        have h7 : i ≠ 7 := by omega
        have h25 : i ≠ 60 := by omega
        simp [h7, h25]⟩)⟩

end Demo1

namespace Demo1

/-- The state written by the exit branch of `train_run_until_exit`. -/
theorem exit_branch_state (w : Ctl) (h1 : w.train_clear_pending = true)
    (h2 : train_is_safe_allred w.tr = true) :
    (train_exit_check w).train_active = false ∧
    (train_exit_check w).train_clear_pending = false ∧
    (train_exit_check w).in_train_state = false ∧
    (train_exit_check w).ns = N_ALL_RED_1 ∧
    (find_norm (train_exit_check w).ns).map (fun d => d.is_safe_allred) = some true ∧
    (train_exit_check w).normal_ui_base = 0 ∧
    normal_ui_index_shifted (train_exit_check w) (train_exit_check w).ns = 1 ∧
    (train_exit_check w).out = w.out ++ [Out.note Notify.train_over] ∧
    (train_exit_check w).tr = w.tr := by
  have hb : (train_exit_check w).normal_ui_base = 0 := by
    simp [train_exit_check, h1, h2, normal_ui_set_start, notify]
    decide
  have hn : (train_exit_check w).ns = N_ALL_RED_1 := by
    simp [train_exit_check, h1, h2, normal_ui_set_start, notify]
  refine ⟨?_, ?_, ?_, hn, ?_, hb, ?_, ?_, ?_⟩
  · simp [train_exit_check, h1, h2, normal_ui_set_start, notify]
  · simp [train_exit_check, h1, h2, normal_ui_set_start, notify]
  · simp [train_exit_check, h1, h2, normal_ui_set_start, notify]
  · rw [hn]; decide
  · unfold normal_ui_index_shifted
    rw [hn, hb]; decide
  · simp [train_exit_check, h1, h2, normal_ui_set_start, notify]
  · simp [train_exit_check, h1, h2, normal_ui_set_start, notify]

end Demo1

namespace Demo3

/-- The state written by the exit branch of `train_run_until_exit` (demo3.c). -/
theorem d3_exit_branch_state (w : Ctl) (h1 : w.train_clear_pending = true)
    (h2 : train_is_safe_allred w.tr = true) :
    (train_exit_check w).train_active = false ∧
    (train_exit_check w).train_clear_pending = false ∧
    (train_exit_check w).in_train_state = false ∧
    (train_exit_check w).ns = N_ALL_RED_1 ∧
    (find_norm (train_exit_check w).ns).map (fun d => d.is_safe_allred) = some true ∧
    (train_exit_check w).normal_ui_base = 0 ∧
    normal_ui_index_shifted (train_exit_check w) (train_exit_check w).ns = 1 ∧
    (train_exit_check w).out = w.out ++ [Out.note Notify.train_over] ∧
    (train_exit_check w).tr = w.tr := by
  have hb : (train_exit_check w).normal_ui_base = 0 := by
    simp [train_exit_check, h1, h2, normal_ui_set_start, notify]
    decide
  have hn : (train_exit_check w).ns = N_ALL_RED_1 := by
    simp [train_exit_check, h1, h2, normal_ui_set_start, notify]
  refine ⟨?_, ?_, ?_, hn, ?_, hb, ?_, ?_, ?_⟩
  · simp [train_exit_check, h1, h2, normal_ui_set_start, notify]
  · simp [train_exit_check, h1, h2, normal_ui_set_start, notify]
  · simp [train_exit_check, h1, h2, normal_ui_set_start, notify]
  · rw [hn]; decide
  · unfold normal_ui_index_shifted
    rw [hn, hb]; decide
  · simp [train_exit_check, h1, h2, normal_ui_set_start, notify]
  · simp [train_exit_check, h1, h2, normal_ui_set_start, notify]

end Demo3

/-- C9: the state left by the exit of `train_run_until_exit`, in demo1.c and in the
second local controller (Local Control 2, `src/demo3/src/demo3.c`). Whenever the exit
test at the bottom of `train_run_until_exit` succeeds, that is, after the train step the
flag `train_clear_pending` is set and the train cursor is a safe all-red, the resulting
state has `train_active = 0`, `train_clear_pending = 0`, `in_train_state = 0`, the ring
cursor at `N_ALL_RED_1`, whose table entry is a safe all-red, the UI base re-armed
(`normal_ui_base = 0`) so that `normal_ui_index_shifted` of the resumed ring phase is 1,
and one TRAIN OVER notification appended to the output. -/
theorem C9_train_exit_state :
    (∀ (evs : Nat → Option Char) (s : Demo1.Ctl),
      (Demo1.train_step evs (Demo1.clear_notice s)).train_clear_pending = true →
      Demo1.train_is_safe_allred (Demo1.train_step evs (Demo1.clear_notice s)).tr = true →
      (Demo1.train_run_until_exit evs s).train_active = false ∧
      (Demo1.train_run_until_exit evs s).train_clear_pending = false ∧
      (Demo1.train_run_until_exit evs s).in_train_state = false ∧
      (Demo1.train_run_until_exit evs s).ns = Demo1.N_ALL_RED_1 ∧
      (Demo1.find_norm (Demo1.train_run_until_exit evs s).ns).map
        (fun d => d.is_safe_allred) = some true ∧
      (Demo1.train_run_until_exit evs s).normal_ui_base = 0 ∧
      Demo1.normal_ui_index_shifted (Demo1.train_run_until_exit evs s)
        (Demo1.train_run_until_exit evs s).ns = 1 ∧
      (Demo1.train_run_until_exit evs s).out =
        (Demo1.train_step evs (Demo1.clear_notice s)).out ++
          [Demo1.Out.note Demo1.Notify.train_over]) ∧
    (∀ (evs : Nat → Option Char) (s : Demo3.Ctl),
      (Demo3.train_step evs (Demo3.clear_notice s)).train_clear_pending = true →
      Demo3.train_is_safe_allred (Demo3.train_step evs (Demo3.clear_notice s)).tr = true →
      (Demo3.train_run_until_exit evs s).train_active = false ∧
      (Demo3.train_run_until_exit evs s).train_clear_pending = false ∧
      (Demo3.train_run_until_exit evs s).in_train_state = false ∧
      (Demo3.train_run_until_exit evs s).ns = Demo3.N_ALL_RED_1 ∧
      (Demo3.find_norm (Demo3.train_run_until_exit evs s).ns).map
        (fun d => d.is_safe_allred) = some true ∧
      (Demo3.train_run_until_exit evs s).normal_ui_base = 0 ∧
      Demo3.normal_ui_index_shifted (Demo3.train_run_until_exit evs s)
        (Demo3.train_run_until_exit evs s).ns = 1 ∧
      (Demo3.train_run_until_exit evs s).out =
        (Demo3.train_step evs (Demo3.clear_notice s)).out ++
          [Demo3.Out.note Demo3.Notify.train_over]) := by
  constructor
  · intro evs s h1 h2
    obtain ⟨a, b, c, d, e, f, g, h, -⟩ := Demo1.exit_branch_state _ h1 h2
    exact ⟨a, b, c, d, e, f, g, h⟩
  · intro evs s h1 h2
    obtain ⟨a, b, c, d, e, f, g, h, -⟩ := Demo3.d3_exit_branch_state _ h1 h2
    exact ⟨a, b, c, d, e, f, g, h⟩

set_option maxRecDepth 100000 in
theorem C9_train_exit_state_witness :
    ((Demo1.run (fun i => if i = 7 then some 't' else if i = 60 then some 'c' else none) 3
        Demo1.init).in_train_state = true ∧
      (Demo1.run (fun i => if i = 7 then some 't' else if i = 60 then some 'c' else none) 4
        Demo1.init).in_train_state = false ∧
      Demo1.normal_ui_index_shifted
        (Demo1.train_run_until_exit
          (fun i => if i = 7 then some 't' else if i = 60 then some 'c' else none)
          (Demo1.run (fun i => if i = 7 then some 't' else if i = 60 then some 'c' else none) 3
            Demo1.init))
        (Demo1.train_run_until_exit
          (fun i => if i = 7 then some 't' else if i = 60 then some 'c' else none)
          (Demo1.run (fun i => if i = 7 then some 't' else if i = 60 then some 'c' else none) 3
            Demo1.init)).ns = 1) ∧
    ((Demo3.run (fun i => if i = 7 then some 't' else if i = 30 then some 'c' else none) 3
        Demo3.init).in_train_state = true ∧
      (Demo3.run (fun i => if i = 7 then some 't' else if i = 30 then some 'c' else none) 4
        Demo3.init).in_train_state = false ∧
      Demo3.normal_ui_index_shifted
        (Demo3.train_run_until_exit
          (fun i => if i = 7 then some 't' else if i = 30 then some 'c' else none)
          (Demo3.run (fun i => if i = 7 then some 't' else if i = 30 then some 'c' else none) 3
            Demo3.init))
        (Demo3.train_run_until_exit
          (fun i => if i = 7 then some 't' else if i = 30 then some 'c' else none)
          (Demo3.run (fun i => if i = 7 then some 't' else if i = 30 then some 'c' else none) 3
            Demo3.init)).ns = 1) :=
  ⟨⟨by decide, by decide,
      (C9_train_exit_state.1
        (fun i => if i = 7 then some 't' else if i = 60 then some 'c' else none)
        (Demo1.run (fun i => if i = 7 then some 't' else if i = 60 then some 'c' else none) 3
          Demo1.init) (by decide) (by decide)).2.2.2.2.2.2.1⟩,
    ⟨by decide, by decide,
      (C9_train_exit_state.2
        (fun i => if i = 7 then some 't' else if i = 30 then some 'c' else none)
        (Demo3.run (fun i => if i = 7 then some 't' else if i = 30 then some 'c' else none) 3
          Demo3.init) (by decide) (by decide)).2.2.2.2.2.2.1⟩⟩

namespace Fsm

/-- A batch without `'t'` keeps a pending clear. -/
theorem foldl_pending_kept (l : List Char) (s : Ctl) (h : 't' ∉ l)
    (hp : s.train_clear_pending = true) :
    (l.foldl apply_event s).train_clear_pending = true := by
  induction l generalizing s with
  | nil => exact hp
  | cons a l ih =>
    rw [List.foldl_cons]
    simp only [List.mem_cons, not_or] at h
    apply ih _ h.2
    unfold apply_event
    split_ifs with h1 h2 h3
    · exact absurd h1 (by simpa using fun e => h.1 e.symm)
    · rfl
    · exact hp
    · exact hp

/-- A batch with a `'c'` that no `'t'` follows leaves a clear pending. -/
theorem foldl_pending_of_c (a b : List Char) (s : Ctl) (h : 't' ∉ b) :
    ((a ++ 'c' :: b).foldl apply_event s).train_clear_pending = true := by
  rw [List.foldl_append, List.foldl_cons]
  apply foldl_pending_kept _ _ h
  simp [apply_event]

theorem poll_polls (evs : Nat → List Char) (s : Ctl) :
    (poll_events_from_mq evs s).polls = s.polls + 1 := by
  unfold poll_events_from_mq
  rw [foldl_apply_event_polls]

/-- One poll uses up one poll of the window of `ClearedWithin`. -/
theorem poll_cleared (evs : Nat → List Char) (s : Ctl) (n : Nat)
    (h : ClearedWithin evs s.train_clear_pending s.polls (n + 1)) :
    ClearedWithin evs (poll_events_from_mq evs s).train_clear_pending
      (poll_events_from_mq evs s).polls n := by
  rw [poll_polls]
  rcases h with ⟨hp, hno⟩ | ⟨j, hj1, hj2, ⟨a, b, hab, hb⟩, hno⟩
  · left
    refine ⟨?_, fun i hi => hno i (by omega)⟩
    unfold poll_events_from_mq
    exact foldl_pending_kept _ _ (hno _ le_rfl) hp
  · rcases Nat.eq_or_lt_of_le hj1 with e | hlt
    · left
      subst e
      refine ⟨?_, fun i hi => hno i (by omega)⟩
      unfold poll_events_from_mq
      rw [hab]
      exact foldl_pending_of_c _ _ _ hb
    · right
      exact ⟨j, by omega, by omega, ⟨a, b, hab, hb⟩, hno⟩

/-- An exhausted window means the clear is pending and no `'t'` is to come. -/
theorem cleared_zero {evs : Nat → List Char} {pending : Bool} {p : Nat}
    (h : ClearedWithin evs pending p 0) :
    pending = true ∧ ∀ i, p ≤ i → 't' ∉ evs i := by
  rcases h with h | ⟨j, hj1, hj2, -⟩
  · exact h
  · omega

theorem cleared_mono {evs : Nat → List Char} {pending : Bool} {p n m : Nat} (hnm : n ≤ m)
    (h : ClearedWithin evs pending p n) : ClearedWithin evs pending p m := by
  rcases h with h | ⟨j, hj1, hj2, h3⟩
  · exact Or.inl h
  · exact Or.inr ⟨j, hj1, by omega, h3⟩

/-- Away from the ring greens a wait quantum is a sleep and a poll. -/
theorem wait_quantum_idle (evs : Nat → List Char) (ms : Nat) (s : Ctl)
    (hg : is_normal_green s.cur = false) :
    wait_quantum evs ms s = (false, poll_events_from_mq evs (nanosleep_ms ms s)) := by
  unfold wait_quantum
  have : is_normal_green (poll_events_from_mq evs (nanosleep_ms ms s)).cur = false := by
    rw [quantum_cur]; exact hg
  simp [this]

/-- The loop of `wait_seconds_interruptible` away from the ring greens: `n` quanta, none
of which returns early. -/
theorem wait_loop_idle (evs : Nat → List Char) :
    ∀ (n : Nat) (s : Ctl), is_normal_green s.cur = false →
      ∃ w, wait_loop evs n s = (false, w) ∧ w.cur = s.cur ∧ w.polls = s.polls + n ∧
        w.slept_ms = s.slept_ms + 100 * n ∧ unpolled w = unpolled (nanosleep_ms (100 * n) s) ∧
        ∀ m, ClearedWithin evs s.train_clear_pending s.polls (n + m) →
          ClearedWithin evs w.train_clear_pending w.polls m := by
  intro n
  induction n with
  | zero =>
    intro s _
    exact ⟨s, rfl, rfl, rfl, rfl, rfl, fun m h => by simpa using h⟩
  | succ n ih =>
    intro s hg
    have hq := wait_quantum_idle evs 100 s hg
    obtain ⟨c1, c2⟩ := mq_quantum_counters evs 100 s
    have hcur := quantum_cur evs 100 s
    obtain ⟨w, hw, w1, w2, w3, w4, w5⟩ :=
      ih (poll_events_from_mq evs (nanosleep_ms 100 s)) (by rw [hcur]; exact hg)
    refine ⟨w, ?_, ?_, ?_, ?_, ?_, ?_⟩
    · unfold wait_loop
      rw [hq]
      exact hw
    · rw [w1, hcur]
    · rw [w2, c1]; omega
    · rw [w3, c2]; omega
    · rw [w4]
      have := poll_unpolled evs (nanosleep_ms 100 s)
      simp only [unpolled, nanosleep_ms, Prod.mk.injEq] at this ⊢
      obtain ⟨a1, a2, a3, a4, a5, a6, a7, a8⟩ := this
      exact ⟨a1, a2, a3, a4, a5, a6, by rw [a7]; omega, a8⟩
    · intro m h
      apply w5 m
      have h2 : ClearedWithin evs (nanosleep_ms 100 s).train_clear_pending
          (nanosleep_ms 100 s).polls ((n + m) + 1) := by
        have : n + 1 + m = n + m + 1 := by omega
        rw [this] at h
        exact h
      exact poll_cleared evs _ _ h2

/-- The whole wait away from the ring greens: `total_sec` seconds slept, ten polls per
second, cursor unchanged. -/
theorem wait_idle (evs : Nat → List Char) (t : Nat) (s : Ctl)
    (hov : t * 1000 < UINT_MOD) (hg : is_normal_green s.cur = false) :
    (wait_seconds_interruptible t evs s).cur = s.cur ∧
    (wait_seconds_interruptible t evs s).polls = s.polls + 10 * t ∧
    (wait_seconds_interruptible t evs s).slept_ms = s.slept_ms + 1000 * t ∧
    unpolled (wait_seconds_interruptible t evs s) = unpolled (nanosleep_ms (1000 * t) s) ∧
    ∀ m, ClearedWithin evs s.train_clear_pending s.polls (10 * t + m) →
      ClearedWithin evs (wait_seconds_interruptible t evs s).train_clear_pending
        (wait_seconds_interruptible t evs s).polls m := by
  unfold wait_seconds_interruptible
  split_ifs with h0
  · subst h0
    exact ⟨rfl, rfl, rfl, rfl, fun m h => by simpa using h⟩
  · have hsteps : t * 1000 % UINT_MOD / 100 = 10 * t := by
      rw [Nat.mod_eq_of_lt hov]; omega
    have hrem : t * 1000 % UINT_MOD % 100 = 0 := by
      rw [Nat.mod_eq_of_lt hov]; omega
    obtain ⟨w, hw, w1, w2, w3, w4, w5⟩ := wait_loop_idle evs (10 * t) s hg
    simp only [hsteps, hrem, hw, gt_iff_lt, lt_self_iff_false, if_false]
    refine ⟨w1, w2, by rw [w3]; omega, ?_, w5⟩
    rw [w4]
    have : 100 * (10 * t) = 1000 * t := by omega
    rw [this]

end Fsm

namespace Fsm

theorem step_prologue_frame (evs : Nat → List Char) (s : Ctl) :
    (step_prologue evs s).cur = s.cur ∧
    (step_prologue evs s).polls = s.polls + 1 ∧
    (step_prologue evs s).slept_ms = s.slept_ms ∧
    (step_prologue evs s).in_train_mode = s.in_train_mode ∧
    ∀ n, ClearedWithin evs s.train_clear_pending s.polls (n + 1) →
      ClearedWithin evs (step_prologue evs s).train_clear_pending
        (step_prologue evs s).polls n := by
  have hq := poll_cleared evs (print_state_outputs s.cur s)
  have hpolls := poll_polls evs (print_state_outputs s.cur s)
  have hu := poll_unpolled evs (print_state_outputs s.cur s)
  unfold step_prologue
  simp only []
  generalize poll_events_from_mq evs (print_state_outputs s.cur s) = q at *
  simp only [unpolled, print_state_outputs, Prod.mk.injEq] at hu hq hpolls
  obtain ⟨a1, a2, -, -, -, -, a7, -⟩ := hu
  split_ifs <;> simp [notify, a1, a2, a7, hpolls] <;> intro n hn <;>
    simpa [hpolls] using hq n hn

theorem step_epilogue_frame (s : Ctl) :
    (step_epilogue s).cur = s.cur ∧ (step_epilogue s).polls = s.polls ∧
    (step_epilogue s).slept_ms = s.slept_ms ∧
    (step_epilogue s).train_clear_pending = s.train_clear_pending ∧
    (step_epilogue s).train_active = s.train_active ∧
    (step_epilogue s).train_request = s.train_request ∧
    (is_train_state s.cur = false → s.in_train_mode = false →
      (step_epilogue s).in_train_mode = false) := by
  unfold step_epilogue
  simp only []
  split_ifs with h1 h2 h3 <;> simp_all [notify]

theorem try_start_ped_frame (s : Ctl) :
    (try_start_ped_if_safe s).2.polls = s.polls ∧
    (try_start_ped_if_safe s).2.slept_ms = s.slept_ms := by
  unfold try_start_ped_if_safe
  simp only []
  split_ifs <;> simp [notify]

theorem do_exit_frame (s : Ctl) :
    (do_exit_train_to_normal s).polls = s.polls ∧
    (do_exit_train_to_normal s).slept_ms = s.slept_ms ∧
    (do_exit_train_to_normal s).cur = N_R3_RS_G ∧
    (do_exit_train_to_normal s).train_active = false ∧
    (do_exit_train_to_normal s).train_clear_pending = false ∧
    (do_exit_train_to_normal s).train_request = false ∧
    (do_exit_train_to_normal s).in_train_mode = false := by
  unfold do_exit_train_to_normal
  simp only []
  split_ifs with h <;> simp_all [notify]

/-- The `switch` at one of the six train states that are not checkpoints: the wait, then
the next state of the train sequence. -/
theorem step_switch_train_plain (evs : Nat → List Char) (p : Ctl)
    (hc : p.cur = T_R3_NS_SRL_G_1 ∨ p.cur = T_R3_NS_SRL_Y_1 ∨ p.cur = T_R3_SN_LR_G_2 ∨
      p.cur = T_R3_SN_LR_Y_2 ∨ p.cur = T_R1_RESTRICT_G_3 ∨ p.cur = T_R1_RESTRICT_Y_3) :
    step_switch evs p =
      { wait_seconds_interruptible (duration_of p.cur) evs p with cur := p.cur + 1 } := by
  rcases hc with h | h | h | h | h | h <;> simp [step_switch, h, duration_of]

/-- The `switch` at a train checkpoint: the wait, one more poll, then the exit test. -/
theorem step_switch_train_checkpoint (evs : Nat → List Char) (p : Ctl)
    (hc : p.cur = T_ALL_RED_A ∨ p.cur = T_ALL_RED_B ∨ p.cur = T_DECISION_ALL_RED_4) :
    (should_exit_train_now
        (poll_events_from_mq evs (wait_seconds_interruptible (duration_of p.cur) evs p))
        (poll_events_from_mq evs (wait_seconds_interruptible (duration_of p.cur) evs p)).cur
        = true →
      step_switch evs p = do_exit_train_to_normal
        (poll_events_from_mq evs (wait_seconds_interruptible (duration_of p.cur) evs p))) ∧
    (step_switch evs p).polls =
      (poll_events_from_mq evs (wait_seconds_interruptible (duration_of p.cur) evs p)).polls ∧
    (step_switch evs p).slept_ms =
      (poll_events_from_mq evs
        (wait_seconds_interruptible (duration_of p.cur) evs p)).slept_ms := by
  have hd : duration_of p.cur = T_TR_R := by
    rcases hc with h | h | h <;> simp [h, duration_of]
  rw [hd]
  generalize hq : poll_events_from_mq evs (wait_seconds_interruptible T_TR_R evs p) = q
  have hf := try_start_ped_frame q
  have he := do_exit_frame q
  have he3 := do_exit_frame (try_start_ped_if_safe q).2
  rcases hp : try_start_ped_if_safe q with ⟨b, s3⟩
  rw [hp] at hf he3
  simp only at hf he3
  refine ⟨?_, ?_, ?_⟩
  · intro hx
    rcases hc with h | h | h <;> simp [step_switch, h] <;> simp at hq <;> rw [hq] <;>
      simp [hx]
  · rcases hc with h | h | h <;> simp [step_switch, h] <;> simp at hq <;> rw [hq] <;>
      split_ifs <;> simp [he.1, hp] <;> cases b <;> simp [hf.1] <;>
      split_ifs <;> simp [hf.1, he3.1]
  · rcases hc with h | h | h <;> simp [step_switch, h] <;> simp at hq <;> rw [hq] <;>
      split_ifs <;> simp [he.2.1, hp] <;> cases b <;> simp [hf.2] <;>
      split_ifs <;> simp [hf.2, he3.2.1]

end Fsm

namespace Fsm

theorem train_state_cases {c : Nat} (h : is_train_state c = true) :
    (c = T_R3_NS_SRL_G_1 ∨ c = T_R3_NS_SRL_Y_1 ∨ c = T_R3_SN_LR_G_2 ∨
      c = T_R3_SN_LR_Y_2 ∨ c = T_R1_RESTRICT_G_3 ∨ c = T_R1_RESTRICT_Y_3) ∨
    (c = T_ALL_RED_A ∨ c = T_ALL_RED_B ∨ c = T_DECISION_ALL_RED_4) := by
  simp [is_train_state] at h
  obtain ⟨h1, h2⟩ := h
  interval_cases c <;> simp

theorem train_state_facts {c : Nat} (h : is_train_state c = true) :
    duration_of c * 1000 < UINT_MOD ∧ is_normal_green c = false := by
  simp [is_train_state] at h
  obtain ⟨h1, h2⟩ := h
  interval_cases c <;> decide

/-- One `SingleStep_SM` at a train state that is not a checkpoint. -/
theorem train_plain_step (evs : Nat → List Char) (s : Ctl)
    (hc : s.cur = T_R3_NS_SRL_G_1 ∨ s.cur = T_R3_NS_SRL_Y_1 ∨ s.cur = T_R3_SN_LR_G_2 ∨
      s.cur = T_R3_SN_LR_Y_2 ∨ s.cur = T_R1_RESTRICT_G_3 ∨ s.cur = T_R1_RESTRICT_Y_3) :
    (SingleStep_SM evs s).cur = s.cur + 1 ∧
    (SingleStep_SM evs s).polls = s.polls + step_polls s.cur ∧
    (SingleStep_SM evs s).slept_ms = s.slept_ms + 1000 * duration_of s.cur ∧
    (ClearedWithin evs s.train_clear_pending s.polls (step_polls s.cur) →
      ClearedWithin evs (SingleStep_SM evs s).train_clear_pending
        (SingleStep_SM evs s).polls 0) := by
  have ht : is_train_state s.cur = true := by
    rcases hc with h | h | h | h | h | h <;> rw [h] <;> decide
  have hk : is_train_checkpoint s.cur = false := by
    rcases hc with h | h | h | h | h | h <;> rw [h] <;> decide
  obtain ⟨hov, hg⟩ := train_state_facts ht
  obtain ⟨p1, p2, p3, -, p5⟩ := step_prologue_frame evs s
  unfold SingleStep_SM
  obtain ⟨e1, e2, e3, e4, -⟩ := step_epilogue_frame (step_switch evs (step_prologue evs s))
  rw [e1, e2, e3, e4]
  generalize step_prologue evs s = p at *
  rw [step_switch_train_plain evs p (by rw [p1]; exact hc)]
  obtain ⟨-, w2, w3, -, w5⟩ := wait_idle evs (duration_of p.cur) p (by rw [p1]; exact hov)
    (by rw [p1]; exact hg)
  simp only [step_polls, hk]
  rw [p1] at w2 w3 w5 ⊢
  refine ⟨rfl, ?_, ?_, ?_⟩
  · show (wait_seconds_interruptible (duration_of s.cur) evs p).polls = _
    rw [w2, p2]; simp; omega
  · show (wait_seconds_interruptible (duration_of s.cur) evs p).slept_ms = _
    rw [w3, p3]
  · intro h
    show ClearedWithin evs
      (wait_seconds_interruptible (duration_of s.cur) evs p).train_clear_pending
      (wait_seconds_interruptible (duration_of s.cur) evs p).polls 0
    apply w5 0
    apply p5
    simpa [Nat.add_comm, Nat.add_left_comm] using h

/-- One `SingleStep_SM` at a train checkpoint. -/
theorem train_checkpoint_step (evs : Nat → List Char) (s : Ctl)
    (hc : s.cur = T_ALL_RED_A ∨ s.cur = T_ALL_RED_B ∨ s.cur = T_DECISION_ALL_RED_4) :
    (SingleStep_SM evs s).polls = s.polls + step_polls s.cur ∧
    (SingleStep_SM evs s).slept_ms = s.slept_ms + 1000 * duration_of s.cur ∧
    (ClearedWithin evs s.train_clear_pending s.polls (step_polls s.cur) →
      (SingleStep_SM evs s).cur = N_R3_RS_G ∧
      (SingleStep_SM evs s).train_active = false ∧
      (SingleStep_SM evs s).train_clear_pending = false ∧
      (SingleStep_SM evs s).train_request = false ∧
      (SingleStep_SM evs s).in_train_mode = false) := by
  have ht : is_train_state s.cur = true := by
    rcases hc with h | h | h <;> rw [h] <;> decide
  have hk : is_train_checkpoint s.cur = true := by
    rcases hc with h | h | h <;> rw [h] <;> decide
  obtain ⟨hov, hg⟩ := train_state_facts ht
  obtain ⟨p1, p2, p3, -, p5⟩ := step_prologue_frame evs s
  unfold SingleStep_SM
  obtain ⟨e1, e2, e3, e4, e5, e6, e7⟩ :=
    step_epilogue_frame (step_switch evs (step_prologue evs s))
  rw [e1, e2, e3, e4, e5, e6]
  generalize step_prologue evs s = p at *
  obtain ⟨x1, x2, x3⟩ := step_switch_train_checkpoint evs p (by rw [p1]; exact hc)
  obtain ⟨w1, w2, w3, -, w5⟩ := wait_idle evs (duration_of p.cur) p (by rw [p1]; exact hov)
    (by rw [p1]; exact hg)
  have q1 := poll_polls evs (wait_seconds_interruptible (duration_of p.cur) evs p)
  have q2 := (mq_quantum_counters evs 0
    (wait_seconds_interruptible (duration_of p.cur) evs p)).2
  have q3 := poll_cleared evs (wait_seconds_interruptible (duration_of p.cur) evs p) 0
  have q4 := poll_cur evs (wait_seconds_interruptible (duration_of p.cur) evs p)
  have hn : nanosleep_ms 0 (wait_seconds_interruptible (duration_of p.cur) evs p) =
      wait_seconds_interruptible (duration_of p.cur) evs p := rfl
  rw [hn] at q2
  generalize poll_events_from_mq evs (wait_seconds_interruptible (duration_of p.cur) evs p)
    = q at *
  simp only [step_polls, hk, if_true]
  refine ⟨?_, ?_, ?_⟩
  · rw [x2, q1, w2, p2, p1]; omega
  · rw [x3, q2, w3, p3, p1]; omega
  · intro h
    have hq : q.train_clear_pending = true := by
      apply (cleared_zero (q3 (w5 1 (p5 _ ?_)))).1
      rw [p1]
      simpa [Nat.add_comm, Nat.add_left_comm] using h
    have hx : should_exit_train_now q q.cur = true := by
      rw [q4, w1, p1]
      rcases hc with h | h | h <;> simp [should_exit_train_now, hq, h]
    have hs := x1 hx
    obtain ⟨-, -, d3, d4, d5, d6, d7⟩ := do_exit_frame q
    rw [hs] at e7 ⊢
    exact ⟨d3, d4, d5, d6, e7 (by rw [d3]; decide) d7⟩

end Fsm

namespace Fsm

theorem steps_to_checkpoint_facts {c : Nat} (h : is_train_state c = true) :
    is_train_checkpoint (c + steps_to_checkpoint c) = true ∧
    ∀ m, m ≤ steps_to_checkpoint c → is_train_state (c + m) = true ∧
      (m < steps_to_checkpoint c → is_train_checkpoint (c + m) = false) := by
  simp [is_train_state] at h
  obtain ⟨h1, h2⟩ := h
  interval_cases c <;> refine ⟨by decide, ?_⟩ <;> intro m hm <;>
    (have hm2 : m ≤ 2 := le_trans hm (by decide)) <;> interval_cases m <;>
    revert hm <;> decide

/-- With the clear received within the current step and no `'t'` after it, the cursor
walks the train sequence up to the next checkpoint and the step at that checkpoint takes
the exit to the ring. -/
theorem exit_at_first_train_checkpoint (evs : Nat → List Char) :
    ∀ (k : Nat) (s : Ctl), is_train_state s.cur = true →
      ClearedWithin evs s.train_clear_pending s.polls (step_polls s.cur) →
      steps_to_checkpoint s.cur = k →
      (∀ m, m ≤ k → (run evs m s).cur = s.cur + m) ∧
      (run evs (k + 1) s).cur = N_R3_RS_G ∧
      (run evs (k + 1) s).train_active = false ∧
      (run evs (k + 1) s).train_clear_pending = false ∧
      (run evs (k + 1) s).train_request = false ∧
      (run evs (k + 1) s).in_train_mode = false := by
  intro k
  induction k with
  | zero =>
    intro s ht hc hk
    have hcp : s.cur = T_ALL_RED_A ∨ s.cur = T_ALL_RED_B ∨ s.cur = T_DECISION_ALL_RED_4 := by
      rcases train_state_cases ht with h | h
      · rcases h with h | h | h | h | h | h <;> rw [h] at hk <;> simp [steps_to_checkpoint] at hk
      · exact h
    obtain ⟨-, -, hx⟩ := train_checkpoint_step evs s hcp
    refine ⟨fun m hm => ?_, hx hc⟩
    have : m = 0 := by omega
    subst this
    rfl
  | succ k ih =>
    intro s ht hc hk
    have hpl : s.cur = T_R3_NS_SRL_G_1 ∨ s.cur = T_R3_NS_SRL_Y_1 ∨ s.cur = T_R3_SN_LR_G_2 ∨
        s.cur = T_R3_SN_LR_Y_2 ∨ s.cur = T_R1_RESTRICT_G_3 ∨ s.cur = T_R1_RESTRICT_Y_3 := by
      rcases train_state_cases ht with h | h
      · exact h
      · rcases h with h | h | h <;> rw [h] at hk <;> simp [steps_to_checkpoint] at hk
    obtain ⟨s1, -, -, s4⟩ := train_plain_step evs s hpl
    have ht1 : is_train_state (SingleStep_SM evs s).cur = true := by
      rw [s1]
      rcases hpl with h | h | h | h | h | h <;> rw [h] <;> decide
    have hk1 : steps_to_checkpoint (SingleStep_SM evs s).cur = k := by
      rw [s1]
      rcases hpl with h | h | h | h | h | h <;> rw [h] at hk ⊢ <;>
        simp [steps_to_checkpoint] at hk ⊢ <;> omega
    obtain ⟨i1, i2⟩ := ih (SingleStep_SM evs s) ht1 (cleared_mono (Nat.zero_le _) (s4 hc)) hk1
    refine ⟨fun m hm => ?_, i2⟩
    cases m with
    | zero => rfl
    | succ m =>
      show (run evs m (SingleStep_SM evs s)).cur = _
      rw [i1 m (by omega), s1]
      omega

end Fsm

namespace Fsm

/-- C10: the effect of TrainCleared in traffic_fsm.c.
(1) Handling `'c'` writes `train_clear_pending := 1` and `train_request := 0` and no other
field, for every state; so a poll that receives just a `'c'` changes only these two
flags (and the poll counter of the model).
(2) No poll changes the cursor, the output, or the status line of the cursor.
(3) Every step at a train state sleeps the full duration of the state, whatever the
events, and the cursor leaves the train states only in a step at `T_ALL_RED_A`,
`T_ALL_RED_B` or `T_DECISION_ALL_RED_4`.
(4) If the clear is pending, or is received during the current step, and no `'t'`
comes after it, then the cursor follows the train sequence state by state up to the next
of these checkpoints, and the step at that checkpoint moves the cursor to the ring state
`N_R3_RS_G` with `train_active`, `train_clear_pending`, `train_request` and
`in_train_mode` all cleared: the exit is taken at the first checkpoint completed. -/
theorem C10_train_clear_frame_and_exit :
    (∀ s : Ctl, apply_event s 'c' =
      { s with train_clear_pending := true, train_request := false }) ∧
    (∀ (evs : Nat → List Char) (s : Ctl), evs s.polls = ['c'] →
      poll_events_from_mq evs s =
        { s with polls := s.polls + 1, train_clear_pending := true,
                 train_request := false }) ∧
    (∀ (evs : Nat → List Char) (s : Ctl),
      (poll_events_from_mq evs s).cur = s.cur ∧
      (poll_events_from_mq evs s).out = s.out ∧
      status_line (poll_events_from_mq evs s).cur = status_line s.cur) ∧
    (∀ (evs : Nat → List Char) (s : Ctl), is_train_state s.cur = true →
      (SingleStep_SM evs s).slept_ms = s.slept_ms + 1000 * duration_of s.cur ∧
      (is_train_state (SingleStep_SM evs s).cur = false →
        s.cur = T_ALL_RED_A ∨ s.cur = T_ALL_RED_B ∨ s.cur = T_DECISION_ALL_RED_4)) ∧
    (∀ (evs : Nat → List Char) (s : Ctl), is_train_state s.cur = true →
      ClearedWithin evs s.train_clear_pending s.polls (step_polls s.cur) →
      (∀ m, m ≤ steps_to_checkpoint s.cur →
        (run evs m s).cur = s.cur + m ∧ is_train_state (run evs m s).cur = true ∧
        (m < steps_to_checkpoint s.cur → is_train_checkpoint (run evs m s).cur = false)) ∧
      is_train_checkpoint (run evs (steps_to_checkpoint s.cur) s).cur = true ∧
      (run evs (steps_to_checkpoint s.cur + 1) s).cur = N_R3_RS_G ∧
      is_normal_state (run evs (steps_to_checkpoint s.cur + 1) s).cur = true ∧
      (run evs (steps_to_checkpoint s.cur + 1) s).train_active = false ∧
      (run evs (steps_to_checkpoint s.cur + 1) s).train_clear_pending = false ∧
      (run evs (steps_to_checkpoint s.cur + 1) s).train_request = false ∧
      (run evs (steps_to_checkpoint s.cur + 1) s).in_train_mode = false) := by
  refine ⟨fun s => by simp [apply_event], ?_, ?_, ?_, ?_⟩
  · intro evs s h
    simp [poll_events_from_mq, h, apply_event]
  · intro evs s
    have hu := poll_unpolled evs s
    simp only [unpolled, Prod.mk.injEq] at hu
    exact ⟨hu.1, hu.2.2.2.2.2.2.2, by rw [hu.1]⟩
  · intro evs s ht
    rcases train_state_cases ht with h | h
    · obtain ⟨s1, -, s3, -⟩ := train_plain_step evs s h
      refine ⟨s3, fun hn => ?_⟩
      rw [s1] at hn
      rcases h with h | h | h | h | h | h <;> rw [h] at hn <;> simp [is_train_state] at hn
    · exact ⟨(train_checkpoint_step evs s h).2.1, fun _ => h⟩
  · intro evs s ht hc
    obtain ⟨f1, f2⟩ := steps_to_checkpoint_facts ht
    obtain ⟨i1, i2, i3, i4, i5, i6⟩ :=
      exit_at_first_train_checkpoint evs _ s ht hc rfl
    refine ⟨fun m hm => ?_, ?_, i2, by rw [i2]; decide, i3, i4, i5, i6⟩
    · rw [i1 m hm]
      exact ⟨rfl, f2 m hm⟩
    · rw [i1 _ le_rfl]
      exact f1

set_option maxRecDepth 100000 in
theorem C10_train_clear_frame_and_exit_witness :
    is_train_state
      (run (fun i => if i = 0 then ['t'] else if i = 100 then ['c'] else []) 3 init).cur
        = true ∧
    (run (fun i => if i = 0 then ['t'] else if i = 100 then ['c'] else []) 3
      (run (fun i => if i = 0 then ['t'] else if i = 100 then ['c'] else []) 3 init)).cur
        = N_R3_RS_G :=
  ⟨by decide,
    (C10_train_clear_frame_and_exit.2.2.2.2
      (fun i => if i = 0 then ['t'] else if i = 100 then ['c'] else [])
      (run (fun i => if i = 0 then ['t'] else if i = 100 then ['c'] else []) 3 init)
      (by decide)
      (Or.inr ⟨100, by decide, by decide, ⟨[], [], by decide, by decide⟩, fun i hi => by
        have h0 : i ≠ 0 := by omega
        have h1 : i ≠ 100 := by omega
        simp [h0, h1]⟩)).2.2.1⟩

end Fsm

/-- C19: event handling is idempotent on the controller flags.
In traffic_fsm.c the update for an event byte applied twice in a row gives the same state
as applied once, for every byte (so for `'t'`, `'c'` and `'p'`) and every state; hence one
call of `poll_events_from_mq` that drains the byte twice leaves the same state as one that
drains it once. In demo1.c the same holds for every byte other than `'t'`; for `'t'` the
second update leaves every flag and cursor as the first did and only prints the
TRAIN PREEMPT banner once more ("print every press"), so the two states agree once the
output trace is disregarded. -/
theorem C19_event_handling_idempotent :
    (∀ (s : Fsm.Ctl) (ev : Char),
      Fsm.apply_event (Fsm.apply_event s ev) ev = Fsm.apply_event s ev) ∧
    (∀ (evs evs2 : Nat → List Char) (s : Fsm.Ctl) (ev : Char),
      evs s.polls = [ev] → evs2 s.polls = [ev, ev] →
      Fsm.poll_events_from_mq evs2 s = Fsm.poll_events_from_mq evs s) ∧
    (∀ (s : Demo1.Ctl) (ev : Char), ev ≠ 't' →
      Demo1.apply_event ev (Demo1.apply_event ev s) = Demo1.apply_event ev s) ∧
    (∀ (s : Demo1.Ctl),
      Demo1.apply_event 't' (Demo1.apply_event 't' s) =
        Demo1.notify Demo1.Notify.train_preempt (Demo1.apply_event 't' s)) ∧
    (∀ (s : Demo1.Ctl) (ev : Char),
      { Demo1.apply_event ev (Demo1.apply_event ev s) with out := [] } =
        { Demo1.apply_event ev s with out := ([] : List Demo1.Out) }) := by
  have hf : ∀ (s : Fsm.Ctl) (ev : Char),
      Fsm.apply_event (Fsm.apply_event s ev) ev = Fsm.apply_event s ev := by
    intro s ev
    unfold Fsm.apply_event
    split_ifs <;> rfl
  refine ⟨hf, ?_, ?_, ?_, ?_⟩
  · intro evs evs2 s ev h1 h2
    simp [Fsm.poll_events_from_mq, h1, h2, hf]
  · intro s ev hev
    unfold Demo1.apply_event
    split_ifs <;> first | rfl | (exfalso; simp_all)
  · intro s
    simp [Demo1.apply_event, Demo1.notify]
  · intro s ev
    unfold Demo1.apply_event
    split_ifs <;> simp [Demo1.notify]

theorem C19_event_handling_idempotent_witness :
    Fsm.poll_events_from_mq (fun _ => ['c', 'c']) Fsm.init =
      Fsm.poll_events_from_mq (fun _ => ['c']) Fsm.init ∧
    Demo1.apply_event 'p' (Demo1.apply_event 'p' Demo1.init) =
      Demo1.apply_event 'p' Demo1.init :=
  ⟨C19_event_handling_idempotent.2.1 (fun _ => ['c']) (fun _ => ['c', 'c']) Fsm.init 'c'
      rfl rfl,
   C19_event_handling_idempotent.2.2.1 Demo1.init 'p' (by decide)⟩

/-- C20 (as amended): a TrainDetected received in TRAIN mode, after the request that
started the crossing has been consumed, is not a no-op, but it changes only the train
request bookkeeping. With `train_active` set, handling `'t'` sets `train_request`, clears
`train_clear_pending` (a pending clear is cancelled), and in traffic_fsm.c clears
`train_preempt_notified`, in demo1.c prints the TRAIN PREEMPT banner; `train_active`, the
pedestrian flags, the layer flag and the cursors are the same after the event as before. -/
theorem C20_train_detect_in_train_mode :
    (∀ s : Fsm.Ctl, s.train_active = true →
      Fsm.apply_event s 't' =
        { s with train_request := true, train_clear_pending := false,
                 train_preempt_notified := false }) ∧
    (∀ s : Demo1.Ctl, s.train_active = true →
      Demo1.apply_event 't' s =
        { s with train_request := true, train_clear_pending := false,
                 out := s.out ++ [Demo1.Out.note Demo1.Notify.train_preempt] }) := by
  constructor
  · intro s h
    simp [Fsm.apply_event, ← h]
  · intro s h
    simp [Demo1.apply_event, Demo1.notify, ← h]

set_option maxRecDepth 100000 in
theorem C20_train_detect_in_train_mode_witness :
    ((Fsm.run (fun i => if i = 0 then ['t'] else []) 3 Fsm.init).train_active = true ∧
      (Fsm.apply_event (Fsm.run (fun i => if i = 0 then ['t'] else []) 3 Fsm.init) 't').cur =
        Fsm.T_R3_NS_SRL_G_1) ∧
    ((Demo1.run (fun i => if i = 7 then some 't' else none) 2 Demo1.init).train_active = true ∧
      (Demo1.apply_event 't'
        (Demo1.run (fun i => if i = 7 then some 't' else none) 2 Demo1.init)).tr =
          Demo1.TR_S02_R3_LR_G) :=
  ⟨⟨by decide, by
      rw [C20_train_detect_in_train_mode.1 _ (by decide)]
      decide⟩,
   ⟨by decide, by
      rw [C20_train_detect_in_train_mode.2 _ (by decide)]
      decide⟩⟩

set_option maxRecDepth 100000 in
/-- C20, counterexample to the claim as stated: in both programs, in TRAIN mode with the
starting request consumed (`train_request = 0`), handling a `'t'` raises `train_request`
again, so the state after the event differs from the state before. -/
theorem C20_counterexample :
    ((Fsm.run (fun i => if i = 0 then ['t'] else []) 3 Fsm.init).in_train_mode = true ∧
      (Fsm.run (fun i => if i = 0 then ['t'] else []) 3 Fsm.init).train_request = false ∧
      (Fsm.apply_event (Fsm.run (fun i => if i = 0 then ['t'] else []) 3 Fsm.init)
        't').train_request = true ∧
      Fsm.apply_event (Fsm.run (fun i => if i = 0 then ['t'] else []) 3 Fsm.init) 't' ≠
        Fsm.run (fun i => if i = 0 then ['t'] else []) 3 Fsm.init) ∧
    ((Demo1.run (fun i => if i = 7 then some 't' else none) 2 Demo1.init).in_train_state
        = true ∧
      (Demo1.run (fun i => if i = 7 then some 't' else none) 2 Demo1.init).train_request
        = false ∧
      (Demo1.apply_event 't'
        (Demo1.run (fun i => if i = 7 then some 't' else none) 2 Demo1.init)).train_request
        = true ∧
      Demo1.apply_event 't'
          (Demo1.run (fun i => if i = 7 then some 't' else none) 2 Demo1.init) ≠
        Demo1.run (fun i => if i = 7 then some 't' else none) 2 Demo1.init) := by
  decide

namespace Fsm

theorem mq_polled_refl (s : Ctl) : Polled s s :=
  ⟨rfl, rfl, rfl, rfl, rfl, rfl, rfl, fun h => h⟩

theorem mq_polled_trans {a b c : Ctl} (h1 : Polled a b) (h2 : Polled b c) : Polled a c := by
  obtain ⟨a1, a2, a3, a4, a5, a6, a7, a8⟩ := h1
  obtain ⟨b1, b2, b3, b4, b5, b6, b7, b8⟩ := h2
  exact ⟨b1.trans a1, b2.trans a2, b3.trans a3, b4.trans a4, b5.trans a5, b6.trans a6,
    b7.trans a7, fun h => b8 (a8 h)⟩

theorem foldl_ped_request (l : List Char) (s : Ctl) (h : s.ped_request = true) :
    (l.foldl apply_event s).ped_request = true := by
  induction l generalizing s with
  | nil => exact h
  | cons a l ih =>
    rw [List.foldl_cons]
    apply ih
    unfold apply_event
    split_ifs <;> simp [h]

theorem mq_poll_polled (evs : Nat → List Char) (s : Ctl) :
    Polled s (poll_events_from_mq evs s) := by
  have hu := poll_unpolled evs s
  simp only [unpolled, Prod.mk.injEq] at hu
  obtain ⟨a1, a2, a3, a4, a5, a6, -, a8⟩ := hu
  exact ⟨a1, a2, a3, a4, a5, a6, a8, fun h => foldl_ped_request _ _ h⟩

theorem mq_quantum_polled (evs : Nat → List Char) (ms : Nat) (s : Ctl) :
    Polled s (poll_events_from_mq evs (nanosleep_ms ms s)) :=
  mq_polled_trans ⟨rfl, rfl, rfl, rfl, rfl, rfl, rfl, fun h => h⟩
    (mq_poll_polled evs (nanosleep_ms ms s))

/-- One quantum of the wait: either it goes on, or (at a ring green) the preemption block
ran on the polled state. -/
theorem wait_quantum_shape (evs : Nat → List Char) (ms : Nat) (s : Ctl) :
    ∃ w, Polled s w ∧
      (wait_quantum evs ms s = (false, w) ∨
       (is_normal_green s.cur = true ∧ wait_quantum evs ms s = (true, preempt_block w))) := by
  refine ⟨poll_events_from_mq evs (nanosleep_ms ms s), mq_quantum_polled evs ms s, ?_⟩
  unfold wait_quantum
  simp only []
  split_ifs with h
  · right
    simp only [Bool.and_eq_true, quantum_cur] at h
    exact ⟨h.2, rfl⟩
  · left; rfl

theorem wait_loop_shape (evs : Nat → List Char) (n : Nat) (s : Ctl) :
    ∃ w, Polled s w ∧
      (wait_loop evs n s = (false, w) ∨
       (is_normal_green s.cur = true ∧ wait_loop evs n s = (true, preempt_block w))) := by
  induction n generalizing s with
  | zero => exact ⟨s, mq_polled_refl s, Or.inl rfl⟩
  | succ n ih =>
    obtain ⟨w, hw, h | ⟨hg, h⟩⟩ := wait_quantum_shape evs 100 s
    · obtain ⟨w2, hw2, h2 | ⟨hg2, h2⟩⟩ := ih w
      · exact ⟨w2, mq_polled_trans hw hw2, Or.inl (by unfold wait_loop; rw [h]; exact h2)⟩
      · refine ⟨w2, mq_polled_trans hw hw2, Or.inr ⟨?_, by unfold wait_loop; rw [h]; exact h2⟩⟩
        rw [← hw.1]; exact hg2
    · exact ⟨w, hw, Or.inr ⟨hg, by unfold wait_loop; rw [h]⟩⟩

/-- The whole wait: the polled state, or at a ring green the preemption block on it. -/
theorem wait_shape (t : Nat) (evs : Nat → List Char) (s : Ctl) :
    ∃ w, Polled s w ∧
      (wait_seconds_interruptible t evs s = w ∨
       (is_normal_green s.cur = true ∧
         wait_seconds_interruptible t evs s = preempt_block w)) := by
  unfold wait_seconds_interruptible
  split_ifs with h0
  · exact ⟨s, mq_polled_refl s, Or.inl rfl⟩
  · simp only []
    obtain ⟨w, hw, h | ⟨hg, h⟩⟩ := wait_loop_shape evs (t * 1000 % UINT_MOD / 100) s
    · rw [h]
      simp only []
      split_ifs with hr
      · obtain ⟨w2, hw2, h2 | ⟨hg2, h2⟩⟩ :=
          wait_quantum_shape evs (t * 1000 % UINT_MOD % 100) w
        · exact ⟨w2, mq_polled_trans hw hw2, Or.inl (by rw [h2])⟩
        · refine ⟨w2, mq_polled_trans hw hw2, Or.inr ⟨?_, by rw [h2]⟩⟩
          rw [← hw.1]; exact hg2
      · exact ⟨w, hw, Or.inl rfl⟩
    · rw [h]
      exact ⟨w, hw, Or.inr ⟨hg, rfl⟩⟩

theorem preempt_block_ped (w : Ctl) :
    (preempt_block w).ped_request = w.ped_request ∧
    (preempt_block w).in_ped_mode = w.in_ped_mode ∧
    (preempt_block w).ped_return_state = w.ped_return_state ∧
    (preempt_block w).in_train_mode = w.in_train_mode ∧
    status_lines (preempt_block w).out = status_lines w.out ∧
    (notices (preempt_block w).out).count Notify.ped_begin =
      (notices w.out).count Notify.ped_begin ∧
    (notices (preempt_block w).out).count Notify.ped_over =
      (notices w.out).count Notify.ped_over := by
  unfold preempt_block
  simp only []
  split_ifs <;> simp [notify, status_lines, notices, Out.asLine, Out.asNote]

/-- A pending pedestrian request survives the wait. -/
theorem wait_ped_request (t : Nat) (evs : Nat → List Char) (s : Ctl)
    (h : s.ped_request = true) : (wait_seconds_interruptible t evs s).ped_request = true := by
  obtain ⟨w, hw, e | ⟨-, e⟩⟩ := wait_shape t evs s
  · rw [e]; exact hw.2.2.2.2.2.2.2 h
  · rw [e, (preempt_block_ped w).1]; exact hw.2.2.2.2.2.2.2 h

/-- The two outcomes of `try_start_ped_if_safe`. -/
theorem try_start_ped_cases (s : Ctl) :
    (try_start_ped_if_safe s = (false, s)) ∨
    (s.ped_request = true ∧ ped_safe_checkpoint s.cur = true ∧
      try_start_ped_if_safe s = (true,
        { s with ped_return_state := ped_return_of s, ped_request := false, cur := P_WALK,
                 in_ped_mode := true,
                 out := s.out ++ (if s.in_ped_mode then [] else [Out.note Notify.ped_begin]) })) := by
  unfold try_start_ped_if_safe ped_return_of
  simp only []
  split_ifs <;> simp_all [notify]

end Fsm

namespace Fsm

/-- The `switch` at a ring all-red, in terms of the state at the end of its wait and poll. -/
theorem step_switch_ring_checkpoint (evs : Nat → List Char) (p q : Ctl)
    (hc : p.cur = N_ALL_RED_1 ∨ p.cur = N_ALL_RED_2)
    (hq : q = poll_events_from_mq evs (wait_seconds_interruptible T_ALL_RED evs
      { p with train_preempt_to_allred := false })) :
    step_switch evs p =
      (if q.train_request then enter_train q
        else if (try_start_ped_if_safe q).1 then (try_start_ped_if_safe q).2
        else { (try_start_ped_if_safe q).2 with
                cur := if p.cur = N_ALL_RED_1 then N_R1_RS_G else N_R3_RS_G }) := by
  rcases hc with h | h <;> simp [h] at hq <;> simp [step_switch, h, ← hq] <;>
    rcases try_start_ped_if_safe q with ⟨b, s3⟩ <;> cases b <;> simp

/-- The `switch` at a train checkpoint, in terms of the state at the end of its wait and
poll. -/
theorem step_switch_train_checkpoint_full (evs : Nat → List Char) (p q : Ctl)
    (hc : p.cur = T_ALL_RED_A ∨ p.cur = T_ALL_RED_B ∨ p.cur = T_DECISION_ALL_RED_4)
    (hq : q = poll_events_from_mq evs (wait_seconds_interruptible T_TR_R evs p)) :
    step_switch evs p =
      (if should_exit_train_now q q.cur then do_exit_train_to_normal q
        else if (try_start_ped_if_safe q).1 then (try_start_ped_if_safe q).2
        else if p.cur = T_DECISION_ALL_RED_4 then
          (if (try_start_ped_if_safe q).2.train_active &&
              !(try_start_ped_if_safe q).2.train_clear_pending then
            { (try_start_ped_if_safe q).2 with cur := T_R3_SN_LR_G_2 }
           else do_exit_train_to_normal (try_start_ped_if_safe q).2)
        else { (try_start_ped_if_safe q).2 with cur := p.cur + 1 }) := by
  rcases hc with h | h | h <;> simp [h] at hq <;> simp [step_switch, h, ← hq] <;>
    rcases try_start_ped_if_safe q with ⟨b, s3⟩ <;> cases b <;> simp

/-- The part of `SingleStep_SM` before the `switch` prints the status line of the cursor,
possibly followed by the TRAIN CLEAR banner, and otherwise only polls. -/
theorem step_prologue_ped (evs : Nat → List Char) (s : Ctl) :
    (step_prologue evs s).cur = s.cur ∧
    (step_prologue evs s).in_train_mode = s.in_train_mode ∧
    (step_prologue evs s).in_ped_mode = s.in_ped_mode ∧
    (step_prologue evs s).ped_return_state = s.ped_return_state ∧
    (s.ped_request = true → (step_prologue evs s).ped_request = true) ∧
    ((step_prologue evs s).out = s.out ++ [Out.line (status_line s.cur)] ∨
     (step_prologue evs s).out =
       s.out ++ [Out.line (status_line s.cur), Out.note Notify.train_clear]) := by
  have hp := mq_poll_polled evs (print_state_outputs s.cur s)
  unfold step_prologue
  simp only []
  generalize poll_events_from_mq evs (print_state_outputs s.cur s) = q at *
  obtain ⟨a1, a2, a3, a4, a5, a6, a7, a8⟩ := hp
  simp only [print_state_outputs] at a1 a2 a3 a4 a5 a6 a7 a8
  split_ifs <;> simp [notify, a1, a2, a3, a5, a7] <;> exact a8

/-- The wait away from the ring greens only sleeps and polls. -/
theorem wait_polled (t : Nat) (evs : Nat → List Char) (s : Ctl)
    (hg : is_normal_green s.cur = false) :
    Polled s (wait_seconds_interruptible t evs s) := by
  obtain ⟨w, hw, e | ⟨h, -⟩⟩ := wait_shape t evs s
  · rw [e]; exact hw
  · rw [hg] at h; cases h

/-- The state at the completion of a checkpoint keeps the cursor, the mode flags, the
return state and a pending pedestrian request of the state at the start of the step; the
output has grown by the status line of the cursor and possibly the TRAIN CLEAR banner. -/
theorem at_completion_frame (evs : Nat → List Char) (s : Ctl)
    (hg : is_normal_green s.cur = false) :
    (at_completion evs s).cur = s.cur ∧
    (at_completion evs s).in_train_mode = s.in_train_mode ∧
    (at_completion evs s).in_ped_mode = s.in_ped_mode ∧
    (at_completion evs s).ped_return_state = s.ped_return_state ∧
    (s.ped_request = true → (at_completion evs s).ped_request = true) ∧
    ((at_completion evs s).out = s.out ++ [Out.line (status_line s.cur)] ∨
     (at_completion evs s).out =
       s.out ++ [Out.line (status_line s.cur), Out.note Notify.train_clear]) := by
  obtain ⟨p1, p2, p3, p4, p5, p6⟩ := step_prologue_ped evs s
  unfold at_completion
  simp only []
  generalize step_prologue evs s = p at *
  have key : ∀ p0 : Ctl, p0.cur = p.cur → p0.in_train_mode = p.in_train_mode →
      p0.in_ped_mode = p.in_ped_mode → p0.ped_return_state = p.ped_return_state →
      p0.ped_request = p.ped_request → p0.out = p.out →
      (poll_events_from_mq evs (wait_seconds_interruptible (duration_of p.cur) evs p0)).cur
        = s.cur ∧
      (poll_events_from_mq evs
        (wait_seconds_interruptible (duration_of p.cur) evs p0)).in_train_mode
        = s.in_train_mode ∧
      (poll_events_from_mq evs
        (wait_seconds_interruptible (duration_of p.cur) evs p0)).in_ped_mode
        = s.in_ped_mode ∧
      (poll_events_from_mq evs
        (wait_seconds_interruptible (duration_of p.cur) evs p0)).ped_return_state
        = s.ped_return_state ∧
      (s.ped_request = true → (poll_events_from_mq evs
        (wait_seconds_interruptible (duration_of p.cur) evs p0)).ped_request = true) ∧
      ((poll_events_from_mq evs (wait_seconds_interruptible (duration_of p.cur) evs p0)).out
          = s.out ++ [Out.line (status_line s.cur)] ∨
       (poll_events_from_mq evs (wait_seconds_interruptible (duration_of p.cur) evs p0)).out
          = s.out ++ [Out.line (status_line s.cur), Out.note Notify.train_clear]) := by
    intro p0 c1 c2 c3 c4 c5 c6
    have hw := mq_polled_trans
      (wait_polled (duration_of p.cur) evs p0 (by rw [c1, p1]; exact hg))
      (mq_poll_polled evs (wait_seconds_interruptible (duration_of p.cur) evs p0))
    obtain ⟨a1, a2, a3, -, a5, -, a7, a8⟩ := hw
    refine ⟨by rw [a1, c1, p1], by rw [a2, c2, p2], by rw [a3, c3, p3],
      by rw [a5, c4, p4], fun h => a8 (by rw [c5]; exact p5 h), ?_⟩
    rw [a7, c6]; exact p6
  split_ifs
  · exact key _ rfl rfl rfl rfl rfl rfl
  · exact key _ rfl rfl rfl rfl rfl rfl

end Fsm

namespace Fsm

/-- One `SingleStep_SM` at a ring all-red, in terms of the state at its completion. -/
theorem step_at_ring_checkpoint (evs : Nat → List Char) (s : Ctl)
    (hc : s.cur = N_ALL_RED_1 ∨ s.cur = N_ALL_RED_2) :
    SingleStep_SM evs s = step_epilogue
      (if (at_completion evs s).train_request then enter_train (at_completion evs s)
        else if (try_start_ped_if_safe (at_completion evs s)).1 then
          (try_start_ped_if_safe (at_completion evs s)).2
        else { (try_start_ped_if_safe (at_completion evs s)).2 with
                cur := if s.cur = N_ALL_RED_1 then N_R1_RS_G else N_R3_RS_G }) := by
  have p1 := step_prologue_cur evs s
  unfold SingleStep_SM
  have hq : at_completion evs s = poll_events_from_mq evs
      (wait_seconds_interruptible T_ALL_RED evs
        { step_prologue evs s with train_preempt_to_allred := false }) := by
    unfold at_completion
    simp only [p1]
    rcases hc with h | h <;> simp [h, duration_of]
  rw [step_switch_ring_checkpoint evs (step_prologue evs s) (at_completion evs s)
    (by rw [p1]; exact hc) hq, p1]

/-- One `SingleStep_SM` at a train checkpoint, in terms of the state at its completion. -/
theorem step_at_train_checkpoint (evs : Nat → List Char) (s : Ctl)
    (hc : s.cur = T_ALL_RED_A ∨ s.cur = T_ALL_RED_B ∨ s.cur = T_DECISION_ALL_RED_4) :
    SingleStep_SM evs s = step_epilogue
      (if should_exit_train_now (at_completion evs s) (at_completion evs s).cur then
          do_exit_train_to_normal (at_completion evs s)
        else if (try_start_ped_if_safe (at_completion evs s)).1 then
          (try_start_ped_if_safe (at_completion evs s)).2
        else if s.cur = T_DECISION_ALL_RED_4 then
          (if (try_start_ped_if_safe (at_completion evs s)).2.train_active &&
              !(try_start_ped_if_safe (at_completion evs s)).2.train_clear_pending then
            { (try_start_ped_if_safe (at_completion evs s)).2 with cur := T_R3_SN_LR_G_2 }
           else do_exit_train_to_normal (try_start_ped_if_safe (at_completion evs s)).2)
        else { (try_start_ped_if_safe (at_completion evs s)).2 with cur := s.cur + 1 }) := by
  have p1 := step_prologue_cur evs s
  unfold SingleStep_SM
  have hq : at_completion evs s = poll_events_from_mq evs
      (wait_seconds_interruptible T_TR_R evs (step_prologue evs s)) := by
    unfold at_completion
    simp only [p1]
    rcases hc with h | h | h <;> simp [h, duration_of]
  rw [step_switch_train_checkpoint_full evs (step_prologue evs s) (at_completion evs s)
    (by rw [p1]; exact hc) hq, p1]

theorem train_normal_disjoint (c : Nat) (h : is_normal_state c = true) :
    is_train_state c = false := by
  simp [is_train_state, is_normal_state] at h ⊢
  omega

/-- The fix-ups after the `switch` touch only `in_train_mode` and the output, where they
can add the TRAIN BEGIN or TRAIN OVER banner. -/
theorem step_epilogue_ped (s : Ctl) :
    (step_epilogue s).ped_request = s.ped_request ∧
    (step_epilogue s).in_ped_mode = s.in_ped_mode ∧
    (step_epilogue s).ped_return_state = s.ped_return_state ∧
    status_lines (step_epilogue s).out = status_lines s.out ∧
    (notices (step_epilogue s).out).count Notify.ped_begin =
      (notices s.out).count Notify.ped_begin ∧
    (notices (step_epilogue s).out).count Notify.ped_over =
      (notices s.out).count Notify.ped_over ∧
    (is_train_state s.cur = true → (step_epilogue s).in_train_mode = true) ∧
    (is_train_state s.cur = false → s.in_train_mode = false →
      (step_epilogue s).out = s.out) := by
  have hd := train_normal_disjoint s.cur
  unfold step_epilogue
  simp only []
  split_ifs with h1 h2 h3 <;>
    simp_all [notify, status_lines, notices, Out.asLine, Out.asNote]

end Fsm

namespace Fsm

theorem mq_count_note_append (n : Notify) (o : List Out) (x : Out) :
    (notices (o ++ [x])).count n =
      (notices o).count n + (if x = Out.note n then 1 else 0) := by
  cases x with
  | line l => simp [notices, List.filterMap_append, Out.asNote]
  | note m =>
    by_cases h : m = n
    · subst h; simp [notices, List.filterMap_append, Out.asNote]
    · have h' : ¬ (m == n) = true := by simpa using h
      simp [notices, List.filterMap_append, Out.asNote, h, h', List.count_cons]

theorem mq_count_note_append2 (n : Notify) (o : List Out) (x y : Out) :
    (notices (o ++ [x, y])).count n =
      (notices o).count n + (if x = Out.note n then 1 else 0) +
        (if y = Out.note n then 1 else 0) := by
  have : o ++ [x, y] = (o ++ [x]) ++ [y] := by simp
  rw [this, mq_count_note_append, mq_count_note_append]

/-- The output at the completion of a checkpoint holds the same PED and TRAIN OVER/BEGIN
banners as the output at the start of the step. -/
theorem at_completion_count (evs : Nat → List Char) (s : Ctl)
    (hg : is_normal_green s.cur = false) (n : Notify) (hn : n ≠ Notify.train_clear) :
    (notices (at_completion evs s).out).count n = (notices s.out).count n := by
  obtain ⟨-, -, -, -, -, h | h⟩ := at_completion_frame evs s hg
  · rw [h, mq_count_note_append]; simp
  · rw [h, mq_count_note_append2]
    have : ¬ (Notify.train_clear = n) := fun e => hn e.symm
    simp [this]

theorem enter_train_frame (q : Ctl) :
    (enter_train q).cur = T_R3_NS_SRL_G_1 ∧
    (enter_train q).train_request = false ∧
    (enter_train q).train_active = true ∧
    (enter_train q).train_clear_pending = false ∧
    (enter_train q).in_train_mode = true ∧
    (enter_train q).ped_request = q.ped_request ∧
    (enter_train q).in_ped_mode = q.in_ped_mode ∧
    (enter_train q).ped_return_state = q.ped_return_state ∧
    (enter_train q).slept_ms = q.slept_ms ∧
    (∀ n, n ≠ Notify.train_begin →
      (notices (enter_train q).out).count n = (notices q.out).count n) ∧
    (notices (enter_train q).out).count Notify.train_begin =
      (notices q.out).count Notify.train_begin + (if q.in_train_mode then 0 else 1) := by
  cases h : q.in_train_mode <;> simp [enter_train, notify, mq_count_note_append, h]
  intro n hn
  exact fun e => hn e.symm

theorem do_exit_ped (q : Ctl) :
    (do_exit_train_to_normal q).ped_request = q.ped_request ∧
    (do_exit_train_to_normal q).in_ped_mode = q.in_ped_mode ∧
    (do_exit_train_to_normal q).ped_return_state = q.ped_return_state ∧
    (∀ n, n ≠ Notify.train_over →
      (notices (do_exit_train_to_normal q).out).count n = (notices q.out).count n) ∧
    (notices (do_exit_train_to_normal q).out).count Notify.train_over =
      (notices q.out).count Notify.train_over + (if q.in_train_mode then 1 else 0) := by
  cases h : q.in_train_mode <;>
    simp [do_exit_train_to_normal, notify, mq_count_note_append, h]
  intro n hn
  exact fun e => hn e.symm

end Fsm

namespace Fsm

/-- C17: at the completion of a train checkpoint (`T_ALL_RED_A`, `T_ALL_RED_B`,
`T_DECISION_ALL_RED_4`) with both `train_clear_pending` and `ped_request` set, the train
exit wins. For every schedule and every state in TRAIN mode at such a checkpoint, if both
flags are set at the end of the checkpoint's wait and poll, the step leaves the train
layer: the cursor becomes `N_R3_RS_G` (not `P_WALK`), `train_active`,
`train_clear_pending` and `in_train_mode` are cleared, exactly one TRAIN OVER is emitted,
no PED BEGIN is emitted, `in_ped_mode` is unchanged, and `ped_request` stays set. -/
theorem C17_train_exit_beats_ped (evs : Nat → List Char) (s : Ctl)
    (hc : s.cur = T_ALL_RED_A ∨ s.cur = T_ALL_RED_B ∨ s.cur = T_DECISION_ALL_RED_4)
    (hm : s.in_train_mode = true)
    (hcl : (at_completion evs s).train_clear_pending = true)
    (hp : (at_completion evs s).ped_request = true) :
    (SingleStep_SM evs s).cur = N_R3_RS_G ∧
    (SingleStep_SM evs s).cur ≠ P_WALK ∧
    (SingleStep_SM evs s).train_active = false ∧
    (SingleStep_SM evs s).train_clear_pending = false ∧
    (SingleStep_SM evs s).in_train_mode = false ∧
    (SingleStep_SM evs s).ped_request = true ∧
    (SingleStep_SM evs s).in_ped_mode = s.in_ped_mode ∧
    (notices (SingleStep_SM evs s).out).count Notify.train_over =
      (notices s.out).count Notify.train_over + 1 ∧
    (notices (SingleStep_SM evs s).out).count Notify.ped_begin =
      (notices s.out).count Notify.ped_begin := by
  have hg : is_normal_green s.cur = false := by
    rcases hc with h | h | h <;> rw [h] <;> decide
  obtain ⟨q1, q2, q3, -, -, -⟩ := at_completion_frame evs s hg
  have hx : should_exit_train_now (at_completion evs s) (at_completion evs s).cur = true := by
    rw [q1]
    rcases hc with h | h | h <;> simp [should_exit_train_now, hcl, h]
  rw [step_at_train_checkpoint evs s hc, hx]
  simp only [if_true]
  obtain ⟨d1, d2, d3, d4, d5, d6, d7⟩ := do_exit_frame (at_completion evs s)
  obtain ⟨x1, x2, -, x4, x5⟩ := do_exit_ped (at_completion evs s)
  obtain ⟨e1, -, -, e4, e5, -, e7⟩ :=
    step_epilogue_frame (do_exit_train_to_normal (at_completion evs s))
  obtain ⟨f1, f2, -, -, f5, -, -, f8⟩ :=
    step_epilogue_ped (do_exit_train_to_normal (at_completion evs s))
  have hout := f8 (by rw [d3]; decide) d7
  refine ⟨by rw [e1, d3], by rw [e1, d3]; decide, by rw [e5, d4], by rw [e4, d5],
    e7 (by rw [d3]; decide) d7, by rw [f1, x1, hp], by rw [f2, x2, q3], ?_, ?_⟩
  · rw [hout, x5, q2, hm, at_completion_count evs s hg _ (by decide)]
    rfl
  · rw [f5, x4 _ (by decide), at_completion_count evs s hg _ (by decide)]

set_option maxRecDepth 100000 in
theorem C17_train_exit_beats_ped_witness :
    (run (fun i => if i = 0 then ['t'] else if i = 100 then ['p'] else
        if i = 110 then ['c'] else []) 5 init).cur = T_ALL_RED_A ∧
    (SingleStep_SM (fun i => if i = 0 then ['t'] else if i = 100 then ['p'] else
        if i = 110 then ['c'] else [])
      (run (fun i => if i = 0 then ['t'] else if i = 100 then ['p'] else
        if i = 110 then ['c'] else []) 5 init)).ped_request = true ∧
    (SingleStep_SM (fun i => if i = 0 then ['t'] else if i = 100 then ['p'] else
        if i = 110 then ['c'] else [])
      (run (fun i => if i = 0 then ['t'] else if i = 100 then ['p'] else
        if i = 110 then ['c'] else []) 5 init)).cur = N_R3_RS_G :=
  have h := C17_train_exit_beats_ped
    (fun i => if i = 0 then ['t'] else if i = 100 then ['p'] else
      if i = 110 then ['c'] else [])
    (run (fun i => if i = 0 then ['t'] else if i = 100 then ['p'] else
      if i = 110 then ['c'] else []) 5 init)
    (Or.inl (by decide)) (by decide) (by decide) (by decide)
  ⟨by decide, h.2.2.2.2.2.1, h.1⟩

/-- C18: ring rule priority. For every schedule and every state at `N_ALL_RED_1` or
`N_ALL_RED_2`, if both `train_request` and `ped_request` are set at the end of the
all-red's wait and poll, train entry takes priority over the pedestrian claim: the cursor
becomes the first train state `T_R3_NS_SRL_G_1` (not `P_WALK`), `train_request` is
consumed, `train_active` and `in_train_mode` are set, and the pedestrian side is
untouched: `ped_request` remains set, `in_ped_mode` is unchanged and no PED BEGIN is
emitted. -/
theorem C18_train_entry_beats_ped (evs : Nat → List Char) (s : Ctl)
    (hc : s.cur = N_ALL_RED_1 ∨ s.cur = N_ALL_RED_2)
    (ht : (at_completion evs s).train_request = true)
    (hp : (at_completion evs s).ped_request = true) :
    (SingleStep_SM evs s).cur = T_R3_NS_SRL_G_1 ∧
    (SingleStep_SM evs s).cur ≠ P_WALK ∧
    (SingleStep_SM evs s).train_request = false ∧
    (SingleStep_SM evs s).train_active = true ∧
    (SingleStep_SM evs s).in_train_mode = true ∧
    (SingleStep_SM evs s).ped_request = true ∧
    (SingleStep_SM evs s).in_ped_mode = s.in_ped_mode ∧
    (notices (SingleStep_SM evs s).out).count Notify.ped_begin =
      (notices s.out).count Notify.ped_begin := by
  have hg : is_normal_green s.cur = false := by
    rcases hc with h | h <;> rw [h] <;> decide
  obtain ⟨-, -, q3, -, -, -⟩ := at_completion_frame evs s hg
  rw [step_at_ring_checkpoint evs s hc, ht]
  simp only [if_true]
  obtain ⟨t1, t2, t3, -, -, t6, t7, -, -, t10, -⟩ := enter_train_frame (at_completion evs s)
  obtain ⟨e1, -, -, -, e5, e6, -⟩ := step_epilogue_frame (enter_train (at_completion evs s))
  obtain ⟨f1, f2, -, -, f5, -, f7, -⟩ := step_epilogue_ped (enter_train (at_completion evs s))
  refine ⟨by rw [e1, t1], by rw [e1, t1]; decide, by rw [e6, t2], by rw [e5, t3],
    f7 (by rw [t1]; decide), by rw [f1, t6, hp], by rw [f2, t7, q3], ?_⟩
  rw [f5, t10 _ (by decide), at_completion_count evs s hg _ (by decide)]

set_option maxRecDepth 100000 in
theorem C18_train_entry_beats_ped_witness :
    (run (fun i => if i = 0 then ['t'] else if i = 10 then ['p'] else []) 2 init).cur
      = N_ALL_RED_1 ∧
    (SingleStep_SM (fun i => if i = 0 then ['t'] else if i = 10 then ['p'] else [])
      (run (fun i => if i = 0 then ['t'] else if i = 10 then ['p'] else []) 2 init)).cur
      = T_R3_NS_SRL_G_1 ∧
    (SingleStep_SM (fun i => if i = 0 then ['t'] else if i = 10 then ['p'] else [])
      (run (fun i => if i = 0 then ['t'] else if i = 10 then ['p'] else []) 2
        init)).ped_request = true :=
  have h := C18_train_entry_beats_ped
    (fun i => if i = 0 then ['t'] else if i = 10 then ['p'] else [])
    (run (fun i => if i = 0 then ['t'] else if i = 10 then ['p'] else []) 2 init)
    (Or.inl (by decide)) (by decide) (by decide)
  ⟨by decide, h.1, h.2.2.2.2.2.1⟩

end Fsm

namespace Fsm

theorem checkpoint_not_green {c : Nat} (h : ped_safe_checkpoint c = true) :
    is_normal_green c = false ∧
    ((c = N_ALL_RED_1 ∨ c = N_ALL_RED_2) ∨
      (c = T_ALL_RED_A ∨ c = T_ALL_RED_B ∨ c = T_DECISION_ALL_RED_4)) := by
  simp [ped_safe_checkpoint] at h
  rcases h with (((h | h) | h) | h) | h <;> subst h <;> simp [is_normal_green]

/-- Away from the five checkpoints the `switch` never clears a pending pedestrian
request. -/
theorem step_switch_ped_request_kept (evs : Nat → List Char) (p : Ctl)
    (hc : ped_safe_checkpoint p.cur = false) (hp : p.ped_request = true) :
    (step_switch evs p).ped_request = true := by
  have hw : ∀ t, (wait_seconds_interruptible t evs p).ped_request = true :=
    fun t => wait_ped_request t evs p hp
  by_cases h : p.cur ≤ 22
  · obtain ⟨c, hc2⟩ : ∃ c, p.cur = c := ⟨_, rfl⟩
    rw [hc2] at h hc
    interval_cases c <;> simp [ped_safe_checkpoint] at hc <;>
      simp [step_switch, hc2, hw] <;> first | exact hp | (split_ifs <;> simp [hw, notify, hp])
  · obtain ⟨d, hd⟩ : ∃ d, p.cur = d + 23 := ⟨p.cur - 23, by omega⟩
    simp [step_switch, hd, hp]

end Fsm

namespace Fsm

/-- At the completion of a checkpoint the full duration of the checkpoint has been slept. -/
theorem at_completion_slept (evs : Nat → List Char) (s : Ctl)
    (hc : ped_safe_checkpoint s.cur = true) :
    (at_completion evs s).slept_ms = s.slept_ms + 1000 * duration_of s.cur := by
  obtain ⟨hg, hcl⟩ := checkpoint_not_green hc
  have hov : duration_of s.cur * 1000 < UINT_MOD := by
    rcases hcl with (h | h) | (h | h | h) <;> rw [h] <;> decide
  obtain ⟨p1, -, p3, -, -⟩ := step_prologue_frame evs s
  unfold at_completion
  simp only []
  generalize step_prologue evs s = p at *
  have key : ∀ p0 : Ctl, p0.cur = p.cur → p0.slept_ms = p.slept_ms →
      (poll_events_from_mq evs
        (wait_seconds_interruptible (duration_of p.cur) evs p0)).slept_ms =
        s.slept_ms + 1000 * duration_of s.cur := by
    intro p0 c1 c2
    have hu := poll_unpolled evs (wait_seconds_interruptible (duration_of p.cur) evs p0)
    simp only [unpolled, Prod.mk.injEq] at hu
    obtain ⟨-, -, w3, -, -⟩ := wait_idle evs (duration_of p.cur) p0 (by rw [p1]; exact hov)
      (by rw [c1, p1]; exact hg)
    rw [hu.2.2.2.2.2.2.1, w3, c2, p3, p1]
  split_ifs
  · exact key _ rfl rfl
  · exact key _ rfl rfl

/-- The five checkpoints are the only place where a step consumes a pedestrian request,
and it does so by the claim, after the checkpoint's full wait. -/
theorem step_ped_request_consumed (evs : Nat → List Char) (s : Ctl)
    (hp : s.ped_request = true) (hf : (SingleStep_SM evs s).ped_request = false) :
    ped_safe_checkpoint s.cur = true ∧
    (try_start_ped_if_safe (at_completion evs s)).1 = true ∧
    (SingleStep_SM evs s).cur = P_WALK ∧
    (SingleStep_SM evs s).slept_ms = s.slept_ms + 1000 * duration_of s.cur := by
  cases hck : ped_safe_checkpoint s.cur
  · exfalso
    obtain ⟨p1, -, -, -, p5, -⟩ := step_prologue_ped evs s
    have := step_switch_ped_request_kept evs (step_prologue evs s) (by rw [p1]; exact hck)
      (p5 hp)
    unfold SingleStep_SM at hf
    rw [(step_epilogue_ped _).1, this] at hf
    cases hf
  · obtain ⟨hg, hcl⟩ := checkpoint_not_green hck
    obtain ⟨q1, -, -, -, q5, -⟩ := at_completion_frame evs s hg
    have hq := q5 hp
    have hsl := at_completion_slept evs s hck
    have hts := try_start_ped_frame (at_completion evs s)
    rcases try_start_ped_cases (at_completion evs s) with ht | ⟨-, -, ht⟩
    · -- the claim is refused: the request stays
      exfalso
      rcases hcl with hr | htr
      · rw [step_at_ring_checkpoint evs s hr, (step_epilogue_ped _).1, ht] at hf
        simp only [] at hf
        split_ifs at hf
        all_goals first
          | (rw [(enter_train_frame _).2.2.2.2.2.1, hq] at hf; cases hf)
          | (simp [hq] at hf)
      · rw [step_at_train_checkpoint evs s htr, (step_epilogue_ped _).1, ht] at hf
        simp only [] at hf
        split_ifs at hf
        all_goals first
          | (rw [(do_exit_ped _).1, hq] at hf; cases hf)
          | (simp [hq] at hf)
    · have h1 : (try_start_ped_if_safe (at_completion evs s)).1 = true := by rw [ht]
      have h2 : (try_start_ped_if_safe (at_completion evs s)).2.cur = P_WALK := by rw [ht]
      rcases hcl with hr | htr
      · rw [step_at_ring_checkpoint evs s hr] at hf ⊢
        rw [(step_epilogue_ped _).1] at hf
        rw [step_epilogue_cur, (step_epilogue_frame _).2.2.1]
        by_cases hx : (at_completion evs s).train_request = true
        · rw [if_pos hx, (enter_train_frame _).2.2.2.2.2.1, hq] at hf; cases hf
        · rw [if_neg hx, if_pos h1]
          exact ⟨rfl, h1, h2, by rw [hts.2, hsl]⟩
      · rw [step_at_train_checkpoint evs s htr] at hf ⊢
        rw [(step_epilogue_ped _).1] at hf
        rw [step_epilogue_cur, (step_epilogue_frame _).2.2.1]
        by_cases hx : should_exit_train_now (at_completion evs s) (at_completion evs s).cur
            = true
        · rw [if_pos hx, (do_exit_ped _).1, hq] at hf; cases hf
        · rw [if_neg hx, if_pos h1]
          exact ⟨rfl, h1, h2, by rw [hts.2, hsl]⟩

/-- C14: the pedestrian claim rule of traffic_fsm.c.
(1) `try_start_ped_if_safe` returns 1 only when `ped_request` is set and the cursor is
one of the five all-red checkpoints; when it returns 1 it has cleared `ped_request` and
set the cursor to `P_WALK`.
(2) When it returns 0 the whole state is unchanged, in particular the cursor,
`ped_request`, `ped_return_state` and `in_ped_mode`.
(3) Over every `SingleStep_SM`, for every schedule: a step that starts with
`ped_request` set and ends with it clear is a step at one of the five checkpoints, the
request was consumed by a claim that returned 1 on the state at the completion of the
checkpoint, the checkpoint's full duration has been slept, and the cursor is `P_WALK`. -/
theorem C14_ped_claim_rule :
    (∀ s : Ctl, (try_start_ped_if_safe s).1 = true →
      s.ped_request = true ∧
      (s.cur = N_ALL_RED_1 ∨ s.cur = N_ALL_RED_2 ∨ s.cur = T_ALL_RED_A ∨
        s.cur = T_ALL_RED_B ∨ s.cur = T_DECISION_ALL_RED_4) ∧
      (try_start_ped_if_safe s).2.ped_request = false ∧
      (try_start_ped_if_safe s).2.cur = P_WALK) ∧
    (∀ s : Ctl, (try_start_ped_if_safe s).1 = false → (try_start_ped_if_safe s).2 = s) ∧
    (∀ (evs : Nat → List Char) (s : Ctl), s.ped_request = true →
      (SingleStep_SM evs s).ped_request = false →
      (s.cur = N_ALL_RED_1 ∨ s.cur = N_ALL_RED_2 ∨ s.cur = T_ALL_RED_A ∨
        s.cur = T_ALL_RED_B ∨ s.cur = T_DECISION_ALL_RED_4) ∧
      (try_start_ped_if_safe (at_completion evs s)).1 = true ∧
      (SingleStep_SM evs s).cur = P_WALK ∧
      (SingleStep_SM evs s).slept_ms = s.slept_ms + 1000 * duration_of s.cur) := by
  have five : ∀ c, ped_safe_checkpoint c = true →
      (c = N_ALL_RED_1 ∨ c = N_ALL_RED_2 ∨ c = T_ALL_RED_A ∨ c = T_ALL_RED_B ∨
        c = T_DECISION_ALL_RED_4) := by
    intro c h
    rcases (checkpoint_not_green h).2 with (h | h) | (h | h | h) <;> simp [h]
  refine ⟨?_, ?_, ?_⟩
  · intro s h
    rcases try_start_ped_cases s with ht | ⟨h1, h2, ht⟩
    · rw [ht] at h; cases h
    · exact ⟨h1, five _ h2, by rw [ht], by rw [ht]⟩
  · intro s h
    rcases try_start_ped_cases s with ht | ⟨-, -, ht⟩
    · rw [ht]
    · rw [ht] at h; cases h
  · intro evs s hp hf
    obtain ⟨a, b, c, d⟩ := step_ped_request_consumed evs s hp hf
    exact ⟨five _ a, b, c, d⟩

set_option maxRecDepth 100000 in
theorem C14_ped_claim_rule_witness :
    (run (fun i => if i = 10 then ['p'] else []) 4 init).cur = N_ALL_RED_1 ∧
    (run (fun i => if i = 10 then ['p'] else []) 4 init).ped_request = true ∧
    (SingleStep_SM (fun i => if i = 10 then ['p'] else [])
      (run (fun i => if i = 10 then ['p'] else []) 4 init)).cur = P_WALK :=
  ⟨by decide, by decide,
    (C14_ped_claim_rule.2.2 (fun i => if i = 10 then ['p'] else [])
      (run (fun i => if i = 10 then ['p'] else []) 4 init) (by decide) (by decide)).2.2.1⟩

end Fsm

namespace Fsm

/-- What the wait leaves of the pedestrian side, and where it can leave the cursor. -/
theorem wait_ped_fields (t : Nat) (evs : Nat → List Char) (s : Ctl) :
    (wait_seconds_interruptible t evs s).in_ped_mode = s.in_ped_mode ∧
    (wait_seconds_interruptible t evs s).ped_return_state = s.ped_return_state ∧
    (notices (wait_seconds_interruptible t evs s).out).count Notify.ped_begin =
      (notices s.out).count Notify.ped_begin ∧
    (notices (wait_seconds_interruptible t evs s).out).count Notify.ped_over =
      (notices s.out).count Notify.ped_over ∧
    ((wait_seconds_interruptible t evs s).cur = s.cur ∨
     (wait_seconds_interruptible t evs s).cur = normal_green_to_yellow s.cur) := by
  obtain ⟨w, hw, e | ⟨-, e⟩⟩ := wait_shape t evs s
  · rw [e]
    obtain ⟨a1, -, a3, -, a5, -, a7, -⟩ := hw
    exact ⟨a3, a5, by rw [a7], by rw [a7], Or.inl a1⟩
  · rw [e]
    obtain ⟨a1, -, a3, -, a5, -, a7, -⟩ := hw
    obtain ⟨-, b2, b3, -, -, b6, b7⟩ := preempt_block_ped w
    exact ⟨by rw [b2, a3], by rw [b3, a5], by rw [b6, a7], by rw [b7, a7],
      Or.inr (by rw [preempt_block_cur, a1])⟩

/-- A step of the `switch` away from the five checkpoints and the three pedestrian
states leaves the pedestrian side alone and does not enter a pedestrian state. -/
theorem step_switch_plain_ped (evs : Nat → List Char) (p : Ctl)
    (hck : ped_safe_checkpoint p.cur = false)
    (hnp : p.cur ≠ P_WALK ∧ p.cur ≠ P_FLASH ∧ p.cur ≠ P_CLEAR_ALL_RED) :
    ((step_switch evs p).cur ≠ P_WALK ∧ (step_switch evs p).cur ≠ P_FLASH ∧
      (step_switch evs p).cur ≠ P_CLEAR_ALL_RED) ∧
    (step_switch evs p).in_ped_mode = p.in_ped_mode ∧
    (step_switch evs p).ped_return_state = p.ped_return_state ∧
    (notices (step_switch evs p).out).count Notify.ped_begin =
      (notices p.out).count Notify.ped_begin ∧
    (notices (step_switch evs p).out).count Notify.ped_over =
      (notices p.out).count Notify.ped_over := by
  have hW := wait_ped_fields (duration_of p.cur) evs p
  by_cases h : p.cur ≤ 22
  · obtain ⟨c, hc2⟩ : ∃ c, p.cur = c := ⟨_, rfl⟩
    rw [hc2] at h hck hnp
    interval_cases c <;> simp [ped_safe_checkpoint] at hck <;> simp at hnp <;>
      simp [hc2, duration_of, normal_green_to_yellow] at hW <;>
      obtain ⟨w1, w2, w3, w4, w5⟩ := hW <;>
      first
        | (simp [step_switch, hc2]; done)
        | (simp [step_switch, hc2, w1, w2, w3, w4, w5]; done)
        | (simp [step_switch, hc2, w1, w2, w3, w4, w5] <;>
            split_ifs <;> simp [w1, w2, w3, w4, w5]; done)
        | (rcases w5 with w5 | w5 <;> simp [step_switch, hc2, w1, w2, w3, w4, w5])
  · obtain ⟨d, hd⟩ : ∃ d, p.cur = d + 23 := ⟨p.cur - 23, by omega⟩
    simp [step_switch, hd]

end Fsm

namespace Fsm

theorem step_prologue_lines (evs : Nat → List Char) (s : Ctl) :
    status_lines (step_prologue evs s).out = status_lines s.out ++ [status_line s.cur] ∧
    (∀ n, n ≠ Notify.train_clear →
      (notices (step_prologue evs s).out).count n = (notices s.out).count n) := by
  obtain ⟨-, -, -, -, -, h | h⟩ := step_prologue_ped evs s
  · rw [h]
    refine ⟨by simp [status_lines, List.filterMap_append, Out.asLine], fun n hn => ?_⟩
    rw [mq_count_note_append]; simp
  · rw [h]
    refine ⟨by simp [status_lines, List.filterMap_append, Out.asLine], fun n hn => ?_⟩
    rw [mq_count_note_append2]
    have : ¬ (Notify.train_clear = n) := fun e => hn e.symm
    simp [this]

/-- One step at `P_WALK` or `P_FLASH`: the full wait, then the next pedestrian state. -/
theorem step_ped_walk_flash (evs : Nat → List Char) (s : Ctl)
    (hc : s.cur = P_WALK ∨ s.cur = P_FLASH) :
    (SingleStep_SM evs s).cur = s.cur + 1 ∧
    (SingleStep_SM evs s).slept_ms = s.slept_ms + 1000 * duration_of s.cur ∧
    (SingleStep_SM evs s).in_ped_mode = s.in_ped_mode ∧
    (SingleStep_SM evs s).ped_return_state = s.ped_return_state ∧
    status_lines (SingleStep_SM evs s).out = status_lines s.out ++ [status_line s.cur] ∧
    (notices (SingleStep_SM evs s).out).count Notify.ped_begin =
      (notices s.out).count Notify.ped_begin ∧
    (notices (SingleStep_SM evs s).out).count Notify.ped_over =
      (notices s.out).count Notify.ped_over := by
  have hg : is_normal_green s.cur = false := by
    rcases hc with h | h <;> rw [h] <;> decide
  have hov : duration_of s.cur * 1000 < UINT_MOD := by
    rcases hc with h | h <;> rw [h] <;> decide
  obtain ⟨p1, -, p3, -, -⟩ := step_prologue_frame evs s
  obtain ⟨-, -, q3, q4, -, -⟩ := step_prologue_ped evs s
  obtain ⟨l1, l2⟩ := step_prologue_lines evs s
  unfold SingleStep_SM
  obtain ⟨e1, -, e3, -⟩ := step_epilogue_frame (step_switch evs (step_prologue evs s))
  obtain ⟨-, f2, f3, f4, f5, f6, -, -⟩ :=
    step_epilogue_ped (step_switch evs (step_prologue evs s))
  rw [e1, e3, f2, f3, f4, f5, f6]
  generalize step_prologue evs s = p at *
  have hsw : step_switch evs p =
      { wait_seconds_interruptible (duration_of p.cur) evs p with cur := p.cur + 1 } := by
    rw [p1]
    rcases hc with h | h <;> simp [step_switch, h, p1, duration_of]
  obtain ⟨-, -, w3, -, -⟩ := wait_idle evs (duration_of p.cur) p (by rw [p1]; exact hov)
    (by rw [p1]; exact hg)
  obtain ⟨-, -, a3, -, a5, -, a7, -⟩ :=
    wait_polled (duration_of p.cur) evs p (by rw [p1]; exact hg)
  rw [hsw]
  simp only []
  refine ⟨by rw [p1], by rw [w3, p3, p1], by rw [a3, q3], by rw [a5, q4], by rw [a7, l1],
    by rw [a7, l2 _ (by decide)], by rw [a7, l2 _ (by decide)]⟩

/-- One step at `P_CLEAR_ALL_RED`: the full wait, PED OVER, then the stored return state. -/
theorem step_ped_clear (evs : Nat → List Char) (s : Ctl) (hc : s.cur = P_CLEAR_ALL_RED) :
    (SingleStep_SM evs s).cur = s.ped_return_state ∧
    (SingleStep_SM evs s).slept_ms = s.slept_ms + 1000 * duration_of s.cur ∧
    (SingleStep_SM evs s).in_ped_mode = false ∧
    (SingleStep_SM evs s).ped_return_state = s.ped_return_state ∧
    status_lines (SingleStep_SM evs s).out = status_lines s.out ++ [status_line s.cur] ∧
    (notices (SingleStep_SM evs s).out).count Notify.ped_begin =
      (notices s.out).count Notify.ped_begin ∧
    (notices (SingleStep_SM evs s).out).count Notify.ped_over =
      (notices s.out).count Notify.ped_over + (if s.in_ped_mode then 1 else 0) := by
  have hg : is_normal_green s.cur = false := by rw [hc]; decide
  have hov : duration_of s.cur * 1000 < UINT_MOD := by rw [hc]; decide
  obtain ⟨p1, -, p3, -, -⟩ := step_prologue_frame evs s
  obtain ⟨-, -, q3, q4, -, -⟩ := step_prologue_ped evs s
  obtain ⟨l1, l2⟩ := step_prologue_lines evs s
  unfold SingleStep_SM
  obtain ⟨e1, -, e3, -⟩ := step_epilogue_frame (step_switch evs (step_prologue evs s))
  obtain ⟨-, f2, f3, f4, f5, f6, -, -⟩ :=
    step_epilogue_ped (step_switch evs (step_prologue evs s))
  rw [e1, e3, f2, f3, f4, f5, f6]
  generalize step_prologue evs s = p at *
  obtain ⟨-, -, w3, -, -⟩ := wait_idle evs (duration_of p.cur) p (by rw [p1]; exact hov)
    (by rw [p1]; exact hg)
  obtain ⟨-, -, a3, -, a5, -, a7, -⟩ :=
    wait_polled (duration_of p.cur) evs p (by rw [p1]; exact hg)
  have hd : duration_of p.cur = T_PED_CLR := by rw [p1, hc]; decide
  rw [hd] at w3 a3 a5 a7
  have hp1 : p.cur = P_CLEAR_ALL_RED := by rw [p1, hc]
  generalize hw : wait_seconds_interruptible T_PED_CLR evs p = w at *
  have hw2 : wait_seconds_interruptible 2 evs p = w := hw
  simp only [step_switch, hp1]
  simp [hw2]
  rw [hc] at p1 l1 ⊢
  cases hm : w.in_ped_mode
  · have hs : s.in_ped_mode = false := by rw [← q3, ← a3, hm]
    simp [hm, hs, a5, q4, w3, p3, a7, l1, l2, duration_of]
  · have hs : s.in_ped_mode = true := by rw [← q3, ← a3, hm]
    simp [hm, hs, a5, q4, w3, p3, a7, l1, l2, duration_of, notify, status_lines,
      List.filterMap_append, Out.asLine, mq_count_note_append]
    simpa [status_lines] using l1

end Fsm

namespace Fsm

theorem ped_return_of_range (q : Ctl) :
    ped_return_of q = N_R3_RS_G ∨ ped_return_of q = N_R1_RS_G ∨
      ped_return_of q = T_R3_SN_LR_G_2 := by
  unfold ped_return_of
  split_ifs <;> simp

/-- One step at one of the five checkpoints, seen from the pedestrian side: either the
request is claimed (cursor `P_WALK`, `in_ped_mode` set, PED BEGIN emitted unless the mode
was already set), or the pedestrian side is left alone. -/
theorem step_checkpoint_ped (evs : Nat → List Char) (s : Ctl)
    (hck : ped_safe_checkpoint s.cur = true) :
    ((SingleStep_SM evs s).cur = P_WALK ∧
      (try_start_ped_if_safe (at_completion evs s)).1 = true ∧
      (SingleStep_SM evs s).in_ped_mode = true ∧
      (SingleStep_SM evs s).ped_return_state = ped_return_of (at_completion evs s) ∧
      (notices (SingleStep_SM evs s).out).count Notify.ped_begin =
        (notices s.out).count Notify.ped_begin + (if s.in_ped_mode then 0 else 1) ∧
      (notices (SingleStep_SM evs s).out).count Notify.ped_over =
        (notices s.out).count Notify.ped_over) ∨
    (is_ped_state (SingleStep_SM evs s).cur = false ∧
      (SingleStep_SM evs s).in_ped_mode = s.in_ped_mode ∧
      (SingleStep_SM evs s).ped_return_state = s.ped_return_state ∧
      (notices (SingleStep_SM evs s).out).count Notify.ped_begin =
        (notices s.out).count Notify.ped_begin ∧
      (notices (SingleStep_SM evs s).out).count Notify.ped_over =
        (notices s.out).count Notify.ped_over) := by
  obtain ⟨hg, hcl⟩ := checkpoint_not_green hck
  obtain ⟨q1, -, q3, q4, -, -⟩ := at_completion_frame evs s hg
  have cb := at_completion_count evs s hg Notify.ped_begin (by decide)
  have co := at_completion_count evs s hg Notify.ped_over (by decide)
  -- the three ways a checkpoint step can end, up to the fix-ups after the `switch`
  have claimed : ∀ x : Ctl, x = (try_start_ped_if_safe (at_completion evs s)).2 →
      (try_start_ped_if_safe (at_completion evs s)).1 = true →
      (step_epilogue x).cur = P_WALK ∧
      (try_start_ped_if_safe (at_completion evs s)).1 = true ∧
      (step_epilogue x).in_ped_mode = true ∧
      (step_epilogue x).ped_return_state = ped_return_of (at_completion evs s) ∧
      (notices (step_epilogue x).out).count Notify.ped_begin =
        (notices s.out).count Notify.ped_begin + (if s.in_ped_mode then 0 else 1) ∧
      (notices (step_epilogue x).out).count Notify.ped_over =
        (notices s.out).count Notify.ped_over := by
    intro x hx h1
    obtain ⟨-, f2, f3, -, f5, f6, -, -⟩ := step_epilogue_ped x
    rw [step_epilogue_cur, f2, f3, f5, f6, hx]
    rcases try_start_ped_cases (at_completion evs s) with ht | ⟨-, -, ht⟩
    · rw [ht] at h1; cases h1
    · have e2 := congrArg Prod.snd ht
      simp only [] at e2
      rw [e2]
      refine ⟨rfl, h1, rfl, rfl, ?_, ?_⟩
      · rw [q3]
        cases s.in_ped_mode
        · simp [mq_count_note_append, cb]
        · simp [cb]
      · rw [q3]
        cases s.in_ped_mode
        · simp [mq_count_note_append, co]
        · simp [co]
  have plain : ∀ x : Ctl, is_ped_state x.cur = false →
      x.in_ped_mode = (at_completion evs s).in_ped_mode →
      x.ped_return_state = (at_completion evs s).ped_return_state →
      (notices x.out).count Notify.ped_begin =
        (notices (at_completion evs s).out).count Notify.ped_begin →
      (notices x.out).count Notify.ped_over =
        (notices (at_completion evs s).out).count Notify.ped_over →
      is_ped_state (step_epilogue x).cur = false ∧
      (step_epilogue x).in_ped_mode = s.in_ped_mode ∧
      (step_epilogue x).ped_return_state = s.ped_return_state ∧
      (notices (step_epilogue x).out).count Notify.ped_begin =
        (notices s.out).count Notify.ped_begin ∧
      (notices (step_epilogue x).out).count Notify.ped_over =
        (notices s.out).count Notify.ped_over := by
    intro x h1 h2 h3 h4 h5
    obtain ⟨-, f2, f3, -, f5, f6, -, -⟩ := step_epilogue_ped x
    rw [step_epilogue_cur, f2, f3, f5, f6]
    exact ⟨h1, by rw [h2, q3], by rw [h3, q4], by rw [h4, cb], by rw [h5, co]⟩
  have refused : (try_start_ped_if_safe (at_completion evs s)).1 = false →
      (try_start_ped_if_safe (at_completion evs s)).2 = at_completion evs s := by
    intro h
    rcases try_start_ped_cases (at_completion evs s) with ht | ⟨-, -, ht⟩
    · rw [ht]
    · rw [ht] at h; cases h
  rcases hcl with hr | htr
  · rw [step_at_ring_checkpoint evs s hr]
    by_cases hx : (at_completion evs s).train_request = true
    · rw [if_pos hx]
      obtain ⟨t1, -, -, -, -, -, t7, t8, -, t10, -⟩ := enter_train_frame (at_completion evs s)
      exact Or.inr (plain _ (by rw [t1]; decide) t7 t8 (t10 _ (by decide)) (t10 _ (by decide)))
    · rw [if_neg hx]
      by_cases h1 : (try_start_ped_if_safe (at_completion evs s)).1 = true
      · rw [if_pos h1]
        exact Or.inl (claimed _ rfl h1)
      · rw [if_neg h1, refused (by simpa using h1)]
        refine Or.inr (plain _ ?_ rfl rfl rfl rfl)
        simp only []
        split_ifs <;> rfl
  · rw [step_at_train_checkpoint evs s htr]
    obtain ⟨-, -, d3, -⟩ := do_exit_frame (at_completion evs s)
    obtain ⟨-, x2, x3, x4, -⟩ := do_exit_ped (at_completion evs s)
    by_cases hx : should_exit_train_now (at_completion evs s) (at_completion evs s).cur = true
    · rw [if_pos hx]
      exact Or.inr (plain _ (by rw [d3]; decide) x2 x3 (x4 _ (by decide)) (x4 _ (by decide)))
    · rw [if_neg hx]
      by_cases h1 : (try_start_ped_if_safe (at_completion evs s)).1 = true
      · rw [if_pos h1]
        exact Or.inl (claimed _ rfl h1)
      · rw [if_neg h1, refused (by simpa using h1)]
        have hsucc : s.cur ≠ T_DECISION_ALL_RED_4 → is_ped_state (s.cur + 1) = false := by
          intro h2
          rcases htr with h | h | h
          · simp [h, is_ped_state]
          · simp [h, is_ped_state]
          · exact absurd h h2
        split_ifs with h2 h3
        all_goals first
          | exact Or.inr (plain _ rfl rfl rfl rfl rfl)
          | exact Or.inr (plain _ (by rw [d3]; decide) x2 x3 (x4 _ (by decide))
              (x4 _ (by decide)))
          | exact Or.inr (plain _ (hsucc h2) rfl rfl rfl rfl)

end Fsm

namespace Fsm

/-- One step away from the checkpoints and the pedestrian states leaves the pedestrian
side alone. -/
theorem step_plain_ped (evs : Nat → List Char) (s : Ctl)
    (hck : ped_safe_checkpoint s.cur = false) (hnp : is_ped_state s.cur = false) :
    is_ped_state (SingleStep_SM evs s).cur = false ∧
    (SingleStep_SM evs s).in_ped_mode = s.in_ped_mode ∧
    (SingleStep_SM evs s).ped_return_state = s.ped_return_state ∧
    (notices (SingleStep_SM evs s).out).count Notify.ped_begin =
      (notices s.out).count Notify.ped_begin ∧
    (notices (SingleStep_SM evs s).out).count Notify.ped_over =
      (notices s.out).count Notify.ped_over := by
  obtain ⟨p1, -, p3, p4, -, -⟩ := step_prologue_ped evs s
  obtain ⟨-, l2⟩ := step_prologue_lines evs s
  have hnp2 : (step_prologue evs s).cur ≠ P_WALK ∧ (step_prologue evs s).cur ≠ P_FLASH ∧
      (step_prologue evs s).cur ≠ P_CLEAR_ALL_RED := by
    rw [p1]
    simp [is_ped_state] at hnp
    exact ⟨hnp.1.1, hnp.1.2, hnp.2⟩
  obtain ⟨⟨c1, c2, c3⟩, s2, s3, s4, s5⟩ :=
    step_switch_plain_ped evs (step_prologue evs s) (by rw [p1]; exact hck) hnp2
  unfold SingleStep_SM
  obtain ⟨-, f2, f3, -, f5, f6, -, -⟩ :=
    step_epilogue_ped (step_switch evs (step_prologue evs s))
  rw [step_epilogue_cur, f2, f3, f5, f6]
  refine ⟨by simp [is_ped_state]; exact ⟨⟨c1, c2⟩, c3⟩, by rw [s2, p3], by rw [s3, p4],
    by rw [s4, l2 _ (by decide)], by rw [s5, l2 _ (by decide)]⟩

/-- The invariant of the pedestrian side is kept by every step, and in a state that
satisfies it a step emits PED BEGIN exactly when it claims the request (the cursor becomes
`P_WALK`) and PED OVER exactly when it completes `P_CLEAR_ALL_RED`. -/
theorem step_ped_summary (evs : Nat → List Char) (s : Ctl) (h : PedInv s) :
    PedInv (SingleStep_SM evs s) ∧
    (notices (SingleStep_SM evs s).out).count Notify.ped_begin =
      (notices s.out).count Notify.ped_begin +
        (if (SingleStep_SM evs s).cur = P_WALK then 1 else 0) ∧
    (notices (SingleStep_SM evs s).out).count Notify.ped_over =
      (notices s.out).count Notify.ped_over +
        (if s.cur = P_CLEAR_ALL_RED then 1 else 0) := by
  obtain ⟨hm, hr⟩ := h
  by_cases hped : is_ped_state s.cur = true
  · have hmode : s.in_ped_mode = true := hm.2 hped
    simp [is_ped_state] at hped
    rcases hped with (hc | hc) | hc
    · obtain ⟨a1, -, a3, a4, -, a6, a7⟩ := step_ped_walk_flash evs s (Or.inl hc)
      rw [hc] at a1
      refine ⟨⟨?_, by rw [a4]; exact hr⟩, ?_, ?_⟩
      · rw [a3, a1, hmode]; decide
      · rw [a6, a1, if_neg (by decide)]; rfl
      · rw [a7, hc, if_neg (by decide)]; rfl
    · obtain ⟨a1, -, a3, a4, -, a6, a7⟩ := step_ped_walk_flash evs s (Or.inr hc)
      rw [hc] at a1
      refine ⟨⟨?_, by rw [a4]; exact hr⟩, ?_, ?_⟩
      · rw [a3, a1, hmode]; decide
      · rw [a6, a1, if_neg (by decide)]; rfl
      · rw [a7, hc, if_neg (by decide)]; rfl
    · obtain ⟨a1, -, a3, a4, -, a6, a7⟩ := step_ped_clear evs s hc
      have hnot : is_ped_state s.ped_return_state = false ∧ s.ped_return_state ≠ P_WALK := by
        rcases hr with e | e | e <;> rw [e] <;> decide
      refine ⟨⟨?_, by rw [a4]; exact hr⟩, ?_, ?_⟩
      · rw [a3, a1, hnot.1]
      · rw [a6, a1, if_neg hnot.2]; rfl
      · rw [a7, hc, hmode]; rfl
  · have hped2 : is_ped_state s.cur = false := by simpa using hped
    have hmode : s.in_ped_mode = false := by
      cases hx : s.in_ped_mode
      · rfl
      · exact absurd (hm.1 hx) hped
    have hnc : s.cur ≠ P_CLEAR_ALL_RED := by
      intro e; rw [e] at hped2; revert hped2; decide
    have notwalk : ∀ c, is_ped_state c = false → c ≠ P_WALK := by
      intro c hc e; rw [e] at hc; revert hc; decide
    cases hck : ped_safe_checkpoint s.cur
    · obtain ⟨b1, b2, b3, b4, b5⟩ := step_plain_ped evs s hck hped2
      refine ⟨⟨by rw [b2, hmode, b1], by rw [b3]; exact hr⟩, ?_, ?_⟩
      · rw [b4, if_neg (notwalk _ b1)]; rfl
      · rw [b5, if_neg hnc]; rfl
    · rcases step_checkpoint_ped evs s hck with ⟨b1, -, b2, b3, b4, b5⟩ | ⟨b1, b2, b3, b4, b5⟩
      · refine ⟨⟨by rw [b2, b1]; decide, by rw [b3]; exact ped_return_of_range _⟩, ?_, ?_⟩
        · rw [b4, hmode, b1]; rfl
        · rw [b5, if_neg hnc]; rfl
      · refine ⟨⟨by rw [b2, hmode, b1], by rw [b3]; exact hr⟩, ?_, ?_⟩
        · rw [b4, if_neg (notwalk _ b1)]; rfl
        · rw [b5, if_neg hnc]; rfl

theorem mq_run_succ (evs : Nat → List Char) (n : Nat) (s : Ctl) :
    run evs (n + 1) s = SingleStep_SM evs (run evs n s) := by
  induction n generalizing s with
  | zero => rfl
  | succ n ih =>
    show run evs (n + 1) (SingleStep_SM evs s) = _
    rw [ih]
    rfl

theorem run_ped_inv (evs : Nat → List Char) (n : Nat) : PedInv (run evs n init) := by
  induction n with
  | zero => exact ⟨by show init.in_ped_mode = true ↔ is_ped_state init.cur = true; decide,
      Or.inl rfl⟩
  | succ n ih =>
    rw [mq_run_succ]
    exact (step_ped_summary evs _ ih).1

end Fsm

namespace Fsm

/-- C15: the exclusive pedestrian sequence of traffic_fsm.c.
(1) From every state whose cursor is `P_WALK`, for every schedule of events received
meanwhile, the next three steps print the status lines of `P_WALK` (8 s, PED=WALK),
`P_FLASH` (4 s, PED=FLASH) and `P_CLEAR_ALL_RED` (2 s, all RED), sleep each duration in
full (8000, 12000 and 14000 ms in total after the first, second and third step), move the
cursor to `P_FLASH`, to `P_CLEAR_ALL_RED` and then to the stored `ped_return_state`; no
PED BEGIN is emitted in these steps, no PED OVER in the first two, and the third emits
PED OVER exactly once, `in_ped_mode` being set.
(2) In every state reached from the initial state, `in_ped_mode` is set exactly while the
cursor is in the pedestrian sequence; a step emits PED BEGIN exactly once when it claims
the request (the cursor becomes `P_WALK`) and never otherwise, and emits PED OVER exactly
once when it completes `P_CLEAR_ALL_RED` and never otherwise. -/
theorem C15_exclusive_ped_sequence :
    (status_line P_WALK = ⟨"PED   ", 0, 8, "RED", "RED", "RED", "RED", "WALK"⟩ ∧
      status_line P_FLASH = ⟨"PED   ", 1, 4, "RED", "RED", "RED", "RED", "FLASH"⟩ ∧
      status_line P_CLEAR_ALL_RED = ⟨"PED   ", 2, 2, "RED", "RED", "RED", "RED", "RED"⟩) ∧
    (∀ (evs : Nat → List Char) (s : Ctl), s.cur = P_WALK →
      (run evs 1 s).cur = P_FLASH ∧
      (run evs 2 s).cur = P_CLEAR_ALL_RED ∧
      (run evs 3 s).cur = s.ped_return_state ∧
      (run evs 1 s).slept_ms = s.slept_ms + 8000 ∧
      (run evs 2 s).slept_ms = s.slept_ms + 12000 ∧
      (run evs 3 s).slept_ms = s.slept_ms + 14000 ∧
      status_lines (run evs 3 s).out = status_lines s.out ++
        [status_line P_WALK, status_line P_FLASH, status_line P_CLEAR_ALL_RED] ∧
      (notices (run evs 3 s).out).count Notify.ped_begin =
        (notices s.out).count Notify.ped_begin ∧
      (notices (run evs 2 s).out).count Notify.ped_over =
        (notices s.out).count Notify.ped_over ∧
      (notices (run evs 3 s).out).count Notify.ped_over =
        (notices s.out).count Notify.ped_over + (if s.in_ped_mode then 1 else 0)) ∧
    (∀ (evs : Nat → List Char) (n : Nat),
      ((run evs n init).in_ped_mode = true ↔
        ((run evs n init).cur = P_WALK ∨ (run evs n init).cur = P_FLASH ∨
          (run evs n init).cur = P_CLEAR_ALL_RED)) ∧
      (notices (run evs (n + 1) init).out).count Notify.ped_begin =
        (notices (run evs n init).out).count Notify.ped_begin +
          (if (run evs (n + 1) init).cur = P_WALK then 1 else 0) ∧
      (notices (run evs (n + 1) init).out).count Notify.ped_over =
        (notices (run evs n init).out).count Notify.ped_over +
          (if (run evs n init).cur = P_CLEAR_ALL_RED then 1 else 0)) := by
  refine ⟨by decide, ?_, ?_⟩
  · intro evs s hc
    obtain ⟨a1, a2, a3, a4, a5, a6, a7⟩ := step_ped_walk_flash evs s (Or.inl hc)
    rw [hc] at a1 a2 a5
    have hc1 : (SingleStep_SM evs s).cur = P_FLASH := a1
    obtain ⟨b1, b2, b3, b4, b5, b6, b7⟩ :=
      step_ped_walk_flash evs (SingleStep_SM evs s) (Or.inr hc1)
    rw [hc1] at b1 b2 b5
    have hc2 : (SingleStep_SM evs (SingleStep_SM evs s)).cur = P_CLEAR_ALL_RED := b1
    obtain ⟨c1, c2, c3, c4, c5, c6, c7⟩ :=
      step_ped_clear evs (SingleStep_SM evs (SingleStep_SM evs s)) hc2
    rw [hc2] at c2 c5
    have r1 : run evs 1 s = SingleStep_SM evs s := rfl
    have r2 : run evs 2 s = SingleStep_SM evs (SingleStep_SM evs s) := rfl
    have r3 : run evs 3 s = SingleStep_SM evs (SingleStep_SM evs (SingleStep_SM evs s)) :=
      rfl
    rw [r1, r2, r3]
    refine ⟨hc1, hc2, by rw [c1, b4, a4], by rw [a2]; rfl, by rw [b2, a2]; rfl,
      by rw [c2, b2, a2]; rfl, ?_, by rw [c6, b6, a6], by rw [b7, a7], ?_⟩
    · rw [c5, b5, a5]; simp
    · rw [c7, b7, a7, b3, a3]
  · intro evs n
    have hinv := run_ped_inv evs n
    obtain ⟨-, s2, s3⟩ := step_ped_summary evs _ hinv
    rw [mq_run_succ]
    refine ⟨?_, s2, s3⟩
    rw [hinv.1]
    simp [is_ped_state, or_assoc]

set_option maxRecDepth 100000 in
theorem C15_exclusive_ped_sequence_witness :
    (run (fun i => if i = 10 then ['p'] else []) 5 init).cur = P_WALK ∧
    (run (fun i => if i = 10 then ['p'] else []) 3
      (run (fun i => if i = 10 then ['p'] else []) 5 init)).cur =
      (run (fun i => if i = 10 then ['p'] else []) 5 init).ped_return_state ∧
    (run (fun i => if i = 10 then ['p'] else []) 5 init).ped_return_state = N_R1_RS_G :=
  ⟨by decide,
    (C15_exclusive_ped_sequence.2.1 (fun i => if i = 10 then ['p'] else [])
      (run (fun i => if i = 10 then ['p'] else []) 5 init) (by decide)).2.2.1,
    by decide⟩

set_option maxRecDepth 100000 in
/-- C16, the code evaluated at the failing input. With a train detected at the first poll
and the pedestrian button pressed at poll 300 (during `T_R3_SN_LR_Y_2`), the request is
claimed at the completion of `T_ALL_RED_B` with the train active and no clear pending; the
stored return state is `T_R3_SN_LR_G_2`, and after `P_CLEAR_ALL_RED` the controller
resumes there. The same run without the press advances from `T_ALL_RED_B` to
`T_R1_RESTRICT_G_3`. -/
theorem C16_ped_resumption_at_T_ALL_RED_B :
    ((run (fun i => if i = 0 then ['t'] else if i = 300 then ['p'] else []) 8 init).cur
        = T_ALL_RED_B ∧
      (at_completion (fun i => if i = 0 then ['t'] else if i = 300 then ['p'] else [])
        (run (fun i => if i = 0 then ['t'] else if i = 300 then ['p'] else []) 8
          init)).ped_request = true ∧
      (at_completion (fun i => if i = 0 then ['t'] else if i = 300 then ['p'] else [])
        (run (fun i => if i = 0 then ['t'] else if i = 300 then ['p'] else []) 8
          init)).train_active = true ∧
      (at_completion (fun i => if i = 0 then ['t'] else if i = 300 then ['p'] else [])
        (run (fun i => if i = 0 then ['t'] else if i = 300 then ['p'] else []) 8
          init)).train_clear_pending = false ∧
      (run (fun i => if i = 0 then ['t'] else if i = 300 then ['p'] else []) 9 init).cur
        = P_WALK ∧
      (run (fun i => if i = 0 then ['t'] else if i = 300 then ['p'] else []) 9
        init).ped_return_state = T_R3_SN_LR_G_2 ∧
      (run (fun i => if i = 0 then ['t'] else if i = 300 then ['p'] else []) 12 init).cur
        = T_R3_SN_LR_G_2) ∧
    ((run (fun i => if i = 0 then ['t'] else []) 8 init).cur = T_ALL_RED_B ∧
      (run (fun i => if i = 0 then ['t'] else []) 9 init).cur = T_R1_RESTRICT_G_3) ∧
    T_R3_SN_LR_G_2 ≠ T_R1_RESTRICT_G_3 := by
  decide

end Fsm

namespace Demo1

theorem vehicle_trace_append (o : List Out) (x : Out) :
    vehicle_trace (o ++ [x]) = vehicle_trace o ++ vehicle_trace [x] := by
  simp [vehicle_trace, List.filterMap_append]

/-- Equality of cores, field by field. -/
theorem core_eq_iff (a b : Ctl) :
    core a = core b ↔
      a.train_request = b.train_request ∧ a.train_active = b.train_active ∧
      a.train_clear_pending = b.train_clear_pending ∧
      a.in_train_state = b.in_train_state ∧
      a.train_preempt_to_allred = b.train_preempt_to_allred ∧
      a.normal_ui_base = b.normal_ui_base ∧ a.tr = b.tr ∧
      a.clear_notified_once = b.clear_notified_once ∧ a.ns = b.ns ∧
      a.slept_ms = b.slept_ms ∧ a.polls = b.polls ∧
      vehicle_trace a.out = vehicle_trace b.out := by
  simp [core, Ctl.mk.injEq]

theorem core_notify_ped_begin (s : Ctl) : core (notify Notify.ped_begin s) = core s := by
  simp [core, notify, vehicle_trace, List.filterMap_append, Out.vehicle]

theorem core_notify_ped_over (s : Ctl) : core (notify Notify.ped_over s) = core s := by
  simp [core, notify, vehicle_trace, List.filterMap_append, Out.vehicle]

theorem core_notify (n : Notify) {a b : Ctl} (h : core a = core b) :
    core (notify n a) = core (notify n b) := by
  rw [core_eq_iff] at h ⊢
  obtain ⟨h1, h2, h3, h4, h5, h6, h7, h8, h9, h10, h11, h12⟩ := h
  refine ⟨h1, h2, h3, h4, h5, h6, h7, h8, h9, h10, h11, ?_⟩
  simp only [notify]
  rw [vehicle_trace_append, vehicle_trace_append, h12]

/-- The pedestrian window functions do not touch the core. -/
theorem core_ped_try_start (b : Bool) (s : Ctl) :
    core (ped_try_start_at_safe_allred b s) = core s := by
  unfold ped_try_start_at_safe_allred
  split_ifs
  · rfl
  · rfl
  · rw [core_notify_ped_begin]; rfl

theorem core_ped_stop (s : Ctl) : core (ped_stop_if_prep_finished s) = core s := by
  unfold ped_stop_if_prep_finished
  split_ifs
  · rw [core_notify_ped_over]; rfl
  · rfl

/-- An event updates the core in a way that depends only on the core; a press does not
touch it. -/
theorem core_apply_event (ev : Char) {a b : Ctl} (h : core a = core b) :
    core (apply_event ev a) = core (apply_event ev b) := by
  have hn := core_notify Notify.train_preempt h
  rw [core_eq_iff] at h hn ⊢
  obtain ⟨h1, h2, h3, h4, h5, h6, h7, h8, h9, h10, h11, h12⟩ := h
  obtain ⟨-, -, -, -, -, -, -, -, -, -, -, n12⟩ := hn
  unfold apply_event
  split_ifs
  · exact ⟨rfl, rfl, rfl, h4, h5, h6, h7, h8, h9, h10, h11, n12⟩
  · exact ⟨rfl, h2, rfl, h4, h5, h6, h7, h8, h9, h10, h11, h12⟩
  · exact ⟨h1, h2, h3, h4, h5, h6, h7, h8, h9, h10, h11, h12⟩
  · exact ⟨h1, h2, h3, h4, h5, h6, h7, h8, h9, h10, h11, h12⟩

theorem core_apply_press (s : Ctl) : core (apply_event 'p' s) = core s := by
  simp [apply_event, core]

theorem core_polls_succ {a b : Ctl} (h : core a = core b) :
    core { a with polls := a.polls + 1 } = core { b with polls := b.polls + 1 } := by
  rw [core_eq_iff] at h ⊢
  obtain ⟨h1, h2, h3, h4, h5, h6, h7, h8, h9, h10, h11, h12⟩ := h
  exact ⟨h1, h2, h3, h4, h5, h6, h7, h8, h9, h10, by simp [h11], h12⟩

theorem poll_of_none (e : Nat → Option Char) (s : Ctl) (h : e s.polls = none) :
    poll_events_from_qnet_nonblock e s = { s with polls := s.polls + 1 } := by
  unfold poll_events_from_qnet_nonblock
  rw [h]

theorem poll_of_some (e : Nat → Option Char) (s : Ctl) (ev : Char)
    (h : e s.polls = some ev) :
    poll_events_from_qnet_nonblock e s = apply_event ev { s with polls := s.polls + 1 } := by
  unfold poll_events_from_qnet_nonblock
  rw [h]

theorem core_poll {e1 e2 : Nat → Option Char} (he : SameButPed e1 e2) {a b : Ctl}
    (h : core a = core b) :
    core (poll_events_from_qnet_nonblock e1 a) = core (poll_events_from_qnet_nonblock e2 b) := by
  have hp : a.polls = b.polls := ((core_eq_iff a b).1 h).2.2.2.2.2.2.2.2.2.2.1
  have hs := core_polls_succ h
  have hcase := he a.polls
  rw [hp] at hcase
  rcases hcase with e | ⟨x | x, y | y⟩
  · cases hx : e2 b.polls with
    | none =>
      rw [poll_of_none e2 b hx, poll_of_none e1 a (by rw [hp, e, hx])]
      exact hs
    | some ev =>
      rw [poll_of_some e2 b ev hx, poll_of_some e1 a ev (by rw [hp, e, hx])]
      exact core_apply_event ev hs
  · rw [poll_of_none e2 b y, poll_of_none e1 a (by rw [hp, x])]
    exact hs
  · rw [poll_of_some e2 b _ y, poll_of_none e1 a (by rw [hp, x]), core_apply_press]
    exact hs
  · rw [poll_of_none e2 b y, poll_of_some e1 a _ (by rw [hp, x]), core_apply_press]
    exact hs
  · rw [poll_of_some e2 b _ y, poll_of_some e1 a _ (by rw [hp, x]), core_apply_press,
      core_apply_press]
    exact hs

theorem core_nanosleep (ms : Nat) {a b : Ctl} (h : core a = core b) :
    core (nanosleep_ms ms a) = core (nanosleep_ms ms b) := by
  rw [core_eq_iff] at h ⊢
  obtain ⟨h1, h2, h3, h4, h5, h6, h7, h8, h9, h10, h11, h12⟩ := h
  exact ⟨h1, h2, h3, h4, h5, h6, h7, h8, h9, by simp [nanosleep_ms, h10], h11, h12⟩

theorem core_wait_poll_loop {e1 e2 : Nat → Option Char} (he : SameButPed e1 e2) (n : Nat) :
    ∀ {a b : Ctl}, core a = core b →
      core (wait_poll_loop e1 n a) = core (wait_poll_loop e2 n b) := by
  induction n with
  | zero => intro a b h; exact h
  | succ n ih =>
    intro a b h
    exact ih (core_poll he (core_nanosleep 100 h))

theorem core_wait_with_poll_ms {e1 e2 : Nat → Option Char} (he : SameButPed e1 e2)
    (ms : Nat) {a b : Ctl} (h : core a = core b) :
    core (wait_with_poll_ms ms e1 a) = core (wait_with_poll_ms ms e2 b) := by
  unfold wait_with_poll_ms
  simp only []
  split_ifs
  · exact core_poll he (core_nanosleep _ (core_wait_poll_loop he _ h))
  · exact core_wait_poll_loop he _ h

end Demo1

namespace Demo1

theorem core_print_normal_line (p : Nat) (st : normal_def_t) {a b : Ctl}
    (h : core a = core b) :
    core (print_normal_line p st a) = core (print_normal_line p st b) := by
  rw [core_eq_iff] at h ⊢
  obtain ⟨h1, h2, h3, h4, h5, h6, h7, h8, h9, h10, h11, h12⟩ := h
  refine ⟨h1, h2, h3, h4, h5, h6, h7, h8, h9, h10, h11, ?_⟩
  simp only [print_normal_line]
  rw [vehicle_trace_append, vehicle_trace_append, h12]
  simp [vehicle_trace, Out.vehicle, normal_ui_index_shifted, h6]

theorem core_print_train_line (t : Nat) {a b : Ctl} (h : core a = core b) :
    core (print_train_line t a) = core (print_train_line t b) := by
  rw [core_eq_iff] at h ⊢
  obtain ⟨h1, h2, h3, h4, h5, h6, h7, h8, h9, h10, h11, h12⟩ := h
  refine ⟨h1, h2, h3, h4, h5, h6, h7, h8, h9, h10, h11, ?_⟩
  simp only [print_train_line]
  rw [vehicle_trace_append, vehicle_trace_append, h12]
  simp [vehicle_trace, Out.vehicle]

theorem core_train_after_wait {a b : Ctl} (h : core a = core b) :
    core (train_after_wait a) = core (train_after_wait b) := by
  have key : ∀ {x y : Ctl}, core x = core y →
      core { x with tr := train_next x } = core { y with tr := train_next y } := by
    intro x y hxy
    rw [core_eq_iff] at hxy ⊢
    obtain ⟨h1, h2, h3, h4, h5, h6, h7, h8, h9, h10, h11, h12⟩ := hxy
    refine ⟨h1, h2, h3, h4, h5, h6, ?_, h8, h9, h10, h11, h12⟩
    simp [train_next, h2, h3, h7]
  have htr : a.tr = b.tr := ((core_eq_iff a b).1 h).2.2.2.2.2.2.1
  unfold train_after_wait
  simp only []
  rw [htr]
  split_ifs
  · exact key (by rw [core_ped_stop, core_ped_stop]; exact h)
  · exact key h

theorem train_step_eq (evs : Nat → Option Char) (s : Ctl) :
    train_step evs s =
      train_after_wait (wait_with_poll_ms ((train_duration s.tr * 1000) % UINT_MOD) evs
        (print_train_line s.tr
          (ped_try_start_at_safe_allred (train_is_safe_allred s.tr) s))) := by
  have h1 := ped_try_start_tr (train_is_safe_allred s.tr) s
  have h2 : (print_train_line (ped_try_start_at_safe_allred (train_is_safe_allred s.tr) s).tr
      (ped_try_start_at_safe_allred (train_is_safe_allred s.tr) s)).tr = s.tr :=
    Eq.trans rfl h1
  unfold train_step
  simp only []
  rw [h2, h1]

theorem core_train_step {e1 e2 : Nat → Option Char} (he : SameButPed e1 e2) {a b : Ctl}
    (h : core a = core b) : core (train_step e1 a) = core (train_step e2 b) := by
  have htr : a.tr = b.tr := ((core_eq_iff a b).1 h).2.2.2.2.2.2.1
  rw [train_step_eq, train_step_eq, htr]
  apply core_train_after_wait
  apply core_wait_with_poll_ms he
  apply core_print_train_line
  rw [core_ped_try_start, core_ped_try_start]
  exact h

theorem core_clear_notice {a b : Ctl} (h : core a = core b) :
    core (clear_notice a) = core (clear_notice b) := by
  obtain ⟨rq, ac, cp, pr, its, pa, ub, pw, ps, tr, cn, ns, sl, po, out⟩ := a
  obtain ⟨rq2, ac2, cp2, pr2, its2, pa2, ub2, pw2, ps2, tr2, cn2, ns2, sl2, po2, out2⟩ := b
  simp only [core_eq_iff] at h
  obtain ⟨rfl, rfl, rfl, rfl, rfl, rfl, rfl, rfl, rfl, rfl, rfl, h12⟩ := h
  simp only [vehicle_trace] at h12
  cases cp <;> cases cn <;>
    simp [clear_notice, notify, core, vehicle_trace, List.filterMap_append, h12]

theorem core_train_exit_check {a b : Ctl} (h : core a = core b) :
    core (train_exit_check a) = core (train_exit_check b) := by
  obtain ⟨rq, ac, cp, pr, its, pa, ub, pw, ps, tr, cn, ns, sl, po, out⟩ := a
  obtain ⟨rq2, ac2, cp2, pr2, its2, pa2, ub2, pw2, ps2, tr2, cn2, ns2, sl2, po2, out2⟩ := b
  simp only [core_eq_iff] at h
  obtain ⟨rfl, rfl, rfl, rfl, rfl, rfl, rfl, rfl, rfl, rfl, rfl, h12⟩ := h
  simp only [vehicle_trace] at h12
  cases cp <;> cases hs : train_is_safe_allred tr <;>
    simp [train_exit_check, normal_ui_set_start, notify, core, vehicle_trace,
      List.filterMap_append, h12, hs]

theorem core_train_run {e1 e2 : Nat → Option Char} (he : SameButPed e1 e2) {a b : Ctl}
    (h : core a = core b) :
    core (train_run_until_exit e1 a) = core (train_run_until_exit e2 b) :=
  core_train_exit_check (core_train_step he (core_clear_notice h))

end Demo1

namespace Demo1

theorem core_fields {a b : Ctl} (h : core a = core b) :
    a.train_request = b.train_request ∧ a.ns = b.ns ∧ a.in_train_state = b.in_train_state :=
  ⟨((core_eq_iff a b).1 h).1, ((core_eq_iff a b).1 h).2.2.2.2.2.2.2.2.1,
    ((core_eq_iff a b).1 h).2.2.2.1⟩

theorem core_preempt_block (st : normal_def_t) {a b : Ctl} (h : core a = core b) :
    core (preempt_block st a) = core (preempt_block st b) := by
  rw [core_eq_iff] at h ⊢
  obtain ⟨h1, h2, h3, h4, h5, h6, h7, h8, h9, h10, h11, h12⟩ := h
  exact ⟨h1, h2, h3, h4, rfl, h6, h7, h8, rfl, h10, h11, h12⟩

theorem core_normal_wait_quantum (st : normal_def_t) {e1 e2 : Nat → Option Char}
    (he : SameButPed e1 e2) (ms : Nat) {a b : Ctl} (h : core a = core b) :
    (normal_wait_quantum st e1 ms a).1 = (normal_wait_quantum st e2 ms b).1 ∧
    core (normal_wait_quantum st e1 ms a).2 = core (normal_wait_quantum st e2 ms b).2 := by
  have hq := core_poll he (core_nanosleep ms h)
  obtain ⟨f1, f2, -⟩ := core_fields hq
  unfold normal_wait_quantum
  simp only []
  rw [f1, f2]
  split_ifs
  · exact ⟨rfl, core_preempt_block st hq⟩
  · exact ⟨rfl, hq⟩

theorem core_normal_wait_loop (st : normal_def_t) {e1 e2 : Nat → Option Char}
    (he : SameButPed e1 e2) (n : Nat) :
    ∀ {a b : Ctl}, core a = core b →
      (normal_wait_loop st e1 n a).1 = (normal_wait_loop st e2 n b).1 ∧
      core (normal_wait_loop st e1 n a).2 = core (normal_wait_loop st e2 n b).2 := by
  induction n with
  | zero => intro a b h; exact ⟨rfl, h⟩
  | succ n ih =>
    intro a b h
    obtain ⟨q1, q2⟩ := core_normal_wait_quantum st he 100 h
    unfold normal_wait_loop
    rcases hx : normal_wait_quantum st e1 100 a with ⟨x1, x2⟩
    rcases hy : normal_wait_quantum st e2 100 b with ⟨y1, y2⟩
    rw [hx, hy] at q1 q2
    simp only at q1 q2
    subst q1
    cases x1
    · exact ih q2
    · exact ⟨rfl, q2⟩

theorem core_normal_wait (st : normal_def_t) {e1 e2 : Nat → Option Char}
    (he : SameButPed e1 e2) {a b : Ctl} (h : core a = core b) :
    (normal_wait st e1 a).1 = (normal_wait st e2 b).1 ∧
    core (normal_wait st e1 a).2 = core (normal_wait st e2 b).2 := by
  obtain ⟨q1, q2⟩ := core_normal_wait_loop st he (st.dur_s * 1000 % UINT_MOD / 100) h
  unfold normal_wait
  simp only []
  rcases hx : normal_wait_loop st e1 (st.dur_s * 1000 % UINT_MOD / 100) a with ⟨x1, x2⟩
  rcases hy : normal_wait_loop st e2 (st.dur_s * 1000 % UINT_MOD / 100) b with ⟨y1, y2⟩
  rw [hx, hy] at q1 q2
  simp only at q1 q2
  subst q1
  cases x1
  · simp only []
    split_ifs
    · exact core_normal_wait_quantum st he _ q2
    · exact ⟨rfl, q2⟩
  · exact ⟨rfl, q2⟩

theorem core_normal_after_wait (st : normal_def_t) {a b : Ctl} (h : core a = core b) :
    core (normal_after_wait st a) = core (normal_after_wait st b) := by
  have key : ∀ {x y : Ctl}, core x = core y →
      core (normal_after_wait { st with is_prep_y := false } x) =
        core (normal_after_wait { st with is_prep_y := false } y) := by
    intro x y hxy
    obtain ⟨rq, ac, cp, pr, its, pa, ub, pw, ps, tr, cn, ns, sl, po, out⟩ := x
    obtain ⟨rq2, ac2, cp2, pr2, its2, pa2, ub2, pw2, ps2, tr2, cn2, ns2, sl2, po2, out2⟩ := y
    simp only [core_eq_iff] at hxy
    obtain ⟨rfl, rfl, rfl, rfl, rfl, rfl, rfl, rfl, rfl, rfl, rfl, h12⟩ := hxy
    simp only [vehicle_trace] at h12
    unfold normal_after_wait
    simp only [Bool.false_eq_true, if_false]
    split_ifs <;>
      simp [notify, core, vehicle_trace, List.filterMap_append, h12]
  have hrel : ∀ x : Ctl, normal_after_wait st x =
      normal_after_wait { st with is_prep_y := false }
        (if st.is_prep_y then ped_stop_if_prep_finished x else x) := by
    intro x
    unfold normal_after_wait
    simp
  rw [hrel a, hrel b]
  apply key
  split_ifs
  · rw [core_ped_stop, core_ped_stop]; exact h
  · exact h

theorem core_normal_step {e1 e2 : Nat → Option Char} (he : SameButPed e1 e2) {a b : Ctl}
    (h : core a = core b) : core (normal_step e1 a) = core (normal_step e2 b) := by
  obtain ⟨-, hns, -⟩ := core_fields h
  unfold normal_step
  rw [hns]
  cases hf : find_norm b.ns with
  | none =>
    simp only []
    rw [core_eq_iff] at h ⊢
    obtain ⟨h1, h2, h3, h4, h5, h6, h7, h8, h9, h10, h11, h12⟩ := h
    exact ⟨h1, h2, h3, h4, h5, h6, h7, h8, rfl, h10, h11, h12⟩
  | some st =>
    simp only [ped_try_start_ns]
    rw [hns]
    have hp : core (print_normal_line b.ns st
          (ped_try_start_at_safe_allred st.is_safe_allred a)) =
        core (print_normal_line b.ns st
          (ped_try_start_at_safe_allred st.is_safe_allred b)) := by
      apply core_print_normal_line
      rw [core_ped_try_start, core_ped_try_start]
      exact h
    obtain ⟨q1, q2⟩ := core_normal_wait st he hp
    rcases hx : normal_wait st e1 (print_normal_line b.ns st
      (ped_try_start_at_safe_allred st.is_safe_allred a)) with ⟨x1, x2⟩
    rcases hy : normal_wait st e2 (print_normal_line b.ns st
      (ped_try_start_at_safe_allred st.is_safe_allred b)) with ⟨y1, y2⟩
    rw [hx, hy] at q1 q2
    simp only at q1 q2
    subst q1
    cases x1
    · exact core_normal_after_wait st q2
    · exact q2

theorem core_main_iter {e1 e2 : Nat → Option Char} (he : SameButPed e1 e2) {a b : Ctl}
    (h : core a = core b) : core (main_iter e1 a) = core (main_iter e2 b) := by
  obtain ⟨-, -, hl⟩ := core_fields h
  unfold main_iter
  rw [hl]
  split_ifs
  · exact core_normal_step he h
  · exact core_train_run he h

theorem core_run {e1 e2 : Nat → Option Char} (he : SameButPed e1 e2) (n : Nat) :
    ∀ {a b : Ctl}, core a = core b → core (run e1 n a) = core (run e2 n b) := by
  induction n with
  | zero => intro a b h; exact h
  | succ n ih => intro a b h; exact ih (core_main_iter he h)

end Demo1

namespace Demo1

theorem status_lines_vehicle_trace (o : List Out) :
    (status_lines (vehicle_trace o)).map
        (fun l => (l.mode, l.label, l.dur, l.r3, l.r1_we, l.r1_ew)) =
      (status_lines o).map (fun l => (l.mode, l.label, l.dur, l.r3, l.r1_we, l.r1_ew)) := by
  induction o with
  | nil => rfl
  | cons x o ih =>
    cases x with
    | line l =>
      simp only [vehicle_trace, status_lines, List.filterMap_cons, Out.vehicle, Out.asLine,
        List.map_cons] at ih ⊢
      rw [ih]
    | note n =>
      cases n <;>
        simp only [vehicle_trace, status_lines, List.filterMap_cons, Out.vehicle, Out.asLine]
          at ih ⊢ <;> exact ih

theorem notices_vehicle_trace (o : List Out) :
    notices (vehicle_trace o) =
      (notices o).filter (fun n => n ≠ Notify.ped_begin ∧ n ≠ Notify.ped_over) := by
  induction o with
  | nil => rfl
  | cons x o ih =>
    cases x with
    | line l =>
      simp only [vehicle_trace, notices, List.filterMap_cons, Out.vehicle, Out.asNote] at ih ⊢
      exact ih
    | note n =>
      cases n <;>
        simp [vehicle_trace, notices, List.filterMap_cons, Out.vehicle, Out.asNote] at ih ⊢ <;>
        exact ih

/-- C13: overlay non-interference in demo1.c. Take two event schedules that are identical
except for the presence of pedestrian presses (at every poll they deliver the same event,
or each delivers a press or nothing) and run the controller on both from the same state.
After every number of steps the two states agree on everything but the pedestrian part:
the layer, the ring cursor, the train cursor, the train flags (`train_request`,
`train_active`, `train_clear_pending`, `train_preempt_to_allred`), the UI base, the time
slept, the number of polls, and the output with the PED field of the lines and the PED
banners removed; so the printed sequences of mode, step label, duration and vehicle
indications are the same, and so are the train banners. Pedestrian presses affect only
`ped_request`, the two pedestrian window flags, the PED field and the PED banners. -/
theorem C13_overlay_non_interference (e1 e2 : Nat → Option Char) (he : SameButPed e1 e2)
    (s : Ctl) (n : Nat) :
    core (run e1 n s) = core (run e2 n s) ∧
    (run e1 n s).in_train_state = (run e2 n s).in_train_state ∧
    (run e1 n s).ns = (run e2 n s).ns ∧
    (run e1 n s).tr = (run e2 n s).tr ∧
    (run e1 n s).train_request = (run e2 n s).train_request ∧
    (run e1 n s).train_active = (run e2 n s).train_active ∧
    (run e1 n s).train_clear_pending = (run e2 n s).train_clear_pending ∧
    (run e1 n s).train_preempt_to_allred = (run e2 n s).train_preempt_to_allred ∧
    (status_lines (run e1 n s).out).map
        (fun l => (l.mode, l.label, l.dur, l.r3, l.r1_we, l.r1_ew)) =
      (status_lines (run e2 n s).out).map
        (fun l => (l.mode, l.label, l.dur, l.r3, l.r1_we, l.r1_ew)) ∧
    (notices (run e1 n s).out).filter (fun x => x ≠ Notify.ped_begin ∧ x ≠ Notify.ped_over) =
      (notices (run e2 n s).out).filter
        (fun x => x ≠ Notify.ped_begin ∧ x ≠ Notify.ped_over) := by
  have h := core_run he n (rfl : core s = core s)
  obtain ⟨h1, h2, h3, h4, h5, -, h7, -, h9, -, -, h12⟩ := (core_eq_iff _ _).1 h
  refine ⟨h, h4, h9, h7, h1, h2, h3, h5, ?_, ?_⟩
  · rw [← status_lines_vehicle_trace, h12, status_lines_vehicle_trace]
  · rw [← notices_vehicle_trace, h12, notices_vehicle_trace]

set_option maxRecDepth 100000 in
theorem C13_overlay_non_interference_witness :
    SameButPed
      (fun i => if i = 7 then some 't' else if i = 20 then some 'p' else
        if i = 300 then some 'c' else none)
      (fun i => if i = 7 then some 't' else if i = 300 then some 'c' else none) ∧
    (run (fun i => if i = 7 then some 't' else if i = 20 then some 'p' else
        if i = 300 then some 'c' else none) 6 init).tr =
      (run (fun i => if i = 7 then some 't' else if i = 300 then some 'c' else none) 6
        init).tr ∧
    (notices (run (fun i => if i = 7 then some 't' else if i = 20 then some 'p' else
        if i = 300 then some 'c' else none) 6 init).out).count Notify.ped_begin = 1 ∧
    (notices (run (fun i => if i = 7 then some 't' else if i = 300 then some 'c' else none) 6
        init).out).count Notify.ped_begin = 0 :=
  have he : SameButPed
      (fun i => if i = 7 then some 't' else if i = 20 then some 'p' else
        if i = 300 then some 'c' else none)
      (fun i => if i = 7 then some 't' else if i = 300 then some 'c' else none) := by
    intro i
    by_cases h7 : i = 7
    · left; simp [h7]
    · by_cases h20 : i = 20
      · right; subst h20; simp
      · left; simp [h7, h20]
  ⟨he, (C13_overlay_non_interference _ _ he init 6).2.2.2.1, by decide, by decide⟩

end Demo1

namespace Demo1

theorem pressed_refl (evs : Nat → Option Char) (s : Ctl) : Pressed evs s s := by
  refine ⟨le_rfl, ⟨fun h => Or.inl h, fun h => ?_⟩⟩
  rcases h with h | ⟨i, h1, h2, -⟩
  · exact h
  · omega

theorem pressed_trans {evs : Nat → Option Char} {a b c : Ctl} (h1 : Pressed evs a b)
    (h2 : Pressed evs b c) : Pressed evs a c := by
  obtain ⟨a1, a2⟩ := h1
  obtain ⟨b1, b2⟩ := h2
  refine ⟨le_trans a1 b1, ?_⟩
  rw [b2, a2]
  constructor
  · rintro ((h | ⟨i, i1, i2, i3⟩) | ⟨i, i1, i2, i3⟩)
    · exact Or.inl h
    · exact Or.inr ⟨i, i1, by omega, i3⟩
    · exact Or.inr ⟨i, by omega, i2, i3⟩
  · rintro (h | ⟨i, i1, i2, i3⟩)
    · exact Or.inl (Or.inl h)
    · by_cases hi : i < b.polls
      · exact Or.inl (Or.inr ⟨i, i1, hi, i3⟩)
      · exact Or.inr ⟨i, by omega, i2, i3⟩

/-- A state change that touches neither `ped_request` nor the poll counter. -/
theorem pressed_of_frame (evs : Nat → Option Char) {s w : Ctl} (hp : w.polls = s.polls)
    (hr : w.ped_request = s.ped_request) : Pressed evs s w := by
  refine ⟨by omega, ?_⟩
  rw [hr, hp]
  exact (pressed_refl evs s).2

theorem apply_event_ped_request (ev : Char) (s : Ctl) :
    (apply_event ev s).ped_request = (s.ped_request || decide (ev = 'p')) := by
  unfold apply_event
  split_ifs with h1 h2 h3
  · subst h1; simp [notify]
  · subst h2; simp
  · simp at h3; subst h3; simp
  · simp at h3; simp [h3]

theorem pressed_quantum (evs : Nat → Option Char) (ms : Nat) (s : Ctl) :
    Pressed evs s (poll_events_from_qnet_nonblock evs (nanosleep_ms ms s)) := by
  obtain ⟨c1, -⟩ := quantum_counters evs ms s
  refine ⟨by omega, ?_⟩
  rw [c1]
  have hreq : (poll_events_from_qnet_nonblock evs (nanosleep_ms ms s)).ped_request =
      (s.ped_request || decide (evs s.polls = some 'p')) := by
    unfold poll_events_from_qnet_nonblock
    simp only [nanosleep_ms]
    cases hx : evs s.polls with
    | none => simp
    | some ev => simp [apply_event_ped_request]
  rw [hreq]
  simp only [Bool.or_eq_true, decide_eq_true_eq]
  constructor
  · rintro (h | h)
    · exact Or.inl h
    · exact Or.inr ⟨s.polls, le_rfl, by omega, h⟩
  · rintro (h | ⟨i, i1, i2, i3⟩)
    · exact Or.inl h
    · have : i = s.polls := by omega
      subst this
      exact Or.inr i3

theorem pressed_wait_poll_loop (evs : Nat → Option Char) (n : Nat) :
    ∀ s : Ctl, Pressed evs s (wait_poll_loop evs n s) := by
  induction n with
  | zero => intro s; exact pressed_refl evs s
  | succ n ih =>
    intro s
    exact pressed_trans (pressed_quantum evs 100 s) (ih _)

theorem pressed_wait_with_poll_ms (evs : Nat → Option Char) (ms : Nat) (s : Ctl) :
    Pressed evs s (wait_with_poll_ms ms evs s) := by
  unfold wait_with_poll_ms
  simp only []
  split_ifs
  · exact pressed_trans (pressed_wait_poll_loop evs _ s) (pressed_quantum evs _ _)
  · exact pressed_wait_poll_loop evs _ s

theorem pressed_normal_wait_quantum (st : normal_def_t) (evs : Nat → Option Char) (ms : Nat)
    (s : Ctl) : Pressed evs s (normal_wait_quantum st evs ms s).2 := by
  unfold normal_wait_quantum
  simp only []
  split_ifs
  · exact pressed_trans (pressed_quantum evs ms s) (pressed_of_frame evs rfl rfl)
  · exact pressed_quantum evs ms s

theorem pressed_normal_wait_loop (st : normal_def_t) (evs : Nat → Option Char) (n : Nat) :
    ∀ s : Ctl, Pressed evs s (normal_wait_loop st evs n s).2 := by
  induction n with
  | zero => intro s; exact pressed_refl evs s
  | succ n ih =>
    intro s
    have hq := pressed_normal_wait_quantum st evs 100 s
    unfold normal_wait_loop
    rcases hx : normal_wait_quantum st evs 100 s with ⟨x1, x2⟩
    rw [hx] at hq
    cases x1
    · exact pressed_trans hq (ih x2)
    · exact hq

theorem pressed_normal_wait (st : normal_def_t) (evs : Nat → Option Char) (s : Ctl) :
    Pressed evs s (normal_wait st evs s).2 := by
  have hq := pressed_normal_wait_loop st evs (st.dur_s * 1000 % UINT_MOD / 100) s
  unfold normal_wait
  simp only []
  rcases hx : normal_wait_loop st evs (st.dur_s * 1000 % UINT_MOD / 100) s with ⟨x1, x2⟩
  rw [hx] at hq
  cases x1
  · simp only []
    split_ifs
    · exact pressed_trans hq (pressed_normal_wait_quantum st evs _ x2)
    · exact hq
  · exact hq

end Demo1

namespace Demo1

theorem ped_try_start_window (b : Bool) (s : Ctl) :
    (ped_try_start_at_safe_allred b s).ped_window_active =
      (s.ped_window_active || (s.ped_request && b)) ∧
    (ped_try_start_at_safe_allred b s).ped_request = (s.ped_request && !b) ∧
    (ped_try_start_at_safe_allred b s).polls = s.polls := by
  unfold ped_try_start_at_safe_allred
  cases b <;> cases hr : s.ped_request <;> simp [notify, hr]

theorem ped_stop_window (w : Ctl) :
    (ped_stop_if_prep_finished w).ped_window_active =
      (w.ped_window_active && !w.ped_window_stop_after_prep) ∧
    (ped_stop_if_prep_finished w).ped_request = w.ped_request ∧
    (ped_stop_if_prep_finished w).polls = w.polls := by
  unfold ped_stop_if_prep_finished
  cases ha : w.ped_window_active <;> cases hs : w.ped_window_stop_after_prep <;>
    simp [notify, ha, hs]

/-- The end of a ring phase: the window closes after a preparatory yellow and is otherwise
left as it is; neither the request nor the poll counter is touched. -/
theorem after_wait_window (st : normal_def_t) (w : Ctl) :
    (normal_after_wait st w).ped_window_active =
      (if st.is_prep_y then (w.ped_window_active && !w.ped_window_stop_after_prep)
        else w.ped_window_active) ∧
    (normal_after_wait st w).ped_request = w.ped_request ∧
    (normal_after_wait st w).polls = w.polls := by
  obtain ⟨a1, a2, a3⟩ := ped_stop_window w
  unfold normal_after_wait
  simp only []
  cases hp : st.is_prep_y
  · simp only [Bool.false_eq_true, if_false]
    split_ifs <;> simp [notify]
  · simp only [if_true]
    split_ifs <;> simp [notify, a1, a2, a3]

/-- Over a ring step the request is consumed only by the claim at the start of the step,
and raised only by a press received during the step. -/
theorem pressed_normal_step (evs : Nat → Option Char) (s : Ctl) (st : normal_def_t)
    (h : find_norm s.ns = some st) :
    Pressed evs (ped_try_start_at_safe_allred st.is_safe_allred s) (normal_step evs s) := by
  have hw := pressed_normal_wait st evs
    (print_normal_line s.ns st (ped_try_start_at_safe_allred st.is_safe_allred s))
  have h0 : Pressed evs (ped_try_start_at_safe_allred st.is_safe_allred s)
      (print_normal_line s.ns st (ped_try_start_at_safe_allred st.is_safe_allred s)) :=
    pressed_of_frame evs rfl rfl
  simp only [normal_step, h, ped_try_start_ns]
  rcases hx : normal_wait st evs
    (print_normal_line s.ns st (ped_try_start_at_safe_allred st.is_safe_allred s))
    with ⟨x1, x2⟩
  rw [hx] at hw
  cases x1
  · obtain ⟨-, a2, a3⟩ := after_wait_window st x2
    exact pressed_trans h0 (pressed_trans hw (pressed_of_frame evs a3 a2))
  · exact pressed_trans h0 hw

theorem NORM_line_flags :
    ∀ st ∈ NORM,
      (st.is_safe_allred = (st.r3 == "RED" && st.r1_we == "RED" && st.r1_ew == "RED")) ∧
      (st.is_prep_y = (st.r3 == "PRE-Y" || st.r1_we == "PRE-Y" || st.r1_ew == "PRE-Y")) ∧
      (st.is_safe_allred = true →
        st.is_prep_y = false ∧ ((st.id = 0 ∧ st.next = 1) ∨ (st.id = 6 ∧ st.next = 7))) := by
  decide

/-- The window flag after a ring step. -/
theorem normal_step_window (evs : Nat → Option Char) (s : Ctl) (st : normal_def_t)
    (hinv : Inv s) (hl : s.in_train_state = false) (h : find_norm s.ns = some st) :
    (normal_step evs s).ped_window_active =
      ((s.ped_window_active || (s.ped_request && st.is_safe_allred)) && !st.is_prep_y) := by
  obtain ⟨hmem, hid⟩ := find_norm_some h
  have hi1 := Inv_ped_try_start_normal st hmem s hinv hl hid.symm
  obtain ⟨t1, -, -⟩ := ped_try_start_window st.is_safe_allred s
  obtain ⟨w, hw, e | ⟨hg, -, e⟩⟩ := normal_step_shape evs s st h
  · obtain ⟨-, -, -, w4, w5, -⟩ := hw
    simp only [print_normal_line] at w4 w5
    rw [e, (after_wait_window st w).1, w4, w5, t1]
    have hstop := hi1.2.2.2.1
    rw [t1] at hstop
    cases hp : st.is_prep_y
    · simp
    · cases ha : (s.ped_window_active || (s.ped_request && st.is_safe_allred))
      · simp
      · simp [hstop ha]
  · obtain ⟨-, -, -, w4, -⟩ := hw
    simp only [print_normal_line] at w4
    obtain ⟨st2, hst2, hg2⟩ := is_normal_green_find hg
    rw [h] at hst2
    cases hst2
    obtain ⟨-, -, -, g4, g5⟩ := NORM_green_facts st hmem hg2
    rw [e]
    show w.ped_window_active = _
    rw [w4, t1, g4, g5]
    simp

/-- After a ring all-red the next phase is a preparatory yellow: the ring's own, or the
first phase of the train sequence. -/
theorem normal_step_after_all_red (evs : Nat → Option Char) (s : Ctl) (st : normal_def_t)
    (h : find_norm s.ns = some st) (hl : s.in_train_state = false)
    (hs : st.is_safe_allred = true) :
    ((normal_step evs s).in_train_state = true ∧ (normal_step evs s).tr = TR_S01_PREP_R3) ∨
    ((normal_step evs s).in_train_state = false ∧
      ((normal_step evs s).ns = N_PREP_R3 ∨ (normal_step evs s).ns = N_PREP_R1)) := by
  obtain ⟨hmem, hid⟩ := find_norm_some h
  obtain ⟨-, -, hnext⟩ := NORM_line_flags st hmem
  obtain ⟨hprep, hnext⟩ := hnext hs
  obtain ⟨w, hw, e | ⟨hg, -, e⟩⟩ := normal_step_shape evs s st h
  · obtain ⟨w1, -, -, -, -, -, -, w8, -⟩ := hw
    simp only [print_normal_line, ped_try_start_ns, ped_try_start_in_train] at w1 w8
    rw [e]
    have hns : w.ns = 0 ∨ w.ns = 6 := by
      rw [w8, ← hid]
      rcases hnext with ⟨a, -⟩ | ⟨a, -⟩
      · exact Or.inl a
      · exact Or.inr a
    have hnx : st.next = 1 ∨ st.next = 7 := by
      rcases hnext with ⟨-, a⟩ | ⟨-, a⟩
      · exact Or.inl a
      · exact Or.inr a
    have hit : w.in_train_state = false := by rw [w1, hl]
    unfold normal_after_wait
    simp only [hs, hprep, if_true, Bool.false_eq_true, if_false]
    cases hr : w.train_request <;>
      rcases hns with hn | hn <;> rcases hnx with hx | hx <;>
      simp [hn, hx, hr, hit, notify]
  · exfalso
    obtain ⟨st2, hst2, hg2⟩ := is_normal_green_find hg
    rw [h] at hst2
    cases hst2
    have := (NORM_green_facts st hmem hg2).2.2.2.2
    rw [hs] at this
    cases this

end Demo1

namespace Demo1

theorem train_after_wait_window (w : Ctl) :
    (train_after_wait w).ped_window_active =
      (if train_is_prep w.tr then (w.ped_window_active && !w.ped_window_stop_after_prep)
        else w.ped_window_active) ∧
    (train_after_wait w).ped_request = w.ped_request ∧
    (train_after_wait w).polls = w.polls := by
  obtain ⟨a1, a2, a3⟩ := ped_stop_window w
  unfold train_after_wait
  simp only []
  split_ifs <;> simp [a1, a2, a3]

theorem train_exit_check_window (w : Ctl) :
    (train_exit_check w).ped_window_active = w.ped_window_active ∧
    (train_exit_check w).ped_request = w.ped_request ∧
    (train_exit_check w).polls = w.polls := by
  unfold train_exit_check
  split_ifs <;> simp [normal_ui_set_start, notify]

theorem clear_notice_window (s : Ctl) :
    (clear_notice s).ped_window_active = s.ped_window_active ∧
    (clear_notice s).ped_window_stop_after_prep = s.ped_window_stop_after_prep ∧
    (clear_notice s).ped_request = s.ped_request ∧
    (clear_notice s).polls = s.polls ∧ (clear_notice s).tr = s.tr := by
  obtain ⟨-, a2, a3, a4, -, -, a7, -, -⟩ := clear_notice_polled s
  exact ⟨a2, a3, a7, (clear_notice_frame s).1, a4⟩

/-- Over a train step the request is consumed only by the claim at the start of the step,
and raised only by a press received during the step. -/
theorem pressed_train_run (evs : Nat → Option Char) (s : Ctl) :
    Pressed evs (ped_try_start_at_safe_allred (train_is_safe_allred s.tr) s)
      (train_run_until_exit evs s) := by
  obtain ⟨-, -, c3, c4, c5⟩ := clear_notice_window s
  obtain ⟨-, t2, t3⟩ := ped_try_start_window (train_is_safe_allred s.tr) s
  obtain ⟨-, u2, u3⟩ := ped_try_start_window (train_is_safe_allred s.tr) (clear_notice s)
  unfold train_run_until_exit
  rw [train_step_eq, c5]
  have h0 : Pressed evs (ped_try_start_at_safe_allred (train_is_safe_allred s.tr) s)
      (print_train_line s.tr
        (ped_try_start_at_safe_allred (train_is_safe_allred s.tr) (clear_notice s))) :=
    pressed_of_frame evs (by simp only [print_train_line]; rw [u3, t3, c4])
      (by simp only [print_train_line]; rw [u2, t2, c3])
  have hw := pressed_wait_with_poll_ms evs (train_duration s.tr * 1000 % UINT_MOD)
    (print_train_line s.tr
      (ped_try_start_at_safe_allred (train_is_safe_allred s.tr) (clear_notice s)))
  obtain ⟨-, a2, a3⟩ := train_after_wait_window
    (wait_with_poll_ms (train_duration s.tr * 1000 % UINT_MOD) evs
      (print_train_line s.tr
        (ped_try_start_at_safe_allred (train_is_safe_allred s.tr) (clear_notice s))))
  obtain ⟨-, b2, b3⟩ := train_exit_check_window (train_after_wait
    (wait_with_poll_ms (train_duration s.tr * 1000 % UINT_MOD) evs
      (print_train_line s.tr
        (ped_try_start_at_safe_allred (train_is_safe_allred s.tr) (clear_notice s)))))
  exact pressed_trans h0 (pressed_trans hw
    (pressed_of_frame evs (by rw [b3, a3]) (by rw [b2, a2])))

/-- The window flag after a train step. -/
theorem train_run_window (evs : Nat → Option Char) (s : Ctl) (hinv : Inv s)
    (hl : s.in_train_state = true) :
    (train_run_until_exit evs s).ped_window_active =
      ((s.ped_window_active || (s.ped_request && train_is_safe_allred s.tr)) &&
        !train_is_prep s.tr) := by
  obtain ⟨c0, -, c2, -, c5⟩ := clear_notice_window s
  have hc : Inv (clear_notice s) := clear_notice_inv s hinv
  have hcl : (clear_notice s).in_train_state = true := by
    rw [(clear_notice_polled s).1, hl]
  have hi1 := Inv_ped_try_start_train (clear_notice s) hc hcl
  obtain ⟨t1, -, -⟩ := ped_try_start_window (train_is_safe_allred (clear_notice s).tr)
    (clear_notice s)
  obtain ⟨w, hw, e⟩ := train_step_shape evs (clear_notice s)
  obtain ⟨-, -, -, w4, w5, w6, -⟩ := hw
  simp only [print_train_line, ped_try_start_tr] at w4 w5 w6
  unfold train_run_until_exit
  rw [(train_exit_check_window _).1, e, (train_after_wait_window w).1, w4, w5, w6, t1]
  have hstop := hi1.2.2.2.1
  rw [t1] at hstop
  rw [c5, c0, c2] at hstop ⊢
  cases hp : train_is_prep s.tr
  · simp
  · cases ha : (s.ped_window_active || (s.ped_request && train_is_safe_allred s.tr))
    · simp
    · simp [hstop ha]

/-- After a train all-red the next phase is a preparatory yellow of the train sequence,
except that the exit taken at the end of `TR_S08_ALL_RED_B` resumes the ring at its own
all-red `N_ALL_RED_1`. -/
theorem train_run_after_all_red (evs : Nat → Option Char) (s : Ctl) (hinv : Inv s)
    (hl : s.in_train_state = true) (hs : train_is_safe_allred s.tr = true) :
    ((train_run_until_exit evs s).in_train_state = true ∧
      ((train_run_until_exit evs s).tr = TR_S01_PREP_R3 ∨
        (train_run_until_exit evs s).tr = TR_S05_PREP_R1)) ∨
    (s.tr = TR_S08_ALL_RED_B ∧ (train_run_until_exit evs s).in_train_state = false ∧
      (train_run_until_exit evs s).ns = N_ALL_RED_1) := by
  obtain ⟨w, hw, w1, w2, -, -, w5, -, -⟩ := train_run_shape evs s
  have hact : w.train_active = true := w5 (hinv.2.2.1 hl)
  rw [hw]
  rw [hl] at w1
  obtain ⟨rq, ac, cp, pr, its, pa, ub, pw, ps, tr, cn, ns, sl, po, out⟩ := w
  simp only at w1 w2 hact
  subst w1 hact
  have htr : tr = 3 ∨ tr = 7 := by
    rw [← w2] at hs
    simpa [train_is_safe_allred] using hs
  rcases htr with h | h
  · subst h
    left
    cases pw <;> cases ps <;>
      simp [train_exit_check, train_after_wait, train_next, ped_stop_if_prep_finished,
        notify, normal_ui_set_start, train_is_prep, train_is_safe_allred]
  · subst h
    cases cp
    · left
      cases pw <;> cases ps <;>
        simp [train_exit_check, train_after_wait, train_next, ped_stop_if_prep_finished,
          notify, normal_ui_set_start, train_is_prep, train_is_safe_allred]
    · right
      refine ⟨w2.symm, ?_⟩
      cases pw <;> cases ps <;>
        simp [train_exit_check, train_after_wait, train_next, ped_stop_if_prep_finished,
          notify, normal_ui_set_start, train_is_prep, train_is_safe_allred]

end Demo1

namespace Demo1

theorem NORM_window_flags :
    ∀ st ∈ NORM, (st.id = 0 ∨ st.id = 1 ∨ st.id = 6 ∨ st.id = 7) →
      st.is_safe_allred = true ∨ st.is_prep_y = true := by
  decide

theorem NORM_prep_ids :
    ∀ st ∈ NORM, (st.id = 1 ∨ st.id = 7) → st.is_prep_y = true := by
  decide

theorem train_line_flags (t : Nat) (h : t < 8) :
    (train_is_safe_allred t = ((train_lights t).1 == "RED" && (train_lights t).2.1 == "RED" &&
      (train_lights t).2.2 == "RED")) ∧
    (train_is_prep t = ((train_lights t).1 == "PRE-Y" || (train_lights t).2.1 == "PRE-Y" ||
      (train_lights t).2.2 == "PRE-Y")) ∧
    (train_is_safe_allred t = true → train_is_prep t = false) ∧
    ((t = 0 ∨ t = 3 ∨ t = 4 ∨ t = 7) →
      train_is_safe_allred t = true ∨ train_is_prep t = true) := by
  interval_cases t <;> decide

theorem ped_output_window (b : Bool) (s : Ctl) :
    ped_output (ped_try_start_at_safe_allred b s) =
      (if s.ped_window_active || (s.ped_request && b) then "WALK" else "RED") := by
  rw [ped_output_try_start]
  cases b <;> cases s.ped_request <;> cases s.ped_window_active <;> rfl

/-- One step of the main loop, seen from the pedestrian side, in a state that satisfies the
invariant. The step prints one line `l`. -/
theorem step_window (evs : Nat → Option Char) (s : Ctl) (hinv : Inv s) :
    ∃ l, status_lines (main_iter evs s).out = status_lines s.out ++ [l] ∧
      l.ped = (if s.ped_window_active || (s.ped_request && l.all_red) then "WALK"
        else "RED") ∧
      (main_iter evs s).ped_window_active =
        ((s.ped_window_active || (s.ped_request && l.all_red)) && !l.pre_y) ∧
      s.polls ≤ (main_iter evs s).polls ∧
      ((main_iter evs s).ped_request = true ↔
        ((s.ped_request = true ∧ l.all_red = false) ∨
          PressedIn evs s.polls (main_iter evs s).polls)) ∧
      (l.all_red = true → l.pre_y = false) ∧
      (s.ped_window_active = true → l.all_red = true ∨ l.pre_y = true) ∧
      (l.all_red = true →
        ((main_iter evs s).in_train_state = true ∧
          ((main_iter evs s).tr = TR_S01_PREP_R3 ∨ (main_iter evs s).tr = TR_S05_PREP_R1)) ∨
        ((main_iter evs s).in_train_state = false ∧
          ((main_iter evs s).ns = N_PREP_R3 ∨ (main_iter evs s).ns = N_PREP_R1)) ∨
        (s.in_train_state = true ∧ s.tr = TR_S08_ALL_RED_B ∧
          (main_iter evs s).in_train_state = false ∧ (main_iter evs s).ns = N_ALL_RED_1)) ∧
      (s.in_train_state = true →
        l.all_red = train_is_safe_allred s.tr ∧ l.pre_y = train_is_prep s.tr) ∧
      (s.in_train_state = false → ∀ st, find_norm s.ns = some st →
        l.all_red = st.is_safe_allred ∧ l.pre_y = st.is_prep_y) := by
  cases hl : s.in_train_state
  · -- the ring
    obtain ⟨st, hst⟩ := find_norm_lt hinv.1
    obtain ⟨hmem, hid⟩ := find_norm_some hst
    obtain ⟨f1, f2, f3⟩ := NORM_line_flags st hmem
    have hm : main_iter evs s = normal_step evs s := by simp [main_iter, hl]
    have hp := pressed_normal_step evs s st hst
    obtain ⟨-, t2, t3⟩ := ped_try_start_window st.is_safe_allred s
    rw [hm]
    refine ⟨_, normal_step_lines evs s st hst, ?_, ?_, ?_, ?_, ?_, ?_, ?_, ?_, ?_⟩
    · simp only [StatusLine.all_red, ← f1]
      exact ped_output_window _ _
    · simp only [StatusLine.all_red, StatusLine.pre_y, ← f1, ← f2]
      exact normal_step_window evs s st hinv hl hst
    · have := hp.1
      rw [t3] at this
      exact this
    · have := hp.2
      rw [t2, t3] at this
      rw [this]
      simp only [StatusLine.all_red, ← f1]
      cases s.ped_request <;> cases st.is_safe_allred <;> simp
    · simp only [StatusLine.all_red, StatusLine.pre_y, ← f1, ← f2]
      exact fun h => (f3 h).1
    · intro ha
      simp only [StatusLine.all_red, StatusLine.pre_y, ← f1, ← f2]
      have := hinv.2.2.2.2.2 ha hl
      rw [← hid] at this
      exact NORM_window_flags st hmem this
    · simp only [StatusLine.all_red, ← f1]
      intro hs
      rcases normal_step_after_all_red evs s st hst hl hs with h | h
      · exact Or.inl ⟨h.1, Or.inl h.2⟩
      · exact Or.inr (Or.inl h)
    · intro h; cases h
    · intro _ st2 hst2
      rw [hst] at hst2
      cases hst2
      simp only [StatusLine.all_red, StatusLine.pre_y, ← f1, ← f2]
      exact ⟨trivial, trivial⟩
  · -- the train layer
    obtain ⟨g1, g2, g3, g4⟩ := train_line_flags s.tr hinv.2.1
    have hm : main_iter evs s = train_run_until_exit evs s := by simp [main_iter, hl]
    have hp := pressed_train_run evs s
    obtain ⟨-, t2, t3⟩ := ped_try_start_window (train_is_safe_allred s.tr) s
    rw [hm]
    refine ⟨_, train_run_lines evs s, ?_, ?_, ?_, ?_, ?_, ?_, ?_, ?_, ?_⟩
    · simp only [StatusLine.all_red, ← g1]
      exact ped_output_window _ _
    · simp only [StatusLine.all_red, StatusLine.pre_y, ← g1, ← g2]
      exact train_run_window evs s hinv hl
    · have := hp.1
      rw [t3] at this
      exact this
    · have := hp.2
      rw [t2, t3] at this
      rw [this]
      simp only [StatusLine.all_red, ← g1]
      cases s.ped_request <;> cases train_is_safe_allred s.tr <;> simp
    · simp only [StatusLine.all_red, StatusLine.pre_y, ← g1, ← g2]
      exact g3
    · intro ha
      simp only [StatusLine.all_red, StatusLine.pre_y, ← g1, ← g2]
      exact g4 (hinv.2.2.2.2.1 ha hl)
    · simp only [StatusLine.all_red, ← g1]
      intro hs
      rcases train_run_after_all_red evs s hinv hl hs with h | ⟨h1, h2, h3⟩
      · exact Or.inl h
      · exact Or.inr (Or.inr ⟨trivial, h1, h2, h3⟩)
    · intro _
      simp only [StatusLine.all_red, StatusLine.pre_y, ← g1, ← g2]
      exact ⟨trivial, trivial⟩
    · intro h; cases h

end Demo1

namespace Demo1

theorem run_succ_main_iter (evs : Nat → Option Char) (n : Nat) (s : Ctl) :
    run evs (n + 1) s = main_iter evs (run evs n s) := by
  induction n generalizing s with
  | zero => rfl
  | succ n ih =>
    show run evs (n + 1) (main_iter evs s) = _
    rw [ih]
    rfl

/-- C11 (as amended): the pedestrian window of demo1.c (overlay mode), for every event
schedule and every state reached from the initial state. Let `l` be the line printed by
step `n + 1` and `l'` the line printed by the step after it.
* The PED field of `l` is WALK or RED. It is WALK exactly when the window is open at the
  start of the step, or a request is pending and `l` is a safe-all-red line (the window
  opens there); so a WALK line is always an all-red or a preparatory-yellow line.
* After the step the window is open exactly when `l` is WALK and not a preparatory-yellow
  line: the window stays open up to and including the next preparatory-yellow line.
* After the step a request is pending exactly when a press was received at one of the
  polls of the step, or a request was pending before and `l` is not a safe-all-red line:
  a press received at any quantum is kept until the next safe-all-red phase begins, and is
  consumed there.
* After a safe-all-red line the next line is a preparatory yellow, except when the train
  layer exits at the end of `TR_S08_ALL_RED_B`: then the next line is the line of the
  ring's all-red `N_ALL_RED_1` (the layer being the ring, the line after that one is a
  preparatory yellow).
Initially the window is closed and no request is pending. Hence PED is WALK on the first
safe-all-red line that begins after the press and on every line up to and including the
next preparatory-yellow line, and RED on every other line. -/
theorem C11_ped_window_bound (evs : Nat → Option Char) (n : Nat) :
    ∃ l l' : StatusLine,
      status_lines (run evs (n + 1) init).out =
        status_lines (run evs n init).out ++ [l] ∧
      status_lines (run evs (n + 2) init).out =
        status_lines (run evs n init).out ++ [l, l'] ∧
      (l.ped = "WALK" ∨ l.ped = "RED") ∧
      (l.ped = "WALK" ↔
        ((run evs n init).ped_window_active = true ∨
          ((run evs n init).ped_request = true ∧ l.all_red = true))) ∧
      (l.ped = "WALK" → l.all_red = true ∨ l.pre_y = true) ∧
      ((run evs (n + 1) init).ped_window_active = true ↔
        (l.ped = "WALK" ∧ l.pre_y = false)) ∧
      ((run evs (n + 1) init).ped_request = true ↔
        (((run evs n init).ped_request = true ∧ l.all_red = false) ∨
          PressedIn evs (run evs n init).polls (run evs (n + 1) init).polls)) ∧
      (l.all_red = true →
        l'.pre_y = true ∨
        (l'.all_red = true ∧ (run evs n init).in_train_state = true ∧
          (run evs n init).tr = TR_S08_ALL_RED_B ∧
          (run evs (n + 1) init).in_train_state = false ∧
          (run evs (n + 1) init).ns = N_ALL_RED_1)) ∧
      init.ped_window_active = false ∧ init.ped_request = false := by
  have hinv := run_inv evs n init init_inv
  have hinv2 := run_inv evs (n + 1) init init_inv
  have r2 : run evs (n + 2) init = main_iter evs (run evs (n + 1) init) :=
    run_succ_main_iter evs (n + 1) init
  rw [r2]
  obtain ⟨l', b1, -, -, -, -, -, -, -, b9, b10⟩ :=
    step_window evs (run evs (n + 1) init) hinv2
  rw [run_succ_main_iter evs n init] at hinv2 b1 b9 b10 ⊢
  obtain ⟨l, a1, a2, a3, -, a5, -, a7, a8, -, -⟩ := step_window evs (run evs n init) hinv
  generalize run evs n init = s at *
  have hwalk : l.ped = "WALK" ↔
      (s.ped_window_active || (s.ped_request && l.all_red)) = true := by
    rw [a2]
    cases (s.ped_window_active || (s.ped_request && l.all_red)) <;> simp
  refine ⟨l, l', a1, by rw [b1, a1]; simp, ?_, ?_, ?_, ?_, a5, ?_, by decide, by decide⟩
  · rw [a2]
    cases (s.ped_window_active || (s.ped_request && l.all_red)) <;> simp
  · rw [hwalk]; simp
  · rw [hwalk]
    intro h
    simp only [Bool.or_eq_true, Bool.and_eq_true] at h
    rcases h with h | h
    · exact a7 h
    · exact Or.inl h.2
  · rw [hwalk, a3]
    cases (s.ped_window_active || (s.ped_request && l.all_red)) <;> cases l.pre_y <;> simp
  · intro hall
    rcases a8 hall with ⟨h1, h2⟩ | ⟨h1, h2⟩ | ⟨h1, h2, h3, h4⟩
    · left
      rw [(b9 h1).2]
      rcases h2 with h | h <;> rw [h] <;> decide
    · left
      have hlt := hinv2.1
      obtain ⟨st, hst⟩ := find_norm_lt hlt
      obtain ⟨hmem, hid⟩ := find_norm_some hst
      rw [(b10 h1 st hst).2]
      exact NORM_prep_ids st hmem (by rw [hid]; exact h2)
    · right
      refine ⟨?_, h1, h2, h3, h4⟩
      have hlt := hinv2.1
      obtain ⟨st, hst⟩ := find_norm_lt hlt
      rw [(b10 h3 st hst).1]
      rw [h4] at hst
      have : st = ⟨N_ALL_RED_1, T_ALL_RED, "RED", "RED", "RED", true, false, false,
          N_ALL_RED_1, N_PREP_R3⟩ := by
        have h0 : find_norm N_ALL_RED_1 = some ⟨N_ALL_RED_1, T_ALL_RED, "RED", "RED", "RED",
            true, false, false, N_ALL_RED_1, N_PREP_R3⟩ := by decide
        rw [h0] at hst
        exact (Option.some.inj hst).symm
      rw [this]

set_option maxRecDepth 100000 in
theorem C11_ped_window_bound_witness :
    ∃ l l' : StatusLine,
      status_lines (run (fun i => if i = 20 then some 'p' else none) 7 init).out =
        status_lines (run (fun i => if i = 20 then some 'p' else none) 6 init).out ++ [l] ∧
      status_lines (run (fun i => if i = 20 then some 'p' else none) 8 init).out =
        status_lines (run (fun i => if i = 20 then some 'p' else none) 6 init).out ++
          [l, l'] ∧
      l.ped = "WALK" ∧ l.all_red = true ∧ l'.pre_y = true := by
  obtain ⟨l, l', h1, h2, -, h4, -, -, -, h8, -, -⟩ :=
    C11_ped_window_bound (fun i => if i = 20 then some 'p' else none) 6
  have hl : l = ⟨"NORMAL", 7, 5, "RED", "RED", "RED", "WALK"⟩ := by
    have h0 : status_lines (run (fun i => if i = 20 then some 'p' else none) 7 init).out =
        status_lines (run (fun i => if i = 20 then some 'p' else none) 6 init).out ++
          [⟨"NORMAL", 7, 5, "RED", "RED", "RED", "WALK"⟩] := by decide
    rw [h0] at h1
    have := List.append_cancel_left h1
    simpa using this.symm
  have hall : l.all_red = true := by rw [hl]; decide
  refine ⟨l, l', h1, h2, by rw [hl], hall, ?_⟩
  rcases h8 hall with h | ⟨-, h, -⟩
  · exact h
  · exact absurd h (by decide)

end Demo1

namespace Demo1

set_option maxRecDepth 100000 in
/-- C11, counterexample to the claim as stated. A train is detected at poll 7, the
pedestrian button is pressed at poll 530 (during train phase S07) and the train is cleared
at poll 600 (during the wait of train phase S08, the all-red `TR_S08_ALL_RED_B`). The
window opens on the S08 line; the exit taken at the end of S08 resumes the ring at its own
all-red `N_ALL_RED_1`, so the line immediately following the first WALK line is not a
preparatory yellow but a second all-red line, printed with PED=WALK as well; the
preparatory yellow follows as a third WALK line, and the line after it is RED again. -/
theorem C11_counterexample :
    (status_lines (run (fun i => if i = 7 then some 't' else if i = 530 then some 'p' else
        if i = 600 then some 'c' else none) 12 init).out).map
      (fun l => (l.mode, l.label, (l.r3, l.r1_we, l.r1_ew), l.ped)) =
    [ ("NORMAL", 1, ("RED", "RED", "RED"), "RED"),
      ("TRAIN", 1, ("PRE-Y", "RED", "RED"), "RED"),
      ("TRAIN", 2, ("LR-G", "RED", "RED"), "RED"),
      ("TRAIN", 3, ("LR-Y", "RED", "RED"), "RED"),
      ("TRAIN", 4, ("RED", "RED", "RED"), "RED"),
      ("TRAIN", 5, ("RED", "PRE-Y", "PRE-Y"), "RED"),
      ("TRAIN", 6, ("RED", "SR-G", "SL-G"), "RED"),
      ("TRAIN", 7, ("RED", "SR-Y", "SL-Y"), "RED"),
      ("TRAIN", 8, ("RED", "RED", "RED"), "WALK"),
      ("NORMAL", 1, ("RED", "RED", "RED"), "WALK"),
      ("NORMAL", 2, ("PRE-Y", "RED", "RED"), "WALK"),
      ("NORMAL", 3, ("RS-G", "RED", "RED"), "RED") ] ∧
    ((status_lines (run (fun i => if i = 7 then some 't' else if i = 530 then some 'p' else
        if i = 600 then some 'c' else none) 12 init).out).map
      (fun l => (l.ped, l.all_red, l.pre_y))).get? 9 = some ("WALK", true, false) := by
  decide

set_option maxRecDepth 100000 in
/-- C12, the code evaluated at the failing input. A train is detected at poll 7, the
pedestrian button is pressed at poll 530 (during train phase S07) and again at poll 590,
and the train is cleared at poll 600 (both during the wait of train phase S08). The first
request is claimed on the S08 line (PED BEGIN); the exit at the end of S08 resumes the
ring at `N_ALL_RED_1`, a safe all-red, where `ped_try_start_at_safe_allred` claims the
second request while the window is still open and emits PED BEGIN again; one PED OVER
follows at the end of the preparatory yellow. -/
theorem C12_ped_begin_twice :
    notices (run (fun i => if i = 7 then some 't' else if i = 530 then some 'p' else
        if i = 590 then some 'p' else if i = 600 then some 'c' else none) 12 init).out =
    [ Notify.train_preempt, Notify.train_begin, Notify.ped_begin, Notify.train_over,
      Notify.ped_begin, Notify.ped_over ] := by
  decide

end Demo1

namespace Fsm

/-! ## Waits that are not interrupted -/

theorem wait_quantum_no_t (evs : Nat → List Char) (ms : Nat) (s : Ctl)
    (hr : s.train_request = false) (hno : 't' ∉ evs s.polls) :
    wait_quantum evs ms s = (false, poll_events_from_mq evs (nanosleep_ms ms s)) ∧
    (poll_events_from_mq evs (nanosleep_ms ms s)).train_request = false := by
  have h : (poll_events_from_mq evs (nanosleep_ms ms s)).train_request = false := by
    unfold poll_events_from_mq
    exact foldl_request_false _ _ hno hr
  refine ⟨?_, h⟩
  unfold wait_quantum
  simp [h]

theorem wait_loop_no_t (evs : Nat → List Char) :
    ∀ (n : Nat) (s : Ctl), s.train_request = false →
      (∀ j, j < n → 't' ∉ evs (s.polls + j)) →
      ∃ w, wait_loop evs n s = (false, w) ∧ Polled s w ∧ w.polls = s.polls + n ∧
        w.slept_ms = s.slept_ms + 100 * n ∧ w.train_request = false := by
  intro n
  induction n with
  | zero =>
    intro s hr _
    exact ⟨s, rfl, mq_polled_refl s, rfl, rfl, hr⟩
  | succ n ih =>
    intro s hr hno
    obtain ⟨hq, hr2⟩ := wait_quantum_no_t evs 100 s hr (by simpa using hno 0 (by omega))
    obtain ⟨c1, c2⟩ := mq_quantum_counters evs 100 s
    obtain ⟨w, hw, w1, w2, w3, w4⟩ :=
      ih (poll_events_from_mq evs (nanosleep_ms 100 s)) hr2 (fun j hj => by
        rw [c1]
        have := hno (j + 1) (by omega)
        have e : s.polls + 1 + j = s.polls + (j + 1) := by omega
        rw [e]
        exact this)
    refine ⟨w, ?_, mq_polled_trans (mq_quantum_polled evs 100 s) w1, ?_, ?_, w4⟩
    · unfold wait_loop
      rw [hq]
      exact hw
    · rw [w2, c1]; omega
    · rw [w3, c2]; omega

/-- A wait during which `train_request` is never true runs to its end: ten polls per
second, the cursor is not moved. -/
theorem wait_no_t (evs : Nat → List Char) (t : Nat) (s : Ctl)
    (hov : t * 1000 < UINT_MOD) (hr : s.train_request = false)
    (hno : ∀ j, j < 10 * t → 't' ∉ evs (s.polls + j)) :
    Polled s (wait_seconds_interruptible t evs s) ∧
    (wait_seconds_interruptible t evs s).polls = s.polls + 10 * t ∧
    (wait_seconds_interruptible t evs s).slept_ms = s.slept_ms + 1000 * t ∧
    (wait_seconds_interruptible t evs s).train_request = false := by
  unfold wait_seconds_interruptible
  split_ifs with h0
  · subst h0
    exact ⟨mq_polled_refl s, rfl, rfl, hr⟩
  · have hsteps : t * 1000 % UINT_MOD / 100 = 10 * t := by
      rw [Nat.mod_eq_of_lt hov]; omega
    have hrem : t * 1000 % UINT_MOD % 100 = 0 := by
      rw [Nat.mod_eq_of_lt hov]; omega
    obtain ⟨w, hw, w1, w2, w3, w4⟩ := wait_loop_no_t evs (10 * t) s hr hno
    simp only [hsteps, hrem, hw, gt_iff_lt, lt_self_iff_false, if_false]
    exact ⟨w1, w2, by rw [w3]; omega, w4⟩

theorem poll_empty (evs : Nat → List Char) (s : Ctl) (h : evs s.polls = []) :
    poll_events_from_mq evs s = { s with polls := s.polls + 1 } := by
  simp [poll_events_from_mq, h]

theorem wait_loop_empty (evs : Nat → List Char) :
    ∀ (n : Nat) (s : Ctl), (s.train_request = false ∨ is_normal_green s.cur = false) →
      (∀ j, j < n → evs (s.polls + j) = []) →
      wait_loop evs n s =
        (false, { s with slept_ms := s.slept_ms + 100 * n, polls := s.polls + n }) := by
  intro n
  induction n with
  | zero => intro s _ _; rfl
  | succ n ih =>
    intro s hr hno
    have h0 : evs (nanosleep_ms 100 s).polls = [] := by simpa using hno 0 (by omega)
    have hp := poll_empty evs (nanosleep_ms 100 s) h0
    have hq : wait_quantum evs 100 s =
        (false, { s with slept_ms := s.slept_ms + 100, polls := s.polls + 1 }) := by
      unfold wait_quantum
      rw [hp]
      rcases hr with hr | hr <;> simp [nanosleep_ms, hr]
    rw [wait_loop, hq]
    simp only []
    rw [ih]
    · simp only [Ctl.mk.injEq, true_and, and_true, Prod.mk.injEq]
      constructor <;> omega
    · exact hr
    · intro j hj
      have := hno (j + 1) (by omega)
      simpa [Nat.add_assoc, Nat.add_comm 1 j] using this

/-- With nothing in the queue and no train request (or away from the ring greens) the
wait only advances the clock and the poll counter. -/
theorem wait_empty (evs : Nat → List Char) (t : Nat) (s : Ctl)
    (hov : t * 1000 < UINT_MOD)
    (hr : s.train_request = false ∨ is_normal_green s.cur = false)
    (hno : ∀ j, j < 10 * t → evs (s.polls + j) = []) :
    wait_seconds_interruptible t evs s =
      { s with slept_ms := s.slept_ms + 1000 * t, polls := s.polls + 10 * t } := by
  unfold wait_seconds_interruptible
  split_ifs with h0
  · subst h0
    rfl
  · have hsteps : t * 1000 % UINT_MOD / 100 = 10 * t := by
      rw [Nat.mod_eq_of_lt hov]; omega
    have hrem : t * 1000 % UINT_MOD % 100 = 0 := by
      rw [Nat.mod_eq_of_lt hov]; omega
    simp only [hsteps, hrem, wait_loop_empty evs (10 * t) s hr hno, gt_iff_lt,
      lt_self_iff_false, if_false]
    have : 100 * (10 * t) = 1000 * t := by omega
    rw [this]

theorem duration_of_le (c : Nat) : duration_of c ≤ 20 := by
  by_cases h : c ≤ 22
  · interval_cases c <;> simp [duration_of]
  · obtain ⟨d, hd⟩ : ∃ d, c = d + 23 := ⟨c - 23, by omega⟩
    subst hd
    simp [duration_of]

theorem duration_of_small (c : Nat) : duration_of c * 1000 < UINT_MOD := by
  have := duration_of_le c
  have h : UINT_MOD = 4294967296 := by decide
  omega

end Fsm

namespace Fsm

/-! ## One step at a ring state that is not an all-red -/

/-- The `switch` at a ring green or yellow, in terms of the state `W` at the end of the
wait: only the cursor is written. After a through yellow (`RS-Y`) the jump to the all-red
is taken when `train_request` and `train_preempt_to_allred` are both set. -/
theorem step_switch_ring_plain_eq (evs : Nat → List Char) (p : Ctl)
    (hc : p.cur = N_R3_RS_G ∨ p.cur = N_R3_RS_Y ∨ p.cur = N_R3_L_G ∨ p.cur = N_R3_L_Y ∨
      p.cur = N_R1_RS_G ∨ p.cur = N_R1_RS_Y ∨ p.cur = N_R1_L_G ∨ p.cur = N_R1_L_Y) :
    step_switch evs p =
      { wait_seconds_interruptible (duration_of p.cur) evs p with cur :=
        (if (p.cur = N_R3_RS_Y ∨ p.cur = N_R1_RS_Y) ∧
            (wait_seconds_interruptible (duration_of p.cur) evs p).train_request = true ∧
            (wait_seconds_interruptible (duration_of p.cur) evs p).train_preempt_to_allred
              = true
          then (if p.cur = N_R3_RS_Y then N_ALL_RED_1 else N_ALL_RED_2)
          else p.cur + 1) } := by
  have hW := wait_cur (duration_of p.cur) evs p
  rcases hc with h | h | h | h | h | h | h | h <;>
    simp [h, duration_of, normal_green_to_yellow, is_normal_green] at hW ⊢ <;>
    first
      | (rcases hW with hW | hW <;> simp [step_switch, h, hW] <;> rw [← hW]; done)
      | (simp [step_switch, h, hW]; done)
      | (simp [step_switch, h, hW]; split_ifs <;> rfl)

theorem step_switch_ring_plain (evs : Nat → List Char) (p : Ctl)
    (hc : p.cur = N_R3_RS_G ∨ p.cur = N_R3_RS_Y ∨ p.cur = N_R3_L_G ∨ p.cur = N_R3_L_Y ∨
      p.cur = N_R1_RS_G ∨ p.cur = N_R1_RS_Y ∨ p.cur = N_R1_L_G ∨ p.cur = N_R1_L_Y) :
    (step_switch evs p).cur =
      (if (p.cur = N_R3_RS_Y ∨ p.cur = N_R1_RS_Y) ∧
          (wait_seconds_interruptible (duration_of p.cur) evs p).train_request = true ∧
          (wait_seconds_interruptible (duration_of p.cur) evs p).train_preempt_to_allred = true
        then (if p.cur = N_R3_RS_Y then N_ALL_RED_1 else N_ALL_RED_2)
        else p.cur + 1) := by
  rw [step_switch_ring_plain_eq evs p hc]

/-- One `SingleStep_SM` at a ring green or yellow: the next cursor. -/
theorem ring_plain_step (evs : Nat → List Char) (s : Ctl)
    (hc : s.cur = N_R3_RS_G ∨ s.cur = N_R3_RS_Y ∨ s.cur = N_R3_L_G ∨ s.cur = N_R3_L_Y ∨
      s.cur = N_R1_RS_G ∨ s.cur = N_R1_RS_Y ∨ s.cur = N_R1_L_G ∨ s.cur = N_R1_L_Y) :
    (SingleStep_SM evs s).cur =
      (if (s.cur = N_R3_RS_Y ∨ s.cur = N_R1_RS_Y) ∧
          (wait_seconds_interruptible (duration_of s.cur) evs
            (step_prologue evs s)).train_request = true ∧
          (wait_seconds_interruptible (duration_of s.cur) evs
            (step_prologue evs s)).train_preempt_to_allred = true
        then (if s.cur = N_R3_RS_Y then N_ALL_RED_1 else N_ALL_RED_2)
        else s.cur + 1) := by
  have p1 := step_prologue_cur evs s
  unfold SingleStep_SM
  rw [step_epilogue_cur, step_switch_ring_plain evs (step_prologue evs s) (by rw [p1]; exact hc),
    p1]

/-- The notify-once logic of the prologue writes only `clear_notified_once` and the
output. -/
theorem step_prologue_eq (evs : Nat → List Char) (s : Ctl) :
    ∃ b o, step_prologue evs s =
      { poll_events_from_mq evs (print_state_outputs s.cur s) with
          clear_notified_once := b, out := o } := by
  unfold step_prologue
  simp only []
  generalize poll_events_from_mq evs (print_state_outputs s.cur s) = q
  by_cases h1 : (q.train_clear_pending && !q.clear_notified_once) = true
  · rw [if_pos h1]
    by_cases h2 : (!({ notify Notify.train_clear q with
        clear_notified_once := true } : Ctl).train_clear_pending) = true
    · rw [if_pos h2]
      exact ⟨false, q.out ++ [Out.note Notify.train_clear], rfl⟩
    · rw [if_neg h2]
      exact ⟨true, q.out ++ [Out.note Notify.train_clear], rfl⟩
  · rw [if_neg h1]
    by_cases h2 : (!q.train_clear_pending) = true
    · rw [if_pos h2]
      exact ⟨false, q.out, rfl⟩
    · rw [if_neg h2]
      exact ⟨q.clear_notified_once, q.out, rfl⟩

theorem step_prologue_flag (evs : Nat → List Char) (s : Ctl) :
    (step_prologue evs s).train_preempt_to_allred = s.train_preempt_to_allred := by
  obtain ⟨b, o, h⟩ := step_prologue_eq evs s
  have hu := poll_unpolled evs (print_state_outputs s.cur s)
  simp only [unpolled, Prod.mk.injEq] at hu
  rw [h]
  exact hu.2.2.2.1

end Fsm

namespace Fsm

/-- The cursor after one step at a ring all-red: the first train state on entry, `P_WALK`
on a pedestrian claim, the next ring green otherwise. -/
theorem ring_checkpoint_cur (evs : Nat → List Char) (s : Ctl)
    (hc : s.cur = N_ALL_RED_1 ∨ s.cur = N_ALL_RED_2) :
    ((at_completion evs s).train_request = true ∧
      (SingleStep_SM evs s).cur = T_R3_NS_SRL_G_1) ∨
    ((at_completion evs s).train_request = false ∧
      ((SingleStep_SM evs s).cur = P_WALK ∨
       (SingleStep_SM evs s).cur = (if s.cur = N_ALL_RED_1 then N_R1_RS_G else N_R3_RS_G))) := by
  rw [step_at_ring_checkpoint evs s hc, step_epilogue_cur]
  cases hr : (at_completion evs s).train_request
  · right
    refine ⟨rfl, ?_⟩
    simp only [Bool.false_eq_true, if_false]
    rcases try_start_ped_cases (at_completion evs s) with h | ⟨-, -, h⟩
    · right; rw [h]; simp
    · left; rw [h]; simp
  · left
    refine ⟨rfl, ?_⟩
    simp only [if_true]
    exact (enter_train_frame _).1

/-- The cursor after one step at a train checkpoint. -/
theorem train_checkpoint_cur (evs : Nat → List Char) (s : Ctl)
    (hc : s.cur = T_ALL_RED_A ∨ s.cur = T_ALL_RED_B ∨ s.cur = T_DECISION_ALL_RED_4) :
    (SingleStep_SM evs s).cur = N_R3_RS_G ∨ (SingleStep_SM evs s).cur = P_WALK ∨
    (SingleStep_SM evs s).cur = T_R3_SN_LR_G_2 ∨
    (SingleStep_SM evs s).cur = T_R1_RESTRICT_G_3 := by
  rw [step_at_train_checkpoint evs s hc, step_epilogue_cur]
  by_cases hx : should_exit_train_now (at_completion evs s) (at_completion evs s).cur = true
  · rw [if_pos hx]
    exact Or.inl (do_exit_frame _).2.2.1
  · rw [if_neg hx]
    rcases try_start_ped_cases (at_completion evs s) with h | ⟨-, -, h⟩
    · rw [h]
      simp only [Bool.false_eq_true, if_false]
      by_cases hd : s.cur = T_DECISION_ALL_RED_4
      · rw [if_pos hd]
        by_cases ha : ((at_completion evs s).train_active &&
            !(at_completion evs s).train_clear_pending) = true
        · rw [if_pos ha]; exact Or.inr (Or.inr (Or.inl rfl))
        · rw [if_neg ha]; exact Or.inl (do_exit_frame _).2.2.1
      · rw [if_neg hd]
        rcases hc with h | h | h
        · right; right; left; simp [h]
        · right; right; right; simp [h]
        · exact absurd h hd
    · rw [h]
      simp

theorem status_line_no_prep (c : Nat) :
    (status_line c).r3_sn ≠ "PRE-Y" ∧ (status_line c).r3_ns ≠ "PRE-Y" ∧
    (status_line c).r1_we ≠ "PRE-Y" ∧ (status_line c).r1_ew ≠ "PRE-Y" := by
  by_cases h : c ≤ 22
  · interval_cases c <;> decide
  · have := state_outputs_default c (by omega)
    simp [status_line, this]

/-- C23 (as amended): in traffic_fsm.c every transition from a ring state into the train
layer is taken at the completion of a ring all-red with `train_request` set and lands on
the first phase of the train sequence, `T_R3_NS_SRL_G_1`. That phase is a vehicle green
(R3 north-south shows SRL-G for 8 s), not a preparatory yellow: no state of traffic_fsm.c
displays a preparatory yellow at all. -/
theorem C23_train_entry_first_phase (evs : Nat → List Char) (s : Ctl)
    (hn : is_normal_state s.cur = true) (ht : is_train_state (SingleStep_SM evs s).cur = true) :
    (s.cur = N_ALL_RED_1 ∨ s.cur = N_ALL_RED_2) ∧
    (at_completion evs s).train_request = true ∧
    (SingleStep_SM evs s).cur = T_R3_NS_SRL_G_1 ∧
    status_line T_R3_NS_SRL_G_1 = ⟨"TRAIN ", 0, 8, "RED", "SRL-G", "RED", "RED", "RED"⟩ ∧
    (∀ c, (status_line c).r3_sn ≠ "PRE-Y" ∧ (status_line c).r3_ns ≠ "PRE-Y" ∧
      (status_line c).r1_we ≠ "PRE-Y" ∧ (status_line c).r1_ew ≠ "PRE-Y") := by
  have hle : s.cur ≤ 9 := by simpa [is_normal_state] using hn
  have key : (s.cur = N_ALL_RED_1 ∨ s.cur = N_ALL_RED_2) ∧
      (at_completion evs s).train_request = true ∧
      (SingleStep_SM evs s).cur = T_R3_NS_SRL_G_1 := by
    by_cases hck : s.cur = N_ALL_RED_1 ∨ s.cur = N_ALL_RED_2
    · rcases ring_checkpoint_cur evs s hck with ⟨h1, h2⟩ | ⟨-, h2 | h2⟩
      · exact ⟨hck, h1, h2⟩
      · rw [h2] at ht; exact absurd ht (by decide)
      · rw [h2] at ht
        split_ifs at ht <;> exact absurd ht (by decide)
    · exfalso
      have hp : s.cur = N_R3_RS_G ∨ s.cur = N_R3_RS_Y ∨ s.cur = N_R3_L_G ∨ s.cur = N_R3_L_Y ∨
          s.cur = N_R1_RS_G ∨ s.cur = N_R1_RS_Y ∨ s.cur = N_R1_L_G ∨ s.cur = N_R1_L_Y := by
        simp only [N_ALL_RED_1, N_ALL_RED_2] at hck
        simp only [N_R3_RS_G, N_R3_RS_Y, N_R3_L_G, N_R3_L_Y, N_R1_RS_G, N_R1_RS_Y, N_R1_L_G,
          N_R1_L_Y]
        omega
      rw [ring_plain_step evs s hp] at ht
      split_ifs at ht with h1 h2
      · exact absurd ht (by decide)
      · exact absurd ht (by decide)
      · simp only [is_train_state, Bool.and_eq_true, decide_eq_true_eq, T_R3_NS_SRL_G_1,
          T_DECISION_ALL_RED_4] at ht
        simp only [N_ALL_RED_1, N_ALL_RED_2] at hck
        omega
  exact ⟨key.1, key.2.1, key.2.2, by decide, status_line_no_prep⟩

set_option maxRecDepth 100000 in
theorem C23_train_entry_first_phase_witness :
    (run (fun i => if i = 0 then ['t'] else []) 2 init).cur = N_ALL_RED_1 ∧
    (SingleStep_SM (fun i => if i = 0 then ['t'] else [])
      (run (fun i => if i = 0 then ['t'] else []) 2 init)).cur = T_R3_NS_SRL_G_1 :=
  ⟨by decide,
   (C23_train_entry_first_phase (fun i => if i = 0 then ['t'] else [])
      (run (fun i => if i = 0 then ['t'] else []) 2 init) (by decide) (by decide)).2.2.1⟩

set_option maxRecDepth 100000 in
/-- C23, counterexample to the claim as stated: the train is detected at the first poll;
the ring green is cut short, the forced yellow and the all-red follow, and the first line
printed in the train layer shows the green SRL-G on R3 north-south. No preparatory yellow
has been displayed before it. -/
theorem C23_counterexample :
    (status_lines (run (fun i => if i = 0 then ['t'] else []) 4 init).out).map
      (fun l => (l.mode, l.r3_sn, l.r3_ns, l.r1_we, l.r1_ew)) =
    [ ("NORMAL", "RS-G", "RS-G", "RED", "RED"),
      ("NORMAL", "RS-Y", "RS-Y", "RED", "RED"),
      ("NORMAL", "RED", "RED", "RED", "RED"),
      ("TRAIN ", "RED", "SRL-G", "RED", "RED") ] := by
  decide

/-- C25 (as amended): when the final train checkpoint `T_DECISION_ALL_RED_4` completes
with `train_active` set, no clear pending and no pedestrian request, the controller does
not exit: it stays in TRAIN mode (no TRAIN OVER and no TRAIN BEGIN is emitted) and loops
back to `T_R3_SN_LR_G_2`, the second green of the train sequence. The first phase
`T_R3_NS_SRL_G_1` is not revisited. -/
theorem C25_train_loop_target (evs : Nat → List Char) (s : Ctl)
    (hc : s.cur = T_DECISION_ALL_RED_4) (hm : s.in_train_mode = true)
    (ha : (at_completion evs s).train_active = true)
    (hcl : (at_completion evs s).train_clear_pending = false)
    (hp : (at_completion evs s).ped_request = false) :
    (SingleStep_SM evs s).cur = T_R3_SN_LR_G_2 ∧
    (SingleStep_SM evs s).cur ≠ T_R3_NS_SRL_G_1 ∧
    (SingleStep_SM evs s).in_train_mode = true ∧
    (SingleStep_SM evs s).train_active = true ∧
    (notices (SingleStep_SM evs s).out).count Notify.train_over =
      (notices s.out).count Notify.train_over ∧
    (notices (SingleStep_SM evs s).out).count Notify.train_begin =
      (notices s.out).count Notify.train_begin := by
  have hg : is_normal_green s.cur = false := by rw [hc]; decide
  obtain ⟨q1, q2, -, -, -, -⟩ := at_completion_frame evs s hg
  have hx : should_exit_train_now (at_completion evs s) (at_completion evs s).cur = false := by
    simp [should_exit_train_now, hcl]
  have ht : try_start_ped_if_safe (at_completion evs s) = (false, at_completion evs s) := by
    simp [try_start_ped_if_safe, hp]
  have hstep : SingleStep_SM evs s =
      step_epilogue { at_completion evs s with cur := T_R3_SN_LR_G_2 } := by
    rw [step_at_train_checkpoint evs s (Or.inr (Or.inr hc)), hx, ht]
    simp [hc, ha, hcl]
  have he : step_epilogue { at_completion evs s with cur := T_R3_SN_LR_G_2 } =
      { at_completion evs s with cur := T_R3_SN_LR_G_2 } := by
    simp [step_epilogue, is_train_state, is_normal_state, q2, hm]
  rw [hstep, he]
  refine ⟨rfl, (by decide : T_R3_SN_LR_G_2 ≠ T_R3_NS_SRL_G_1), ?_, ha, ?_, ?_⟩
  · show (at_completion evs s).in_train_mode = true
    rw [q2, hm]
  · exact at_completion_count evs s hg _ (by decide)
  · exact at_completion_count evs s hg _ (by decide)

set_option maxRecDepth 100000 in
theorem C25_train_loop_target_witness :
    (run (fun i => if i = 0 then ['t'] else []) 11 init).cur = T_DECISION_ALL_RED_4 ∧
    (SingleStep_SM (fun i => if i = 0 then ['t'] else [])
      (run (fun i => if i = 0 then ['t'] else []) 11 init)).cur = T_R3_SN_LR_G_2 :=
  ⟨by decide,
   (C25_train_loop_target (fun i => if i = 0 then ['t'] else [])
      (run (fun i => if i = 0 then ['t'] else []) 11 init)
      (by decide) (by decide) (by decide) (by decide) (by decide)).1⟩

set_option maxRecDepth 100000 in
/-- C25, counterexample to the claim as stated: with the train detected at the first poll
and no other event, the controller reaches `T_DECISION_ALL_RED_4` after eleven steps; the
checkpoint completes with `train_active` set, no clear pending and no pedestrian request,
and the next cursor is `T_R3_SN_LR_G_2`, not `T_R3_NS_SRL_G_1`. -/
theorem C25_counterexample :
    (run (fun i => if i = 0 then ['t'] else []) 11 init).cur = T_DECISION_ALL_RED_4 ∧
    (at_completion (fun i => if i = 0 then ['t'] else [])
      (run (fun i => if i = 0 then ['t'] else []) 11 init)).train_active = true ∧
    (at_completion (fun i => if i = 0 then ['t'] else [])
      (run (fun i => if i = 0 then ['t'] else []) 11 init)).train_clear_pending = false ∧
    (at_completion (fun i => if i = 0 then ['t'] else [])
      (run (fun i => if i = 0 then ['t'] else []) 11 init)).ped_request = false ∧
    (run (fun i => if i = 0 then ['t'] else []) 12 init).cur = T_R3_SN_LR_G_2 ∧
    (run (fun i => if i = 0 then ['t'] else []) 12 init).cur ≠ T_R3_NS_SRL_G_1 := by
  decide

/-- C26 (as amended): in traffic_fsm.c `do_exit_train_to_normal` always sets the cursor to
`N_R3_RS_G`, the state `main` starts the ring at, which is a ring green (RS-G on R3) and
not an all-red. Every transition from a train state to a ring state is taken at the
completion of a train all-red checkpoint (`T_ALL_RED_A`, `T_ALL_RED_B` or
`T_DECISION_ALL_RED_4`, whose line shows every indication RED) and lands on `N_R3_RS_G`. -/
theorem C26_train_exit_resumes_at_ring_start (evs : Nat → List Char) (s : Ctl)
    (ht : is_train_state s.cur = true)
    (hn : is_normal_state (SingleStep_SM evs s).cur = true) :
    (s.cur = T_ALL_RED_A ∨ s.cur = T_ALL_RED_B ∨ s.cur = T_DECISION_ALL_RED_4) ∧
    state_outputs s.cur = ("RED", "RED", "RED", "RED", "RED") ∧
    (SingleStep_SM evs s).cur = N_R3_RS_G ∧
    (∀ q : Ctl, (do_exit_train_to_normal q).cur = N_R3_RS_G) ∧
    init.cur = N_R3_RS_G ∧
    is_normal_green N_R3_RS_G = true ∧
    state_outputs N_R3_RS_G = ("RS-G", "RS-G", "RED", "RED", "RED") := by
  have hck : s.cur = T_ALL_RED_A ∨ s.cur = T_ALL_RED_B ∨ s.cur = T_DECISION_ALL_RED_4 := by
    by_contra hnot
    have hp : s.cur = T_R3_NS_SRL_G_1 ∨ s.cur = T_R3_NS_SRL_Y_1 ∨ s.cur = T_R3_SN_LR_G_2 ∨
        s.cur = T_R3_SN_LR_Y_2 ∨ s.cur = T_R1_RESTRICT_G_3 ∨ s.cur = T_R1_RESTRICT_Y_3 := by
      simp only [is_train_state, Bool.and_eq_true, decide_eq_true_eq, T_R3_NS_SRL_G_1,
        T_DECISION_ALL_RED_4] at ht
      simp only [T_ALL_RED_A, T_ALL_RED_B, T_DECISION_ALL_RED_4] at hnot
      simp only [T_R3_NS_SRL_G_1, T_R3_NS_SRL_Y_1, T_R3_SN_LR_G_2, T_R3_SN_LR_Y_2,
        T_R1_RESTRICT_G_3, T_R1_RESTRICT_Y_3]
      omega
    rw [(train_plain_step evs s hp).1] at hn
    simp only [is_train_state, Bool.and_eq_true, decide_eq_true_eq, T_R3_NS_SRL_G_1,
      T_DECISION_ALL_RED_4] at ht
    simp only [is_normal_state, Bool.and_eq_true, decide_eq_true_eq, N_ALL_RED_2] at hn
    omega
  refine ⟨hck, ?_, ?_, fun q => (do_exit_frame q).2.2.1, rfl, by decide, by decide⟩
  · rcases hck with h | h | h <;> rw [h] <;> decide
  · rcases train_checkpoint_cur evs s hck with h | h | h | h
    · exact h
    · rw [h] at hn; exact absurd hn (by decide)
    · rw [h] at hn; exact absurd hn (by decide)
    · rw [h] at hn; exact absurd hn (by decide)

set_option maxRecDepth 100000 in
theorem C26_train_exit_resumes_at_ring_start_witness :
    (run (fun i => if i = 150 then ['c'] else if i = 0 then ['t'] else []) 5 init).cur
      = T_ALL_RED_A ∧
    (SingleStep_SM (fun i => if i = 150 then ['c'] else if i = 0 then ['t'] else [])
      (run (fun i => if i = 150 then ['c'] else if i = 0 then ['t'] else []) 5 init)).cur
      = N_R3_RS_G :=
  ⟨by decide,
   (C26_train_exit_resumes_at_ring_start
      (fun i => if i = 150 then ['c'] else if i = 0 then ['t'] else [])
      (run (fun i => if i = 150 then ['c'] else if i = 0 then ['t'] else []) 5 init)
      (by decide) (by decide)).2.2.1⟩

set_option maxRecDepth 100000 in
/-- C26, counterexample to the claim as stated: the train is detected at the first poll
and cleared at poll 150. The exit is taken at the completion of `T_ALL_RED_A`; the first
ring state after it is `N_R3_RS_G`, a ring green, neither `N_ALL_RED_1` nor `N_ALL_RED_2`,
and the next line printed shows RS-G on R3. -/
theorem C26_counterexample :
    (run (fun i => if i = 150 then ['c'] else if i = 0 then ['t'] else []) 5 init).cur
      = T_ALL_RED_A ∧
    (run (fun i => if i = 150 then ['c'] else if i = 0 then ['t'] else []) 5
      init).in_train_mode = true ∧
    (run (fun i => if i = 150 then ['c'] else if i = 0 then ['t'] else []) 6 init).cur
      = N_R3_RS_G ∧
    (run (fun i => if i = 150 then ['c'] else if i = 0 then ['t'] else []) 6
      init).in_train_mode = false ∧
    (run (fun i => if i = 150 then ['c'] else if i = 0 then ['t'] else []) 6 init).cur
      ≠ N_ALL_RED_1 ∧
    (run (fun i => if i = 150 then ['c'] else if i = 0 then ['t'] else []) 6 init).cur
      ≠ N_ALL_RED_2 ∧
    is_normal_green
      (run (fun i => if i = 150 then ['c'] else if i = 0 then ['t'] else []) 6 init).cur
      = true ∧
    ((status_lines (run (fun i => if i = 150 then ['c'] else if i = 0 then ['t'] else []) 7
      init).out).map (fun l => (l.mode, l.r3_sn, l.r3_ns, l.r1_we, l.r1_ew))).getLast?
      = some ("NORMAL", "RS-G", "RS-G", "RED", "RED") := by
  decide

end Fsm

namespace Fsm

/-! ## The ring with an empty queue -/

theorem step_prologue_empty (evs : Nat → List Char) (s : Ctl) (h : evs s.polls = []) :
    (step_prologue evs s).cur = s.cur ∧
    (step_prologue evs s).polls = s.polls + 1 ∧
    (step_prologue evs s).train_request = s.train_request ∧
    (step_prologue evs s).ped_request = s.ped_request ∧
    (step_prologue evs s).train_active = s.train_active ∧
    (step_prologue evs s).train_clear_pending = s.train_clear_pending := by
  obtain ⟨b, o, hp⟩ := step_prologue_eq evs s
  have hq := poll_empty evs (print_state_outputs s.cur s) h
  rw [hp, hq]
  exact ⟨rfl, rfl, rfl, rfl, rfl, rfl⟩

/-- One step of the ring with nothing in the queue, no train request and no pedestrian
request: the cursor moves to the next ring state. -/
theorem ring_idle_step (evs : Nat → List Char) (s : Ctl)
    (hev : ∀ i, s.polls ≤ i → evs i = [])
    (hr : s.train_request = false) (hp : s.ped_request = false)
    (hn : is_normal_state s.cur = true) :
    (SingleStep_SM evs s).cur = (s.cur + 1) % 10 ∧
    (SingleStep_SM evs s).train_request = false ∧
    (SingleStep_SM evs s).ped_request = false ∧
    s.polls ≤ (SingleStep_SM evs s).polls := by
  obtain ⟨p1, p2, p3, p4, -, -⟩ := step_prologue_empty evs s (hev _ le_rfl)
  have hle : s.cur ≤ 9 := by simpa [is_normal_state] using hn
  by_cases hck : s.cur = N_ALL_RED_1 ∨ s.cur = N_ALL_RED_2
  · have hd : duration_of (step_prologue evs s).cur = T_ALL_RED := by
      rw [p1]; rcases hck with h | h <;> rw [h] <;> rfl
    have hq : at_completion evs s =
        { step_prologue evs s with
            train_preempt_to_allred := false,
            slept_ms := (step_prologue evs s).slept_ms + 1000 * T_ALL_RED,
            polls := (step_prologue evs s).polls + 10 * T_ALL_RED + 1 } := by
      have hw := wait_empty evs T_ALL_RED
        { step_prologue evs s with train_preempt_to_allred := false } (by decide)
        (Or.inl (p3.trans hr)) (fun j _ => hev _ (by
          show s.polls ≤ (step_prologue evs s).polls + j
          omega))
      unfold at_completion
      simp only [hd]
      rw [if_pos (by rw [p1]; exact hck), hw]
      rw [poll_empty evs _ (hev _ (by
        show s.polls ≤ (step_prologue evs s).polls + 10 * T_ALL_RED
        omega))]
    have hq3 : (at_completion evs s).train_request = false := by rw [hq]; exact (p3.trans hr)
    have hq4 : (at_completion evs s).ped_request = false := by rw [hq]; exact (p4.trans hp)
    have hqp : s.polls ≤ (at_completion evs s).polls := by
      rw [hq]
      show s.polls ≤ (step_prologue evs s).polls + 10 * T_ALL_RED + 1
      omega
    have ht : try_start_ped_if_safe (at_completion evs s) = (false, at_completion evs s) := by
      simp [try_start_ped_if_safe, hq4]
    rw [step_at_ring_checkpoint evs s hck, hq3, ht]
    simp only [Bool.false_eq_true, if_false]
    obtain ⟨e1, e2, -, -, -, e6, -⟩ := step_epilogue_frame
      { at_completion evs s with cur := if s.cur = N_ALL_RED_1 then N_R1_RS_G else N_R3_RS_G }
    obtain ⟨f1, -⟩ := step_epilogue_ped
      { at_completion evs s with cur := if s.cur = N_ALL_RED_1 then N_R1_RS_G else N_R3_RS_G }
    refine ⟨?_, by rw [e6]; exact hq3, by rw [f1]; exact hq4, by rw [e2]; exact hqp⟩
    rw [e1]
    rcases hck with h | h <;> simp [h]
  · have hpl : s.cur = N_R3_RS_G ∨ s.cur = N_R3_RS_Y ∨ s.cur = N_R3_L_G ∨ s.cur = N_R3_L_Y ∨
        s.cur = N_R1_RS_G ∨ s.cur = N_R1_RS_Y ∨ s.cur = N_R1_L_G ∨ s.cur = N_R1_L_Y := by
      simp only [N_ALL_RED_1, N_ALL_RED_2] at hck
      simp only [N_R3_RS_G, N_R3_RS_Y, N_R3_L_G, N_R3_L_Y, N_R1_RS_G, N_R1_RS_Y, N_R1_L_G,
        N_R1_L_Y]
      omega
    have hW : wait_seconds_interruptible (duration_of (step_prologue evs s).cur) evs
        (step_prologue evs s) =
        { step_prologue evs s with
            slept_ms := (step_prologue evs s).slept_ms +
              1000 * duration_of (step_prologue evs s).cur,
            polls := (step_prologue evs s).polls +
              10 * duration_of (step_prologue evs s).cur } :=
      wait_empty evs _ _ (duration_of_small _) (Or.inl (p3.trans hr))
        (fun j _ => hev _ (by omega))
    have hs := step_switch_ring_plain_eq evs (step_prologue evs s) (by rw [p1]; exact hpl)
    rw [hW] at hs
    unfold SingleStep_SM
    generalize step_switch evs (step_prologue evs s) = m at hs
    have m1 : m.cur = s.cur + 1 := by
      rw [hs]
      simp [p3.trans hr, p1]
    have m2 : m.train_request = false := by rw [hs]; exact p3.trans hr
    have m3 : m.ped_request = false := by rw [hs]; exact p4.trans hp
    have m4 : s.polls ≤ m.polls := by
      rw [hs]
      show s.polls ≤ (step_prologue evs s).polls + 10 * duration_of (step_prologue evs s).cur
      omega
    obtain ⟨e1, e2, -, -, -, e6, -⟩ := step_epilogue_frame m
    obtain ⟨f1, -⟩ := step_epilogue_ped m
    refine ⟨?_, by rw [e6]; exact m2, by rw [f1]; exact m3, by rw [e2]; exact m4⟩
    rw [e1, m1]
    simp only [N_ALL_RED_1, N_ALL_RED_2] at hck
    omega

/-- The ring with an empty queue, no train request and no pedestrian request: after `k`
steps the cursor has advanced by `k` places round the ring. -/
theorem ring_idle_run (s : Ctl) (hr : s.train_request = false) (hp : s.ped_request = false)
    (hn : is_normal_state s.cur = true) :
    ∀ k, (run (fun _ => []) k s).cur = (s.cur + k) % 10 ∧
      (run (fun _ => []) k s).train_request = false ∧
      (run (fun _ => []) k s).ped_request = false := by
  have hle : s.cur ≤ 9 := by simpa [is_normal_state] using hn
  intro k
  induction k with
  | zero => exact ⟨by show s.cur = s.cur % 10; omega, hr, hp⟩
  | succ k ih =>
    obtain ⟨i1, i2, i3⟩ := ih
    rw [mq_run_succ]
    have hn2 : is_normal_state (run (fun _ => []) k s).cur = true := by
      rw [i1]
      have : (s.cur + k) % 10 < 10 := Nat.mod_lt _ (by decide)
      simp [is_normal_state]
      omega
    obtain ⟨a1, a2, a3, -⟩ := ring_idle_step (fun _ => []) (run (fun _ => []) k s)
      (fun _ _ => rfl) i2 i3 hn2
    refine ⟨?_, a2, a3⟩
    rw [a1, i1]
    omega

end Fsm

namespace Demo1

/-! ## The ring with no train request -/

theorem ped_stop_train_fields (w : Ctl) :
    (ped_stop_if_prep_finished w).train_request = w.train_request ∧
    (ped_stop_if_prep_finished w).train_preempt_to_allred = w.train_preempt_to_allred ∧
    (ped_stop_if_prep_finished w).ns = w.ns ∧
    (ped_stop_if_prep_finished w).in_train_state = w.in_train_state ∧
    (ped_stop_if_prep_finished w).polls = w.polls ∧
    (ped_stop_if_prep_finished w).train_active = w.train_active ∧
    (ped_stop_if_prep_finished w).train_clear_pending = w.train_clear_pending := by
  unfold ped_stop_if_prep_finished
  split_ifs <;> simp [notify]

/-- The end of a ring step at a state where the forced-yellow jump is not taken and no
train is entered: the cursor moves to the table successor. -/
theorem after_wait_no_request (st : normal_def_t) (w : Ctl) (hr : w.train_request = false) :
    (normal_after_wait st w).ns = st.next ∧
    (normal_after_wait st w).train_request = false ∧
    (normal_after_wait st w).in_train_state = w.in_train_state ∧
    (normal_after_wait st w).polls = w.polls := by
  obtain ⟨a1, a2, a3, a4, a5, -, -⟩ := ped_stop_train_fields w
  unfold normal_after_wait
  simp only []
  by_cases hp : st.is_prep_y = true
  · simp only [hp, if_true, a1, hr, Bool.false_and, Bool.false_eq_true, if_false]
    split_ifs <;> exact ⟨rfl, by simp [a1, hr], a4, a5⟩
  · simp only [hp, if_false, hr, Bool.false_and, Bool.false_eq_true]
    split_ifs <;> first | exact ⟨rfl, hr, rfl, rfl⟩ | exact ⟨rfl, rfl, rfl, rfl⟩

theorem NORM_next : ∀ st ∈ NORM, st.next = (st.id + 1) % 12 := by decide

/-- One step of the ring that receives nothing, with no train request: the cursor moves to
the next ring state. -/
theorem normal_idle_step (evs : Nat → Option Char) (s : Ctl)
    (hev : ∀ i, s.polls ≤ i → evs i = none) (hns : s.ns < 12)
    (hr : s.train_request = false) (hm : s.in_train_state = false) :
    (main_iter evs s).ns = (s.ns + 1) % 12 ∧
    (main_iter evs s).train_request = false ∧
    (main_iter evs s).in_train_state = false ∧
    s.polls ≤ (main_iter evs s).polls := by
  obtain ⟨st, hst⟩ := find_norm_lt hns
  obtain ⟨hmem, hid⟩ := find_norm_some hst
  have hf := ped_try_start_frame st.is_safe_allred s
  have hstep := normal_step_idle evs s st hst (by simp [hr]) (fun j _ => hev _ (by omega))
  have hmain : main_iter evs s = normal_step evs s := by simp [main_iter, hm]
  rw [hmain, hstep]
  obtain ⟨b1, b2, b3, b4⟩ := after_wait_no_request st
    { print_normal_line s.ns st (ped_try_start_at_safe_allred st.is_safe_allred s) with
        slept_ms := s.slept_ms + 100 * (10 * st.dur_s), polls := s.polls + 10 * st.dur_s }
    (by show (ped_try_start_at_safe_allred st.is_safe_allred s).train_request = false
        rw [hf.2.1, hr])
  refine ⟨by rw [b1, NORM_next st hmem, hid], b2, ?_, ?_⟩
  · rw [b3]
    show (ped_try_start_at_safe_allred st.is_safe_allred s).in_train_state = false
    rw [ped_try_start_in_train, hm]
  · rw [b4]
    show s.polls ≤ s.polls + 10 * st.dur_s
    omega

/-- The ring that receives nothing, with no train request: after `k` steps the cursor has
advanced by `k` places round the ring. -/
theorem normal_idle_run (s : Ctl) (hns : s.ns < 12) (hr : s.train_request = false)
    (hm : s.in_train_state = false) :
    ∀ k, (run (fun _ => none) k s).ns = (s.ns + k) % 12 ∧
      (run (fun _ => none) k s).train_request = false ∧
      (run (fun _ => none) k s).in_train_state = false := by
  intro k
  induction k with
  | zero => exact ⟨by show s.ns = s.ns % 12; omega, hr, hm⟩
  | succ k ih =>
    obtain ⟨i1, i2, i3⟩ := ih
    rw [run_succ_main_iter]
    obtain ⟨a1, a2, a3, -⟩ := normal_idle_step (fun _ => none) (run (fun _ => none) k s)
      (fun _ _ => rfl) (by rw [i1]; exact Nat.mod_lt _ (by decide)) i2 i3
    refine ⟨?_, a2, a3⟩
    rw [a1, i1]
    omega

end Demo1

/-- C21: ring round trip. With no events and no train (and, in traffic_fsm.c, pedestrian)
request pending, the ring started at `N_ALL_RED_1` returns to `N_ALL_RED_1` after exactly
12 steps of `normal_step` in demo1.c and after exactly 10 steps of `SingleStep_SM` in
traffic_fsm.c. The cursors taken on the way are listed: every other ring phase occurs
exactly once, in ring order, and the controller never leaves the ring (demo1.c stays out
of the train layer; the cursor of traffic_fsm.c is a ring state after every step). -/
theorem C21_ring_round_trip :
    (∀ s : Demo1.Ctl, s.ns = Demo1.N_ALL_RED_1 → s.train_request = false →
      s.in_train_state = false →
      (List.range 13).map (fun k => (Demo1.run (fun _ => none) k s).ns) =
        [ Demo1.N_ALL_RED_1, Demo1.N_PREP_R3, Demo1.N_R3_RS_G, Demo1.N_R3_RS_Y,
          Demo1.N_R3_L_G, Demo1.N_R3_L_Y, Demo1.N_ALL_RED_2, Demo1.N_PREP_R1,
          Demo1.N_R1_RS_G, Demo1.N_R1_RS_Y, Demo1.N_R1_L_G, Demo1.N_R1_L_Y,
          Demo1.N_ALL_RED_1 ] ∧
      ∀ k, (Demo1.run (fun _ => none) k s).in_train_state = false ∧
        (Demo1.run (fun _ => none) k s).ns = k % 12) ∧
    (∀ s : Fsm.Ctl, s.cur = Fsm.N_ALL_RED_1 → s.train_request = false →
      s.ped_request = false →
      (List.range 11).map (fun k => (Fsm.run (fun _ => []) k s).cur) =
        [ Fsm.N_ALL_RED_1, Fsm.N_R1_RS_G, Fsm.N_R1_RS_Y, Fsm.N_R1_L_G, Fsm.N_R1_L_Y,
          Fsm.N_ALL_RED_2, Fsm.N_R3_RS_G, Fsm.N_R3_RS_Y, Fsm.N_R3_L_G, Fsm.N_R3_L_Y,
          Fsm.N_ALL_RED_1 ] ∧
      ∀ k, Fsm.is_normal_state (Fsm.run (fun _ => []) k s).cur = true ∧
        (Fsm.run (fun _ => []) k s).cur = (4 + k) % 10) := by
  refine ⟨fun s hns hr hm => ?_, fun s hc hr hp => ?_⟩
  · have h := Demo1.normal_idle_run s (by rw [hns]; decide) hr hm
    have hk : ∀ k, (Demo1.run (fun _ => none) k s).ns = k % 12 := by
      intro k
      rw [(h k).1, hns]
      simp
    refine ⟨?_, fun k => ⟨(h k).2.2, hk k⟩⟩
    have hl : List.range 13 = [0, 1, 2, 3, 4, 5, 6, 7, 8, 9, 10, 11, 12] := by decide
    rw [hl]
    simp only [List.map_cons, List.map_nil, hk]
    decide
  · have h := Fsm.ring_idle_run s hr hp (by rw [hc]; decide)
    have hk : ∀ k, (Fsm.run (fun _ => []) k s).cur = (4 + k) % 10 := by
      intro k
      rw [(h k).1, hc]
      rfl
    refine ⟨?_, fun k => ⟨?_, hk k⟩⟩
    · have hl : List.range 11 = [0, 1, 2, 3, 4, 5, 6, 7, 8, 9, 10] := by decide
      rw [hl]
      simp only [List.map_cons, List.map_nil, hk]
      decide
    · rw [hk k]
      have : (4 + k) % 10 < 10 := Nat.mod_lt _ (by decide)
      simp [Fsm.is_normal_state]
      omega

set_option maxRecDepth 100000 in
theorem C21_ring_round_trip_witness :
    (Demo1.run (fun _ => none) 12 Demo1.init).ns = Demo1.N_ALL_RED_1 ∧
    (Fsm.run (fun _ => []) 4 Fsm.init).cur = Fsm.N_ALL_RED_1 ∧
    (Fsm.run (fun _ => []) 10 (Fsm.run (fun _ => []) 4 Fsm.init)).cur = Fsm.N_ALL_RED_1 := by
  refine ⟨?_, by decide, ?_⟩
  · rw [((C21_ring_round_trip.1 Demo1.init rfl rfl rfl).2 12).2]
    rfl
  · rw [((C21_ring_round_trip.2 (Fsm.run (fun _ => []) 4 Fsm.init)
      (by decide) (by decide) (by decide)).2 10).2]
    rfl

namespace Demo1

/-! ## Waits that are not interrupted -/

theorem normal_wait_loop_no_t (st : normal_def_t) (evs : Nat → Option Char) (n : Nat) :
    ∀ s : Ctl, s.train_request = false → (∀ j, j < n → evs (s.polls + j) ≠ some 't') →
      normal_wait_loop st evs n s = (false, wait_poll_loop evs n s) ∧
      (wait_poll_loop evs n s).train_request = false := by
  induction n with
  | zero => intro s hr _; exact ⟨rfl, hr⟩
  | succ n ih =>
    intro s hr hno
    have hq := quantum_request_of_not_t evs 100 s (by simpa using hno 0 (by omega)) hr
    have hp : (poll_events_from_qnet_nonblock evs (nanosleep_ms 100 s)).polls = s.polls + 1 :=
      (wait_poll_loop_counters evs 1 s).2
    obtain ⟨i1, i2⟩ := ih (poll_events_from_qnet_nonblock evs (nanosleep_ms 100 s)) hq
      (fun j hj => by
        rw [hp]
        have := hno (j + 1) (by omega)
        have e : s.polls + 1 + j = s.polls + (j + 1) := by omega
        rw [e]
        exact this)
    refine ⟨?_, i2⟩
    rw [normal_wait_loop, normal_wait_quantum]
    simp only [hq, Bool.false_and, Bool.false_eq_true, if_false]
    rw [i1]
    rfl

/-- The wait of `normal_step` away from the ring greens, or at a ring green during which
`train_request` is never true, is the plain polling loop: ten quanta per second, no
remainder quantum, no `return`. -/
theorem normal_wait_uninterrupted (evs : Nat → Option Char) (s : Ctl) (st : normal_def_t)
    (hst : find_norm s.ns = some st)
    (h : is_normal_green s.ns = false ∨
      (s.train_request = false ∧ ∀ j, j < 10 * st.dur_s → evs (s.polls + j) ≠ some 't')) :
    normal_wait st evs s = (false, wait_poll_loop evs (10 * st.dur_s) s) := by
  obtain ⟨hmem, -⟩ := find_norm_some hst
  obtain ⟨hsteps, hrem⟩ := NORM_steps st hmem
  have hl : normal_wait_loop st evs (10 * st.dur_s) s =
      (false, wait_poll_loop evs (10 * st.dur_s) s) := by
    rcases h with h | ⟨hr, hno⟩
    · exact normal_wait_loop_not_green st evs _ s h
    · exact (normal_wait_loop_no_t st evs _ s hr hno).1
  simp only [normal_wait, hsteps, hrem, hl, ne_eq, not_true_eq_false, if_false]

theorem train_duration_steps (t : Nat) :
    train_duration t * 1000 % UINT_MOD / 100 = 10 * train_duration t ∧
    train_duration t * 1000 % UINT_MOD % 100 = 0 := by
  by_cases h : t < 8
  · interval_cases t <;> decide
  · obtain ⟨d, hd⟩ : ∃ d, t = d + 8 := ⟨t - 8, by omega⟩
    subst hd
    have : train_duration (d + 8) = 1 := by simp [train_duration]
    rw [this]
    decide

/-- The wait of `train_step` is the plain polling loop of ten quanta per second. -/
theorem train_wait_uninterrupted (evs : Nat → Option Char) (t : Nat) (s : Ctl) :
    wait_with_poll_ms (train_duration t * 1000 % UINT_MOD) evs s =
      wait_poll_loop evs (10 * train_duration t) s := by
  obtain ⟨h1, h2⟩ := train_duration_steps t
  simp only [wait_with_poll_ms, h1, h2, ne_eq, not_true_eq_false, if_false]

end Demo1

/-- C27: no early interruption except train preemption.
* traffic_fsm.c: the wait of a phase (`wait_seconds_interruptible` with the duration of the
  cursor's state) started at a state that is not a ring green, or at a ring green with
  `train_request` clear and no `'t'` received during the wait, makes exactly ten polls per
  second of the phase duration, sleeps the whole duration and leaves the cursor unchanged,
  whatever else is received (`'c'`, `'p'`, unrecognized bytes).
* demo1.c, ring: under the same condition the wait inside `normal_step` does not take its
  `return`; it is the plain loop of ten polls per second (no remainder quantum) and leaves
  the ring cursor, the train cursor and the layer unchanged.
* demo1.c, train layer: the wait of `train_step` (`wait_with_poll_ms`) is always that
  loop, for every event sequence. -/
theorem C27_no_early_interruption :
    (∀ (evs : Nat → List Char) (s : Fsm.Ctl),
      (Fsm.is_normal_green s.cur = false ∨
        (s.train_request = false ∧
          ∀ j, j < 10 * Fsm.duration_of s.cur → 't' ∉ evs (s.polls + j))) →
      (Fsm.wait_seconds_interruptible (Fsm.duration_of s.cur) evs s).cur = s.cur ∧
      (Fsm.wait_seconds_interruptible (Fsm.duration_of s.cur) evs s).polls =
        s.polls + 10 * Fsm.duration_of s.cur ∧
      (Fsm.wait_seconds_interruptible (Fsm.duration_of s.cur) evs s).slept_ms =
        s.slept_ms + 1000 * Fsm.duration_of s.cur) ∧
    (∀ (evs : Nat → Option Char) (s : Demo1.Ctl) (st : Demo1.normal_def_t),
      Demo1.find_norm s.ns = some st →
      (Demo1.is_normal_green s.ns = false ∨
        (s.train_request = false ∧
          ∀ j, j < 10 * st.dur_s → evs (s.polls + j) ≠ some 't')) →
      Demo1.normal_wait st evs s = (false, Demo1.wait_poll_loop evs (10 * st.dur_s) s) ∧
      (Demo1.wait_poll_loop evs (10 * st.dur_s) s).polls = s.polls + 10 * st.dur_s ∧
      (Demo1.wait_poll_loop evs (10 * st.dur_s) s).slept_ms = s.slept_ms + 1000 * st.dur_s ∧
      (Demo1.wait_poll_loop evs (10 * st.dur_s) s).ns = s.ns ∧
      (Demo1.wait_poll_loop evs (10 * st.dur_s) s).tr = s.tr ∧
      (Demo1.wait_poll_loop evs (10 * st.dur_s) s).in_train_state = s.in_train_state) ∧
    (∀ (evs : Nat → Option Char) (s : Demo1.Ctl),
      Demo1.wait_with_poll_ms (Demo1.train_duration s.tr * 1000 % Demo1.UINT_MOD) evs s =
        Demo1.wait_poll_loop evs (10 * Demo1.train_duration s.tr) s ∧
      (Demo1.wait_poll_loop evs (10 * Demo1.train_duration s.tr) s).polls =
        s.polls + 10 * Demo1.train_duration s.tr ∧
      (Demo1.wait_poll_loop evs (10 * Demo1.train_duration s.tr) s).slept_ms =
        s.slept_ms + 1000 * Demo1.train_duration s.tr ∧
      (Demo1.wait_poll_loop evs (10 * Demo1.train_duration s.tr) s).ns = s.ns ∧
      (Demo1.wait_poll_loop evs (10 * Demo1.train_duration s.tr) s).tr = s.tr ∧
      (Demo1.wait_poll_loop evs (10 * Demo1.train_duration s.tr) s).in_train_state =
        s.in_train_state) := by
  refine ⟨fun evs s h => ?_, fun evs s st hst h => ?_, fun evs s => ?_⟩
  · rcases h with h | ⟨hr, hno⟩
    · obtain ⟨a1, a2, a3, -, -⟩ :=
        Fsm.wait_idle evs (Fsm.duration_of s.cur) s (Fsm.duration_of_small _) h
      exact ⟨a1, a2, a3⟩
    · obtain ⟨a1, a2, a3, -⟩ :=
        Fsm.wait_no_t evs (Fsm.duration_of s.cur) s (Fsm.duration_of_small _) hr hno
      exact ⟨a1.1, a2, a3⟩
  · obtain ⟨c1, c2⟩ := Demo1.wait_poll_loop_counters evs (10 * st.dur_s) s
    obtain ⟨p1, -, -, -, -, p6, -, p8, -, -⟩ := Demo1.wait_poll_loop_polled evs (10 * st.dur_s) s
    exact ⟨Demo1.normal_wait_uninterrupted evs s st hst h, c2, by rw [c1]; omega, p8, p6, p1⟩
  · obtain ⟨c1, c2⟩ := Demo1.wait_poll_loop_counters evs (10 * Demo1.train_duration s.tr) s
    obtain ⟨p1, -, -, -, -, p6, -, p8, -, -⟩ :=
      Demo1.wait_poll_loop_polled evs (10 * Demo1.train_duration s.tr) s
    exact ⟨Demo1.train_wait_uninterrupted evs s.tr s, c2, by rw [c1]; omega, p8, p6, p1⟩

set_option maxRecDepth 100000 in
theorem C27_no_early_interruption_witness :
    (Fsm.wait_seconds_interruptible (Fsm.duration_of Fsm.init.cur)
      (fun i => if i = 3 then ['c', 'p'] else []) Fsm.init).polls = 200 ∧
    (Demo1.normal_wait
      ⟨Demo1.N_R3_RS_G, Demo1.T_RS_GREEN, "RS-G", "RED", "RED", false, false, true,
        Demo1.N_R3_RS_Y, Demo1.N_R3_RS_Y⟩
      (fun i => if i = 105 then some 'c' else if i = 110 then some 'p' else none)
      (Demo1.run (fun _ => none) 2 Demo1.init)).1 = false := by
  refine ⟨?_, ?_⟩
  · rw [(C27_no_early_interruption.1 (fun i => if i = 3 then ['c', 'p'] else []) Fsm.init
      (Or.inr ⟨rfl, fun j _ => by
        by_cases h : Fsm.init.polls + j = 3 <;> simp [h]⟩)).2.1]
    rfl
  · rw [(C27_no_early_interruption.2.1
      (fun i => if i = 105 then some 'c' else if i = 110 then some 'p' else none)
      (Demo1.run (fun _ => none) 2 Demo1.init) _ (by decide)
      (Or.inr ⟨by decide, fun j _ => by
        by_cases h1 : (Demo1.run (fun _ => none) 2 Demo1.init).polls + j = 105
        · simp [h1]
        · by_cases h2 : (Demo1.run (fun _ => none) 2 Demo1.init).polls + j = 110 <;>
            simp [h1, h2]⟩)).1]

namespace Fsm

theorem wait_loop_request_kept (evs : Nat → List Char) :
    ∀ (n : Nat) (s : Ctl), is_normal_green s.cur = false → s.train_request = true →
      (∀ j, j < n → 'c' ∉ evs (s.polls + j)) →
      ∃ w, wait_loop evs n s = (false, w) ∧ w.train_request = true := by
  intro n
  induction n with
  | zero => intro s _ hr _; exact ⟨s, rfl, hr⟩
  | succ n ih =>
    intro s hg hr hno
    have hq := wait_quantum_idle evs 100 s hg
    obtain ⟨c1, -⟩ := mq_quantum_counters evs 100 s
    have hr2 : (poll_events_from_mq evs (nanosleep_ms 100 s)).train_request = true := by
      unfold poll_events_from_mq
      exact foldl_request_true _ _ (by simpa using hno 0 (by omega)) hr
    obtain ⟨w, hw, w1⟩ := ih (poll_events_from_mq evs (nanosleep_ms 100 s))
      (by rw [quantum_cur]; exact hg) hr2 (fun j hj => by
        rw [c1]
        have := hno (j + 1) (by omega)
        have e : s.polls + 1 + j = s.polls + (j + 1) := by omega
        rw [e]
        exact this)
    refine ⟨w, ?_, w1⟩
    unfold wait_loop
    rw [hq]
    exact hw

/-- Away from the ring greens a train request survives a wait during which no TrainCleared
is received. -/
theorem wait_request_kept (evs : Nat → List Char) (t : Nat) (s : Ctl)
    (hov : t * 1000 < UINT_MOD) (hg : is_normal_green s.cur = false)
    (hr : s.train_request = true) (hno : ∀ j, j < 10 * t → 'c' ∉ evs (s.polls + j)) :
    (wait_seconds_interruptible t evs s).train_request = true := by
  unfold wait_seconds_interruptible
  split_ifs with h0
  · exact hr
  · have hsteps : t * 1000 % UINT_MOD / 100 = 10 * t := by
      rw [Nat.mod_eq_of_lt hov]; omega
    have hrem : t * 1000 % UINT_MOD % 100 = 0 := by
      rw [Nat.mod_eq_of_lt hov]; omega
    obtain ⟨w, hw, w1⟩ := wait_loop_request_kept evs (10 * t) s hg hr hno
    simp only [hsteps, hrem, hw, gt_iff_lt, lt_self_iff_false, if_false]
    exact w1

theorem step_prologue_request_kept (evs : Nat → List Char) (s : Ctl)
    (hr : s.train_request = true) (hno : 'c' ∉ evs s.polls) :
    (step_prologue evs s).train_request = true := by
  obtain ⟨b, o, hp⟩ := step_prologue_eq evs s
  rw [hp]
  show (poll_events_from_mq evs (print_state_outputs s.cur s)).train_request = true
  unfold poll_events_from_mq
  exact foldl_request_true _ _ hno hr

end Fsm

namespace Demo1

theorem wait_poll_loop_request_kept (evs : Nat → Option Char) (n : Nat) :
    ∀ s : Ctl, s.train_request = true → (∀ j, j < n → evs (s.polls + j) ≠ some 'c') →
      (wait_poll_loop evs n s).train_request = true := by
  induction n with
  | zero => intro s hr _; exact hr
  | succ n ih =>
    intro s hr hno
    have hp : (poll_events_from_qnet_nonblock evs (nanosleep_ms 100 s)).polls = s.polls + 1 :=
      (wait_poll_loop_counters evs 1 s).2
    have h0 : evs s.polls ≠ some 'c' := by simpa using hno 0 (by omega)
    have hq : (poll_events_from_qnet_nonblock evs (nanosleep_ms 100 s)).train_request = true := by
      simp only [poll_events_from_qnet_nonblock, nanosleep_ms]
      cases he : evs s.polls with
      | none => exact hr
      | some ev =>
        have hev : ev ≠ 'c' := fun e => h0 (by rw [he, e])
        by_cases ht : ev = 't'
        · simp [apply_event, ht]
        · by_cases hpp : ev = 'p'
          · simp [apply_event, hpp, hr]
          · simp [apply_event, ht, hev, hpp, hr]
    rw [wait_poll_loop]
    exact ih _ hq (fun j hj => by
      rw [hp]
      have := hno (j + 1) (by omega)
      have e : s.polls + 1 + j = s.polls + (j + 1) := by omega
      rw [e]
      exact this)

theorem NORM_yellow_facts : ∀ st ∈ NORM,
    (st.id = N_R3_RS_Y → st.next = N_R3_L_G ∧ st.dur_s = T_YELLOW) ∧
    (st.id = N_R3_L_Y → st.next = N_ALL_RED_2 ∧ st.dur_s = T_YELLOW) ∧
    (st.id = N_R1_RS_Y → st.next = N_R1_L_G ∧ st.dur_s = T_YELLOW) ∧
    (st.id = N_R1_L_Y → st.next = N_ALL_RED_1 ∧ st.dur_s = T_YELLOW) ∧
    (st.id = N_R3_RS_Y ∨ st.id = N_R3_L_Y ∨ st.id = N_R1_RS_Y ∨ st.id = N_R1_L_Y →
      st.is_prep_y = false ∧ st.is_safe_allred = false ∧ st.is_green = false) := by
  decide

/-- One ring step at a yellow, in terms of the state `w` at the end of its wait. -/
theorem normal_step_yellow (evs : Nat → Option Char) (s : Ctl) (st : normal_def_t)
    (hst : find_norm s.ns = some st)
    (hy : s.ns = N_R3_RS_Y ∨ s.ns = N_R3_L_Y ∨ s.ns = N_R1_RS_Y ∨ s.ns = N_R1_L_Y) :
    ∃ w, w = wait_poll_loop evs (10 * st.dur_s)
        (print_normal_line s.ns st (ped_try_start_at_safe_allred st.is_safe_allred s)) ∧
      w.train_request = (wait_poll_loop evs (10 * st.dur_s) s).train_request ∧
      w.train_preempt_to_allred = s.train_preempt_to_allred ∧
      normal_step evs s =
        { w with ns :=
          if w.train_request && w.train_preempt_to_allred then
            (if s.ns = N_R3_RS_Y ∨ s.ns = N_R3_L_Y then N_ALL_RED_1 else N_ALL_RED_2)
          else st.next } := by
  obtain ⟨hmem, hid⟩ := find_norm_some hst
  obtain ⟨-, -, -, -, hfl⟩ := NORM_yellow_facts st hmem
  obtain ⟨f1, f2, f3⟩ := hfl (by rw [hid]; exact hy)
  have hng : is_normal_green s.ns = false := by simp [is_normal_green, hst, f3]
  have e0 : ped_try_start_at_safe_allred st.is_safe_allred s = s := by
    simp [ped_try_start_at_safe_allred, f2]
  have hw := normal_wait_uninterrupted evs (print_normal_line s.ns st s) st hst (Or.inl hng)
  have hP := wait_poll_loop_polled evs (10 * st.dur_s) (print_normal_line s.ns st s)
  obtain ⟨-, p2, -, -, -, -, -, p8, -, -⟩ := hP
  have hflags := (wait_poll_loop_train_flags evs (10 * st.dur_s) (print_normal_line s.ns st s) s
    rfl rfl rfl).2.1
  refine ⟨_, rfl, ?_, ?_, ?_⟩
  · rw [e0]; exact hflags
  · rw [e0]; exact p2
  · rw [e0]
    simp only [normal_step, hst, e0]
    have hw2 : normal_wait st evs (print_normal_line (s.ns) st s) =
        (false, wait_poll_loop evs (10 * st.dur_s) (print_normal_line s.ns st s)) := hw
    rw [hw2]
    simp only [normal_after_wait, f1, f2, Bool.false_eq_true, if_false, p8]
    have hns : (print_normal_line s.ns st s).ns = s.ns := rfl
    rw [hns]
    generalize wait_poll_loop evs (10 * st.dur_s) (print_normal_line s.ns st s) = w
    rcases hy with h | h | h | h <;> rw [h] <;>
      cases w.train_request <;> cases w.train_preempt_to_allred <;> simp

end Demo1

/-- C22 (as amended): forced-yellow routing. Take a ring through-yellow (RS-Y) or
turn-yellow (L-Y) that starts with the preempt-to-all-red flag set; the flag is still set
when the yellow completes.
* If `train_request` is set when the yellow completes, the next ring phase is a safe
  all-red (`N_ALL_RED_1` after an R3 yellow, `N_ALL_RED_2` after an R1 yellow), so after a
  through-yellow the turn-green is skipped. The request is still set at that point for
  every event sequence received during the yellow that holds no TrainCleared.
* If `train_request` is clear when the yellow completes (a TrainCleared received during the
  yellow cancels it), the jump is not taken: the ring moves to its ordinary successor, which
  is the turn-green after a through-yellow.
* After a turn-yellow the next phase is a safe all-red in either case.
The first conjunct is traffic_fsm.c (`SingleStep_SM`), the second demo1.c (`normal_step`). -/
theorem C22_forced_yellow_routing :
    (∀ (evs : Nat → List Char) (s : Fsm.Ctl),
      s.cur = Fsm.N_R3_RS_Y ∨ s.cur = Fsm.N_R3_L_Y ∨ s.cur = Fsm.N_R1_RS_Y ∨
        s.cur = Fsm.N_R1_L_Y →
      s.train_preempt_to_allred = true →
      (Fsm.wait_seconds_interruptible (Fsm.duration_of s.cur) evs
        (Fsm.step_prologue evs s)).train_preempt_to_allred = true ∧
      ((Fsm.wait_seconds_interruptible (Fsm.duration_of s.cur) evs
          (Fsm.step_prologue evs s)).train_request = true →
        (Fsm.SingleStep_SM evs s).cur =
          (if s.cur = Fsm.N_R3_RS_Y ∨ s.cur = Fsm.N_R3_L_Y then Fsm.N_ALL_RED_1
           else Fsm.N_ALL_RED_2)) ∧
      ((Fsm.wait_seconds_interruptible (Fsm.duration_of s.cur) evs
          (Fsm.step_prologue evs s)).train_request = false →
        (Fsm.SingleStep_SM evs s).cur = s.cur + 1) ∧
      (s.cur = Fsm.N_R3_L_Y ∨ s.cur = Fsm.N_R1_L_Y →
        (Fsm.SingleStep_SM evs s).cur = Fsm.N_ALL_RED_1 ∨
        (Fsm.SingleStep_SM evs s).cur = Fsm.N_ALL_RED_2) ∧
      (s.train_request = true →
        (∀ j, j < 1 + 10 * Fsm.T_YELLOW → 'c' ∉ evs (s.polls + j)) →
        (Fsm.wait_seconds_interruptible (Fsm.duration_of s.cur) evs
          (Fsm.step_prologue evs s)).train_request = true)) ∧
    (∀ (evs : Nat → Option Char) (s : Demo1.Ctl) (st : Demo1.normal_def_t),
      Demo1.find_norm s.ns = some st →
      s.ns = Demo1.N_R3_RS_Y ∨ s.ns = Demo1.N_R3_L_Y ∨ s.ns = Demo1.N_R1_RS_Y ∨
        s.ns = Demo1.N_R1_L_Y →
      s.train_preempt_to_allred = true →
      ((Demo1.wait_poll_loop evs (10 * st.dur_s) s).train_request = true →
        (Demo1.normal_step evs s).ns =
          (if s.ns = Demo1.N_R3_RS_Y ∨ s.ns = Demo1.N_R3_L_Y then Demo1.N_ALL_RED_1
           else Demo1.N_ALL_RED_2)) ∧
      ((Demo1.wait_poll_loop evs (10 * st.dur_s) s).train_request = false →
        (Demo1.normal_step evs s).ns = st.next ∧ st.next = (s.ns + 1) % 12) ∧
      (s.ns = Demo1.N_R3_L_Y ∨ s.ns = Demo1.N_R1_L_Y →
        (Demo1.normal_step evs s).ns = Demo1.N_ALL_RED_1 ∨
        (Demo1.normal_step evs s).ns = Demo1.N_ALL_RED_2) ∧
      (s.train_request = true →
        (∀ j, j < 10 * Demo1.T_YELLOW → evs (s.polls + j) ≠ some 'c') →
        (Demo1.wait_poll_loop evs (10 * st.dur_s) s).train_request = true)) := by
  refine ⟨fun evs s hy hf => ?_, fun evs s st hst hy hf => ?_⟩
  · have hg : Fsm.is_normal_green s.cur = false := by
      rcases hy with h | h | h | h <;> rw [h] <;> decide
    have hd : Fsm.duration_of s.cur = Fsm.T_YELLOW := by
      rcases hy with h | h | h | h <;> rw [h] <;> rfl
    have p1 := Fsm.step_prologue_cur evs s
    have hpl : s.cur = Fsm.N_R3_RS_G ∨ s.cur = Fsm.N_R3_RS_Y ∨ s.cur = Fsm.N_R3_L_G ∨
        s.cur = Fsm.N_R3_L_Y ∨ s.cur = Fsm.N_R1_RS_G ∨ s.cur = Fsm.N_R1_RS_Y ∨
        s.cur = Fsm.N_R1_L_G ∨ s.cur = Fsm.N_R1_L_Y := by
      rcases hy with h | h | h | h <;> simp [h]
    have hflag : (Fsm.wait_seconds_interruptible (Fsm.duration_of s.cur) evs
        (Fsm.step_prologue evs s)).train_preempt_to_allred = true := by
      rw [(Fsm.wait_polled _ evs _ (by rw [p1]; exact hg)).2.2.2.1, Fsm.step_prologue_flag, hf]
    have hstep := Fsm.ring_plain_step evs s hpl
    refine ⟨hflag, fun hr => ?_, fun hr => ?_, fun hl => ?_, fun hr hno => ?_⟩
    · rw [hstep, hr, hflag]
      rcases hy with h | h | h | h <;> simp [h]
    · rw [hstep, hr]
      simp
    · rw [hstep]
      rcases hl with h | h <;> simp [h]
    · have hc : ¬ 'c' ∈ evs s.polls := by simpa using hno 0 (by decide)
      have hp := Fsm.step_prologue_request_kept evs s hr hc
      have hpp := (Fsm.step_prologue_frame evs s).2.1
      rw [hd]
      exact Fsm.wait_request_kept evs Fsm.T_YELLOW _ (by decide) (by rw [p1]; exact hg) hp
        (fun j hj => by
          rw [hpp]
          have := hno (1 + j) (by omega)
          have e : s.polls + 1 + j = s.polls + (1 + j) := by omega
          rw [e]
          exact this)
  · obtain ⟨hmem, hid⟩ := Demo1.find_norm_some hst
    obtain ⟨y1, y2, y3, y4, -⟩ := Demo1.NORM_yellow_facts st hmem
    obtain ⟨w, -, w2, w3, hstep⟩ := Demo1.normal_step_yellow evs s st hst hy
    have hnext : st.next = (s.ns + 1) % 12 := by
      rw [Demo1.NORM_next st hmem, hid]
    have hdur : st.dur_s = Demo1.T_YELLOW := by
      rcases hy with h | h | h | h
      · exact (y1 (by rw [hid, h])).2
      · exact (y2 (by rw [hid, h])).2
      · exact (y3 (by rw [hid, h])).2
      · exact (y4 (by rw [hid, h])).2
    refine ⟨fun hr => ?_, fun hr => ?_, fun hl => ?_, fun hr hno => ?_⟩
    · rw [hstep]
      show (if (w.train_request && w.train_preempt_to_allred) = true then _ else _) = _
      rw [w2, hr, w3, hf]
      rfl
    · refine ⟨?_, hnext⟩
      rw [hstep]
      show (if (w.train_request && w.train_preempt_to_allred) = true then _ else _) = _
      rw [w2, hr]
      rfl
    · rw [hstep]
      show (if (w.train_request && w.train_preempt_to_allred) = true then _ else _) = _ ∨
        (if (w.train_request && w.train_preempt_to_allred) = true then _ else _) = _
      rw [hnext]
      rcases hl with h | h <;> rw [h] <;>
        cases (w.train_request && w.train_preempt_to_allred) <;> simp
    · rw [hdur]
      exact Demo1.wait_poll_loop_request_kept evs _ s hr hno

set_option maxRecDepth 100000 in
theorem C22_forced_yellow_routing_witness :
    ((Fsm.run (fun i => if i = 0 then ['t'] else []) 1 Fsm.init).cur = Fsm.N_R3_RS_Y ∧
      (Fsm.SingleStep_SM (fun i => if i = 0 then ['t'] else [])
        (Fsm.run (fun i => if i = 0 then ['t'] else []) 1 Fsm.init)).cur = Fsm.N_ALL_RED_1) ∧
    ((Demo1.run (fun i => if i = 120 then some 't' else none) 3 Demo1.init).ns
        = Demo1.N_R3_RS_Y ∧
      (Demo1.normal_step (fun i => if i = 120 then some 't' else none)
        (Demo1.run (fun i => if i = 120 then some 't' else none) 3 Demo1.init)).ns
        = Demo1.N_ALL_RED_1) := by
  refine ⟨⟨by decide, ?_⟩, ⟨by decide, ?_⟩⟩
  · rw [(C22_forced_yellow_routing.1 (fun i => if i = 0 then ['t'] else [])
      (Fsm.run (fun i => if i = 0 then ['t'] else []) 1 Fsm.init)
      (Or.inl (by decide)) (by decide)).2.1 (by decide)]
    decide
  · rw [(C22_forced_yellow_routing.2 (fun i => if i = 120 then some 't' else none)
      (Demo1.run (fun i => if i = 120 then some 't' else none) 3 Demo1.init)
      ⟨Demo1.N_R3_RS_Y, Demo1.T_YELLOW, "RS-Y", "RED", "RED", false, false, false,
        Demo1.N_R3_RS_Y, Demo1.N_R3_L_G⟩
      (by decide) (Or.inl (by decide)) (by decide)).1 (by decide)]
    decide

set_option maxRecDepth 100000 in
/-- C22, counterexample to the claim as stated. In traffic_fsm.c the train is detected at
the first poll (the green `N_R3_RS_G` is cut short and the preempt flag is set) and cleared
at poll 10, during the forced yellow `N_R3_RS_Y`; in demo1.c it is detected at poll 120
(during `N_R3_RS_G`) and cleared at poll 130 (during `N_R3_RS_Y`). In both the yellow
completes with the preempt flag still set, and the next ring phase is the turn-green
`N_R3_L_G`, not a safe all-red. -/
theorem C22_counterexample :
    ((Fsm.run (fun i => if i = 0 then ['t'] else if i = 10 then ['c'] else []) 1
        Fsm.init).cur = Fsm.N_R3_RS_Y ∧
      (Fsm.run (fun i => if i = 0 then ['t'] else if i = 10 then ['c'] else []) 1
        Fsm.init).train_preempt_to_allred = true ∧
      (Fsm.run (fun i => if i = 0 then ['t'] else if i = 10 then ['c'] else []) 2
        Fsm.init).train_preempt_to_allred = true ∧
      (Fsm.run (fun i => if i = 0 then ['t'] else if i = 10 then ['c'] else []) 2
        Fsm.init).cur = Fsm.N_R3_L_G) ∧
    ((Demo1.run (fun i => if i = 120 then some 't' else if i = 130 then some 'c' else none) 3
        Demo1.init).ns = Demo1.N_R3_RS_Y ∧
      (Demo1.run (fun i => if i = 120 then some 't' else if i = 130 then some 'c' else none) 3
        Demo1.init).train_preempt_to_allred = true ∧
      (Demo1.run (fun i => if i = 120 then some 't' else if i = 130 then some 'c' else none) 4
        Demo1.init).train_preempt_to_allred = true ∧
      (Demo1.run (fun i => if i = 120 then some 't' else if i = 130 then some 'c' else none) 4
        Demo1.init).ns = Demo1.N_R3_L_G) := by
  decide

namespace Demo1

/-! ## The train cycle -/

theorem wait_poll_loop_not_cleared (evs : Nat → Option Char) (n : Nat) :
    ∀ s : Ctl, s.train_clear_pending = false →
      (∀ j, j < n → evs (s.polls + j) ≠ some 'c') →
      (wait_poll_loop evs n s).train_clear_pending = false := by
  induction n with
  | zero => intro s hr _; exact hr
  | succ n ih =>
    intro s hr hno
    have hp : (poll_events_from_qnet_nonblock evs (nanosleep_ms 100 s)).polls = s.polls + 1 :=
      (wait_poll_loop_counters evs 1 s).2
    have h0 : evs s.polls ≠ some 'c' := by simpa using hno 0 (by omega)
    have hq : (poll_events_from_qnet_nonblock evs
        (nanosleep_ms 100 s)).train_clear_pending = false := by
      simp only [poll_events_from_qnet_nonblock, nanosleep_ms]
      cases he : evs s.polls with
      | none => exact hr
      | some ev =>
        have hev : ev ≠ 'c' := fun e => h0 (by rw [he, e])
        by_cases ht : ev = 't'
        · simp [apply_event, ht, notify]
        · by_cases hpp : ev = 'p'
          · simp [apply_event, hpp, hr]
          · simp [apply_event, ht, hev, hpp, hr]
    rw [wait_poll_loop]
    exact ih _ hq (fun j hj => by
      rw [hp]
      have := hno (j + 1) (by omega)
      have e : s.polls + 1 + j = s.polls + (j + 1) := by omega
      rw [e]
      exact this)

/-- One pass of `train_run_until_exit`, in terms of the state `w` at the end of the wait
of `train_step`. -/
theorem train_run_form (evs : Nat → Option Char) (s : Ctl) :
    ∃ w, train_run_until_exit evs s = train_exit_check (train_after_wait w) ∧
      w.in_train_state = s.in_train_state ∧ w.tr = s.tr ∧
      (s.train_active = true → w.train_active = true) ∧
      w.polls = s.polls + 10 * train_duration s.tr ∧
      w.slept_ms = s.slept_ms + 1000 * train_duration s.tr ∧
      w.train_clear_pending =
        (wait_poll_loop evs (10 * train_duration s.tr) s).train_clear_pending ∧
      w.train_request = (wait_poll_loop evs (10 * train_duration s.tr) s).train_request := by
  obtain ⟨c1, c2, c3, c4, c5, c6, -, c8, c9⟩ := clear_notice_polled s
  obtain ⟨d1, d2, d3, d4⟩ := clear_notice_frame s
  unfold train_run_until_exit train_step
  simp only [ped_try_start_tr]
  have e1 : (print_train_line (clear_notice s).tr
      (ped_try_start_at_safe_allred (train_is_safe_allred (clear_notice s).tr)
        (clear_notice s))).tr = s.tr := by
    simp [print_train_line, ped_try_start_tr, c4]
  rw [e1, train_wait_uninterrupted, c4]
  generalize hx : print_train_line s.tr
      (ped_try_start_at_safe_allred (train_is_safe_allred s.tr) (clear_notice s)) = x
  have hf := ped_try_start_frame (train_is_safe_allred s.tr) (clear_notice s)
  have x1 : x.polls = s.polls := by
    rw [← hx]; show (ped_try_start_at_safe_allred _ _).polls = _; rw [hf.1, d1]
  have x2 : x.train_request = s.train_request := by
    rw [← hx]; show (ped_try_start_at_safe_allred _ _).train_request = _; rw [hf.2.1, d4]
  have x3 : x.train_clear_pending = s.train_clear_pending := by
    rw [← hx]; show (ped_try_start_at_safe_allred _ _).train_clear_pending = _
    rw [ped_try_start_clear, d3]
  have x4 : x.slept_ms = s.slept_ms := by
    rw [← hx]; show (ped_try_start_at_safe_allred _ _).slept_ms = _; rw [hf.2.2, d2]
  obtain ⟨k1, k2⟩ := wait_poll_loop_counters evs (10 * train_duration s.tr) x
  obtain ⟨-, g2, g3⟩ := wait_poll_loop_train_flags evs (10 * train_duration s.tr) x s x1 x2 x3
  obtain ⟨q1, -, -, -, -, q6, -, -, -, q10⟩ :=
    wait_poll_loop_polled evs (10 * train_duration s.tr) x
  refine ⟨_, rfl, ?_, ?_, ?_, by rw [k2, x1], by rw [k1, x4]; omega, g3, g2⟩
  · rw [q1, ← hx]
    show (ped_try_start_at_safe_allred _ _).in_train_state = _
    rw [ped_try_start_in_train, c1]
  · rw [q6, ← hx]
    show (ped_try_start_at_safe_allred _ _).tr = _
    rw [ped_try_start_tr, c4]
  · intro ha
    apply q10
    rw [← hx]
    show (ped_try_start_at_safe_allred _ _).train_active = _
    rw [ped_try_start_active, c6, ha]

end Demo1

namespace Demo1

/-- The end of a train step with the train active and no clear pending: no exit, the
train cursor moves to the next state of the cycle, from `TR_S08_ALL_RED_B` back to
`TR_S01_PREP_R3`. -/
theorem train_loop_end (w : Ctl) (hl : w.in_train_state = true) (ha : w.train_active = true)
    (hc : w.train_clear_pending = false) (ht : w.tr < 8) :
    (train_exit_check (train_after_wait w)).in_train_state = true ∧
    (train_exit_check (train_after_wait w)).train_active = true ∧
    (train_exit_check (train_after_wait w)).train_clear_pending = false ∧
    (train_exit_check (train_after_wait w)).tr = (w.tr + 1) % 8 ∧
    (train_exit_check (train_after_wait w)).polls = w.polls ∧
    (train_exit_check (train_after_wait w)).slept_ms = w.slept_ms := by
  obtain ⟨rq, ac, cp, pr, its, pa, ub, pw, ps, tr, cn, ns, sl, po, out⟩ := w
  simp only at hl ha hc ht
  subst hl ha hc
  interval_cases tr <;> cases pw <;> cases ps <;>
    simp [train_exit_check, train_after_wait, train_next, train_is_prep,
      ped_stop_if_prep_finished, train_is_safe_allred, notify]

/-- One iteration of the main loop in the train layer, with the train active and no clear
pending when the phase completes. -/
theorem train_cycle_step (evs : Nat → Option Char) (s : Ctl)
    (hl : s.in_train_state = true) (ha : s.train_active = true) (ht : s.tr < 8)
    (hc : (wait_poll_loop evs (10 * train_duration s.tr) s).train_clear_pending = false) :
    (main_iter evs s).in_train_state = true ∧
    (main_iter evs s).train_active = true ∧
    (main_iter evs s).train_clear_pending = false ∧
    (main_iter evs s).tr = (s.tr + 1) % 8 ∧
    (main_iter evs s).polls = s.polls + 10 * train_duration s.tr ∧
    (main_iter evs s).slept_ms = s.slept_ms + 1000 * train_duration s.tr := by
  have hmain : main_iter evs s = train_run_until_exit evs s := by simp [main_iter, hl]
  obtain ⟨w, hw, w1, w2, w3, w4, w5, w6, -⟩ := train_run_form evs s
  obtain ⟨r1, r2, r3, r4, r5, r6⟩ := train_loop_end w (by rw [w1, hl]) (w3 ha)
    (by rw [w6, hc]) (by rw [w2]; exact ht)
  rw [hmain, hw]
  exact ⟨r1, r2, r3, by rw [r4, w2], by rw [r5, w4], by rw [r6, w5]⟩

/-- The train cycle with no TrainCleared in the schedule: after `n` iterations the train
cursor has advanced by `n` places round the cycle. -/
theorem train_cycle_run (evs : Nat → Option Char) (hno : ∀ i, evs i ≠ some 'c') (s : Ctl)
    (hl : s.in_train_state = true) (ha : s.train_active = true)
    (hc : s.train_clear_pending = false) (ht : s.tr < 8) :
    ∀ n, (run evs n s).in_train_state = true ∧ (run evs n s).train_active = true ∧
      (run evs n s).train_clear_pending = false ∧ (run evs n s).tr = (s.tr + n) % 8 := by
  intro n
  induction n with
  | zero => exact ⟨hl, ha, hc, by show s.tr = s.tr % 8; omega⟩
  | succ n ih =>
    obtain ⟨i1, i2, i3, i4⟩ := ih
    rw [run_succ_main_iter]
    have hlt : (run evs n s).tr < 8 := by rw [i4]; exact Nat.mod_lt _ (by decide)
    obtain ⟨a1, a2, a3, a4, -, -⟩ := train_cycle_step evs (run evs n s) i1 i2 hlt
      (wait_poll_loop_not_cleared evs _ _ i3 (fun j _ => hno _))
    refine ⟨a1, a2, a3, ?_⟩
    rw [a4, i4]
    omega

/-- C24: the train sequence of demo1.c. Take a state in the train layer with the train
active, and suppose no clear is pending when the phase completes (which is the case when
none was pending before and no TrainCleared is received during the phase). Then one pass
of the main loop prints the TRAIN line of the current state, labelled with its position
(S01..S08), with the duration and lights of the table below, waits that duration (ten
polls per second), stays in the train layer and moves the train cursor to the next state of
the cycle `TR_S01_PREP_R3, TR_S02_R3_LR_G, TR_S03_R3_LR_Y, TR_S04_ALL_RED_A,
TR_S05_PREP_R1, TR_S06_R1_SPLIT_G, TR_S07_R1_SPLIT_Y, TR_S08_ALL_RED_B`, and from
`TR_S08_ALL_RED_B` back to `TR_S01_PREP_R3`. The durations are 5, 12, 5, 5, 5, 15, 5, 5
seconds and exactly two of the eight states are safe all-reds, S04 and S08. With no
TrainCleared in the schedule the cycle goes on for ever. -/
theorem C24_train_sequence (evs : Nat → Option Char) (s : Ctl)
    (hl : s.in_train_state = true) (ha : s.train_active = true) (ht : s.tr < 8)
    (hc : (wait_poll_loop evs (10 * train_duration s.tr) s).train_clear_pending = false) :
    (main_iter evs s).in_train_state = true ∧
    (main_iter evs s).train_active = true ∧
    (main_iter evs s).train_clear_pending = false ∧
    (main_iter evs s).tr = (s.tr + 1) % 8 ∧
    (main_iter evs s).polls = s.polls + 10 * train_duration s.tr ∧
    (main_iter evs s).slept_ms = s.slept_ms + 1000 * train_duration s.tr ∧
    (∃ l, status_lines (main_iter evs s).out = status_lines s.out ++ [l] ∧
      l.mode = "TRAIN" ∧ l.label = (s.tr : Int) + 1 ∧ l.dur = train_duration s.tr ∧
      (l.r3, l.r1_we, l.r1_ew) = train_lights s.tr) ∧
    [TR_S01_PREP_R3, TR_S02_R3_LR_G, TR_S03_R3_LR_Y, TR_S04_ALL_RED_A, TR_S05_PREP_R1,
      TR_S06_R1_SPLIT_G, TR_S07_R1_SPLIT_Y, TR_S08_ALL_RED_B] = List.range 8 ∧
    (List.range 8).map train_duration = [5, 12, 5, 5, 5, 15, 5, 5] ∧
    (List.range 8).map train_ui_label = [1, 2, 3, 4, 5, 6, 7, 8] ∧
    (List.range 8).map train_lights =
      [ ("PRE-Y", "RED", "RED"), ("LR-G", "RED", "RED"), ("LR-Y", "RED", "RED"),
        ("RED", "RED", "RED"), ("RED", "PRE-Y", "PRE-Y"), ("RED", "SR-G", "SL-G"),
        ("RED", "SR-Y", "SL-Y"), ("RED", "RED", "RED") ] ∧
    (List.range 8).filter train_is_safe_allred = [TR_S04_ALL_RED_A, TR_S08_ALL_RED_B] ∧
    (s.train_clear_pending = false →
      (∀ j, j < 10 * train_duration s.tr → evs (s.polls + j) ≠ some 'c') →
      (wait_poll_loop evs (10 * train_duration s.tr) s).train_clear_pending = false) ∧
    (s.train_clear_pending = false → (∀ i, evs i ≠ some 'c') →
      ∀ n, (run evs n s).in_train_state = true ∧ (run evs n s).tr = (s.tr + n) % 8) := by
  obtain ⟨a1, a2, a3, a4, a5, a6⟩ := train_cycle_step evs s hl ha ht hc
  have hmain : main_iter evs s = train_run_until_exit evs s := by simp [main_iter, hl]
  refine ⟨a1, a2, a3, a4, a5, a6, ?_, by decide, by decide, by decide, by decide, by decide,
    fun h0 hno => wait_poll_loop_not_cleared evs _ s h0 hno, fun h0 hno n => ?_⟩
  · refine ⟨_, by rw [hmain]; exact train_run_lines evs s, rfl, ?_, rfl, rfl⟩
    show ((train_ui_label s.tr : Nat) : Int) = (s.tr : Int) + 1
    have : train_ui_label s.tr = s.tr + 1 := by
      unfold train_ui_label UINT_MOD
      omega
    rw [this]
    push_cast
    rfl
  · obtain ⟨r1, -, -, r4⟩ := train_cycle_run evs hno s hl ha h0 ht n
    exact ⟨r1, r4⟩

set_option maxRecDepth 100000 in
theorem C24_train_sequence_witness :
    (run (fun i => if i = 7 then some 't' else none) 8 init).tr = TR_S08_ALL_RED_B ∧
    (main_iter (fun i => if i = 7 then some 't' else none)
      (run (fun i => if i = 7 then some 't' else none) 8 init)).tr = TR_S01_PREP_R3 ∧
    (main_iter (fun i => if i = 7 then some 't' else none)
      (run (fun i => if i = 7 then some 't' else none) 8 init)).in_train_state = true := by
  have h := C24_train_sequence (fun i => if i = 7 then some 't' else none)
    (run (fun i => if i = 7 then some 't' else none) 8 init)
    (by decide) (by decide) (by decide) (by decide)
  refine ⟨by decide, ?_, h.1⟩
  rw [h.2.2.2.1]
  decide

end Demo1

namespace Fsm

theorem foldl_unrecognized (l : List Char) :
    ∀ s : Ctl, l.foldl apply_event s =
      (l.filter (fun ev => ev = 't' ∨ ev = 'c' ∨ ev = 'p')).foldl apply_event s := by
  induction l with
  | nil => intro s; rfl
  | cons a l ih =>
    intro s
    by_cases h : a = 't' ∨ a = 'c' ∨ a = 'p'
    · rw [List.filter_cons_of_pos (by simpa using h)]
      simp only [List.foldl_cons]
      exact ih _
    · rw [List.filter_cons_of_neg (by simpa using h)]
      simp only [List.foldl_cons]
      have : apply_event s a = s := by
        simp only [not_or] at h
        simp [apply_event, h.1, h.2.1, h.2.2]
      rw [this]
      exact ih _

end Fsm

/-- C28: unrecognized events are discarded. For every event byte other than `'t'`, `'c'`
and `'p'` and every controller state, the event handling chain of `poll_events_from_mq`
(traffic_fsm.c) and of `poll_events_from_qnet_nonblock` (demo1.c, and the second local
controller demo3.c) returns the state unchanged: no flag is written and nothing is
printed. Hence a poll that receives such a byte has the effect of a poll that receives
nothing, and in traffic_fsm.c a batch of messages has the effect of the same batch with
the unrecognized bytes removed. -/
theorem C28_unrecognized_events_discarded (ev : Char)
    (ht : ev ≠ 't') (hc : ev ≠ 'c') (hp : ev ≠ 'p') :
    (∀ s : Fsm.Ctl, Fsm.apply_event s ev = s) ∧
    (∀ s : Demo1.Ctl, Demo1.apply_event ev s = s) ∧
    (∀ s : Demo3.Ctl, Demo3.apply_event ev s = s) ∧
    (∀ (evs : Nat → List Char) (s : Fsm.Ctl), evs s.polls = [ev] →
      Fsm.poll_events_from_mq evs s = { s with polls := s.polls + 1 }) ∧
    (∀ (evs : Nat → List Char) (s : Fsm.Ctl),
      Fsm.poll_events_from_mq evs s =
        Fsm.poll_events_from_mq
          (fun i => (evs i).filter (fun e => e = 't' ∨ e = 'c' ∨ e = 'p')) s) ∧
    (∀ (evs : Nat → Option Char) (s : Demo1.Ctl), evs s.polls = some ev →
      Demo1.poll_events_from_qnet_nonblock evs s = { s with polls := s.polls + 1 }) ∧
    (∀ (evs : Nat → Option Char) (s : Demo3.Ctl), evs s.polls = some ev →
      Demo3.poll_events_from_qnet_nonblock evs s = { s with polls := s.polls + 1 }) := by
  have h1 : ∀ s : Fsm.Ctl, Fsm.apply_event s ev = s := by
    intro s; simp [Fsm.apply_event, ht, hc, hp]
  have h2 : ∀ s : Demo1.Ctl, Demo1.apply_event ev s = s := by
    intro s; simp [Demo1.apply_event, ht, hc, hp]
  have h3 : ∀ s : Demo3.Ctl, Demo3.apply_event ev s = s := by
    intro s; simp [Demo3.apply_event, ht, hc, hp]
  refine ⟨h1, h2, h3, ?_, ?_, ?_, ?_⟩
  · intro evs s h
    simp [Fsm.poll_events_from_mq, h, h1]
  · intro evs s
    simp only [Fsm.poll_events_from_mq]
    exact Fsm.foldl_unrecognized _ _
  · intro evs s h
    simp [Demo1.poll_events_from_qnet_nonblock, h, h2]
  · intro evs s h
    simp [Demo3.poll_events_from_qnet_nonblock, h, h3]

theorem C28_unrecognized_events_discarded_witness :
    Fsm.apply_event (Fsm.run (fun i => if i = 0 then ['t'] else []) 3 Fsm.init) 'T' =
      Fsm.run (fun i => if i = 0 then ['t'] else []) 3 Fsm.init ∧
    Demo1.apply_event 'C' Demo1.init = Demo1.init ∧
    Demo3.apply_event 'P' Demo3.init = Demo3.init :=
  ⟨(C28_unrecognized_events_discarded 'T' (by decide) (by decide) (by decide)).1 _,
   (C28_unrecognized_events_discarded 'C' (by decide) (by decide) (by decide)).2.1 _,
   (C28_unrecognized_events_discarded 'P' (by decide) (by decide) (by decide)).2.2.1 _⟩

namespace Fsm

/-- C30 (as amended): in traffic_fsm.c the `'c'` event does not write `train_active`. For
every state, handling `'c'` sets `train_clear_pending` to 1 and `train_request` to 0 and
changes nothing else, so `train_active` keeps its value, also through a whole poll whose
batch is the single message `'c'`. `train_active` is set to 0 by `do_exit_train_to_normal`:
with the clear received (and no later `'t'`) during a step at one of the train all-red
checkpoints, that step ends with `train_active = 0` and the cursor in the ring. -/
theorem C30_train_clear_defers_train_active :
    (∀ s : Ctl, apply_event s 'c' =
      { s with train_clear_pending := true, train_request := false }) ∧
    (∀ s : Ctl, (apply_event s 'c').train_active = s.train_active) ∧
    (∀ (evs : Nat → List Char) (s : Ctl), evs s.polls = ['c'] →
      (poll_events_from_mq evs s).train_active = s.train_active ∧
      (poll_events_from_mq evs s).train_clear_pending = true) ∧
    (∀ s : Ctl, (do_exit_train_to_normal s).train_active = false) ∧
    (∀ (evs : Nat → List Char) (s : Ctl),
      s.cur = T_ALL_RED_A ∨ s.cur = T_ALL_RED_B ∨ s.cur = T_DECISION_ALL_RED_4 →
      ClearedWithin evs s.train_clear_pending s.polls (step_polls s.cur) →
      (SingleStep_SM evs s).train_active = false ∧ (SingleStep_SM evs s).cur = N_R3_RS_G) := by
  refine ⟨fun s => ?_, fun s => ?_, fun evs s h => ?_, fun s => ?_, fun evs s hc hcl => ?_⟩
  · simp [apply_event]
  · simp [apply_event]
  · simp [poll_events_from_mq, h, apply_event]
  · exact (do_exit_frame s).2.2.2.1
  · obtain ⟨-, -, h⟩ := train_checkpoint_step evs s hc
    exact ⟨(h hcl).2.1, (h hcl).1⟩

set_option maxRecDepth 100000 in
theorem C30_train_clear_defers_train_active_witness :
    ((poll_events_from_mq (fun _ => ['c'])
        (run (fun i => if i = 0 then ['t'] else []) 3 init)).train_active = true ∧
      (poll_events_from_mq (fun _ => ['c'])
        (run (fun i => if i = 0 then ['t'] else []) 3 init)).train_clear_pending = true) ∧
    ((SingleStep_SM (fun i => if i = 150 then ['c'] else if i = 0 then ['t'] else [])
        (run (fun i => if i = 150 then ['c'] else if i = 0 then ['t'] else []) 5
          init)).train_active = false ∧
      (SingleStep_SM (fun i => if i = 150 then ['c'] else if i = 0 then ['t'] else [])
        (run (fun i => if i = 150 then ['c'] else if i = 0 then ['t'] else []) 5
          init)).cur = N_R3_RS_G) := by
  refine ⟨?_, ?_⟩
  · have h := C30_train_clear_defers_train_active.2.2.1 (fun _ => ['c'])
      (run (fun i => if i = 0 then ['t'] else []) 3 init) rfl
    refine ⟨?_, h.2⟩
    rw [h.1]
    decide
  · refine C30_train_clear_defers_train_active.2.2.2.2 _ _ (by decide) ?_
    left
    refine ⟨by decide, ?_⟩
    intro i hi
    have h5 : (run (fun i => if i = 150 then ['c'] else if i = 0 then ['t'] else []) 5
        init).polls = 187 := by decide
    rw [h5] at hi
    have h1 : i ≠ 150 := by omega
    have h2 : i ≠ 0 := by omega
    simp [h1, h2]

set_option maxRecDepth 100000 in
/-- C30, counterexample to the claim as stated: the train is detected at the first poll,
and three steps later the controller is in the train layer with `train_active = 1`; the
poll that receives `'c'` there leaves `train_active = 1` (it sets `train_clear_pending`). -/
theorem C30_counterexample :
    (run (fun i => if i = 0 then ['t'] else []) 3 init).in_train_mode = true ∧
    (run (fun i => if i = 0 then ['t'] else []) 3 init).train_active = true ∧
    (apply_event (run (fun i => if i = 0 then ['t'] else []) 3 init) 'c').train_active
      = true ∧
    (poll_events_from_mq (fun _ => ['c'])
      (run (fun i => if i = 0 then ['t'] else []) 3 init)).train_active = true := by
  decide

end Fsm

namespace Fsm

/-! ## TRAIN BEGIN and TRAIN OVER -/

theorem train_notes_append (a b : List Out) :
    train_notes (a ++ b) = train_notes a ++ train_notes b := by
  simp [train_notes, notices, List.filterMap_append]

theorem kept_refl (s : Ctl) : Kept s s := ⟨rfl, rfl, fun h => h⟩

theorem kept_trans {a b c : Ctl} (h1 : Kept a b) (h2 : Kept b c) : Kept a c :=
  ⟨h2.1.trans h1.1, h2.2.1.trans h1.2.1, fun h => h2.2.2 (h1.2.2 h)⟩

theorem foldl_train_active (l : List Char) :
    ∀ s : Ctl, s.train_active = true → (l.foldl apply_event s).train_active = true := by
  induction l with
  | nil => intro s h; exact h
  | cons a l ih =>
    intro s h
    simp only [List.foldl_cons]
    apply ih
    unfold apply_event
    split_ifs <;> simp [h]

theorem kept_poll (evs : Nat → List Char) (s : Ctl) : Kept s (poll_events_from_mq evs s) := by
  have hu := poll_unpolled evs s
  simp only [unpolled, Prod.mk.injEq] at hu
  refine ⟨hu.2.1, by rw [hu.2.2.2.2.2.2.2], fun h => ?_⟩
  unfold poll_events_from_mq
  exact foldl_train_active _ _ h

theorem kept_nanosleep (ms : Nat) (s : Ctl) : Kept s (nanosleep_ms ms s) :=
  ⟨rfl, rfl, fun h => h⟩

theorem kept_preempt_block (s : Ctl) : Kept s (preempt_block s) := by
  unfold preempt_block
  simp only []
  split_ifs <;> refine ⟨rfl, ?_, fun h => h⟩ <;>
    simp [notify, train_notes, notices, List.filterMap_append, Out.asNote]

/-- Induction principle for the interruptible wait: a property kept by sleeping, by
polling and by the preemption block is kept by the whole wait. -/
theorem wait_preserves (P : Ctl → Prop) (evs : Nat → List Char)
    (hs : ∀ ms x, P x → P (nanosleep_ms ms x))
    (hp : ∀ x, P x → P (poll_events_from_mq evs x))
    (hb : ∀ x, P x → P (preempt_block x)) (t : Nat) (s : Ctl) (h : P s) :
    P (wait_seconds_interruptible t evs s) := by
  have hq : ∀ ms x, P x → P (wait_quantum evs ms x).2 := by
    intro ms x hx
    unfold wait_quantum
    simp only []
    split_ifs
    · exact hb _ (hp _ (hs _ _ hx))
    · exact hp _ (hs _ _ hx)
  have hl : ∀ n x, P x → P (wait_loop evs n x).2 := by
    intro n
    induction n with
    | zero => intro x hx; exact hx
    | succ n ih =>
      intro x hx
      have h1 := hq 100 x hx
      unfold wait_loop
      rcases hw : wait_quantum evs 100 x with ⟨b, y⟩
      rw [hw] at h1
      cases b
      · exact ih y h1
      · exact h1
  unfold wait_seconds_interruptible
  split_ifs with h0
  · exact h
  · simp only []
    have h1 := hl (t * 1000 % UINT_MOD / 100) s h
    rcases hw : wait_loop evs (t * 1000 % UINT_MOD / 100) s with ⟨b, y⟩
    rw [hw] at h1
    cases b
    · simp only []
      split_ifs
      · exact hq _ y h1
      · exact h1
    · exact h1

theorem kept_wait (t : Nat) (evs : Nat → List Char) (s : Ctl) :
    Kept s (wait_seconds_interruptible t evs s) :=
  wait_preserves (Kept s) evs
    (fun ms _ hx => kept_trans hx (kept_nanosleep ms _))
    (fun _ hx => kept_trans hx (kept_poll evs _))
    (fun _ hx => kept_trans hx (kept_preempt_block _)) t s (kept_refl s)

theorem kept_prologue (evs : Nat → List Char) (s : Ctl) : Kept s (step_prologue evs s) := by
  obtain ⟨-, h2, -, -, -, h6⟩ := step_prologue_ped evs s
  obtain ⟨b, o, hp⟩ := step_prologue_eq evs s
  refine ⟨h2, ?_, fun h => ?_⟩
  · rcases h6 with h | h <;> rw [h, train_notes_append] <;>
      simp [train_notes, notices, Out.asNote]
  · rw [hp]
    show (poll_events_from_mq evs (print_state_outputs s.cur s)).train_active = true
    exact (kept_poll evs _).2.2 h

theorem kept_at_completion (evs : Nat → List Char) (s : Ctl) :
    Kept s (at_completion evs s) := by
  unfold at_completion
  simp only []
  refine kept_trans (kept_prologue evs s) (kept_trans ?_ (kept_trans (kept_wait _ evs _)
    (kept_poll evs _)))
  split_ifs
  · exact ⟨rfl, rfl, fun h => h⟩
  · exact kept_refl _

end Fsm

namespace Fsm

theorem kept_set_cur (w : Ctl) (c : Nat) : Kept w { w with cur := c } :=
  ⟨rfl, rfl, fun h => h⟩

theorem kept_ped_over (w : Ctl) (c : Nat) :
    Kept w { notify Notify.ped_over { w with in_ped_mode := false } with cur := c } := by
  refine ⟨rfl, ?_, fun h => h⟩
  simp [notify, train_notes, notices, List.filterMap_append, Out.asNote]

theorem step_switch_plain_kept (evs : Nat → List Char) (p : Ctl)
    (hck : ped_safe_checkpoint p.cur = false) : Kept p (step_switch evs p) := by
  have hW := kept_wait (duration_of p.cur) evs p
  by_cases h : p.cur ≤ 22
  · obtain ⟨c, hc2⟩ : ∃ c, p.cur = c := ⟨_, rfl⟩
    rw [hc2] at h hck
    interval_cases c <;> simp [ped_safe_checkpoint] at hck <;>
      simp [hc2, duration_of] at hW <;>
      first
        | (simp only [step_switch, hc2]; exact kept_refl _)
        | (simp [step_switch, hc2] <;>
            first
              | exact kept_trans hW (kept_set_cur _ _)
              | (split_ifs <;>
                  first
                    | exact hW
                    | exact kept_trans hW (kept_set_cur _ _)
                    | exact kept_trans hW (kept_ped_over _ _)))
  · obtain ⟨d, hd⟩ : ∃ d, p.cur = d + 23 := ⟨p.cur - 23, by omega⟩
    simp [step_switch, hd, Kept]

end Fsm

namespace Fsm

theorem step_epilogue_noop (m : Ctl)
    (h1 : is_train_state m.cur = true → m.in_train_mode = true)
    (h2 : is_normal_state m.cur = true → m.in_train_mode = false) :
    step_epilogue m = m := by
  unfold step_epilogue
  simp only []
  by_cases ht : is_train_state m.cur = true
  · have hn : is_normal_state m.cur = false := by
      cases hn : is_normal_state m.cur
      · rfl
      · rw [train_normal_disjoint _ hn] at ht; exact absurd ht (by decide)
    simp [ht, h1 ht, hn]
  · by_cases hn : is_normal_state m.cur = true
    · simp [ht, hn, h2 hn]
    · simp [ht, hn]

theorem enter_train_notes (q : Ctl) :
    train_notes (enter_train q).out =
      train_notes q.out ++ (if q.in_train_mode then [] else [Notify.train_begin]) := by
  unfold enter_train
  simp only []
  cases h : q.in_train_mode <;>
    simp [h, notify, train_notes, notices, List.filterMap_append, Out.asNote]

theorem do_exit_notes (q : Ctl) :
    train_notes (do_exit_train_to_normal q).out =
      train_notes q.out ++ (if q.in_train_mode then [Notify.train_over] else []) := by
  unfold do_exit_train_to_normal
  simp only []
  cases h : q.in_train_mode <;>
    simp [h, notify, train_notes, notices, List.filterMap_append, Out.asNote]

theorem train_step_of_kept {s m : Ctl} (hk : Kept s m) : TrainStep s m := by
  obtain ⟨k1, k2, -⟩ := hk
  refine ⟨?_, fun _ => k1⟩
  rw [k2, k1]
  cases s.in_train_mode <;> simp

theorem train_step_of_enter {s q : Ctl} (hm : s.in_train_mode = false)
    (hs : is_ped_state s.cur = false) (hk : Kept s q) : TrainStep s (enter_train q) := by
  obtain ⟨k1, k2, -⟩ := hk
  obtain ⟨e1, -, -, -, e5, -⟩ := enter_train_frame q
  refine ⟨?_, fun h => ?_⟩
  · rw [enter_train_notes, k2, k1, hm, e5]
    simp
  · rcases h with h | h
    · rw [hs] at h; exact absurd h (by decide)
    · rw [e1] at h; exact absurd h (by decide)

theorem train_step_of_exit {s q : Ctl} (hm : s.in_train_mode = true)
    (hs : is_ped_state s.cur = false) (hk : Kept s q) :
    TrainStep s (do_exit_train_to_normal q) := by
  obtain ⟨k1, k2, -⟩ := hk
  obtain ⟨-, -, d3, -, -, -, d7⟩ := do_exit_frame q
  refine ⟨?_, fun h => ?_⟩
  · rw [do_exit_notes, k2, k1, hm, d7]
    simp
  · rcases h with h | h
    · rw [hs] at h; exact absurd h (by decide)
    · rw [d3] at h; exact absurd h (by decide)

/-- A claimed pedestrian request: the state that `try_start_ped_if_safe` returns. -/
theorem try_start_claimed (q : Ctl) (h : (try_start_ped_if_safe q).1 = true) :
    Kept q (try_start_ped_if_safe q).2 ∧ (try_start_ped_if_safe q).2.cur = P_WALK ∧
    (try_start_ped_if_safe q).2.ped_return_state = ped_return_of q ∧
    ((q.cur = N_ALL_RED_1 ∨ q.cur = N_ALL_RED_2) →
      (q.train_active && !q.train_clear_pending) = false) := by
  rcases try_start_ped_cases q with e | ⟨-, -, e⟩
  · rw [e] at h; exact absurd h (by simp)
  · refine ⟨?_, by rw [e], by rw [e], fun hc => ?_⟩
    · rw [e]
      refine ⟨rfl, ?_, fun ha => ha⟩
      show train_notes (q.out ++ _) = _
      rw [train_notes_append]
      split_ifs <;> simp [train_notes, notices, Out.asNote]
    · by_contra hne
      have hb : (q.train_active && !q.train_clear_pending) = true := by
        simpa using hne
      have : (try_start_ped_if_safe q).1 = false := by
        unfold try_start_ped_if_safe
        rcases hc with hc | hc <;> simp [hc, hb, ped_safe_checkpoint]
      rw [this] at h
      exact absurd h (by decide)

theorem try_start_not_claimed (q : Ctl) (h : (try_start_ped_if_safe q).1 = false) :
    (try_start_ped_if_safe q).2 = q := by
  rcases try_start_ped_cases q with e | ⟨-, -, e⟩
  · rw [e]
  · rw [e] at h; exact absurd h (by simp)

end Fsm

namespace Fsm

theorem ped_not_train_normal (c : Nat) (h : is_ped_state c = true) :
    is_train_state c = false ∧ is_normal_state c = false := by
  simp only [is_ped_state, Bool.or_eq_true, beq_iff_eq] at h
  rcases h with (h | h) | h <;> rw [h] <;> decide

theorem inv_of_kept_ring {s m : Ctl} (hm : s.in_train_mode = false) (hk : Kept s m)
    (hn : is_normal_state m.cur = true) :
    TrainInv (step_epilogue m) ∧ TrainStep s (step_epilogue m) := by
  have hmm : m.in_train_mode = false := by rw [hk.1, hm]
  have hnt := train_normal_disjoint _ hn
  rw [step_epilogue_noop m (fun h => by rw [hnt] at h; exact absurd h (by decide))
    (fun _ => hmm)]
  refine ⟨⟨fun h => by rw [hnt] at h; exact absurd h (by decide), fun _ => hmm,
    fun h => by rw [hmm] at h; exact absurd h (by decide), fun h => ?_, Or.inl hn⟩,
    train_step_of_kept hk⟩
  rw [(ped_not_train_normal _ h).2] at hn
  exact absurd hn (by decide)

theorem inv_of_kept_train {s m : Ctl} (hm : s.in_train_mode = true)
    (ha : s.train_active = true) (hk : Kept s m) (ht : is_train_state m.cur = true) :
    TrainInv (step_epilogue m) ∧ TrainStep s (step_epilogue m) := by
  have hmm : m.in_train_mode = true := by rw [hk.1, hm]
  have hnn : is_normal_state m.cur = false := by
    cases h : is_normal_state m.cur
    · rfl
    · rw [train_normal_disjoint _ h] at ht; exact absurd ht (by decide)
  rw [step_epilogue_noop m (fun _ => hmm)
    (fun h => by rw [hnn] at h; exact absurd h (by decide))]
  refine ⟨⟨fun _ => hmm, fun h => by rw [hnn] at h; exact absurd h (by decide),
    fun _ => hk.2.2 ha, fun h => ?_, Or.inr (Or.inl ht)⟩, train_step_of_kept hk⟩
  rw [(ped_not_train_normal _ h).1] at ht
  exact absurd ht (by decide)

theorem inv_of_kept_ped {s m : Ctl} (hi : s.in_train_mode = true → s.train_active = true)
    (hk : Kept s m) (hp : is_ped_state m.cur = true)
    (hret : s.in_train_mode = is_train_state m.ped_return_state) :
    TrainInv (step_epilogue m) ∧ TrainStep s (step_epilogue m) := by
  obtain ⟨p1, p2⟩ := ped_not_train_normal _ hp
  rw [step_epilogue_noop m (fun h => by rw [p1] at h; exact absurd h (by decide))
    (fun h => by rw [p2] at h; exact absurd h (by decide))]
  refine ⟨⟨fun h => by rw [p1] at h; exact absurd h (by decide),
    fun h => by rw [p2] at h; exact absurd h (by decide),
    fun h => hk.2.2 (hi (by rw [← hk.1]; exact h)), fun _ => by rw [hk.1, hret],
    Or.inr (Or.inr hp)⟩, train_step_of_kept hk⟩

theorem inv_of_enter {s q : Ctl} (hm : s.in_train_mode = false)
    (hs : is_ped_state s.cur = false) (hk : Kept s q) :
    TrainInv (step_epilogue (enter_train q)) ∧ TrainStep s (step_epilogue (enter_train q)) := by
  obtain ⟨e1, -, e3, -, e5, -⟩ := enter_train_frame q
  rw [step_epilogue_noop _ (fun _ => e5) (fun h => by rw [e1] at h; exact absurd h (by decide))]
  exact ⟨⟨fun _ => e5, fun h => by rw [e1] at h; exact absurd h (by decide), fun _ => e3,
    fun h => by rw [e1] at h; exact absurd h (by decide),
    Or.inr (Or.inl (by rw [e1]; decide))⟩, train_step_of_enter hm hs hk⟩

theorem inv_of_exit {s q : Ctl} (hm : s.in_train_mode = true)
    (hs : is_ped_state s.cur = false) (hk : Kept s q) :
    TrainInv (step_epilogue (do_exit_train_to_normal q)) ∧
    TrainStep s (step_epilogue (do_exit_train_to_normal q)) := by
  obtain ⟨-, -, d3, -, -, -, d7⟩ := do_exit_frame q
  rw [step_epilogue_noop _ (fun h => by rw [d3] at h; exact absurd h (by decide)) (fun _ => d7)]
  exact ⟨⟨fun h => by rw [d3] at h; exact absurd h (by decide), fun _ => d7,
    fun h => by rw [d7] at h; exact absurd h (by decide),
    fun h => by rw [d3] at h; exact absurd h (by decide),
    Or.inl (by rw [d3]; decide)⟩, train_step_of_exit hm hs hk⟩

theorem step_inv_ring_checkpoint (evs : Nat → List Char) (s : Ctl) (hi : TrainInv s)
    (hck : s.cur = N_ALL_RED_1 ∨ s.cur = N_ALL_RED_2) :
    TrainInv (SingleStep_SM evs s) ∧ TrainStep s (SingleStep_SM evs s) := by
  obtain ⟨-, i2, i3, -, -⟩ := hi
  have hg : is_normal_green s.cur = false := by
    rcases hck with h | h <;> rw [h] <;> decide
  have hsp : is_ped_state s.cur = false := by
    rcases hck with h | h <;> rw [h] <;> decide
  have hm : s.in_train_mode = false := i2 (by rcases hck with h | h <;> rw [h] <;> decide)
  have hk := kept_at_completion evs s
  have hqc := (at_completion_frame evs s hg).1
  rw [step_at_ring_checkpoint evs s hck]
  generalize at_completion evs s = q at hk hqc
  by_cases hr : q.train_request = true
  · rw [if_pos hr]
    exact inv_of_enter hm hsp hk
  · rw [if_neg hr]
    by_cases hcl : (try_start_ped_if_safe q).1 = true
    · rw [if_pos hcl]
      obtain ⟨t1, t2, t3, t4⟩ := try_start_claimed q hcl
      refine inv_of_kept_ped i3 (kept_trans hk t1) (by rw [t2]; decide) ?_
      rw [hm, t3]
      have hb := t4 (by rw [hqc]; exact hck)
      unfold ped_return_of
      rw [hb]
      simp only [Bool.false_eq_true, if_false]
      split_ifs <;> decide
    · rw [if_neg hcl, try_start_not_claimed q (by simpa using hcl)]
      exact inv_of_kept_ring hm (kept_trans hk (kept_set_cur _ _))
        (by show is_normal_state (if s.cur = N_ALL_RED_1 then N_R1_RS_G else N_R3_RS_G) = true
            split_ifs <;> decide)

theorem step_inv_train_checkpoint (evs : Nat → List Char) (s : Ctl) (hi : TrainInv s)
    (hck : s.cur = T_ALL_RED_A ∨ s.cur = T_ALL_RED_B ∨ s.cur = T_DECISION_ALL_RED_4) :
    TrainInv (SingleStep_SM evs s) ∧ TrainStep s (SingleStep_SM evs s) := by
  obtain ⟨i1, -, i3, -, -⟩ := hi
  have hg : is_normal_green s.cur = false := by
    rcases hck with h | h | h <;> rw [h] <;> decide
  have hsp : is_ped_state s.cur = false := by
    rcases hck with h | h | h <;> rw [h] <;> decide
  have hm : s.in_train_mode = true :=
    i1 (by rcases hck with h | h | h <;> rw [h] <;> decide)
  have ha := i3 hm
  have hk := kept_at_completion evs s
  have hqc := (at_completion_frame evs s hg).1
  rw [step_at_train_checkpoint evs s hck]
  generalize at_completion evs s = q at hk hqc
  have hqa : q.train_active = true := hk.2.2 ha
  by_cases hx : should_exit_train_now q q.cur = true
  · rw [if_pos hx]
    exact inv_of_exit hm hsp hk
  · rw [if_neg hx]
    have hqp : q.train_clear_pending = false := by
      cases hp : q.train_clear_pending
      · rfl
      · exfalso
        apply hx
        rw [hqc]
        rcases hck with h | h | h <;> simp [should_exit_train_now, hp, h]
    by_cases hcl : (try_start_ped_if_safe q).1 = true
    · rw [if_pos hcl]
      obtain ⟨t1, t2, t3, -⟩ := try_start_claimed q hcl
      refine inv_of_kept_ped i3 (kept_trans hk t1) (by rw [t2]; decide) ?_
      rw [hm, t3]
      simp [ped_return_of, hqa, hqp, is_train_state]
    · rw [if_neg hcl, try_start_not_claimed q (by simpa using hcl)]
      by_cases hd : s.cur = T_DECISION_ALL_RED_4
      · rw [if_pos hd, if_pos (by simp [hqa, hqp])]
        exact inv_of_kept_train hm ha (kept_trans hk (kept_set_cur _ _))
          (by show is_train_state T_R3_SN_LR_G_2 = true; decide)
      · rw [if_neg hd]
        refine inv_of_kept_train hm ha (kept_trans hk (kept_set_cur _ _)) ?_
        show is_train_state (s.cur + 1) = true
        rcases hck with h | h | h
        · rw [h]; decide
        · rw [h]; decide
        · exact absurd h hd

theorem step_inv_plain (evs : Nat → List Char) (s : Ctl) (hi : TrainInv s) (hp : PedInv s)
    (hck : ped_safe_checkpoint s.cur = false) :
    TrainInv (SingleStep_SM evs s) ∧ TrainStep s (SingleStep_SM evs s) := by
  obtain ⟨i1, i2, i3, i4, i5⟩ := hi
  have p1 := step_prologue_cur evs s
  have hk : Kept s (step_switch evs (step_prologue evs s)) :=
    kept_trans (kept_prologue evs s) (step_switch_plain_kept evs _ (by rw [p1]; exact hck))
  have hcur : (SingleStep_SM evs s).cur = (step_switch evs (step_prologue evs s)).cur :=
    step_epilogue_cur _
  have hform : SingleStep_SM evs s = step_epilogue (step_switch evs (step_prologue evs s)) :=
    rfl
  rw [hform]
  rcases i5 with hn | ht | hpd
  · -- a ring green or yellow
    have hle : s.cur ≤ 9 := by simpa [is_normal_state] using hn
    have hpl : s.cur = N_R3_RS_G ∨ s.cur = N_R3_RS_Y ∨ s.cur = N_R3_L_G ∨ s.cur = N_R3_L_Y ∨
        s.cur = N_R1_RS_G ∨ s.cur = N_R1_RS_Y ∨ s.cur = N_R1_L_G ∨ s.cur = N_R1_L_Y := by
      have h4 : s.cur ≠ 4 := fun h => by rw [h] at hck; exact absurd hck (by decide)
      have h9 : s.cur ≠ 9 := fun h => by rw [h] at hck; exact absurd hck (by decide)
      simp only [N_R3_RS_G, N_R3_RS_Y, N_R3_L_G, N_R3_L_Y, N_R1_RS_G, N_R1_RS_Y, N_R1_L_G,
        N_R1_L_Y]
      omega
    refine inv_of_kept_ring (i2 hn) hk ?_
    rw [← hcur, ring_plain_step evs s hpl]
    split_ifs
    · decide
    · decide
    · rcases hpl with h | h | h | h | h | h | h | h <;> rw [h] <;> decide
  · -- a train green or yellow
    have hpl : s.cur = T_R3_NS_SRL_G_1 ∨ s.cur = T_R3_NS_SRL_Y_1 ∨ s.cur = T_R3_SN_LR_G_2 ∨
        s.cur = T_R3_SN_LR_Y_2 ∨ s.cur = T_R1_RESTRICT_G_3 ∨ s.cur = T_R1_RESTRICT_Y_3 := by
      simp only [is_train_state, Bool.and_eq_true, decide_eq_true_eq, T_R3_NS_SRL_G_1,
        T_DECISION_ALL_RED_4] at ht
      have h12 : s.cur ≠ 12 := fun h => by rw [h] at hck; exact absurd hck (by decide)
      have h15 : s.cur ≠ 15 := fun h => by rw [h] at hck; exact absurd hck (by decide)
      have h18 : s.cur ≠ 18 := fun h => by rw [h] at hck; exact absurd hck (by decide)
      simp only [T_R3_NS_SRL_G_1, T_R3_NS_SRL_Y_1, T_R3_SN_LR_G_2, T_R3_SN_LR_Y_2,
        T_R1_RESTRICT_G_3, T_R1_RESTRICT_Y_3]
      omega
    refine inv_of_kept_train (i1 ht) (i3 (i1 ht)) hk ?_
    rw [← hcur, (train_plain_step evs s hpl).1]
    rcases hpl with h | h | h | h | h | h <;> rw [h] <;> decide
  · -- a pedestrian state
    simp only [is_ped_state, Bool.or_eq_true, beq_iff_eq] at hpd
    have hret : (step_switch evs (step_prologue evs s)).ped_return_state = s.ped_return_state := by
      have h1 := (wait_ped_fields (duration_of (step_prologue evs s).cur) evs
        (step_prologue evs s)).2.1
      have h2 := (step_prologue_ped evs s).2.2.2.1
      rw [p1] at h1
      rcases hpd with (h | h) | h <;>
        simp [step_switch, p1, h, duration_of] at h1 ⊢ <;>
        first
          | (rw [h1, h2]; done)
          | (split_ifs <;> simp [notify, h1, h2])
    have hi4 := i4 (by simpa [is_ped_state] using hpd)
    rcases hpd with (h | h) | h
    · refine inv_of_kept_ped i3 hk ?_ (by rw [hret]; exact hi4)
      rw [← hcur, (step_ped_walk_flash evs s (Or.inl h)).1, h]; decide
    · refine inv_of_kept_ped i3 hk ?_ (by rw [hret]; exact hi4)
      rw [← hcur, (step_ped_walk_flash evs s (Or.inr h)).1, h]; decide
    · have hc := (step_ped_clear evs s h).1
      rw [hcur] at hc
      rcases hp.2 with r | r | r
      · refine inv_of_kept_ring ?_ hk (by rw [hc, r]; decide)
        rw [hi4, r]; decide
      · refine inv_of_kept_ring ?_ hk (by rw [hc, r]; decide)
        rw [hi4, r]; decide
      · have hm : s.in_train_mode = true := by rw [hi4, r]; decide
        exact inv_of_kept_train hm (i3 hm) hk (by rw [hc, r]; decide)

/-- One step keeps the invariant and changes the TRAIN BEGIN / TRAIN OVER banners as
`in_train_mode` changes. -/
theorem step_train_inv (evs : Nat → List Char) (s : Ctl) (hi : TrainInv s) (hp : PedInv s) :
    TrainInv (SingleStep_SM evs s) ∧ TrainStep s (SingleStep_SM evs s) := by
  by_cases h1 : s.cur = N_ALL_RED_1 ∨ s.cur = N_ALL_RED_2
  · exact step_inv_ring_checkpoint evs s hi h1
  · by_cases h2 : s.cur = T_ALL_RED_A ∨ s.cur = T_ALL_RED_B ∨ s.cur = T_DECISION_ALL_RED_4
    · exact step_inv_train_checkpoint evs s hi h2
    · refine step_inv_plain evs s hi hp ?_
      simp only [not_or] at h1 h2
      simp only [N_ALL_RED_1, N_ALL_RED_2, T_ALL_RED_A, T_ALL_RED_B, T_DECISION_ALL_RED_4]
        at h1 h2
      simp [ped_safe_checkpoint, h1.1, h1.2, h2.1, h2.2.1, h2.2.2]

theorem init_train_inv : TrainInv init :=
  ⟨fun h => absurd h (by decide), fun _ => rfl, fun h => absurd h (by decide),
   fun h => absurd h (by decide), Or.inl (by decide)⟩

theorem run_train_inv (evs : Nat → List Char) (n : Nat) : TrainInv (run evs n init) := by
  induction n with
  | zero => exact init_train_inv
  | succ n ih =>
    rw [mq_run_succ]
    exact (step_train_inv evs _ ih (run_ped_inv evs n)).1

end Fsm

namespace Fsm

theorem replicate_pair_join (k : Nat) (x : List Notify) :
    (List.replicate k x).flatten ++ x = (List.replicate (k + 1) x).flatten := by
  rw [List.replicate_succ', List.flatten_append]
  simp

/-- The TRAIN BEGIN / TRAIN OVER banners printed so far alternate, starting with TRAIN
BEGIN, and the last one is a TRAIN BEGIN exactly when `in_train_mode` is set. -/
theorem run_train_notes (evs : Nat → List Char) (n : Nat) :
    ∃ k, train_notes (run evs n init).out =
      (List.replicate k [Notify.train_begin, Notify.train_over]).flatten ++
        (if (run evs n init).in_train_mode then [Notify.train_begin] else []) := by
  induction n with
  | zero => exact ⟨0, rfl⟩
  | succ n ih =>
    obtain ⟨k, hk⟩ := ih
    obtain ⟨-, hs, -⟩ := step_train_inv evs _ (run_train_inv evs n) (run_ped_inv evs n)
    rw [mq_run_succ, hs, hk]
    cases h1 : (run evs n init).in_train_mode <;>
      cases h2 : (SingleStep_SM evs (run evs n init)).in_train_mode
    · exact ⟨k, by simp⟩
    · exact ⟨k, by simp⟩
    · refine ⟨k + 1, ?_⟩
      simp only [Bool.not_true, Bool.and_false, Bool.false_eq_true, if_false, Bool.not_false,
        Bool.and_self, if_true, List.append_nil, List.append_assoc, List.singleton_append]
      exact replicate_pair_join k _
    · exact ⟨k, by simp⟩

/-- C29: TRAIN BEGIN and TRAIN OVER in traffic_fsm.c, for every event schedule and after
every number of steps from the initial state.
* The TRAIN BEGIN / TRAIN OVER banners printed so far strictly alternate, starting with
  TRAIN BEGIN, and `in_train_mode` is 1 exactly when the last of them is a TRAIN BEGIN,
  that is between a TRAIN BEGIN and the following TRAIN OVER.
* One step prints exactly one TRAIN BEGIN when it takes `in_train_mode` from 0 to 1 (an
  entry into the train layer), exactly one TRAIN OVER when it takes it from 1 to 0 (an
  exit), and neither otherwise.
* `in_train_mode` is 1 in every train state and 0 in every ring state; in a pedestrian
  state it is 1 exactly when the pedestrian sequence was claimed at a train checkpoint (its
  return state is a train state).
* A step that starts or ends in a pedestrian state (the claim, the three pedestrian phases
  and the return) leaves `in_train_mode` unchanged and prints neither banner. -/
theorem C29_train_begin_over_alternate (evs : Nat → List Char) (n : Nat) :
    (∃ k, train_notes (run evs n init).out =
      (List.replicate k [Notify.train_begin, Notify.train_over]).flatten ++
        (if (run evs n init).in_train_mode then [Notify.train_begin] else [])) ∧
    train_notes (run evs (n + 1) init).out = train_notes (run evs n init).out ++
      (if !(run evs n init).in_train_mode && (run evs (n + 1) init).in_train_mode then
        [Notify.train_begin]
       else if (run evs n init).in_train_mode && !(run evs (n + 1) init).in_train_mode then
        [Notify.train_over]
       else []) ∧
    (is_train_state (run evs n init).cur = true → (run evs n init).in_train_mode = true) ∧
    (is_normal_state (run evs n init).cur = true → (run evs n init).in_train_mode = false) ∧
    (is_ped_state (run evs n init).cur = true →
      (run evs n init).in_train_mode = is_train_state (run evs n init).ped_return_state) ∧
    (is_ped_state (run evs n init).cur = true ∨ is_ped_state (run evs (n + 1) init).cur = true →
      (run evs (n + 1) init).in_train_mode = (run evs n init).in_train_mode ∧
      train_notes (run evs (n + 1) init).out = train_notes (run evs n init).out) := by
  obtain ⟨i1, i2, -, i4, -⟩ := run_train_inv evs n
  obtain ⟨-, hs, hped⟩ := step_train_inv evs _ (run_train_inv evs n) (run_ped_inv evs n)
  rw [← mq_run_succ] at hs hped
  refine ⟨run_train_notes evs n, hs, i1, i2, i4, fun h => ?_⟩
  have hm := hped h
  refine ⟨hm, ?_⟩
  rw [hs, hm]
  cases (run evs n init).in_train_mode <;> simp

set_option maxRecDepth 100000 in
theorem C29_train_begin_over_alternate_witness :
    train_notes (run (fun i => if i = 150 then ['c'] else if i = 0 then ['t'] else []) 3
      init).out = [Notify.train_begin] ∧
    train_notes (run (fun i => if i = 150 then ['c'] else if i = 0 then ['t'] else []) 6
      init).out =
      train_notes (run (fun i => if i = 150 then ['c'] else if i = 0 then ['t'] else []) 5
        init).out ++ [Notify.train_over] := by
  have h2 := (C29_train_begin_over_alternate
    (fun i => if i = 150 then ['c'] else if i = 0 then ['t'] else []) 2).2.1
  have h5 := (C29_train_begin_over_alternate
    (fun i => if i = 150 then ['c'] else if i = 0 then ['t'] else []) 5).2.1
  have m2 : (run (fun i => if i = 150 then ['c'] else if i = 0 then ['t'] else []) 2
      init).in_train_mode = false := by decide
  have m3 : (run (fun i => if i = 150 then ['c'] else if i = 0 then ['t'] else []) 3
      init).in_train_mode = true := by decide
  have m5 : (run (fun i => if i = 150 then ['c'] else if i = 0 then ['t'] else []) 5
      init).in_train_mode = true := by decide
  have m6 : (run (fun i => if i = 150 then ['c'] else if i = 0 then ['t'] else []) 6
      init).in_train_mode = false := by decide
  have n2 : train_notes (run (fun i => if i = 150 then ['c'] else if i = 0 then ['t'] else [])
      2 init).out = [] := by decide
  rw [m2, m3, n2] at h2
  rw [m5, m6] at h5
  exact ⟨h2, h5⟩

end Fsm

set_option maxRecDepth 100000 in
/-- C32: phase-table well-formedness in demo1.c and in the second local controller
(demo3.c). For every entry of `NORM`: at most one of `is_green`, `is_prep_y` and
`is_safe_allred` is set; `is_prep_y` is set exactly when an indication is PRE-Y and
`is_safe_allred` exactly when all three indications are RED; an entry with `is_green` has
`to_yellow` equal to its `next`, and the entry of that target shows the matching yellow on
the same approach (RS-Y for RS-G, L-Y for L-G, in the same columns) and is not itself a
green. The entry at index `i` has `id = i` for all 12 entries, so `find_norm` returns the
entry with the requested id for every value of `normal_state_t`. -/
theorem C32_phase_table_well_formed :
    (Demo1.NORM.length = 12 ∧
      (∀ i, i < 12 → ∃ st, Demo1.NORM.get? i = some st ∧ st.id = i ∧
        Demo1.find_norm i = some st) ∧
      (∀ st ∈ Demo1.NORM,
        ((st.is_green = false ∧ st.is_prep_y = false) ∨
          (st.is_green = false ∧ st.is_safe_allred = false) ∨
          (st.is_prep_y = false ∧ st.is_safe_allred = false)) ∧
        (st.is_prep_y = true ↔
          (st.r3 = "PRE-Y" ∨ st.r1_we = "PRE-Y" ∨ st.r1_ew = "PRE-Y")) ∧
        (st.is_safe_allred = true ↔
          (st.r3 = "RED" ∧ st.r1_we = "RED" ∧ st.r1_ew = "RED")) ∧
        (st.is_green = true →
          st.to_yellow = st.next ∧
          ∃ y, Demo1.find_norm st.to_yellow = some y ∧ y.is_green = false ∧
            ((st.r3, st.r1_we, st.r1_ew), (y.r3, y.r1_we, y.r1_ew)) ∈
              [ (("RS-G", "RED", "RED"), ("RS-Y", "RED", "RED")),
                (("L-G", "RED", "RED"), ("L-Y", "RED", "RED")),
                (("RED", "RS-G", "RS-G"), ("RED", "RS-Y", "RS-Y")),
                (("RED", "L-G", "L-G"), ("RED", "L-Y", "L-Y")) ]))) ∧
    (Demo3.NORM.length = 12 ∧
      (∀ i, i < 12 → ∃ st, Demo3.NORM.get? i = some st ∧ st.id = i ∧
        Demo3.find_norm i = some st) ∧
      (∀ st ∈ Demo3.NORM,
        ((st.is_green = false ∧ st.is_prep_y = false) ∨
          (st.is_green = false ∧ st.is_safe_allred = false) ∨
          (st.is_prep_y = false ∧ st.is_safe_allred = false)) ∧
        (st.is_prep_y = true ↔
          (st.r3_ns = "PRE-Y" ∨ st.r2_we = "PRE-Y" ∨ st.r2_ew = "PRE-Y")) ∧
        (st.is_safe_allred = true ↔
          (st.r3_ns = "RED" ∧ st.r2_we = "RED" ∧ st.r2_ew = "RED")) ∧
        (st.is_green = true →
          st.to_yellow = st.next ∧
          ∃ y, Demo3.find_norm st.to_yellow = some y ∧ y.is_green = false ∧
            ((st.r3_ns, st.r2_we, st.r2_ew), (y.r3_ns, y.r2_we, y.r2_ew)) ∈
              [ (("RS-G", "RED", "RED"), ("RS-Y", "RED", "RED")),
                (("L-G", "RED", "RED"), ("L-Y", "RED", "RED")),
                (("RED", "RS-G", "RS-G"), ("RED", "RS-Y", "RS-Y")),
                (("RED", "L-G", "L-G"), ("RED", "L-Y", "L-Y")) ]))) := by
  refine ⟨⟨rfl, ?_, ?_⟩, ⟨rfl, ?_, ?_⟩⟩
  · intro i hi
    interval_cases i <;> exact ⟨_, rfl, rfl, rfl⟩
  · intro st hst
    simp only [Demo1.NORM, List.mem_cons, List.mem_singleton, List.not_mem_nil, or_false] at hst
    rcases hst with h | h | h | h | h | h | h | h | h | h | h | h <;> subst h <;>
      refine ⟨by decide, by decide, by decide, ?_⟩ <;>
      first
        | (intro h; exact absurd h (by decide))
        | (intro _; exact ⟨rfl, _, rfl, rfl, by decide⟩)
  · intro i hi
    interval_cases i <;> exact ⟨_, rfl, rfl, rfl⟩
  · intro st hst
    simp only [Demo3.NORM, List.mem_cons, List.mem_singleton, List.not_mem_nil, or_false] at hst
    rcases hst with h | h | h | h | h | h | h | h | h | h | h | h <;> subst h <;>
      refine ⟨by decide, by decide, by decide, ?_⟩ <;>
      first
        | (intro h; exact absurd h (by decide))
        | (intro _; exact ⟨rfl, _, rfl, rfl, by decide⟩)

namespace Demo1

theorem find_norm_stray (n : Nat) (h : 12 ≤ n) : find_norm n = none := by
  obtain ⟨d, hd⟩ : ∃ d, n = d + 12 := ⟨n - 12, by omega⟩
  subst hd
  simp [find_norm, NORM]

end Demo1

namespace Fsm

theorem step_switch_stray (evs : Nat → List Char) (p : Ctl) (h : p.cur ∉ all_states) :
    step_switch evs p = { p with cur := N_R3_RS_G } := by
  by_cases h19 : p.cur = 19
  · simp [step_switch, h19]
  · have h23 : 23 ≤ p.cur := by
      by_contra hlt
      apply h
      have hle : p.cur ≤ 22 := by omega
      obtain ⟨c, hc⟩ : ∃ c, p.cur = c := ⟨_, rfl⟩
      rw [hc] at hle h19 ⊢
      interval_cases c <;> first | decide | exact absurd rfl h19
    obtain ⟨d, hd⟩ : ∃ d, p.cur = d + 23 := ⟨p.cur - 23, by omega⟩
    simp [step_switch, hd]

end Fsm

/-- C35 (as amended): a cursor that points outside the configured sequence is not fatal;
both programs recover and go on. In demo1.c, for a ring cursor that `find_norm` does not
know (any value from 12 up), `normal_step` sets the cursor to `N_ALL_RED_1` and returns
without printing or waiting, so the next iteration displays `N_ALL_RED_1`. In
traffic_fsm.c, for a cursor that is not one of the 22 enumerators, `SingleStep_SM` prints
a line and polls as usual and the `default` case sets the cursor to `N_R3_RS_G`, so the
next iteration displays `N_R3_RS_G`. -/
theorem C35_stray_cursor_recovers :
    (∀ (evs : Nat → Option Char) (s : Demo1.Ctl), 12 ≤ s.ns →
      Demo1.find_norm s.ns = none ∧
      Demo1.normal_step evs s = { s with ns := Demo1.N_ALL_RED_1 }) ∧
    (∀ (evs : Nat → List Char) (s : Fsm.Ctl), s.cur ∉ Fsm.all_states →
      Fsm.step_switch evs (Fsm.step_prologue evs s) =
        { Fsm.step_prologue evs s with cur := Fsm.N_R3_RS_G } ∧
      (Fsm.SingleStep_SM evs s).cur = Fsm.N_R3_RS_G ∧
      (Fsm.SingleStep_SM evs s).slept_ms = s.slept_ms ∧
      (Fsm.SingleStep_SM evs s).polls = s.polls + 1) := by
  refine ⟨fun evs s h => ?_, fun evs s h => ?_⟩
  · have hf := Demo1.find_norm_stray s.ns h
    exact ⟨hf, by simp [Demo1.normal_step, hf]⟩
  · obtain ⟨p1, p2, p3, -, -⟩ := Fsm.step_prologue_frame evs s
    have hs := Fsm.step_switch_stray evs (Fsm.step_prologue evs s) (by rw [p1]; exact h)
    obtain ⟨e1, e2, e3, -⟩ := Fsm.step_epilogue_frame
      (Fsm.step_switch evs (Fsm.step_prologue evs s))
    refine ⟨hs, ?_, ?_, ?_⟩
    · show (Fsm.step_epilogue _).cur = _
      rw [e1, hs]
    · show (Fsm.step_epilogue _).slept_ms = _
      rw [e3, hs]; exact p3
    · show (Fsm.step_epilogue _).polls = _
      rw [e2, hs]; exact p2

set_option maxRecDepth 100000 in
theorem C35_stray_cursor_recovers_witness :
    (Demo1.normal_step (fun _ => none) { Demo1.init with ns := 12 }).ns = Demo1.N_ALL_RED_1 ∧
    (Fsm.SingleStep_SM (fun _ => []) { Fsm.init with cur := 19 }).cur = Fsm.N_R3_RS_G := by
  refine ⟨?_, (C35_stray_cursor_recovers.2 (fun _ => []) { Fsm.init with cur := 19 }
    (by decide)).2.1⟩
  rw [(C35_stray_cursor_recovers.1 (fun _ => none) { Demo1.init with ns := 12 }
    (by decide)).2]

set_option maxRecDepth 100000 in
/-- C35, counterexample to the claim as stated. demo1.c started with the ring cursor at 12
(one past the last phase): the first iteration resets the cursor and the second displays
the all-red `N_ALL_RED_1` and moves on to `N_PREP_R3`. traffic_fsm.c started with the
cursor at 19 (the gap between the train and the pedestrian states): the first step takes
the `default` case and the second displays the green `N_R3_RS_G`. Neither program stops. -/
theorem C35_counterexample :
    ((Demo1.run (fun _ => none) 1 { Demo1.init with ns := 12 }).ns = Demo1.N_ALL_RED_1 ∧
      (Demo1.status_lines (Demo1.run (fun _ => none) 2 { Demo1.init with ns := 12 }).out).map
        (fun l => (l.mode, l.r3, l.r1_we, l.r1_ew)) = [("NORMAL", "RED", "RED", "RED")] ∧
      (Demo1.run (fun _ => none) 2 { Demo1.init with ns := 12 }).ns = Demo1.N_PREP_R3) ∧
    ((Fsm.run (fun _ => []) 1 { Fsm.init with cur := 19 }).cur = Fsm.N_R3_RS_G ∧
      ((Fsm.status_lines (Fsm.run (fun _ => []) 2 { Fsm.init with cur := 19 }).out).map
        (fun l => (l.mode, l.r3_sn, l.r3_ns, l.r1_we, l.r1_ew))).getLast? =
          some ("NORMAL", "RS-G", "RS-G", "RED", "RED") ∧
      (Fsm.run (fun _ => []) 2 { Fsm.init with cur := 19 }).cur = Fsm.N_R3_RS_Y) := by
  decide

namespace Fsm

theorem step_prologue_no_t (evs : Nat → List Char) (s : Ctl)
    (hr : s.train_request = false) (hno : 't' ∉ evs s.polls) :
    (step_prologue evs s).train_request = false := by
  obtain ⟨b, o, hp⟩ := step_prologue_eq evs s
  rw [hp]
  show (poll_events_from_mq evs (print_state_outputs s.cur s)).train_request = false
  unfold poll_events_from_mq
  exact foldl_request_false _ _ hno hr

/-- The time slept by one step at a ring all-red. -/
theorem ring_checkpoint_slept (evs : Nat → List Char) (s : Ctl)
    (hc : s.cur = N_ALL_RED_1 ∨ s.cur = N_ALL_RED_2) :
    (SingleStep_SM evs s).slept_ms = s.slept_ms + 1000 * duration_of s.cur := by
  have hck : ped_safe_checkpoint s.cur = true := by
    rcases hc with h | h <;> rw [h] <;> decide
  have hq := at_completion_slept evs s hck
  rw [step_at_ring_checkpoint evs s hc, (step_epilogue_frame _).2.2.1]
  by_cases hr : (at_completion evs s).train_request = true
  · rw [if_pos hr, (enter_train_frame _).2.2.2.2.2.2.2.2.1, hq]
  · rw [if_neg hr]
    by_cases hcl : (try_start_ped_if_safe (at_completion evs s)).1 = true
    · rw [if_pos hcl, (try_start_ped_frame _).2, hq]
    · rw [if_neg hcl]
      show (try_start_ped_if_safe (at_completion evs s)).2.slept_ms = _
      rw [(try_start_ped_frame _).2, hq]

/-- The time slept by one step at a ring green or yellow that is not cut short. -/
theorem ring_plain_slept (evs : Nat → List Char) (s : Ctl)
    (hc : s.cur = N_R3_RS_G ∨ s.cur = N_R3_RS_Y ∨ s.cur = N_R3_L_G ∨ s.cur = N_R3_L_Y ∨
      s.cur = N_R1_RS_G ∨ s.cur = N_R1_RS_Y ∨ s.cur = N_R1_L_G ∨ s.cur = N_R1_L_Y)
    (h : is_normal_green s.cur = false ∨
      (s.train_request = false ∧
        ∀ j, j < 1 + 10 * duration_of s.cur → 't' ∉ evs (s.polls + j))) :
    (SingleStep_SM evs s).slept_ms = s.slept_ms + 1000 * duration_of s.cur := by
  obtain ⟨p1, p2, p3, -, -⟩ := step_prologue_frame evs s
  have hW : (wait_seconds_interruptible (duration_of (step_prologue evs s).cur) evs
      (step_prologue evs s)).slept_ms = s.slept_ms + 1000 * duration_of s.cur := by
    rw [p1]
    rcases h with h | ⟨hr, hno⟩
    · rw [(wait_idle evs _ _ (duration_of_small _) (by rw [p1]; exact h)).2.2.1, p3]
    · have hpr := step_prologue_no_t evs s hr (by simpa using hno 0 (by omega))
      rw [(wait_no_t evs _ _ (duration_of_small _) hpr (fun j hj => by
        rw [p2]
        have := hno (1 + j) (by omega)
        have e : s.polls + 1 + j = s.polls + (1 + j) := by omega
        rw [e]
        exact this)).2.2.1, p3]
  unfold SingleStep_SM
  rw [(step_epilogue_frame _).2.2.1, step_switch_ring_plain_eq evs _ (by rw [p1]; exact hc)]
  exact hW

end Fsm

/-- C40: in traffic_fsm.c, for each of the 22 states of `state_t`, the duration printed on
the status line of the state is `duration_of` of the state, it is greater than 0, and it
is the number of seconds that `SingleStep_SM` waits in that state: the step prints the
status line of its state, and a step that is not cut short by the train preemption (any
state but a ring green, or a ring green with `train_request` clear and no `'t'` received
during the step) sleeps exactly `duration_of` seconds. At a ring green, where the wait can
be cut short, the `switch` is the call of `wait_seconds_interruptible` with `duration_of`
seconds followed by the move to the yellow. -/
theorem C40_duration_matches_wait (c : Nat) (hc : c ∈ Fsm.all_states) :
    Fsm.all_states.length = 22 ∧
    0 < Fsm.duration_of c ∧
    (Fsm.status_line c).dur = Fsm.duration_of c ∧
    (∀ (evs : Nat → List Char) (s : Fsm.Ctl), s.cur = c →
      Fsm.status_lines (Fsm.step_prologue evs s).out =
        Fsm.status_lines s.out ++ [Fsm.status_line c] ∧
      ((Fsm.is_normal_green c = false ∨
        (s.train_request = false ∧
          ∀ j, j < 1 + 10 * Fsm.duration_of c → 't' ∉ evs (s.polls + j))) →
      (Fsm.SingleStep_SM evs s).slept_ms = s.slept_ms + 1000 * Fsm.duration_of c)) ∧
    (Fsm.is_normal_green c = true → ∀ (evs : Nat → List Char) (p : Fsm.Ctl), p.cur = c →
      Fsm.step_switch evs p =
        { Fsm.wait_seconds_interruptible (Fsm.duration_of c) evs p with cur := c + 1 }) := by
  have hpos : 0 < Fsm.duration_of c := by
    simp only [Fsm.all_states, List.mem_cons, List.mem_singleton, List.not_mem_nil,
      or_false] at hc
    rcases hc with h | h | h | h | h | h | h | h | h | h | h | h | h | h | h | h | h | h |
      h | h | h | h <;> rw [h] <;> decide
  refine ⟨rfl, hpos, rfl, fun evs s hs => ⟨?_, fun h => ?_⟩, fun hg evs p hp => ?_⟩
  rotate_left 2
  · subst hp
    have hpl : p.cur = Fsm.N_R3_RS_G ∨ p.cur = Fsm.N_R3_RS_Y ∨ p.cur = Fsm.N_R3_L_G ∨
        p.cur = Fsm.N_R3_L_Y ∨ p.cur = Fsm.N_R1_RS_G ∨ p.cur = Fsm.N_R1_RS_Y ∨
        p.cur = Fsm.N_R1_L_G ∨ p.cur = Fsm.N_R1_L_Y := by
      simp [Fsm.is_normal_green] at hg
      rcases hg with ((h | h) | h) | h <;> simp [h]
    have hny : ¬ (p.cur = Fsm.N_R3_RS_Y ∨ p.cur = Fsm.N_R1_RS_Y) := by
      simp [Fsm.is_normal_green] at hg
      rcases hg with ((h | h) | h) | h <;> simp [h]
    rw [Fsm.step_switch_ring_plain_eq evs p hpl, if_neg (fun h => hny h.1)]
  · rw [← hs]
    exact (Fsm.step_prologue_lines evs s).1
  · subst hs
    simp only [Fsm.all_states, List.mem_cons, List.mem_singleton, List.not_mem_nil,
      or_false] at hc
    rcases hc with h0 | h0 | h0 | h0 | h0 | h0 | h0 | h0 | h0 | h0 | h0 | h0 | h0 | h0 | h0 |
      h0 | h0 | h0 | h0 | h0 | h0 | h0
    · exact Fsm.ring_plain_slept evs s (Or.inl h0) h
    · exact Fsm.ring_plain_slept evs s (Or.inr (Or.inl h0)) h
    · exact Fsm.ring_plain_slept evs s (Or.inr (Or.inr (Or.inl h0))) h
    · exact Fsm.ring_plain_slept evs s (Or.inr (Or.inr (Or.inr (Or.inl h0)))) h
    · exact Fsm.ring_checkpoint_slept evs s (Or.inl h0)
    · exact Fsm.ring_plain_slept evs s (Or.inr (Or.inr (Or.inr (Or.inr (Or.inl h0))))) h
    · exact Fsm.ring_plain_slept evs s
        (Or.inr (Or.inr (Or.inr (Or.inr (Or.inr (Or.inl h0)))))) h
    · exact Fsm.ring_plain_slept evs s
        (Or.inr (Or.inr (Or.inr (Or.inr (Or.inr (Or.inr (Or.inl h0))))))) h
    · exact Fsm.ring_plain_slept evs s
        (Or.inr (Or.inr (Or.inr (Or.inr (Or.inr (Or.inr (Or.inr h0))))))) h
    · exact Fsm.ring_checkpoint_slept evs s (Or.inr h0)
    · exact (Fsm.train_plain_step evs s (Or.inl h0)).2.2.1
    · exact (Fsm.train_plain_step evs s (Or.inr (Or.inl h0))).2.2.1
    · exact (Fsm.train_checkpoint_step evs s (Or.inl h0)).2.1
    · exact (Fsm.train_plain_step evs s (Or.inr (Or.inr (Or.inl h0)))).2.2.1
    · exact (Fsm.train_plain_step evs s (Or.inr (Or.inr (Or.inr (Or.inl h0))))).2.2.1
    · exact (Fsm.train_checkpoint_step evs s (Or.inr (Or.inl h0))).2.1
    · exact (Fsm.train_plain_step evs s (Or.inr (Or.inr (Or.inr (Or.inr (Or.inl h0)))))).2.2.1
    · exact (Fsm.train_plain_step evs s (Or.inr (Or.inr (Or.inr (Or.inr (Or.inr h0)))))).2.2.1
    · exact (Fsm.train_checkpoint_step evs s (Or.inr (Or.inr h0))).2.1
    · exact (Fsm.step_ped_walk_flash evs s (Or.inl h0)).2.1
    · exact (Fsm.step_ped_walk_flash evs s (Or.inr h0)).2.1
    · exact (Fsm.step_ped_clear evs s h0).2.1

set_option maxRecDepth 100000 in
theorem C40_duration_matches_wait_witness :
    (Fsm.SingleStep_SM (fun i => if i = 3 then ['p'] else []) Fsm.init).slept_ms = 20000 ∧
    (Fsm.status_line Fsm.N_R3_RS_G).dur = 20 := by
  have h := C40_duration_matches_wait Fsm.N_R3_RS_G (by decide)
  refine ⟨?_, h.2.2.1⟩
  rw [(h.2.2.2.1 (fun i => if i = 3 then ['p'] else []) Fsm.init rfl).2
    (Or.inr ⟨rfl, fun j _ => by
      by_cases e : Fsm.init.polls + j = 3 <;> simp [e]⟩)]
  rfl

namespace Fsm

/-! ## The train flags -/

theorem flag_inv_of_same {a b : Ctl} (h : SameFlags a b) (hf : FlagInv a) : FlagInv b := by
  obtain ⟨h1, h2, h3, h4⟩ := h
  obtain ⟨f1, f2⟩ := hf
  refine ⟨fun hr => ?_, fun hm ha hp => ?_⟩
  · rw [h2, h3]; exact f1 (by rw [← h1]; exact hr)
  · rw [h1]; exact f2 (by rw [← h4]; exact hm) (by rw [← h2]; exact ha) (by rw [← h3]; exact hp)

theorem same_flags_refl (a : Ctl) : SameFlags a a := ⟨rfl, rfl, rfl, rfl⟩

theorem same_flags_trans {a b c : Ctl} (h1 : SameFlags a b) (h2 : SameFlags b c) :
    SameFlags a c :=
  ⟨h2.1.trans h1.1, h2.2.1.trans h1.2.1, h2.2.2.1.trans h1.2.2.1, h2.2.2.2.trans h1.2.2.2⟩

theorem flag_inv_apply_event (s : Ctl) (ev : Char) (hf : FlagInv s) :
    FlagInv (apply_event s ev) := by
  obtain ⟨f1, f2⟩ := hf
  unfold apply_event
  split_ifs
  · exact ⟨fun _ => ⟨rfl, rfl⟩, fun _ _ _ => rfl⟩
  · exact ⟨fun h => absurd h (by simp), fun _ _ h => absurd h (by simp)⟩
  · exact ⟨f1, f2⟩
  · exact ⟨f1, f2⟩

theorem flag_inv_foldl (l : List Char) :
    ∀ s : Ctl, FlagInv s → FlagInv (l.foldl apply_event s) := by
  induction l with
  | nil => intro s h; exact h
  | cons a l ih => intro s h; exact ih _ (flag_inv_apply_event s a h)

theorem flag_inv_poll (evs : Nat → List Char) (s : Ctl) (hf : FlagInv s) :
    FlagInv (poll_events_from_mq evs s) := by
  unfold poll_events_from_mq
  exact flag_inv_foldl _ _ (@flag_inv_of_same s { s with polls := s.polls + 1 }
    ⟨rfl, rfl, rfl, rfl⟩ hf)

theorem same_flags_preempt_block (s : Ctl) : SameFlags s (preempt_block s) := by
  unfold preempt_block
  simp only []
  split_ifs <;> exact ⟨rfl, rfl, rfl, rfl⟩

theorem flag_inv_wait (t : Nat) (evs : Nat → List Char) (s : Ctl) (hf : FlagInv s) :
    FlagInv (wait_seconds_interruptible t evs s) :=
  wait_preserves FlagInv evs
    (fun _ _ hx => flag_inv_of_same (⟨rfl, rfl, rfl, rfl⟩) hx)
    (fun _ hx => flag_inv_poll evs _ hx)
    (fun _ hx => flag_inv_of_same (same_flags_preempt_block _) hx) t s hf

theorem flag_inv_prologue (evs : Nat → List Char) (s : Ctl) (hf : FlagInv s) :
    FlagInv (step_prologue evs s) := by
  obtain ⟨b, o, hp⟩ := step_prologue_eq evs s
  rw [hp]
  exact @flag_inv_of_same (poll_events_from_mq evs (print_state_outputs s.cur s)) _
    ⟨rfl, rfl, rfl, rfl⟩
    (flag_inv_poll evs _ (@flag_inv_of_same s _ ⟨rfl, rfl, rfl, rfl⟩ hf))

theorem flag_inv_at_completion (evs : Nat → List Char) (s : Ctl) (hf : FlagInv s) :
    FlagInv (at_completion evs s) := by
  unfold at_completion
  simp only []
  apply flag_inv_poll
  apply flag_inv_wait
  split_ifs
  · exact @flag_inv_of_same (step_prologue evs s) _ ⟨rfl, rfl, rfl, rfl⟩
      (flag_inv_prologue evs s hf)
  · exact flag_inv_prologue evs s hf

theorem flag_inv_enter (q : Ctl) : FlagInv (enter_train q) := by
  obtain ⟨-, e2, -, -, e5, -⟩ := enter_train_frame q
  exact ⟨fun h => by rw [e2] at h; exact absurd h (by decide),
    fun h => by rw [e5] at h; exact absurd h (by decide)⟩

theorem flag_inv_exit (q : Ctl) : FlagInv (do_exit_train_to_normal q) := by
  obtain ⟨-, -, -, d4, -, d6, -⟩ := do_exit_frame q
  exact ⟨fun h => by rw [d6] at h; exact absurd h (by decide),
    fun _ h => by rw [d4] at h; exact absurd h (by decide)⟩

theorem same_flags_try_start (q : Ctl) : SameFlags q (try_start_ped_if_safe q).2 := by
  rcases try_start_ped_cases q with e | ⟨-, -, e⟩ <;> rw [e] <;> exact ⟨rfl, rfl, rfl, rfl⟩

theorem same_flags_set_cur (w : Ctl) (c : Nat) : SameFlags w { w with cur := c } :=
  ⟨rfl, rfl, rfl, rfl⟩

theorem same_flags_ped_over (w : Ctl) (c : Nat) :
    SameFlags w { notify Notify.ped_over { w with in_ped_mode := false } with cur := c } :=
  ⟨rfl, rfl, rfl, rfl⟩

theorem step_switch_plain_flags_aux (evs : Nat → List Char) (p a : Ctl)
    (hck : ped_safe_checkpoint p.cur = false)
    (hW : SameFlags a (wait_seconds_interruptible (duration_of p.cur) evs p)) :
    SameFlags a (step_switch evs p) := by
  by_cases h : p.cur ≤ 22
  · obtain ⟨c, hc2⟩ : ∃ c, p.cur = c := ⟨_, rfl⟩
    rw [hc2] at h hck
    interval_cases c <;> simp [ped_safe_checkpoint] at hck <;>
      simp [hc2, duration_of] at hW <;>
      first
        | (simp only [step_switch, hc2]; exact same_flags_trans hW (same_flags_set_cur _ _))
        | (simp [step_switch, hc2] <;>
            first
              | exact same_flags_trans hW (same_flags_set_cur _ _)
              | (split_ifs <;>
                  first
                    | exact hW))
  · obtain ⟨d, hd⟩ : ∃ d, p.cur = d + 23 := ⟨p.cur - 23, by omega⟩
    simp [hd, duration_of, wait_seconds_interruptible] at hW
    simp only [step_switch, hd]
    simp
    exact same_flags_trans hW (same_flags_set_cur _ _)

theorem step_switch_plain_flags (evs : Nat → List Char) (p : Ctl)
    (hck : ped_safe_checkpoint p.cur = false) :
    SameFlags (wait_seconds_interruptible (duration_of p.cur) evs p) (step_switch evs p) :=
  step_switch_plain_flags_aux evs p _ hck (same_flags_refl _)

theorem flag_inv_epilogue_noop (m : Ctl) (hf : FlagInv m)
    (h1 : is_train_state m.cur = true → m.in_train_mode = true)
    (h2 : is_normal_state m.cur = true → m.in_train_mode = false) :
    FlagInv (step_epilogue m) := by
  rw [step_epilogue_noop m h1 h2]
  exact hf

end Fsm

namespace Fsm

theorem flag_of_ring {s m : Ctl} (hm : s.in_train_mode = false) (hk : Kept s m)
    (hn : is_normal_state m.cur = true) (hf : FlagInv m) : FlagInv (step_epilogue m) :=
  flag_inv_epilogue_noop m hf
    (fun h => by rw [train_normal_disjoint _ hn] at h; exact absurd h (by decide))
    (fun _ => by rw [hk.1, hm])

theorem flag_of_train {s m : Ctl} (hm : s.in_train_mode = true) (hk : Kept s m)
    (ht : is_train_state m.cur = true) (hf : FlagInv m) : FlagInv (step_epilogue m) :=
  flag_inv_epilogue_noop m hf (fun _ => by rw [hk.1, hm])
    (fun h => by rw [train_normal_disjoint _ h] at ht; exact absurd ht (by decide))

theorem flag_of_ped {m : Ctl} (hp : is_ped_state m.cur = true) (hf : FlagInv m) :
    FlagInv (step_epilogue m) :=
  flag_inv_epilogue_noop m hf
    (fun h => by rw [(ped_not_train_normal _ hp).1] at h; exact absurd h (by decide))
    (fun h => by rw [(ped_not_train_normal _ hp).2] at h; exact absurd h (by decide))

theorem flag_of_enter (q : Ctl) : FlagInv (step_epilogue (enter_train q)) := by
  obtain ⟨e1, -, -, -, e5, -⟩ := enter_train_frame q
  exact flag_inv_epilogue_noop _ (flag_inv_enter q) (fun _ => e5)
    (fun h => by rw [e1] at h; exact absurd h (by decide))

theorem flag_of_exit (q : Ctl) : FlagInv (step_epilogue (do_exit_train_to_normal q)) := by
  obtain ⟨-, -, d3, -, -, -, d7⟩ := do_exit_frame q
  exact flag_inv_epilogue_noop _ (flag_inv_exit q)
    (fun h => by rw [d3] at h; exact absurd h (by decide)) (fun _ => d7)

theorem step_flag_ring_checkpoint (evs : Nat → List Char) (s : Ctl) (hi : TrainInv s)
    (hf : FlagInv s) (hck : s.cur = N_ALL_RED_1 ∨ s.cur = N_ALL_RED_2) :
    FlagInv (SingleStep_SM evs s) := by
  obtain ⟨-, i2, -, -, -⟩ := hi
  have hm : s.in_train_mode = false := i2 (by rcases hck with h | h <;> rw [h] <;> decide)
  have hk := kept_at_completion evs s
  have hfq := flag_inv_at_completion evs s hf
  rw [step_at_ring_checkpoint evs s hck]
  generalize at_completion evs s = q at hk hfq
  by_cases hr : q.train_request = true
  · rw [if_pos hr]
    exact flag_of_enter q
  · rw [if_neg hr]
    by_cases hcl : (try_start_ped_if_safe q).1 = true
    · rw [if_pos hcl]
      obtain ⟨-, t2, -, -⟩ := try_start_claimed q hcl
      exact flag_of_ped (by rw [t2]; decide) (flag_inv_of_same (same_flags_try_start q) hfq)
    · rw [if_neg hcl, try_start_not_claimed q (by simpa using hcl)]
      exact flag_of_ring hm (kept_trans hk (kept_set_cur _ _))
        (by show is_normal_state (if s.cur = N_ALL_RED_1 then N_R1_RS_G else N_R3_RS_G) = true
            split_ifs <;> decide)
        (flag_inv_of_same (same_flags_set_cur _ _) hfq)

theorem step_flag_train_checkpoint (evs : Nat → List Char) (s : Ctl) (hi : TrainInv s)
    (hf : FlagInv s)
    (hck : s.cur = T_ALL_RED_A ∨ s.cur = T_ALL_RED_B ∨ s.cur = T_DECISION_ALL_RED_4) :
    FlagInv (SingleStep_SM evs s) := by
  obtain ⟨i1, -, i3, -, -⟩ := hi
  have hg : is_normal_green s.cur = false := by
    rcases hck with h | h | h <;> rw [h] <;> decide
  have hm : s.in_train_mode = true :=
    i1 (by rcases hck with h | h | h <;> rw [h] <;> decide)
  have ha := i3 hm
  have hk := kept_at_completion evs s
  have hqc := (at_completion_frame evs s hg).1
  have hfq := flag_inv_at_completion evs s hf
  rw [step_at_train_checkpoint evs s hck]
  generalize at_completion evs s = q at hk hqc hfq
  have hqa : q.train_active = true := hk.2.2 ha
  by_cases hx : should_exit_train_now q q.cur = true
  · rw [if_pos hx]
    exact flag_of_exit q
  · rw [if_neg hx]
    have hqp : q.train_clear_pending = false := by
      cases hp : q.train_clear_pending
      · rfl
      · exfalso
        apply hx
        rw [hqc]
        rcases hck with h | h | h <;> simp [should_exit_train_now, hp, h]
    by_cases hcl : (try_start_ped_if_safe q).1 = true
    · rw [if_pos hcl]
      obtain ⟨-, t2, -, -⟩ := try_start_claimed q hcl
      exact flag_of_ped (by rw [t2]; decide) (flag_inv_of_same (same_flags_try_start q) hfq)
    · rw [if_neg hcl, try_start_not_claimed q (by simpa using hcl)]
      by_cases hd : s.cur = T_DECISION_ALL_RED_4
      · rw [if_pos hd, if_pos (by simp [hqa, hqp])]
        exact flag_of_train hm (kept_trans hk (kept_set_cur _ _))
          (by show is_train_state T_R3_SN_LR_G_2 = true; decide)
          (flag_inv_of_same (same_flags_set_cur _ _) hfq)
      · rw [if_neg hd]
        refine flag_of_train hm (kept_trans hk (kept_set_cur _ _)) ?_
          (flag_inv_of_same (same_flags_set_cur _ _) hfq)
        show is_train_state (s.cur + 1) = true
        rcases hck with h | h | h
        · rw [h]; decide
        · rw [h]; decide
        · exact absurd h hd

theorem step_flag_plain (evs : Nat → List Char) (s : Ctl) (hi : TrainInv s) (hp : PedInv s)
    (hf : FlagInv s) (hck : ped_safe_checkpoint s.cur = false) :
    FlagInv (SingleStep_SM evs s) := by
  obtain ⟨i1, i2, i3, i4, i5⟩ := hi
  have p1 := step_prologue_cur evs s
  have hk : Kept s (step_switch evs (step_prologue evs s)) :=
    kept_trans (kept_prologue evs s) (step_switch_plain_kept evs _ (by rw [p1]; exact hck))
  have hfm : FlagInv (step_switch evs (step_prologue evs s)) :=
    flag_inv_of_same (step_switch_plain_flags evs _ (by rw [p1]; exact hck))
      (flag_inv_wait _ evs _ (flag_inv_prologue evs s hf))
  have hcur : (SingleStep_SM evs s).cur = (step_switch evs (step_prologue evs s)).cur :=
    step_epilogue_cur _
  have hform : SingleStep_SM evs s = step_epilogue (step_switch evs (step_prologue evs s)) :=
    rfl
  rw [hform]
  rcases i5 with hn | ht | hpd
  · -- a ring green or yellow
    have hle : s.cur ≤ 9 := by simpa [is_normal_state] using hn
    have hpl : s.cur = N_R3_RS_G ∨ s.cur = N_R3_RS_Y ∨ s.cur = N_R3_L_G ∨ s.cur = N_R3_L_Y ∨
        s.cur = N_R1_RS_G ∨ s.cur = N_R1_RS_Y ∨ s.cur = N_R1_L_G ∨ s.cur = N_R1_L_Y := by
      have h4 : s.cur ≠ 4 := fun h => by rw [h] at hck; exact absurd hck (by decide)
      have h9 : s.cur ≠ 9 := fun h => by rw [h] at hck; exact absurd hck (by decide)
      simp only [N_R3_RS_G, N_R3_RS_Y, N_R3_L_G, N_R3_L_Y, N_R1_RS_G, N_R1_RS_Y, N_R1_L_G,
        N_R1_L_Y]
      omega
    refine flag_of_ring (i2 hn) hk ?_ hfm
    rw [← hcur, ring_plain_step evs s hpl]
    split_ifs
    · decide
    · decide
    · rcases hpl with h | h | h | h | h | h | h | h <;> rw [h] <;> decide
  · -- a train green or yellow
    have hpl : s.cur = T_R3_NS_SRL_G_1 ∨ s.cur = T_R3_NS_SRL_Y_1 ∨ s.cur = T_R3_SN_LR_G_2 ∨
        s.cur = T_R3_SN_LR_Y_2 ∨ s.cur = T_R1_RESTRICT_G_3 ∨ s.cur = T_R1_RESTRICT_Y_3 := by
      simp only [is_train_state, Bool.and_eq_true, decide_eq_true_eq, T_R3_NS_SRL_G_1,
        T_DECISION_ALL_RED_4] at ht
      have h12 : s.cur ≠ 12 := fun h => by rw [h] at hck; exact absurd hck (by decide)
      have h15 : s.cur ≠ 15 := fun h => by rw [h] at hck; exact absurd hck (by decide)
      have h18 : s.cur ≠ 18 := fun h => by rw [h] at hck; exact absurd hck (by decide)
      simp only [T_R3_NS_SRL_G_1, T_R3_NS_SRL_Y_1, T_R3_SN_LR_G_2, T_R3_SN_LR_Y_2,
        T_R1_RESTRICT_G_3, T_R1_RESTRICT_Y_3]
      omega
    refine flag_of_train (i1 ht) hk ?_ hfm
    rw [← hcur, (train_plain_step evs s hpl).1]
    rcases hpl with h | h | h | h | h | h <;> rw [h] <;> decide
  · -- a pedestrian state
    simp only [is_ped_state, Bool.or_eq_true, beq_iff_eq] at hpd
    have hi4 := i4 (by simpa [is_ped_state] using hpd)
    rcases hpd with (h | h) | h
    · refine flag_of_ped ?_ hfm
      rw [← hcur, (step_ped_walk_flash evs s (Or.inl h)).1, h]; decide
    · refine flag_of_ped ?_ hfm
      rw [← hcur, (step_ped_walk_flash evs s (Or.inr h)).1, h]; decide
    · have hc := (step_ped_clear evs s h).1
      rw [hcur] at hc
      rcases hp.2 with r | r | r
      · refine flag_of_ring ?_ hk (by rw [hc, r]; decide) hfm
        rw [hi4, r]; decide
      · refine flag_of_ring ?_ hk (by rw [hc, r]; decide) hfm
        rw [hi4, r]; decide
      · have hm : s.in_train_mode = true := by rw [hi4, r]; decide
        exact flag_of_train hm hk (by rw [hc, r]; decide) hfm

/-- One step keeps the invariant of the train flags. -/
theorem step_flag_inv (evs : Nat → List Char) (s : Ctl) (hi : TrainInv s) (hp : PedInv s)
    (hf : FlagInv s) : FlagInv (SingleStep_SM evs s) := by
  by_cases h1 : s.cur = N_ALL_RED_1 ∨ s.cur = N_ALL_RED_2
  · exact step_flag_ring_checkpoint evs s hi hf h1
  · by_cases h2 : s.cur = T_ALL_RED_A ∨ s.cur = T_ALL_RED_B ∨ s.cur = T_DECISION_ALL_RED_4
    · exact step_flag_train_checkpoint evs s hi hf h2
    · refine step_flag_plain evs s hi hp hf ?_
      simp only [not_or] at h1 h2
      simp only [N_ALL_RED_1, N_ALL_RED_2, T_ALL_RED_A, T_ALL_RED_B, T_DECISION_ALL_RED_4]
        at h1 h2
      simp [ped_safe_checkpoint, h1.1, h1.2, h2.1, h2.2.1, h2.2.2]

theorem init_flag_inv : FlagInv init :=
  ⟨fun h => absurd h (by decide), fun _ h => absurd h (by decide)⟩

theorem run_flag_inv (evs : Nat → List Char) (n : Nat) : FlagInv (run evs n init) := by
  induction n with
  | zero => exact init_flag_inv
  | succ n ih =>
    rw [mq_run_succ]
    exact step_flag_inv evs _ (run_train_inv evs n) (run_ped_inv evs n) ih

theorem valid_of_class (c : Nat)
    (h : is_normal_state c = true ∨ is_train_state c = true ∨ is_ped_state c = true) :
    c ∈ all_states := by
  have hle : c ≤ 22 := by
    rcases h with h | h | h
    · have : c ≤ 9 := by simpa [is_normal_state] using h
      omega
    · simp only [is_train_state, Bool.and_eq_true, decide_eq_true_eq, T_R3_NS_SRL_G_1,
        T_DECISION_ALL_RED_4] at h
      omega
    · simp only [is_ped_state, Bool.or_eq_true, beq_iff_eq, P_WALK, P_FLASH,
        P_CLEAR_ALL_RED] at h
      omega
  interval_cases c <;> first | decide | (exfalso; revert h; decide)

end Fsm

namespace Fsm

/-- C36 (flag invariant of traffic_fsm.c): in every state reached from the initial state by
any number of calls of `SingleStep_SM` under any event schedule, `train_request` set implies
`train_active` set and `train_clear_pending` clear (also at the completion of the wait
inside the next step); the cursor is one of the 22 values of `state_t`; at a train state
`train_active` is set; and `in_ped_mode` is set exactly at a pedestrian state. Hence at
`T_DECISION_ALL_RED_4`, when the exit test and the pedestrian claim both fail, the test
`train_active && !train_clear_pending` holds, the cursor becomes `T_R3_SN_LR_G_2`, and the
default safe exit is not taken; and the cursor on which the `switch` dispatches is a valid
state, so its default case is not taken. -/
theorem C36_flag_invariant (evs : Nat → List Char) (n : Nat) :
    ((run evs n init).train_request = true →
      (run evs n init).train_active = true ∧ (run evs n init).train_clear_pending = false) ∧
    ((at_completion evs (run evs n init)).train_request = true →
      (at_completion evs (run evs n init)).train_active = true ∧
      (at_completion evs (run evs n init)).train_clear_pending = false) ∧
    (run evs n init).cur ∈ all_states ∧
    (is_train_state (run evs n init).cur = true → (run evs n init).train_active = true) ∧
    ((run evs n init).in_ped_mode = true ↔ is_ped_state (run evs n init).cur = true) ∧
    ((run evs n init).cur = T_DECISION_ALL_RED_4 →
      should_exit_train_now (at_completion evs (run evs n init))
        (at_completion evs (run evs n init)).cur = false →
      (try_start_ped_if_safe (at_completion evs (run evs n init))).1 = false →
      ((try_start_ped_if_safe (at_completion evs (run evs n init))).2.train_active &&
        !(try_start_ped_if_safe (at_completion evs (run evs n init))).2.train_clear_pending)
        = true ∧
      (SingleStep_SM evs (run evs n init)).cur = T_R3_SN_LR_G_2) ∧
    (step_prologue evs (run evs n init)).cur ∈ all_states := by
  have hf := run_flag_inv evs n
  have hi := run_train_inv evs n
  have hp := run_ped_inv evs n
  generalize run evs n init = s at hf hi hp
  have hv := valid_of_class s.cur hi.2.2.2.2
  refine ⟨hf.1, (flag_inv_at_completion evs s hf).1, hv, fun h => hi.2.2.1 (hi.1 h), hp.1,
    fun hc hx hcl => ?_, by rw [step_prologue_cur]; exact hv⟩
  have hck : s.cur = T_ALL_RED_A ∨ s.cur = T_ALL_RED_B ∨ s.cur = T_DECISION_ALL_RED_4 :=
    Or.inr (Or.inr hc)
  have hg : is_normal_green s.cur = false := by rw [hc]; decide
  have hm : s.in_train_mode = true := hi.1 (by rw [hc]; decide)
  have ha := hi.2.2.1 hm
  have hk := kept_at_completion evs s
  have hqc := (at_completion_frame evs s hg).1
  have hstep := step_at_train_checkpoint evs s hck
  generalize at_completion evs s = q at hk hqc hx hcl hstep
  have hqa : q.train_active = true := hk.2.2 ha
  have hqp : q.train_clear_pending = false := by
    cases hp : q.train_clear_pending
    · rfl
    · rw [hqc, hc] at hx
      simp [should_exit_train_now, hp] at hx
  rw [try_start_not_claimed q hcl]
  refine ⟨by simp [hqa, hqp], ?_⟩
  rw [hstep, step_epilogue_cur, if_neg (by simp [hx]), if_neg (by simp [hcl]), if_pos hc,
    try_start_not_claimed q hcl, if_pos (by simp [hqa, hqp])]

/-- C37: in every reachable state at a ring all-red (`N_ALL_RED_1` or `N_ALL_RED_2`), when
the all-red completes with `ped_request` set and `train_request` clear, the test
`train_active && !train_clear_pending` of `try_start_ped_if_safe` is false, so the 'train
running' rejection is not taken and the request is claimed: the cursor becomes `P_WALK`,
`ped_request` is cleared, `in_ped_mode` is set and `ped_return_state` is the next green of
the ring, `N_R1_RS_G` after `N_ALL_RED_1` and `N_R3_RS_G` after `N_ALL_RED_2`. -/
theorem C37_ring_all_red_claims_ped (evs : Nat → List Char) (n : Nat)
    (hck : (run evs n init).cur = N_ALL_RED_1 ∨ (run evs n init).cur = N_ALL_RED_2)
    (hp : (at_completion evs (run evs n init)).ped_request = true)
    (hr : (at_completion evs (run evs n init)).train_request = false) :
    ((at_completion evs (run evs n init)).train_active &&
      !(at_completion evs (run evs n init)).train_clear_pending) = false ∧
    (try_start_ped_if_safe (at_completion evs (run evs n init))).1 = true ∧
    (SingleStep_SM evs (run evs n init)).cur = P_WALK ∧
    (SingleStep_SM evs (run evs n init)).ped_request = false ∧
    (SingleStep_SM evs (run evs n init)).in_ped_mode = true ∧
    (SingleStep_SM evs (run evs n init)).ped_return_state =
      (if (run evs n init).cur = N_ALL_RED_1 then N_R1_RS_G else N_R3_RS_G) := by
  have hf := run_flag_inv evs n
  have hi := run_train_inv evs n
  generalize run evs n init = s at hf hi hck hp hr
  have hg : is_normal_green s.cur = false := by
    rcases hck with h | h <;> rw [h] <;> decide
  have hm : s.in_train_mode = false :=
    hi.2.1 (by rcases hck with h | h <;> rw [h] <;> decide)
  have hfq := flag_inv_at_completion evs s hf
  have hk := kept_at_completion evs s
  have hqc := (at_completion_frame evs s hg).1
  have hstep := step_at_ring_checkpoint evs s hck
  generalize at_completion evs s = q at hfq hk hqc hstep hp hr
  have hb : (q.train_active && !q.train_clear_pending) = false := by
    cases ha : q.train_active
    · rfl
    · cases hc : q.train_clear_pending
      · have := hfq.2 (by rw [hk.1, hm]) ha hc
        rw [hr] at this
        exact absurd this (by decide)
      · rfl
  have hcp : ped_safe_checkpoint q.cur = true := by
    rw [hqc]; rcases hck with h | h <;> rw [h] <;> decide
  have hcl : (try_start_ped_if_safe q).1 = true := by
    rcases try_start_ped_cases q with e | ⟨-, -, e⟩
    · exfalso
      have h1 : (try_start_ped_if_safe q).1 = false := by rw [e]
      revert h1
      unfold try_start_ped_if_safe
      simp [hp, hcp, hb]
    · rw [e]
  have he : (try_start_ped_if_safe q).2 =
      { q with ped_return_state := ped_return_of q, ped_request := false, cur := P_WALK,
               in_ped_mode := true,
               out := q.out ++ (if q.in_ped_mode then [] else [Out.note Notify.ped_begin]) } := by
    rcases try_start_ped_cases q with e | ⟨-, -, e⟩
    · rw [e] at hcl; exact absurd hcl (by simp)
    · rw [e]
  obtain ⟨e1, e2, e3, -⟩ := step_epilogue_ped (try_start_ped_if_safe q).2
  rw [hstep, if_neg (by simp [hr]), if_pos hcl, step_epilogue_cur, e1, e2, e3, he]
  refine ⟨hb, hcl, rfl, rfl, rfl, ?_⟩
  show ped_return_of q = _
  unfold ped_return_of
  rw [hb, hqc]
  simp

set_option maxRecDepth 100000 in
theorem C37_ring_all_red_claims_ped_witness :
    (run (fun i => if i = 3 then ['p'] else []) 4 init).cur = N_ALL_RED_1 ∧
    (at_completion (fun i => if i = 3 then ['p'] else []) (run (fun i => if i = 3 then ['p'] else []) 4 init)).ped_request = true ∧
    (SingleStep_SM (fun i => if i = 3 then ['p'] else []) (run (fun i => if i = 3 then ['p'] else []) 4 init)).cur = P_WALK ∧
    (SingleStep_SM (fun i => if i = 3 then ['p'] else []) (run (fun i => if i = 3 then ['p'] else []) 4 init)).ped_return_state = N_R1_RS_G := by
  have h1 : (run (fun i => if i = 3 then ['p'] else []) 4 init).cur = N_ALL_RED_1 := by decide
  have h2 : (at_completion (fun i => if i = 3 then ['p'] else []) (run (fun i => if i = 3 then ['p'] else []) 4 init)).ped_request = true := by decide
  have h3 : (at_completion (fun i => if i = 3 then ['p'] else []) (run (fun i => if i = 3 then ['p'] else []) 4 init)).train_request = false := by
    decide
  have h := C37_ring_all_red_claims_ped (fun i => if i = 3 then ['p'] else []) 4 (Or.inl h1) h2 h3
  refine ⟨h1, h2, h.2.2.1, ?_⟩
  rw [h.2.2.2.2.2, if_pos h1]

end Fsm

namespace Fsm

/-- The wait of a ring green entered with `train_request` already pending: the first
quantum's test aborts the wait, unless that quantum's poll brings a TrainCleared. -/
theorem wait_preempt_pending (evs : Nat → List Char) (s : Ctl) (t : Nat)
    (hov : t * 1000 < UINT_MOD) (ht : 0 < t)
    (hg : is_normal_green s.cur = true) (hm : s.in_train_mode = false)
    (hr : s.train_request = true) (hno : 'c' ∉ evs s.polls) :
    ∃ w, wait_seconds_interruptible t evs s = preempt_block w ∧ w.cur = s.cur ∧
      w.polls = s.polls + 1 ∧ w.slept_ms = s.slept_ms + 100 ∧ w.train_request = true ∧
      w.in_train_mode = false ∧ status_lines w.out = status_lines s.out ∧
      train_notes w.out = train_notes s.out := by
  have hsteps : t * 1000 % UINT_MOD / 100 = (10 * t - 1) + 1 := by
    rw [Nat.mod_eq_of_lt hov]; omega
  have hreq : (poll_events_from_mq evs (nanosleep_ms 100 s)).train_request = true := by
    unfold poll_events_from_mq
    exact foldl_request_true _ _ hno hr
  have hcnt := mq_quantum_counters evs 100 s
  have hk : Kept s (poll_events_from_mq evs (nanosleep_ms 100 s)) :=
    kept_trans (kept_nanosleep 100 s) (kept_poll evs _)
  have hu := poll_unpolled evs (nanosleep_ms 100 s)
  have h0 : t ≠ 0 := by omega
  refine ⟨poll_events_from_mq evs (nanosleep_ms 100 s), ?_, quantum_cur evs 100 s, hcnt.1,
    hcnt.2, hreq, by rw [quantum_in_train_mode, hm], ?_, hk.2.1⟩
  · simp [wait_seconds_interruptible, h0, hsteps, wait_loop, wait_quantum, hreq,
      quantum_in_train_mode, quantum_cur, hm, hg]
  · have hout : (poll_events_from_mq evs (nanosleep_ms 100 s)).out = s.out := by
      have := congrArg (fun p => p.2.2.2.2.2.2.2) hu
      simpa [unpolled, nanosleep_ms] using this
    rw [hout]

theorem preempt_block_lines (w : Ctl) :
    status_lines (preempt_block w).out = status_lines w.out ∧
    (preempt_block w).train_request = w.train_request := by
  unfold preempt_block
  simp only []
  split_ifs <;> simp [notify, status_lines, List.filterMap_append, Out.asLine]

/-- One step at a ring green entered with `train_request` pending and `in_train_mode`
clear, when neither the poll before the wait nor the poll of the first quantum brings a
TrainCleared: the green's line is printed, the wait is aborted after one quantum, and the
cursor is the matching yellow with the preempt flag set. -/
theorem green_pending_step (evs : Nat → List Char) (s : Ctl)
    (hg : is_normal_green s.cur = true) (hm : s.in_train_mode = false)
    (hr : s.train_request = true) (h0 : 'c' ∉ evs s.polls) (h1 : 'c' ∉ evs (s.polls + 1)) :
    status_lines (SingleStep_SM evs s).out = status_lines s.out ++ [status_line s.cur] ∧
    (SingleStep_SM evs s).cur = s.cur + 1 ∧
    (SingleStep_SM evs s).cur = normal_green_to_yellow s.cur ∧
    (SingleStep_SM evs s).slept_ms = s.slept_ms + 100 ∧
    (SingleStep_SM evs s).polls = s.polls + 2 ∧
    (SingleStep_SM evs s).train_preempt_to_allred = true ∧
    (SingleStep_SM evs s).train_request = true ∧
    (SingleStep_SM evs s).in_train_mode = false ∧
    train_notes (SingleStep_SM evs s).out = train_notes s.out := by
  obtain ⟨p1, p2, p3, p4, -⟩ := step_prologue_frame evs s
  have p5 := step_prologue_request_kept evs s hr h0
  have p6 := (step_prologue_lines evs s).1
  have p7 := (kept_prologue evs s).2.1
  have hpl : s.cur = N_R3_RS_G ∨ s.cur = N_R3_RS_Y ∨ s.cur = N_R3_L_G ∨ s.cur = N_R3_L_Y ∨
      s.cur = N_R1_RS_G ∨ s.cur = N_R1_RS_Y ∨ s.cur = N_R1_L_G ∨ s.cur = N_R1_L_Y := by
    simp [is_normal_green] at hg
    rcases hg with ((h | h) | h) | h <;> simp [h]
  have hny : ¬ (s.cur = N_R3_RS_Y ∨ s.cur = N_R1_RS_Y) := by
    simp [is_normal_green] at hg
    rcases hg with ((h | h) | h) | h <;> simp [h]
  have hov : duration_of s.cur * 1000 < UINT_MOD := by
    simp [is_normal_green] at hg
    rcases hg with ((h | h) | h) | h <;> rw [h] <;> decide
  have hpos : 0 < duration_of s.cur := by
    simp [is_normal_green] at hg
    rcases hg with ((h | h) | h) | h <;> rw [h] <;> decide
  obtain ⟨w, hw, w1, w2, w3, w4, w5, w6, w7⟩ := wait_preempt_pending evs (step_prologue evs s)
    (duration_of s.cur) hov hpos (by rw [p1]; exact hg) (by rw [p4]; exact hm) p5
    (by rw [p2]; exact h1)
  obtain ⟨b1, b2, b3, b4, b5⟩ := preempt_block_fields w
  obtain ⟨b6, b7⟩ := preempt_block_lines w
  have b8 := (kept_preempt_block w).2.1
  have hsw : step_switch evs (step_prologue evs s) =
      { preempt_block w with cur := s.cur + 1 } := by
    rw [step_switch_ring_plain_eq evs _ (by rw [p1]; exact hpl), p1, hw,
      if_neg (fun h => hny h.1)]
  have hmode : (step_switch evs (step_prologue evs s)).in_train_mode = false := by
    rw [hsw]; show (preempt_block w).in_train_mode = false; rw [b5, w5]
  have hcur : (step_switch evs (step_prologue evs s)).cur = s.cur + 1 := by rw [hsw]
  have hnoop : SingleStep_SM evs s = step_switch evs (step_prologue evs s) := by
    show step_epilogue _ = _
    refine step_epilogue_noop _ (fun h => ?_) (fun _ => hmode)
    exfalso
    rw [hcur] at h
    simp [is_normal_green] at hg
    rcases hg with ((h2 | h2) | h2) | h2 <;> rw [h2] at h <;> revert h <;> decide
  rw [hnoop, hsw]
  refine ⟨?_, rfl, ?_, ?_, ?_, b4, ?_, ?_, ?_⟩
  · show status_lines (preempt_block w).out = _
    rw [b6, w6, p6]
  · show s.cur + 1 = _
    rw [(is_normal_green_succ hg).1]
  · show (preempt_block w).slept_ms = _
    rw [b2, w3, p3]
  · show (preempt_block w).polls = _
    rw [b3, w2, p2]
  · show (preempt_block w).train_request = _
    rw [b7, w4]
  · show (preempt_block w).in_train_mode = _
    rw [b5, w5]
  · show train_notes (preempt_block w).out = _
    rw [b8, w7, p7]

/-- One step at a forced through-yellow (`train_request` and the preempt flag set) during
which no TrainCleared is received: the ring jumps to the all-red ahead. -/
theorem forced_yellow_step (evs : Nat → List Char) (s : Ctl)
    (hc : s.cur = N_R3_RS_Y ∨ s.cur = N_R1_RS_Y)
    (hr : s.train_request = true) (hf : s.train_preempt_to_allred = true)
    (hno : ∀ j, j < 1 + 10 * T_YELLOW → 'c' ∉ evs (s.polls + j)) :
    (SingleStep_SM evs s).cur = (if s.cur = N_R3_RS_Y then N_ALL_RED_1 else N_ALL_RED_2) ∧
    (SingleStep_SM evs s).polls = s.polls + (1 + 10 * T_YELLOW) ∧
    (SingleStep_SM evs s).train_request = true := by
  obtain ⟨p1, p2, p3, p4, -⟩ := step_prologue_frame evs s
  have p5 := step_prologue_request_kept evs s hr (by simpa using hno 0 (by decide))
  have p6 := step_prologue_flag evs s
  have hg : is_normal_green s.cur = false := by
    rcases hc with h | h <;> rw [h] <;> decide
  have hd : duration_of s.cur = T_YELLOW := by
    rcases hc with h | h <;> rw [h] <;> decide
  have hpl : s.cur = N_R3_RS_G ∨ s.cur = N_R3_RS_Y ∨ s.cur = N_R3_L_G ∨ s.cur = N_R3_L_Y ∨
      s.cur = N_R1_RS_G ∨ s.cur = N_R1_RS_Y ∨ s.cur = N_R1_L_G ∨ s.cur = N_R1_L_Y := by
    rcases hc with h | h <;> simp [h]
  have hW := wait_request_kept evs T_YELLOW (step_prologue evs s) (by decide)
    (by rw [p1]; exact hg) p5 (fun j hj => by
      rw [p2, show s.polls + 1 + j = s.polls + (1 + j) by omega]
      exact hno (1 + j) (by omega))
  obtain ⟨-, i2, -, -, -⟩ := wait_idle evs T_YELLOW (step_prologue evs s) (by decide)
    (by rw [p1]; exact hg)
  have hP := wait_polled T_YELLOW evs (step_prologue evs s) (by rw [p1]; exact hg)
  obtain ⟨e1, e2, -, -, -, e6, -⟩ := step_epilogue_frame (step_switch evs (step_prologue evs s))
  have hsw := step_switch_ring_plain_eq evs (step_prologue evs s) (by rw [p1]; exact hpl)
  rw [p1, hd] at hsw
  refine ⟨?_, ?_, ?_⟩
  · rw [ring_plain_step evs s hpl, hd, if_pos ⟨hc, hW, by rw [hP.2.2.2.1, p6, hf]⟩]
  · show (step_epilogue _).polls = _
    rw [e2, hsw]
    show (wait_seconds_interruptible T_YELLOW evs (step_prologue evs s)).polls = _
    rw [i2, p2]; omega
  · show (step_epilogue _).train_request = _
    rw [e6, hsw]
    exact hW

/-- The request is still pending at the completion of a ring all-red during which no
TrainCleared is received. -/
theorem at_completion_request_kept (evs : Nat → List Char) (s : Ctl)
    (hc : s.cur = N_ALL_RED_1 ∨ s.cur = N_ALL_RED_2) (hr : s.train_request = true)
    (hno : ∀ j, j < 1 + 10 * T_ALL_RED + 1 → 'c' ∉ evs (s.polls + j)) :
    (at_completion evs s).train_request = true := by
  obtain ⟨p1, p2, p3, p4, -⟩ := step_prologue_frame evs s
  have p5 := step_prologue_request_kept evs s hr (by simpa using hno 0 (by decide))
  have hg : is_normal_green s.cur = false := by
    rcases hc with h | h <;> rw [h] <;> decide
  have hd : duration_of s.cur = T_ALL_RED := by
    rcases hc with h | h <;> rw [h] <;> decide
  unfold at_completion
  simp only []
  rw [if_pos (by rw [p1]; exact hc)]
  have q1 : ({ step_prologue evs s with train_preempt_to_allred := false } : Ctl).cur = s.cur :=
    p1
  have q2 : ({ step_prologue evs s with train_preempt_to_allred := false } : Ctl).polls =
    s.polls + 1 := p2
  have q5 : ({ step_prologue evs s with train_preempt_to_allred := false } : Ctl).train_request
    = true := p5
  generalize ({ step_prologue evs s with train_preempt_to_allred := false } : Ctl) = p0
    at q1 q2 q5 ⊢
  rw [p1, hd]
  have hW := wait_request_kept evs T_ALL_RED p0 (by decide) (by rw [q1]; exact hg) q5
    (fun j hj => by
      rw [q2, show s.polls + 1 + j = s.polls + (1 + j) by omega]
      exact hno (1 + j) (by omega))
  obtain ⟨-, i2, -, -, -⟩ := wait_idle evs T_ALL_RED p0 (by decide) (by rw [q1]; exact hg)
  unfold poll_events_from_mq
  refine foldl_request_true _ _ ?_ hW
  show 'c' ∉ evs (wait_seconds_interruptible T_ALL_RED evs p0).polls
  rw [i2, q2, show s.polls + 1 + 10 * T_ALL_RED = s.polls + (1 + 10 * T_ALL_RED) by omega]
  exact hno _ (by omega)

/-- Outside the train layer, a step that does not start at a ring all-red does not enter
the train layer. -/
theorem enter_only_at_ring_all_red (evs : Nat → List Char) (s : Ctl) (hi : TrainInv s)
    (hp : PedInv s) (hm : s.in_train_mode = false)
    (hne : ¬ (s.cur = N_ALL_RED_1 ∨ s.cur = N_ALL_RED_2)) :
    (SingleStep_SM evs s).in_train_mode = false := by
  obtain ⟨hi2, hts⟩ := step_train_inv evs s hi hp
  obtain ⟨i1, i2, i3, i4, i5⟩ := hi
  rcases i5 with hn | ht | hpd
  · have hle : s.cur ≤ 9 := by simpa [is_normal_state] using hn
    have hpl : s.cur = N_R3_RS_G ∨ s.cur = N_R3_RS_Y ∨ s.cur = N_R3_L_G ∨ s.cur = N_R3_L_Y ∨
        s.cur = N_R1_RS_G ∨ s.cur = N_R1_RS_Y ∨ s.cur = N_R1_L_G ∨ s.cur = N_R1_L_Y := by
      simp only [N_ALL_RED_1, N_ALL_RED_2, not_or] at hne
      simp only [N_R3_RS_G, N_R3_RS_Y, N_R3_L_G, N_R3_L_Y, N_R1_RS_G, N_R1_RS_Y, N_R1_L_G,
        N_R1_L_Y]
      omega
    refine hi2.2.1 ?_
    rw [ring_plain_step evs s hpl]
    split_ifs
    · decide
    · decide
    · rcases hpl with h | h | h | h | h | h | h | h <;> rw [h] <;> decide
  · rw [i1 ht] at hm
    exact absurd hm (by decide)
  · rw [hts.2 (Or.inl hpd), hm]

end Fsm

namespace Fsm

/-- C38: in every reachable state at `P_CLEAR_ALL_RED`, for every event schedule, the step
moves the cursor to `ped_return_state`, which is one of `N_R1_RS_G`, `N_R3_RS_G` and
`T_R3_SN_LR_G_2`, and neither changes `in_train_mode` nor prints TRAIN BEGIN, whatever
`train_request` is. When the return state is a ring green and `train_request` is pending
after that step, and no TrainCleared is received in the next two polls (the poll before the
green's wait and the poll of its first quantum), the next step prints the green's line,
sleeps one 100 ms quantum, and leaves the cursor at the matching yellow with
`train_preempt_to_allred` set and `in_train_mode` still clear; and when no TrainCleared is
received in the 65 polls from the start of the green, the step after that reaches the ring
all-red ahead, still outside the train layer, and the step at that all-red enters the train
layer at `T_R3_NS_SRL_G_1`. In every run, a step that sets `in_train_mode` starts at a ring
all-red. -/
theorem C38_ped_clear_returns (evs : Nat → List Char) (n : Nat)
    (hc : (run evs n init).cur = P_CLEAR_ALL_RED) :
    (run evs (n + 1) init).cur = (run evs n init).ped_return_state ∧
    (run evs n init).ped_return_state ∈ [N_R1_RS_G, N_R3_RS_G, T_R3_SN_LR_G_2] ∧
    (run evs (n + 1) init).in_train_mode = (run evs n init).in_train_mode ∧
    train_notes (run evs (n + 1) init).out = train_notes (run evs n init).out ∧
    (((run evs n init).ped_return_state = N_R1_RS_G ∨
        (run evs n init).ped_return_state = N_R3_RS_G) →
      (run evs (n + 1) init).train_request = true →
      'c' ∉ evs (run evs (n + 1) init).polls →
      'c' ∉ evs ((run evs (n + 1) init).polls + 1) →
      (run evs (n + 1) init).in_train_mode = false ∧
      status_lines (run evs (n + 2) init).out =
        status_lines (run evs (n + 1) init).out ++
          [status_line (run evs n init).ped_return_state] ∧
      (run evs (n + 2) init).cur = (run evs n init).ped_return_state + 1 ∧
      (run evs (n + 2) init).cur = normal_green_to_yellow (run evs n init).ped_return_state ∧
      (run evs (n + 2) init).slept_ms = (run evs (n + 1) init).slept_ms + 100 ∧
      (run evs (n + 2) init).polls = (run evs (n + 1) init).polls + 2 ∧
      (run evs (n + 2) init).train_preempt_to_allred = true ∧
      (run evs (n + 2) init).in_train_mode = false ∧
      train_notes (run evs (n + 2) init).out = train_notes (run evs n init).out ∧
      ((∀ j, j < 65 → 'c' ∉ evs ((run evs (n + 1) init).polls + j)) →
        (run evs (n + 3) init).cur =
          (if (run evs n init).ped_return_state = N_R3_RS_G then N_ALL_RED_1
            else N_ALL_RED_2) ∧
        (run evs (n + 3) init).in_train_mode = false ∧
        (run evs (n + 4) init).cur = T_R3_NS_SRL_G_1 ∧
        (run evs (n + 4) init).in_train_mode = true)) ∧
    (∀ m, (run evs m init).in_train_mode = false →
      (run evs (m + 1) init).in_train_mode = true →
      (run evs m init).cur = N_ALL_RED_1 ∨ (run evs m init).cur = N_ALL_RED_2) := by
  have hp := run_ped_inv evs n
  have hi := run_train_inv evs n
  have hi1 := run_train_inv evs (n + 1)
  have hi3 := run_train_inv evs (n + 3)
  have hi4 := run_train_inv evs (n + 4)
  have hstep := (step_train_inv evs _ hi hp).2
  have hcl := (step_ped_clear evs _ hc).1
  have e4 : run evs (n + 4) init = SingleStep_SM evs (run evs (n + 3) init) := mq_run_succ _ _ _
  have e3 : run evs (n + 3) init = SingleStep_SM evs (run evs (n + 2) init) := mq_run_succ _ _ _
  have e2 : run evs (n + 2) init = SingleStep_SM evs (run evs (n + 1) init) := mq_run_succ _ _ _
  have e1 : run evs (n + 1) init = SingleStep_SM evs (run evs n init) := mq_run_succ _ _ _
  have hped : is_ped_state (run evs n init).cur = true := by rw [hc]; decide
  have hmode := hstep.2 (Or.inl hped)
  have hnotes : train_notes (SingleStep_SM evs (run evs n init)).out =
      train_notes (run evs n init).out := by
    rw [hstep.1, hmode]
    cases (run evs n init).in_train_mode <;> simp
  rw [← e1] at hcl hmode hnotes
  refine ⟨hcl, ?_, hmode, hnotes, fun hret hr h0 h1 => ?_, fun m hm hm1 => ?_⟩
  · rcases hp.2 with r | r | r <;> rw [r] <;> decide
  · have hg : is_normal_green (run evs (n + 1) init).cur = true := by
      rw [hcl]; rcases hret with r | r <;> rw [r] <;> decide
    have hm1 : (run evs (n + 1) init).in_train_mode = false :=
      hi1.2.1 (by rw [hcl]; rcases hret with r | r <;> rw [r] <;> decide)
    obtain ⟨g1, g2, g3, g4, g5, g6, g7, g8, g9⟩ :=
      green_pending_step evs (run evs (n + 1) init) hg hm1 hr h0 h1
    rw [← e2, hcl] at g1 g2 g3
    rw [← e2] at g4 g5 g6 g7 g8 g9
    refine ⟨hm1, g1, g2, g3, g4, g5, g6, g8, by rw [g9, hnotes], fun hno => ?_⟩
    have hy : (run evs (n + 2) init).cur = N_R3_RS_Y ∨ (run evs (n + 2) init).cur = N_R1_RS_Y := by
      rw [g2]; rcases hret with r | r <;> rw [r] <;> decide
    obtain ⟨y1, y2, y3⟩ := forced_yellow_step evs (run evs (n + 2) init) hy g7 g6
      (fun j hj => by
        rw [g5, show (run evs (n + 1) init).polls + 2 + j =
          (run evs (n + 1) init).polls + (2 + j) by omega]
        exact hno (2 + j) (by simp only [T_YELLOW] at hj; omega))
    rw [← e3] at y1 y2 y3
    have hcur3 : (run evs (n + 3) init).cur =
        (if (run evs n init).ped_return_state = N_R3_RS_G then N_ALL_RED_1 else N_ALL_RED_2) := by
      rw [y1, g2]
      rcases hret with r | r <;> rw [r] <;> decide
    have har : (run evs (n + 3) init).cur = N_ALL_RED_1 ∨
        (run evs (n + 3) init).cur = N_ALL_RED_2 := by
      rw [hcur3]; split_ifs
      · exact Or.inl rfl
      · exact Or.inr rfl
    have hq := at_completion_request_kept evs (run evs (n + 3) init) har y3
      (fun j hj => by
        rw [y2, g5, show (run evs (n + 1) init).polls + 2 + (1 + 10 * T_YELLOW) + j =
          (run evs (n + 1) init).polls + (43 + j) by simp only [T_YELLOW]; omega]
        exact hno (43 + j) (by simp only [T_ALL_RED] at hj; omega))
    have hcur4 : (run evs (n + 4) init).cur = T_R3_NS_SRL_G_1 := by
      rw [e4]
      rcases ring_checkpoint_cur evs (run evs (n + 3) init) har with ⟨-, h⟩ | ⟨h, -⟩
      · exact h
      · rw [hq] at h; exact absurd h (by decide)
    refine ⟨hcur3, hi3.2.1 ?_, hcur4, hi4.1 (by rw [hcur4]; decide)⟩
    rcases har with h | h <;> rw [h] <;> decide
  · by_contra hne
    rw [mq_run_succ, enter_only_at_ring_all_red evs _ (run_train_inv evs m) (run_ped_inv evs m)
      hm hne] at hm1
    exact absurd hm1 (by decide)

end Fsm

namespace Fsm

set_option maxRecDepth 1000000 in
theorem C38_ped_clear_returns_witness :
    (run (fun i => if i = 3 then ['p'] else if i = 430 then ['t'] else []) 7 init).cur
      = P_CLEAR_ALL_RED ∧
    (run (fun i => if i = 3 then ['p'] else if i = 430 then ['t'] else []) 8 init).cur
      = N_R1_RS_G ∧
    (run (fun i => if i = 3 then ['p'] else if i = 430 then ['t'] else []) 9 init).cur
      = N_R1_RS_Y ∧
    (run (fun i => if i = 3 then ['p'] else if i = 430 then ['t'] else []) 9 init).slept_ms
      = (run (fun i => if i = 3 then ['p'] else if i = 430 then ['t'] else []) 8 init).slept_ms
        + 100 ∧
    (run (fun i => if i = 3 then ['p'] else if i = 430 then ['t'] else []) 10 init).cur
      = N_ALL_RED_2 ∧
    (run (fun i => if i = 3 then ['p'] else if i = 430 then ['t'] else []) 11 init).cur
      = T_R3_NS_SRL_G_1 := by
  have hc : (run (fun i => if i = 3 then ['p'] else if i = 430 then ['t'] else []) 7 init).cur
      = P_CLEAR_ALL_RED := by decide
  have hret : (run (fun i => if i = 3 then ['p'] else if i = 430 then ['t'] else []) 7
      init).ped_return_state = N_R1_RS_G := by decide
  have hr : (run (fun i => if i = 3 then ['p'] else if i = 430 then ['t'] else []) 8
      init).train_request = true := by decide
  have hno : ∀ i, 'c' ∉ (fun i => if i = 3 then ['p'] else if i = 430 then ['t'] else []) i := by
    intro i
    show 'c' ∉ (if i = 3 then ['p'] else if i = 430 then ['t'] else [])
    split_ifs <;> decide
  have h := C38_ped_clear_returns
    (fun i => if i = 3 then ['p'] else if i = 430 then ['t'] else []) 7 hc
  obtain ⟨h1, -, -, -, h5, -⟩ := h
  obtain ⟨-, -, g3, -, g5, -, -, -, -, g10⟩ := h5 (Or.inl hret) hr (hno _) (hno _)
  obtain ⟨k1, -, k3, -⟩ := g10 (fun j _ => hno _)
  rw [hret] at h1 g3 k1
  exact ⟨hc, h1, g3, g5, k1, k3⟩

end Fsm

namespace Demo1

theorem main_iter_ring (evs : Nat → Option Char) (s : Ctl) (h : s.in_train_state = false) :
    main_iter evs s = normal_step evs s := by
  simp [main_iter, h]

/-- A ring step taken at a yellow: the layer is kept, and the cursor becomes a safe all-red,
or the turn-green after a through-yellow. -/
theorem normal_step_yellow_ns (evs : Nat → Option Char) (s : Ctl)
    (hy : s.ns = N_R3_RS_Y ∨ s.ns = N_R3_L_Y ∨ s.ns = N_R1_RS_Y ∨ s.ns = N_R1_L_Y) :
    (normal_step evs s).in_train_state = s.in_train_state ∧
    ((normal_step evs s).ns = N_ALL_RED_1 ∨ (normal_step evs s).ns = N_ALL_RED_2 ∨
      (s.ns = N_R3_RS_Y ∧ (normal_step evs s).ns = N_R3_L_G) ∨
      (s.ns = N_R1_RS_Y ∧ (normal_step evs s).ns = N_R1_L_G)) := by
  obtain ⟨st, hst⟩ := find_norm_lt (show s.ns < 12 by
    rcases hy with h | h | h | h <;> rw [h] <;> decide)
  obtain ⟨hmem, hid⟩ := find_norm_some hst
  obtain ⟨y1, y2, y3, y4, hfl⟩ := NORM_yellow_facts st hmem
  obtain ⟨f1, f2, f3⟩ := hfl (by rw [hid]; exact hy)
  obtain ⟨w, hw, -, -, hstep⟩ := normal_step_yellow evs s st hst hy
  have e0 : ped_try_start_at_safe_allred st.is_safe_allred s = s := by
    simp [ped_try_start_at_safe_allred, f2]
  have hP := wait_poll_loop_polled evs (10 * st.dur_s) (print_normal_line s.ns st s)
  rw [e0] at hw
  rw [hstep]
  refine ⟨?_, ?_⟩
  · show w.in_train_state = _
    rw [hw, hP.1]; rfl
  · show (if (w.train_request && w.train_preempt_to_allred) = true then _ else _) = _ ∨ _
    rcases hy with h | h | h | h
    · rw [(y1 (by rw [hid]; exact h)).1]
      split_ifs <;> simp [h]
    · rw [(y2 (by rw [hid]; exact h)).1]
      split_ifs <;> simp [h]
    · rw [(y3 (by rw [hid]; exact h)).1]
      split_ifs <;> simp [h]
    · rw [(y4 (by rw [hid]; exact h)).1]
      split_ifs <;> simp [h]

/-- From the start of a turn-green the ring cursor is at a safe all-red after two steps. -/
theorem turn_green_to_all_red (evs : Nat → Option Char) (s : Ctl)
    (hl : s.in_train_state = false) (hg : s.ns = N_R3_L_G ∨ s.ns = N_R1_L_G) :
    (run evs 1 s).in_train_state = false ∧ (run evs 2 s).in_train_state = false ∧
    ((run evs 2 s).ns = N_ALL_RED_1 ∨ (run evs 2 s).ns = N_ALL_RED_2) := by
  obtain ⟨st, hst⟩ := find_norm_lt (show s.ns < 12 by
    rcases hg with h | h <;> rw [h] <;> decide)
  obtain ⟨hmem, hid⟩ := find_norm_some hst
  have hgs : st.is_green = true := by
    rcases hg with h | h <;> rw [h] at hst <;> cases hst <;> rfl
  obtain ⟨n1, n2, -⟩ := normal_step_green evs s st hst hgs
  have hty : st.to_yellow = s.ns + 1 := by
    rw [(NORM_green_facts st hmem hgs).2.1, hid]
  have e1 : run evs 1 s = normal_step evs s := main_iter_ring evs s hl
  have hl1 : (normal_step evs s).in_train_state = false := by rw [n2, hl]
  have e2 : run evs 2 s = normal_step evs (normal_step evs s) := by
    show run evs 1 (main_iter evs s) = _
    rw [main_iter_ring evs s hl]
    exact main_iter_ring evs _ hl1
  have hy : (normal_step evs s).ns = N_R3_L_Y ∨ (normal_step evs s).ns = N_R1_L_Y := by
    rw [n1, hty]; rcases hg with h | h <;> rw [h]
    · exact Or.inl rfl
    · exact Or.inr rfl
  obtain ⟨z1, z2⟩ := normal_step_yellow_ns evs (normal_step evs s)
    (by rcases hy with h | h
        · exact Or.inr (Or.inl h)
        · exact Or.inr (Or.inr (Or.inr h)))
  rw [e1, e2]
  refine ⟨hl1, by rw [z1, hl1], ?_⟩
  rcases z2 with h | h | ⟨h, -⟩ | ⟨h, -⟩
  · exact Or.inl h
  · exact Or.inr h
  · rcases hy with h2 | h2 <;> rw [h2] at h <;> exact absurd h (by decide)
  · rcases hy with h2 | h2 <;> rw [h2] at h <;> exact absurd h (by decide)

theorem run_add (evs : Nat → Option Char) (a b : Nat) (s : Ctl) :
    run evs (a + b) s = run evs b (run evs a s) := by
  induction a generalizing s with
  | zero => simp [run]
  | succ a ih =>
    rw [show a + 1 + b = (a + b) + 1 by omega]
    show run evs (a + b) (main_iter evs s) = run evs b (run evs a (main_iter evs s))
    exact ih _

/-- From the start of any ring green the ring cursor is at a safe all-red after two or four
steps, and the controller is in the ring all the way. -/
theorem green_to_all_red (evs : Nat → Option Char) (s : Ctl)
    (hl : s.in_train_state = false) (hg : is_normal_green s.ns = true) :
    ∃ k, 1 ≤ k ∧ k ≤ 4 ∧ (∀ i, i ≤ k → (run evs i s).in_train_state = false) ∧
      ((run evs k s).ns = N_ALL_RED_1 ∨ (run evs k s).ns = N_ALL_RED_2) := by
  obtain ⟨st, hst, hgs⟩ := is_normal_green_find hg
  obtain ⟨hmem, hid⟩ := find_norm_some hst
  obtain ⟨g1, g2, -⟩ := NORM_green_facts st hmem hgs
  rw [hid] at g1 g2
  have two : ∀ (i : Nat) (t : Ctl), i ≤ 2 → t.in_train_state = false →
      (run evs 1 t).in_train_state = false → (run evs 2 t).in_train_state = false →
      (run evs i t).in_train_state = false := by
    intro i t hi h0 h1 h2
    interval_cases i
    · exact h0
    · exact h1
    · exact h2
  rcases g1 with h | h | h | h
  · -- through-green of R3
    obtain ⟨n1, n2, -⟩ := normal_step_green evs s st hst hgs
    have e1 : run evs 1 s = normal_step evs s := main_iter_ring evs s hl
    have hl1 : (normal_step evs s).in_train_state = false := by rw [n2, hl]
    have hy : (normal_step evs s).ns = N_R3_RS_Y := by rw [n1, g2, h]; rfl
    obtain ⟨z1, z2⟩ := normal_step_yellow_ns evs (normal_step evs s) (Or.inl hy)
    have e2 : run evs 2 s = normal_step evs (normal_step evs s) := by
      show run evs 1 (main_iter evs s) = _
      rw [main_iter_ring evs s hl]
      exact main_iter_ring evs _ hl1
    have hl2 : (run evs 2 s).in_train_state = false := by rw [e2, z1, hl1]
    rw [← e2] at z2
    rcases z2 with z | z | ⟨-, z⟩ | ⟨z, -⟩
    · exact ⟨2, by omega, by omega, fun i hi => two i s hi hl (by rw [e1]; exact hl1) hl2,
        Or.inl z⟩
    · exact ⟨2, by omega, by omega, fun i hi => two i s hi hl (by rw [e1]; exact hl1) hl2,
        Or.inr z⟩
    · obtain ⟨t1, t2, t3⟩ := turn_green_to_all_red evs (run evs 2 s) hl2 (Or.inl z)
      rw [← run_add] at t1 t2 t3
      refine ⟨4, by omega, by omega, fun i hi => ?_, t3⟩
      by_cases h2 : i ≤ 2
      · exact two i s h2 hl (by rw [e1]; exact hl1) hl2
      · obtain rfl | rfl : i = 3 ∨ i = 4 := by omega
        · exact t1
        · exact t2
    · rw [hy] at z; exact absurd z (by decide)
  · obtain ⟨t1, t2, t3⟩ := turn_green_to_all_red evs s hl (Or.inl h)
    exact ⟨2, by omega, by omega, fun i hi => two i s hi hl t1 t2, t3⟩
  · -- through-green of R1
    obtain ⟨n1, n2, -⟩ := normal_step_green evs s st hst hgs
    have e1 : run evs 1 s = normal_step evs s := main_iter_ring evs s hl
    have hl1 : (normal_step evs s).in_train_state = false := by rw [n2, hl]
    have hy : (normal_step evs s).ns = N_R1_RS_Y := by rw [n1, g2, h]; rfl
    obtain ⟨z1, z2⟩ := normal_step_yellow_ns evs (normal_step evs s) (Or.inr (Or.inr (Or.inl hy)))
    have e2 : run evs 2 s = normal_step evs (normal_step evs s) := by
      show run evs 1 (main_iter evs s) = _
      rw [main_iter_ring evs s hl]
      exact main_iter_ring evs _ hl1
    have hl2 : (run evs 2 s).in_train_state = false := by rw [e2, z1, hl1]
    rw [← e2] at z2
    rcases z2 with z | z | ⟨z, -⟩ | ⟨-, z⟩
    · exact ⟨2, by omega, by omega, fun i hi => two i s hi hl (by rw [e1]; exact hl1) hl2,
        Or.inl z⟩
    · exact ⟨2, by omega, by omega, fun i hi => two i s hi hl (by rw [e1]; exact hl1) hl2,
        Or.inr z⟩
    · rw [hy] at z; exact absurd z (by decide)
    · obtain ⟨t1, t2, t3⟩ := turn_green_to_all_red evs (run evs 2 s) hl2 (Or.inr z)
      rw [← run_add] at t1 t2 t3
      refine ⟨4, by omega, by omega, fun i hi => ?_, t3⟩
      by_cases h2 : i ≤ 2
      · exact two i s h2 hl (by rw [e1]; exact hl1) hl2
      · obtain rfl | rfl : i = 3 ∨ i = 4 := by omega
        · exact t1
        · exact t2
  · obtain ⟨t1, t2, t3⟩ := turn_green_to_all_red evs s hl (Or.inr h)
    exact ⟨2, by omega, by omega, fun i hi => two i s hi hl t1 t2, t3⟩

end Demo1

namespace Demo1

set_option maxRecDepth 100000 in
/-- C33 (ring structure of demo1.c): following the `next` pointers from any of the 12 phases
visits the 12 phases once each, phase `p + k` (mod 12) after `k` steps, and is back at `p`
after 12 steps; the table has exactly two safe-all-red phases, `N_ALL_RED_1` and
`N_ALL_RED_2`; the `next` of each is a preparatory-yellow whose `next` is the through-green
(RS-G) of the approach that showed PRE-Y, R3 after `N_ALL_RED_1` and R1 after `N_ALL_RED_2`;
and for every event schedule, from the start of any ring green the cursor is at a safe
all-red after at least 1 and at most 4 ring steps, without leaving the ring in between, and
the step that follows prints that phase's line, all RED. -/
theorem C33_ring_structure :
    (∀ p, p < 12 → ring_next^[12] p = p ∧
      (List.range 12).map (fun k => ring_next^[k] p) =
        (List.range 12).map (fun k => (p + k) % 12)) ∧
    (NORM.filter (fun d => d.is_safe_allred)).map (fun d => d.id)
      = [N_ALL_RED_1, N_ALL_RED_2] ∧
    (∀ ar ∈ NORM, ar.is_safe_allred = true →
      ∃ pr g, find_norm ar.next = some pr ∧ pr.is_prep_y = true ∧
        find_norm pr.next = some g ∧ g.is_green = true ∧
        ((ar.id = N_ALL_RED_1 ∧ pr.r3 = "PRE-Y" ∧ g.id = N_R3_RS_G ∧ g.r3 = "RS-G") ∨
         (ar.id = N_ALL_RED_2 ∧ pr.r1_we = "PRE-Y" ∧ pr.r1_ew = "PRE-Y" ∧ g.id = N_R1_RS_G ∧
           g.r1_we = "RS-G" ∧ g.r1_ew = "RS-G"))) ∧
    (∀ (evs : Nat → Option Char) (s : Ctl), s.in_train_state = false →
      is_normal_green s.ns = true →
      ∃ k, 1 ≤ k ∧ k ≤ 4 ∧ (∀ i, i ≤ k → (run evs i s).in_train_state = false) ∧
        (∃ ar, find_norm (run evs k s).ns = some ar ∧ ar.is_safe_allred = true) ∧
        ∃ l, status_lines (run evs (k + 1) s).out = status_lines (run evs k s).out ++ [l] ∧
          l.all_red = true) := by
  refine ⟨fun p hp => ?_, by decide, ?_, fun evs s hl hg => ?_⟩
  · interval_cases p <;> decide
  · intro ar har hs
    simp only [NORM, List.mem_cons, List.mem_singleton, List.not_mem_nil, or_false] at har
    rcases har with rfl | rfl | rfl | rfl | rfl | rfl | rfl | rfl | rfl | rfl | rfl | rfl <;>
      first
        | exact absurd hs (by decide)
        | exact ⟨⟨N_PREP_R3, T_PREP_Y, "PRE-Y", "RED", "RED", false, true, false, N_PREP_R3,
              N_R3_RS_G⟩,
            ⟨N_R3_RS_G, T_RS_GREEN, "RS-G", "RED", "RED", false, false, true, N_R3_RS_Y,
              N_R3_RS_Y⟩, by decide, by decide, by decide, by decide, by decide⟩
        | exact ⟨⟨N_PREP_R1, T_PREP_Y, "RED", "PRE-Y", "PRE-Y", false, true, false, N_PREP_R1,
              N_R1_RS_G⟩,
            ⟨N_R1_RS_G, T_RS_GREEN, "RED", "RS-G", "RS-G", false, false, true, N_R1_RS_Y,
              N_R1_RS_Y⟩, by decide, by decide, by decide, by decide, by decide⟩
  · obtain ⟨k, k1, k4, hin, hns⟩ := green_to_all_red evs s hl hg
    have hlk := hin k (le_refl k)
    have e : run evs (k + 1) s = normal_step evs (run evs k s) := by
      rw [run_succ_main_iter, main_iter_ring evs _ hlk]
    refine ⟨k, k1, k4, hin, ?_⟩
    rcases hns with h | h
    · have hst : find_norm (run evs k s).ns = some (⟨N_ALL_RED_1, T_ALL_RED, "RED", "RED",
          "RED", true, false, false, N_ALL_RED_1, N_PREP_R3⟩ : normal_def_t) := by
        rw [h]; decide
      rw [e, normal_step_lines evs _ _ hst]
      exact ⟨⟨_, hst, rfl⟩, _, rfl, by simp [StatusLine.all_red]⟩
    · have hst : find_norm (run evs k s).ns = some (⟨N_ALL_RED_2, T_ALL_RED, "RED", "RED",
          "RED", true, false, false, N_ALL_RED_2, N_PREP_R1⟩ : normal_def_t) := by
        rw [h]; decide
      rw [e, normal_step_lines evs _ _ hst]
      exact ⟨⟨_, hst, rfl⟩, _, rfl, by simp [StatusLine.all_red]⟩

end Demo1

namespace Demo1

/-- A TrainDetected received at quantum `j` of a plain wait that no TrainCleared follows
leaves `train_request` set at the end of the wait. -/
theorem wait_poll_loop_request_of_t (evs : Nat → Option Char) (j : Nat) :
    ∀ (n : Nat) (s : Ctl), j < n → evs (s.polls + j) = some 't' →
      (∀ i, j < i → i < n → evs (s.polls + i) ≠ some 'c') →
      (wait_poll_loop evs n s).train_request = true := by
  induction j with
  | zero =>
    intro n s hn ht hno
    obtain ⟨m, rfl⟩ : ∃ m, n = m + 1 := ⟨n - 1, by omega⟩
    have hreq := quantum_request_of_t evs 100 s (by simpa using ht)
    have hcnt := quantum_counters evs 100 s
    show (wait_poll_loop evs m (poll_events_from_qnet_nonblock evs (nanosleep_ms 100 s))).train_request
      = true
    refine wait_poll_loop_request_kept evs m _ hreq (fun i hi => ?_)
    rw [hcnt.1, show s.polls + 1 + i = s.polls + (i + 1) by omega]
    exact hno (i + 1) (by omega) (by omega)
  | succ j ih =>
    intro n s hn ht hno
    obtain ⟨m, rfl⟩ : ∃ m, n = m + 1 := ⟨n - 1, by omega⟩
    have hcnt := quantum_counters evs 100 s
    show (wait_poll_loop evs m (poll_events_from_qnet_nonblock evs (nanosleep_ms 100 s))).train_request
      = true
    refine ih m _ (by omega) ?_ (fun i hi1 hi2 => ?_)
    · rw [hcnt.1, show s.polls + 1 + j = s.polls + (j + 1) by omega]; exact ht
    · rw [hcnt.1, show s.polls + 1 + i = s.polls + (i + 1) by omega]
      exact hno (i + 1) (by omega) (by omega)

theorem NORM_dur_pos : ∀ st ∈ NORM, 0 < st.dur_s := by
  decide

theorem NORM_prep_facts :
    ∀ st ∈ NORM, st.is_prep_y = true →
      (st.id = N_PREP_R3 ∨ st.id = N_PREP_R1) ∧ st.next = st.id + 1 ∧
      st.is_green = false ∧ st.is_safe_allred = false := by
  decide

/-- A ring step taken at a preparatory-yellow: the wait runs in full and the cursor moves to
the phase's `next`, whatever the train flags are. -/
theorem normal_step_prep (evs : Nat → Option Char) (s : Ctl) (st : normal_def_t)
    (hst : find_norm s.ns = some st) (hp : st.is_prep_y = true) :
    (normal_step evs s).ns = st.next ∧
    (normal_step evs s).in_train_state = s.in_train_state ∧
    (normal_step evs s).train_request = (wait_poll_loop evs (10 * st.dur_s) s).train_request ∧
    (normal_step evs s).polls = s.polls + 10 * st.dur_s := by
  obtain ⟨hmem, hid⟩ := find_norm_some hst
  obtain ⟨f0, -, f3, f2⟩ := NORM_prep_facts st hmem hp
  rw [hid] at f0
  have hng : is_normal_green s.ns = false := by simp [is_normal_green, hst, f3]
  have e0 : ped_try_start_at_safe_allred st.is_safe_allred s = s := by
    simp [ped_try_start_at_safe_allred, f2]
  have hw : normal_wait st evs (print_normal_line s.ns st s) =
      (false, wait_poll_loop evs (10 * st.dur_s) (print_normal_line s.ns st s)) :=
    normal_wait_uninterrupted evs (print_normal_line s.ns st s) st hst (Or.inl hng)
  have hP := wait_poll_loop_polled evs (10 * st.dur_s) (print_normal_line s.ns st s)
  obtain ⟨p1, -, -, -, -, -, -, p8, -, -⟩ := hP
  have hflags := (wait_poll_loop_train_flags evs (10 * st.dur_s) (print_normal_line s.ns st s) s
    rfl rfl rfl).2.1
  have hcnt := (wait_poll_loop_counters evs (10 * st.dur_s) (print_normal_line s.ns st s)).2
  have hstep : normal_step evs s = normal_after_wait st
      (wait_poll_loop evs (10 * st.dur_s) (print_normal_line s.ns st s)) := by
    simp only [normal_step, hst, e0]
    rw [hw]
  have hns : (wait_poll_loop evs (10 * st.dur_s) (print_normal_line s.ns st s)).ns = s.ns := p8
  rw [hstep]
  generalize wait_poll_loop evs (10 * st.dur_s) (print_normal_line s.ns st s) = w
    at hns hflags hcnt p1
  obtain ⟨q1, q2, q3, q4, q5, -, -⟩ := ped_stop_train_fields w
  have hform : normal_after_wait st w = { ped_stop_if_prep_finished w with ns := st.next } := by
    have e1 : ((ped_stop_if_prep_finished w).ns == N_R3_RS_Y ||
        (ped_stop_if_prep_finished w).ns == N_R3_L_Y) = false := by
      rw [q3, hns]; rcases f0 with h | h <;> rw [h] <;> rfl
    have e2 : ((ped_stop_if_prep_finished w).ns == N_R1_RS_Y ||
        (ped_stop_if_prep_finished w).ns == N_R1_L_Y) = false := by
      rw [q3, hns]; rcases f0 with h | h <;> rw [h] <;> rfl
    simp only [normal_after_wait, hp, f2, e1, e2, Bool.and_false, Bool.false_eq_true, if_false,
      if_true]
  rw [hform]
  refine ⟨rfl, ?_, ?_, ?_⟩
  · show (ped_stop_if_prep_finished w).in_train_state = _
    rw [q4, p1]; rfl
  · show (ped_stop_if_prep_finished w).train_request = _
    rw [q1, hflags]
  · show (ped_stop_if_prep_finished w).polls = _
    rw [q5, hcnt]; rfl

/-- A ring step taken at a green with `train_request` already pending, when the poll of the
first quantum brings no TrainCleared: the wait is aborted after that one quantum. -/
theorem normal_step_green_pending (evs : Nat → Option Char) (s : Ctl) (st : normal_def_t)
    (hst : find_norm s.ns = some st) (hg : st.is_green = true)
    (hr : s.train_request = true) (hc : evs s.polls ≠ some 'c') :
    (normal_step evs s).slept_ms = s.slept_ms + 100 ∧
    (normal_step evs s).polls = s.polls + 1 ∧
    (normal_step evs s).ns = st.to_yellow ∧ st.to_yellow = s.ns + 1 ∧
    (normal_step evs s).train_preempt_to_allred = true ∧
    (normal_step evs s).in_train_state = s.in_train_state ∧
    (normal_step evs s).train_request = true := by
  obtain ⟨hmem, hid⟩ := find_norm_some hst
  obtain ⟨-, hy, -, -, hsafe⟩ := NORM_green_facts st hmem hg
  obtain ⟨hsteps, hrem⟩ := NORM_steps st hmem
  have hpos : 0 < st.dur_s := NORM_dur_pos st hmem
  have hgreen : is_normal_green s.ns = true := by simp [is_normal_green, hst, hg]
  have hreq : (poll_events_from_qnet_nonblock evs
      (nanosleep_ms 100 (print_normal_line s.ns st s))).train_request = true :=
    wait_poll_loop_request_kept evs 1 (print_normal_line s.ns st s) hr
      (fun j hj => by
        obtain rfl : j = 0 := by omega
        exact hc)
  have hpol := quantum_polled evs 100 (print_normal_line s.ns st s)
  have hcnt := quantum_counters evs 100 (print_normal_line s.ns st s)
  obtain ⟨m, hm⟩ : ∃ m, 10 * st.dur_s = m + 1 := ⟨10 * st.dur_s - 1, by omega⟩
  have hw : normal_wait_loop st evs (10 * st.dur_s) (print_normal_line s.ns st s) =
      (true, preempt_block st (poll_events_from_qnet_nonblock evs
        (nanosleep_ms 100 (print_normal_line s.ns st s)))) := by
    rw [hm]
    have hns : (print_normal_line s.ns st s).ns = s.ns := rfl
    simp [normal_wait_loop, normal_wait_quantum, hreq, hpol.2.2.2.2.2.2.2.1, hgreen, hns]
  have hstep : normal_step evs s = preempt_block st (poll_events_from_qnet_nonblock evs
        (nanosleep_ms 100 (print_normal_line s.ns st s))) := by
    simp [normal_step, hst, hsafe, ped_try_start_at_safe_allred, normal_wait, hsteps, hw]
  rw [hstep]
  refine ⟨hcnt.2, hcnt.1, rfl, by rw [hy, hid], rfl, ?_, hreq⟩
  show (poll_events_from_qnet_nonblock evs
    (nanosleep_ms 100 (print_normal_line s.ns st s))).in_train_state = _
  rw [hpol.1]; rfl

end Demo1

namespace Demo1

/-- C39: in demo1.c, take a ring step at a preparatory-yellow, or at a through-yellow
(RS-Y) that was not forced (`train_preempt_to_allred` clear), during which a TrainDetected
is received at poll `j` of the phase and no TrainCleared is received after it, up to and
including the first poll of the phase that follows. The ring is not diverted at the phase's
completion: the cursor moves to the phase's `next`, a green (the through-green after a
PRE-Y, the turn-green after a through-yellow), still in the ring, with `train_request`
pending. The step after that prints the green's line and returns after exactly one 100 ms
quantum and one poll, with the cursor at the green's matching yellow and
`train_preempt_to_allred` set. -/
theorem C39_request_before_green (evs : Nat → Option Char) (s : Ctl) (st : normal_def_t)
    (j : Nat) (hl : s.in_train_state = false) (hst : find_norm s.ns = some st)
    (hph : st.is_prep_y = true ∨
      ((s.ns = N_R3_RS_Y ∨ s.ns = N_R1_RS_Y) ∧ s.train_preempt_to_allred = false))
    (hj : j < 10 * st.dur_s) (ht : evs (s.polls + j) = some 't')
    (hno : ∀ i, j < i → i ≤ 10 * st.dur_s → evs (s.polls + i) ≠ some 'c') :
    (normal_step evs s).in_train_state = false ∧
    (normal_step evs s).ns = st.next ∧
    (s.ns, st.next) ∈ [(N_PREP_R3, N_R3_RS_G), (N_PREP_R1, N_R1_RS_G),
      (N_R3_RS_Y, N_R3_L_G), (N_R1_RS_Y, N_R1_L_G)] ∧
    (normal_step evs s).train_request = true ∧
    (normal_step evs s).polls = s.polls + 10 * st.dur_s ∧
    ∃ g, find_norm st.next = some g ∧ g.is_green = true ∧ g.to_yellow = st.next + 1 ∧
      status_lines (normal_step evs (normal_step evs s)).out =
        status_lines (normal_step evs s).out ++
          [⟨"NORMAL", normal_ui_index_shifted (normal_step evs s) st.next, g.dur_s,
            g.r3, g.r1_we, g.r1_ew, ped_output (normal_step evs s)⟩] ∧
      (normal_step evs (normal_step evs s)).slept_ms = (normal_step evs s).slept_ms + 100 ∧
      (normal_step evs (normal_step evs s)).polls = (normal_step evs s).polls + 1 ∧
      (normal_step evs (normal_step evs s)).ns = g.to_yellow ∧
      (normal_step evs (normal_step evs s)).train_preempt_to_allred = true ∧
      (normal_step evs (normal_step evs s)).in_train_state = false := by
  obtain ⟨hmem, hid⟩ := find_norm_some hst
  have hreqW : (wait_poll_loop evs (10 * st.dur_s) s).train_request = true :=
    wait_poll_loop_request_of_t evs j (10 * st.dur_s) s hj ht
      (fun i h1 h2 => hno i h1 (by omega))
  -- the first step
  have first : (normal_step evs s).in_train_state = false ∧ (normal_step evs s).ns = st.next ∧
      (s.ns, st.next) ∈ [(N_PREP_R3, N_R3_RS_G), (N_PREP_R1, N_R1_RS_G),
        (N_R3_RS_Y, N_R3_L_G), (N_R1_RS_Y, N_R1_L_G)] ∧
      (normal_step evs s).train_request = true ∧
      (normal_step evs s).polls = s.polls + 10 * st.dur_s := by
    rcases hph with hp | ⟨hy, hf⟩
    · obtain ⟨n1, n2, n3, n4⟩ := normal_step_prep evs s st hst hp
      obtain ⟨f0, f1, -, -⟩ := NORM_prep_facts st hmem hp
      refine ⟨by rw [n2, hl], n1, ?_, by rw [n3, hreqW], n4⟩
      rw [f1, ← hid]
      rcases f0 with h | h <;> rw [h] <;> decide
    · have hy4 : s.ns = N_R3_RS_Y ∨ s.ns = N_R3_L_Y ∨ s.ns = N_R1_RS_Y ∨ s.ns = N_R1_L_Y := by
        rcases hy with h | h
        · exact Or.inl h
        · exact Or.inr (Or.inr (Or.inl h))
      obtain ⟨w, hw, w1, w2, hstep⟩ := normal_step_yellow evs s st hst hy4
      obtain ⟨y1, -, y3, -, hfl⟩ := NORM_yellow_facts st hmem
      obtain ⟨-, f2, -⟩ := hfl (by rw [hid]; exact hy4)
      have e0 : ped_try_start_at_safe_allred st.is_safe_allred s = s := by
        simp [ped_try_start_at_safe_allred, f2]
      rw [e0] at hw
      have hP := wait_poll_loop_polled evs (10 * st.dur_s) (print_normal_line s.ns st s)
      have hcnt := (wait_poll_loop_counters evs (10 * st.dur_s) (print_normal_line s.ns st s)).2
      rw [← hw] at hP hcnt
      have hnx : (if (w.train_request && w.train_preempt_to_allred) = true then
          (if s.ns = N_R3_RS_Y ∨ s.ns = N_R3_L_Y then N_ALL_RED_1 else N_ALL_RED_2)
          else st.next) = st.next := by
        rw [w2, hf]; simp
      rw [hstep, hnx]
      refine ⟨?_, rfl, ?_, ?_, ?_⟩
      · show w.in_train_state = false
        rw [hP.1]; exact hl
      · rcases hy with h | h
        · rw [(y1 (by rw [hid]; exact h)).1, h]; decide
        · rw [(y3 (by rw [hid]; exact h)).1, h]; decide
      · show w.train_request = true
        rw [w1, hreqW]
      · show w.polls = _
        rw [hcnt]; rfl
  obtain ⟨a1, a2, a3, a4, a5⟩ := first
  refine ⟨a1, a2, a3, a4, a5, ?_⟩
  -- the green that follows
  obtain ⟨g, hg⟩ : ∃ g, find_norm st.next = some g := by
    apply find_norm_lt
    simp only [List.mem_cons, List.mem_singleton, Prod.mk.injEq, List.not_mem_nil,
      or_false] at a3
    rcases a3 with ⟨-, h⟩ | ⟨-, h⟩ | ⟨-, h⟩ | ⟨-, h⟩ <;> rw [h] <;> decide
  have hgg : g.is_green = true := by
    simp only [List.mem_cons, List.mem_singleton, Prod.mk.injEq, List.not_mem_nil,
      or_false] at a3
    rcases a3 with ⟨-, h⟩ | ⟨-, h⟩ | ⟨-, h⟩ | ⟨-, h⟩ <;> rw [h] at hg <;> cases hg <;> rfl
  have hg1 : find_norm (normal_step evs s).ns = some g := by rw [a2]; exact hg
  obtain ⟨b1, b2, b3, b4, b5, b6, -⟩ := normal_step_green_pending evs (normal_step evs s) g hg1
    hgg a4 (by rw [a5]; exact hno _ hj (le_refl _))
  have hsafe := (NORM_green_facts g (find_norm_some hg).1 hgg).2.2.2.2
  have hlines := normal_step_lines evs (normal_step evs s) g hg1
  have e0 : ped_try_start_at_safe_allred g.is_safe_allred (normal_step evs s) =
      normal_step evs s := by
    simp [ped_try_start_at_safe_allred, hsafe]
  rw [e0, a2] at hlines
  rw [a2] at b4
  exact ⟨g, hg, hgg, b4, hlines, b1, b2, b3, b5, by rw [b6, a1]⟩

theorem C39_request_before_green_witness :
    (normal_step (fun i => if i = 3 then some 't' else none)
      { init with ns := N_PREP_R3 }).ns = N_R3_RS_G ∧
    (normal_step (fun i => if i = 3 then some 't' else none)
      { init with ns := N_PREP_R3 }).train_request = true := by
  have h := C39_request_before_green (fun i => if i = 3 then some 't' else none)
    { init with ns := N_PREP_R3 }
    ⟨N_PREP_R3, T_PREP_Y, "PRE-Y", "RED", "RED", false, true, false, N_PREP_R3, N_R3_RS_G⟩ 3
    rfl (by decide) (Or.inl rfl) (by decide) (by decide)
    (fun i h1 _ => by
      show (if (0 + i = 3) then some 't' else none) ≠ some 'c'
      split_ifs <;> simp)
  exact ⟨h.2.1, h.2.2.2.1⟩

end Demo1

namespace Demo1

/-! ## The UI base does not steer the ring -/

theorem unbased_eq_iff (a b : Ctl) :
    unbased a = unbased b ↔
      a.train_request = b.train_request ∧ a.train_active = b.train_active ∧
      a.train_clear_pending = b.train_clear_pending ∧ a.ped_request = b.ped_request ∧
      a.in_train_state = b.in_train_state ∧
      a.train_preempt_to_allred = b.train_preempt_to_allred ∧
      a.ped_window_active = b.ped_window_active ∧
      a.ped_window_stop_after_prep = b.ped_window_stop_after_prep ∧ a.tr = b.tr ∧
      a.clear_notified_once = b.clear_notified_once ∧ a.ns = b.ns ∧
      a.slept_ms = b.slept_ms ∧ a.polls = b.polls ∧
      a.out.map Out.unlabel = b.out.map Out.unlabel := by
  simp [unbased, Ctl.mk.injEq]

theorem unbased_notify (n : Notify) {a b : Ctl} (h : unbased a = unbased b) :
    unbased (notify n a) = unbased (notify n b) := by
  rw [unbased_eq_iff] at h ⊢
  obtain ⟨h1, h2, h3, h4, h5, h6, h7, h8, h9, h10, h11, h12, h13, h14⟩ := h
  refine ⟨h1, h2, h3, h4, h5, h6, h7, h8, h9, h10, h11, h12, h13, ?_⟩
  simp only [notify, List.map_append, h14]

theorem unbased_ped_try_start (f : Bool) {a b : Ctl} (h : unbased a = unbased b) :
    unbased (ped_try_start_at_safe_allred f a) = unbased (ped_try_start_at_safe_allred f b) := by
  have h4 := ((unbased_eq_iff a b).1 h).2.2.2.1
  unfold ped_try_start_at_safe_allred
  rw [h4]
  split_ifs
  · exact h
  · exact h
  · apply unbased_notify
    rw [unbased_eq_iff] at h ⊢
    obtain ⟨h1, h2, h3, -, h5, h6, h7, h8, h9, h10, h11, h12, h13, h14⟩ := h
    exact ⟨h1, h2, h3, rfl, h5, h6, rfl, rfl, h9, h10, h11, h12, h13, h14⟩

theorem unbased_ped_stop {a b : Ctl} (h : unbased a = unbased b) :
    unbased (ped_stop_if_prep_finished a) = unbased (ped_stop_if_prep_finished b) := by
  have h7 := ((unbased_eq_iff a b).1 h).2.2.2.2.2.2.1
  have h8 := ((unbased_eq_iff a b).1 h).2.2.2.2.2.2.2.1
  unfold ped_stop_if_prep_finished
  rw [h7, h8]
  split_ifs
  · apply unbased_notify
    rw [unbased_eq_iff] at h ⊢
    obtain ⟨h1, h2, h3, h4, h5, h6, -, -, h9, h10, h11, h12, h13, h14⟩ := h
    exact ⟨h1, h2, h3, h4, h5, h6, rfl, rfl, h9, h10, h11, h12, h13, h14⟩
  · exact h

theorem unbased_apply_event (ev : Char) {a b : Ctl} (h : unbased a = unbased b) :
    unbased (apply_event ev a) = unbased (apply_event ev b) := by
  have hn := unbased_notify Notify.train_preempt h
  rw [unbased_eq_iff] at h hn ⊢
  obtain ⟨h1, h2, h3, h4, h5, h6, h7, h8, h9, h10, h11, h12, h13, h14⟩ := h
  obtain ⟨-, -, -, -, -, -, -, -, -, -, -, -, -, n14⟩ := hn
  unfold apply_event
  split_ifs
  · exact ⟨rfl, rfl, rfl, h4, h5, h6, h7, h8, h9, h10, h11, h12, h13, n14⟩
  · exact ⟨rfl, h2, rfl, h4, h5, h6, h7, h8, h9, h10, h11, h12, h13, h14⟩
  · exact ⟨h1, h2, h3, rfl, h5, h6, h7, h8, h9, h10, h11, h12, h13, h14⟩
  · exact ⟨h1, h2, h3, h4, h5, h6, h7, h8, h9, h10, h11, h12, h13, h14⟩

theorem unbased_poll (evs : Nat → Option Char) {a b : Ctl} (h : unbased a = unbased b) :
    unbased (poll_events_from_qnet_nonblock evs a) =
      unbased (poll_events_from_qnet_nonblock evs b) := by
  have h13 := ((unbased_eq_iff a b).1 h).2.2.2.2.2.2.2.2.2.2.2.2.1
  have hs : unbased { a with polls := b.polls + 1 } = unbased { b with polls := b.polls + 1 } := by
    rw [unbased_eq_iff] at h ⊢
    obtain ⟨h1, h2, h3, h4, h5, h6, h7, h8, h9, h10, h11, h12, h13, h14⟩ := h
    exact ⟨h1, h2, h3, h4, h5, h6, h7, h8, h9, h10, h11, h12, rfl, h14⟩
  unfold poll_events_from_qnet_nonblock
  rw [h13]
  cases evs b.polls with
  | none => exact hs
  | some ev => exact unbased_apply_event ev hs

theorem unbased_nanosleep (ms : Nat) {a b : Ctl} (h : unbased a = unbased b) :
    unbased (nanosleep_ms ms a) = unbased (nanosleep_ms ms b) := by
  rw [unbased_eq_iff] at h ⊢
  obtain ⟨h1, h2, h3, h4, h5, h6, h7, h8, h9, h10, h11, h12, h13, h14⟩ := h
  exact ⟨h1, h2, h3, h4, h5, h6, h7, h8, h9, h10, h11, by simp [nanosleep_ms, h12], h13, h14⟩

theorem unbased_preempt_block (st : normal_def_t) {a b : Ctl} (h : unbased a = unbased b) :
    unbased (preempt_block st a) = unbased (preempt_block st b) := by
  rw [unbased_eq_iff] at h ⊢
  obtain ⟨h1, h2, h3, h4, h5, h6, h7, h8, h9, h10, h11, h12, h13, h14⟩ := h
  exact ⟨h1, h2, h3, h4, h5, rfl, h7, h8, h9, h10, rfl, h12, h13, h14⟩

theorem unbased_normal_wait_quantum (st : normal_def_t) (evs : Nat → Option Char) (ms : Nat)
    {a b : Ctl} (h : unbased a = unbased b) :
    (normal_wait_quantum st evs ms a).1 = (normal_wait_quantum st evs ms b).1 ∧
    unbased (normal_wait_quantum st evs ms a).2 = unbased (normal_wait_quantum st evs ms b).2 := by
  have hq := unbased_poll evs (unbased_nanosleep ms h)
  have f1 := ((unbased_eq_iff _ _).1 hq).1
  have f2 := ((unbased_eq_iff _ _).1 hq).2.2.2.2.2.2.2.2.2.2.1
  unfold normal_wait_quantum
  simp only []
  rw [f1, f2]
  split_ifs
  · exact ⟨rfl, unbased_preempt_block st hq⟩
  · exact ⟨rfl, hq⟩

theorem unbased_normal_wait_loop (st : normal_def_t) (evs : Nat → Option Char) (n : Nat) :
    ∀ {a b : Ctl}, unbased a = unbased b →
      (normal_wait_loop st evs n a).1 = (normal_wait_loop st evs n b).1 ∧
      unbased (normal_wait_loop st evs n a).2 = unbased (normal_wait_loop st evs n b).2 := by
  induction n with
  | zero => intro a b h; exact ⟨rfl, h⟩
  | succ n ih =>
    intro a b h
    obtain ⟨q1, q2⟩ := unbased_normal_wait_quantum st evs 100 h
    unfold normal_wait_loop
    rcases hx : normal_wait_quantum st evs 100 a with ⟨x1, x2⟩
    rcases hy : normal_wait_quantum st evs 100 b with ⟨y1, y2⟩
    rw [hx, hy] at q1 q2
    simp only at q1 q2
    subst q1
    cases x1
    · exact ih q2
    · exact ⟨rfl, q2⟩

theorem unbased_normal_wait (st : normal_def_t) (evs : Nat → Option Char) {a b : Ctl}
    (h : unbased a = unbased b) :
    (normal_wait st evs a).1 = (normal_wait st evs b).1 ∧
    unbased (normal_wait st evs a).2 = unbased (normal_wait st evs b).2 := by
  obtain ⟨q1, q2⟩ := unbased_normal_wait_loop st evs (st.dur_s * 1000 % UINT_MOD / 100) h
  unfold normal_wait
  simp only []
  rcases hx : normal_wait_loop st evs (st.dur_s * 1000 % UINT_MOD / 100) a with ⟨x1, x2⟩
  rcases hy : normal_wait_loop st evs (st.dur_s * 1000 % UINT_MOD / 100) b with ⟨y1, y2⟩
  rw [hx, hy] at q1 q2
  simp only at q1 q2
  subst q1
  cases x1
  · simp only []
    split_ifs
    · exact unbased_normal_wait_quantum st evs _ q2
    · exact ⟨rfl, q2⟩
  · exact ⟨rfl, q2⟩

theorem unbased_print_normal_line (p : Nat) (st : normal_def_t) {a b : Ctl}
    (h : unbased a = unbased b) :
    unbased (print_normal_line p st a) = unbased (print_normal_line p st b) := by
  rw [unbased_eq_iff] at h ⊢
  obtain ⟨h1, h2, h3, h4, h5, h6, h7, h8, h9, h10, h11, h12, h13, h14⟩ := h
  refine ⟨h1, h2, h3, h4, h5, h6, h7, h8, h9, h10, h11, h12, h13, ?_⟩
  simp only [print_normal_line, List.map_append, h14]
  simp [Out.unlabel, ped_output, h7]

theorem unbased_normal_after_wait (st : normal_def_t) {a b : Ctl} (h : unbased a = unbased b) :
    unbased (normal_after_wait st a) = unbased (normal_after_wait st b) := by
  have key : ∀ {x y : Ctl}, unbased x = unbased y →
      unbased (normal_after_wait { st with is_prep_y := false } x) =
        unbased (normal_after_wait { st with is_prep_y := false } y) := by
    intro x y hxy
    obtain ⟨rq, ac, cp, pr, its, pa, ub, pw, ps, tr, cn, ns, sl, po, out⟩ := x
    obtain ⟨rq2, ac2, cp2, pr2, its2, pa2, ub2, pw2, ps2, tr2, cn2, ns2, sl2, po2, out2⟩ := y
    simp only [unbased_eq_iff] at hxy
    obtain ⟨rfl, rfl, rfl, rfl, rfl, rfl, rfl, rfl, rfl, rfl, rfl, rfl, rfl, h14⟩ := hxy
    unfold normal_after_wait
    simp only [Bool.false_eq_true, if_false]
    split_ifs <;>
      simp [notify, unbased, List.map_append, h14]
  have hrel : ∀ x : Ctl, normal_after_wait st x =
      normal_after_wait { st with is_prep_y := false }
        (if st.is_prep_y then ped_stop_if_prep_finished x else x) := by
    intro x
    unfold normal_after_wait
    simp
  rw [hrel a, hrel b]
  apply key
  split_ifs
  · exact unbased_ped_stop h
  · exact h

/-- Two states that differ only in the UI base and in the step labels printed so far take
the same ring step: the results again differ only in the UI base and the step labels. -/
theorem unbased_normal_step (evs : Nat → Option Char) {a b : Ctl}
    (h : unbased a = unbased b) : unbased (normal_step evs a) = unbased (normal_step evs b) := by
  have hns := ((unbased_eq_iff a b).1 h).2.2.2.2.2.2.2.2.2.2.1
  unfold normal_step
  rw [hns]
  cases hf : find_norm b.ns with
  | none =>
    simp only []
    rw [unbased_eq_iff] at h ⊢
    obtain ⟨h1, h2, h3, h4, h5, h6, h7, h8, h9, h10, h11, h12, h13, h14⟩ := h
    exact ⟨h1, h2, h3, h4, h5, h6, h7, h8, h9, h10, rfl, h12, h13, h14⟩
  | some st =>
    simp only [ped_try_start_ns]
    rw [hns]
    have hp : unbased (print_normal_line b.ns st
          (ped_try_start_at_safe_allred st.is_safe_allred a)) =
        unbased (print_normal_line b.ns st
          (ped_try_start_at_safe_allred st.is_safe_allred b)) :=
      unbased_print_normal_line _ _ (unbased_ped_try_start _ h)
    obtain ⟨q1, q2⟩ := unbased_normal_wait st evs hp
    rcases hx : normal_wait st evs (print_normal_line b.ns st
      (ped_try_start_at_safe_allred st.is_safe_allred a)) with ⟨x1, x2⟩
    rcases hy : normal_wait st evs (print_normal_line b.ns st
      (ped_try_start_at_safe_allred st.is_safe_allred b)) with ⟨y1, y2⟩
    rw [hx, hy] at q1 q2
    simp only at q1 q2
    subst q1
    cases x1
    · exact unbased_normal_after_wait st q2
    · exact q2

theorem normal_step_base (evs : Nat → Option Char) (s : Ctl) :
    (normal_step evs s).normal_ui_base = s.normal_ui_base := by
  cases hf : find_norm s.ns with
  | none => simp [normal_step, hf]
  | some st =>
    obtain ⟨w, hw, hh | ⟨-, -, hh⟩⟩ := normal_step_shape evs s st hf
    · rw [hh]
      have : (normal_after_wait st w).normal_ui_base = w.normal_ui_base := by
        unfold normal_after_wait ped_stop_if_prep_finished
        simp only []
        split_ifs <;> simp [notify]
      rw [this, hw.2.2.1]
      simp [print_normal_line, ped_try_start_base]
    · rw [hh]
      show w.normal_ui_base = _
      rw [hw.2.2.1]
      simp [print_normal_line, ped_try_start_base]

end Demo1

namespace Demo1

set_option maxRecDepth 100000 in
/-- C34 (UI rebasing in demo1.c): for every ring phase `b` chosen as start, after
`normal_ui_set_start(b)` the shifted index of `b` is 1; for every start phase `b` and every
ring phase `p` the shifted index of `p` lies in 1..12, two phases with the same index are
the same phase, and the index of the `next` of `p` is the index of `p` plus one, wrapping
from 12 to 1. The base does not influence the ring step: `normal_step` does not write it,
and run from two states that differ only in the base (and in the step labels already
printed) it gives states that again differ only in the base and the printed step labels,
so the layer, both cursors, every flag, the counters and the printed indications agree. -/
theorem C34_ui_rebasing :
    (∀ (c : Ctl) (b : Nat), b < 12 →
      normal_ui_index_shifted (normal_ui_set_start b c) b = 1) ∧
    (∀ (c : Ctl) (b p : Nat), b < 12 → p < 12 →
      1 ≤ normal_ui_index_shifted (normal_ui_set_start b c) p ∧
      normal_ui_index_shifted (normal_ui_set_start b c) p ≤ 12 ∧
      normal_ui_index_shifted (normal_ui_set_start b c) (ring_next p) =
        (if normal_ui_index_shifted (normal_ui_set_start b c) p = 12 then 1
          else normal_ui_index_shifted (normal_ui_set_start b c) p + 1)) ∧
    (∀ (c : Ctl) (b p q : Nat), b < 12 → p < 12 → q < 12 →
      normal_ui_index_shifted (normal_ui_set_start b c) p =
        normal_ui_index_shifted (normal_ui_set_start b c) q → p = q) ∧
    (∀ (evs : Nat → Option Char) (s : Ctl) (b : Int),
      (normal_step evs { s with normal_ui_base := b }).normal_ui_base = b ∧
      unbased (normal_step evs { s with normal_ui_base := b }) = unbased (normal_step evs s)) ∧
    (∀ (evs : Nat → Option Char) (s t : Ctl), unbased s = unbased t →
      unbased (normal_step evs s) = unbased (normal_step evs t)) := by
  have hidx : ∀ (c : Ctl) (b p : Nat),
      normal_ui_index_shifted (normal_ui_set_start b c) p =
        normal_ui_index_shifted (normal_ui_set_start b init) p := fun _ _ _ => rfl
  have h1 : ∀ b, b < 12 → normal_ui_index_shifted (normal_ui_set_start b init) b = 1 := by
    decide
  have h2 : ∀ b, b < 12 → ∀ p, p < 12 →
      1 ≤ normal_ui_index_shifted (normal_ui_set_start b init) p ∧
      normal_ui_index_shifted (normal_ui_set_start b init) p ≤ 12 ∧
      normal_ui_index_shifted (normal_ui_set_start b init) (ring_next p) =
        (if normal_ui_index_shifted (normal_ui_set_start b init) p = 12 then 1
          else normal_ui_index_shifted (normal_ui_set_start b init) p + 1) := by
    decide
  have h3 : ∀ b, b < 12 → ∀ p, p < 12 → ∀ q, q < 12 →
      normal_ui_index_shifted (normal_ui_set_start b init) p =
        normal_ui_index_shifted (normal_ui_set_start b init) q → p = q := by
    decide
  refine ⟨fun c b hb => by rw [hidx]; exact h1 b hb,
    fun c b p hb hp => by rw [hidx c b p, hidx c b (ring_next p)]; exact h2 b hb p hp,
    fun c b p q hb hp hq he => by rw [hidx c b p, hidx c b q] at he; exact h3 b hb p hp q hq he,
    fun evs s b => ⟨normal_step_base evs _, unbased_normal_step evs (by simp [unbased])⟩,
    fun evs s t h => unbased_normal_step evs h⟩

end Demo1

/-! ## demo1.c and demo3.c side by side -/

namespace Demo3

theorem d3_quantum_ns (evs : Nat → Option Char) (ms : Nat) (s : Ctl) :
    (poll_events_from_qnet_nonblock evs (nanosleep_ms ms s)).ns = s.ns ∧
    (poll_events_from_qnet_nonblock evs (nanosleep_ms ms s)).polls = s.polls + 1 := by
  unfold poll_events_from_qnet_nonblock nanosleep_ms
  cases evs s.polls with
  | none => exact ⟨rfl, rfl⟩
  | some ev =>
    simp only [apply_event]
    split_ifs <;> exact ⟨rfl, rfl⟩

theorem d3_normal_wait_loop_not_green (st : normal_def_t) (evs : Nat → Option Char) (n : Nat) :
    ∀ s : Ctl, is_normal_green s.ns = false →
      normal_wait_loop st evs n s = (false, wait_poll_loop evs n s) := by
  induction n with
  | zero => intro s _; rfl
  | succ n ih =>
    intro s hg
    have hns := (d3_quantum_ns evs 100 s).1
    rw [normal_wait_loop, normal_wait_quantum]
    simp only [hns, hg, Bool.and_false, Bool.false_eq_true, if_false]
    rw [ih _ (by rw [hns]; exact hg)]
    rfl

theorem d3_NORM_steps :
    ∀ st ∈ NORM, st.dur_s * 1000 % UINT_MOD / 100 = 10 * st.dur_s ∧
      st.dur_s * 1000 % UINT_MOD % 100 = 0 := by
  decide

theorem d3_train_duration_steps (t : Nat) :
    train_duration t * 1000 % UINT_MOD / 100 = 10 * train_duration t ∧
    train_duration t * 1000 % UINT_MOD % 100 = 0 := by
  by_cases h : t < 8
  · interval_cases t <;> decide
  · obtain ⟨d, hd⟩ : ∃ d, t = d + 8 := ⟨t - 8, by omega⟩
    subst hd
    have : train_duration (d + 8) = 1 := by simp [train_duration]
    rw [this]
    decide

theorem d3_train_wait (evs : Nat → Option Char) (t : Nat) (s : Ctl) :
    wait_with_poll_ms (train_duration t * 1000 % UINT_MOD) evs s =
      wait_poll_loop evs (10 * train_duration t) s := by
  obtain ⟨h1, h2⟩ := d3_train_duration_steps t
  simp only [wait_with_poll_ms, h1, h2, ne_eq, not_true_eq_false, if_false]

theorem d3_find_norm_stray {n : Nat} (h : 12 ≤ n) : find_norm n = none := by
  obtain ⟨d, rfl⟩ : ∃ d, n = d + 12 := ⟨n - 12, by omega⟩
  simp [find_norm, NORM]

theorem d3_find_norm_mem {n : Nat} {st : normal_def_t} (h : find_norm n = some st) :
    st ∈ NORM :=
  List.mem_of_find?_eq_some h

end Demo3

theorem logic1_apply_event (ev : Char) (s : Demo1.Ctl) :
    Demo1.logic (Demo1.apply_event ev s) = (Demo1.logic s).event ev := by
  unfold Demo1.apply_event Logic.event
  simp only [Demo1.EVT_TRAIN_DETECT, Demo1.EVT_TRAIN_CLEAR, Demo1.EVT_PED_PRESS]
  split_ifs <;> rfl

theorem logic3_apply_event (ev : Char) (s : Demo3.Ctl) :
    Demo3.logic (Demo3.apply_event ev s) = (Demo3.logic s).event ev := by
  unfold Demo3.apply_event Logic.event
  simp only [Demo3.EVT_TRAIN_DETECT, Demo3.EVT_TRAIN_CLEAR, Demo3.EVT_PED_PRESS]
  split_ifs <;> rfl

theorem logic1_quantum (evs : Nat → Option Char) (ms : Nat) (s : Demo1.Ctl) :
    Demo1.logic (Demo1.poll_events_from_qnet_nonblock evs (Demo1.nanosleep_ms ms s)) =
      (match evs s.polls with | some ev => [ev] | none => []).foldl Logic.event
        (Demo1.logic s) := by
  unfold Demo1.poll_events_from_qnet_nonblock Demo1.nanosleep_ms
  cases evs s.polls with
  | none => rfl
  | some ev => simp only [logic1_apply_event]; rfl

theorem logic3_quantum (evs : Nat → Option Char) (ms : Nat) (s : Demo3.Ctl) :
    Demo3.logic (Demo3.poll_events_from_qnet_nonblock evs (Demo3.nanosleep_ms ms s)) =
      (match evs s.polls with | some ev => [ev] | none => []).foldl Logic.event
        (Demo3.logic s) := by
  unfold Demo3.poll_events_from_qnet_nonblock Demo3.nanosleep_ms
  cases evs s.polls with
  | none => rfl
  | some ev => simp only [logic3_apply_event]; rfl

/-- A plain wait of `n` quanta folds the event bytes it receives into the flags. -/
theorem logic1_wait_poll_loop (evs : Nat → Option Char) (n : Nat) :
    ∀ s : Demo1.Ctl, Demo1.logic (Demo1.wait_poll_loop evs n s) =
      (delivered evs s.polls n).foldl Logic.event (Demo1.logic s) := by
  induction n with
  | zero => intro s; rfl
  | succ n ih =>
    intro s
    show Demo1.logic (Demo1.wait_poll_loop evs n _) = _
    rw [ih, (Demo1.quantum_counters evs 100 s).1, logic1_quantum, delivered, List.foldl_append]

theorem logic3_wait_poll_loop (evs : Nat → Option Char) (n : Nat) :
    ∀ s : Demo3.Ctl, Demo3.logic (Demo3.wait_poll_loop evs n s) =
      (delivered evs s.polls n).foldl Logic.event (Demo3.logic s) := by
  induction n with
  | zero => intro s; rfl
  | succ n ih =>
    intro s
    show Demo3.logic (Demo3.wait_poll_loop evs n _) = _
    rw [ih, (Demo3.d3_quantum_ns evs 100 s).2, logic3_quantum, delivered, List.foldl_append]

/-- Two plain waits that receive the same event bytes, in whatever number of quanta, end
with the same flags. -/
theorem logic_wait_poll_loop (e1 e3 : Nat → Option Char) (n1 n3 : Nat) (a : Demo1.Ctl)
    (b : Demo3.Ctl) (h : Demo1.logic a = Demo3.logic b)
    (hd : delivered e1 a.polls n1 = delivered e3 b.polls n3) :
    Demo1.logic (Demo1.wait_poll_loop e1 n1 a) = Demo3.logic (Demo3.wait_poll_loop e3 n3 b) := by
  rw [logic1_wait_poll_loop, logic3_wait_poll_loop, h, hd]

theorem logic_eq_iff (a : Demo1.Ctl) (b : Demo3.Ctl) :
    Demo1.logic a = Demo3.logic b ↔
      a.train_request = b.train_request ∧ a.train_active = b.train_active ∧
      a.train_clear_pending = b.train_clear_pending ∧ a.ped_request = b.ped_request ∧
      a.in_train_state = b.in_train_state ∧
      a.train_preempt_to_allred = b.train_preempt_to_allred ∧
      a.ped_window_active = b.ped_window_active ∧
      a.ped_window_stop_after_prep = b.ped_window_stop_after_prep ∧
      a.clear_notified_once = b.clear_notified_once ∧
      a.normal_ui_base = b.normal_ui_base ∧ a.tr = b.tr ∧ a.ns = b.ns := by
  simp [Demo1.logic, Demo3.logic, Logic.mk.injEq]

theorem logic_ped_try_start (f : Bool) (a : Demo1.Ctl) (b : Demo3.Ctl)
    (h : Demo1.logic a = Demo3.logic b) :
    Demo1.logic (Demo1.ped_try_start_at_safe_allred f a) =
      Demo3.logic (Demo3.ped_try_start_at_safe_allred f b) := by
  rw [logic_eq_iff] at h
  obtain ⟨h1, h2, h3, h4, h5, h6, h7, h8, h9, h10, h11, h12⟩ := h
  unfold Demo1.ped_try_start_at_safe_allred Demo3.ped_try_start_at_safe_allred
  rw [h4]
  split_ifs <;>
    simp [logic_eq_iff, Demo1.notify, Demo3.notify, h1, h2, h3, h4, h5, h6, h7, h8, h9, h10,
      h11, h12]

theorem logic_ped_stop (a : Demo1.Ctl) (b : Demo3.Ctl) (h : Demo1.logic a = Demo3.logic b) :
    Demo1.logic (Demo1.ped_stop_if_prep_finished a) =
      Demo3.logic (Demo3.ped_stop_if_prep_finished b) := by
  rw [logic_eq_iff] at h
  obtain ⟨h1, h2, h3, h4, h5, h6, h7, h8, h9, h10, h11, h12⟩ := h
  unfold Demo1.ped_stop_if_prep_finished Demo3.ped_stop_if_prep_finished
  rw [h7, h8]
  split_ifs <;>
    simp [logic_eq_iff, Demo1.notify, Demo3.notify, h1, h2, h3, h4, h5, h6, h7, h8, h9, h10,
      h11, h12]

theorem logic_clear_notice (a : Demo1.Ctl) (b : Demo3.Ctl) (h : Demo1.logic a = Demo3.logic b) :
    Demo1.logic (Demo1.clear_notice a) = Demo3.logic (Demo3.clear_notice b) := by
  rw [logic_eq_iff] at h
  obtain ⟨h1, h2, h3, h4, h5, h6, h7, h8, h9, h10, h11, h12⟩ := h
  unfold Demo1.clear_notice Demo3.clear_notice
  simp only []
  rw [h3, h9]
  split_ifs <;>
    simp_all [logic_eq_iff, Demo1.notify, Demo3.notify]

/-- The two ring tables agree on every field except the durations of the phases that are
not green and the names of the indications. -/
theorem tables_agree :
    ∀ k, k < 12 →
      (Demo1.find_norm k).isSome = true ∧
      (Demo1.find_norm k).map (fun x => (x.id, x.is_safe_allred, x.is_prep_y, x.is_green,
          x.to_yellow, x.next, if x.is_green then x.dur_s else 0)) =
        (Demo3.find_norm k).map (fun y => (y.id, y.is_safe_allred, y.is_prep_y, y.is_green,
          y.to_yellow, y.next, if y.is_green then y.dur_s else 0)) := by
  intro k hk
  interval_cases k <;> exact ⟨rfl, rfl⟩

theorem tables_agree_some {k : Nat} {x : Demo1.normal_def_t} (h : Demo1.find_norm k = some x) :
    ∃ y, Demo3.find_norm k = some y ∧ y.is_safe_allred = x.is_safe_allred ∧
      y.is_prep_y = x.is_prep_y ∧ y.is_green = x.is_green ∧ y.to_yellow = x.to_yellow ∧
      y.next = x.next ∧ (x.is_green = true → y.dur_s = x.dur_s) := by
  have hk : k < 12 := by
    by_contra hn
    rw [Demo1.find_norm_stray k (by omega)] at h
    exact absurd h (by simp)
  have := (tables_agree k hk).2
  rw [h] at this
  cases hy : Demo3.find_norm k with
  | none => rw [hy] at this; exact absurd this (by simp)
  | some y =>
    rw [hy] at this
    simp only [Option.map_some', Option.some.injEq, Prod.mk.injEq] at this
    obtain ⟨-, t2, t3, t4, t5, t6, t7⟩ := this
    refine ⟨y, rfl, t2.symm, t3.symm, t4.symm, t5.symm, t6.symm, fun hg => ?_⟩
    rw [hg, ← t4, hg] at t7
    simpa using t7.symm

theorem tables_agree_none {k : Nat} (h : Demo1.find_norm k = none) :
    Demo3.find_norm k = none := by
  by_cases hk : k < 12
  · have := (tables_agree k hk).1
    rw [h] at this
    exact absurd this (by simp)
  · exact Demo3.d3_find_norm_stray (by omega)

theorem greens_agree (k : Nat) : Demo1.is_normal_green k = Demo3.is_normal_green k := by
  unfold Demo1.is_normal_green Demo3.is_normal_green
  cases h : Demo1.find_norm k with
  | none => rw [tables_agree_none h]
  | some x =>
    obtain ⟨y, hy, -, -, hg, -⟩ := tables_agree_some h
    rw [hy]
    exact hg.symm

/-- One quantum of the ring wait with the same poll result on both sides. -/
theorem logic_normal_wait_quantum (st1 : Demo1.normal_def_t) (st3 : Demo3.normal_def_t)
    (hty : st3.to_yellow = st1.to_yellow) (e1 e3 : Nat → Option Char) (ms1 ms3 : Nat)
    (a : Demo1.Ctl) (b : Demo3.Ctl) (h : Demo1.logic a = Demo3.logic b)
    (he : e1 a.polls = e3 b.polls) :
    (Demo1.normal_wait_quantum st1 e1 ms1 a).1 = (Demo3.normal_wait_quantum st3 e3 ms3 b).1 ∧
    Demo1.logic (Demo1.normal_wait_quantum st1 e1 ms1 a).2 =
      Demo3.logic (Demo3.normal_wait_quantum st3 e3 ms3 b).2 := by
  have hq : Demo1.logic (Demo1.poll_events_from_qnet_nonblock e1 (Demo1.nanosleep_ms ms1 a)) =
      Demo3.logic (Demo3.poll_events_from_qnet_nonblock e3 (Demo3.nanosleep_ms ms3 b)) := by
    rw [logic1_quantum, logic3_quantum, h, he]
  have hq2 := (logic_eq_iff _ _).1 hq
  unfold Demo1.normal_wait_quantum Demo3.normal_wait_quantum
  simp only []
  rw [hq2.1, hq2.2.2.2.2.2.2.2.2.2.2.2, greens_agree]
  split_ifs
  · refine ⟨rfl, ?_⟩
    rw [logic_eq_iff]
    obtain ⟨h1, h2, h3, h4, h5, h6, h7, h8, h9, h10, h11, h12⟩ := hq2
    exact ⟨h1, h2, h3, h4, h5, rfl, h7, h8, h9, h10, h11, hty.symm⟩
  · exact ⟨rfl, hq⟩

theorem logic_normal_wait_loop (st1 : Demo1.normal_def_t) (st3 : Demo3.normal_def_t)
    (hty : st3.to_yellow = st1.to_yellow) (e1 e3 : Nat → Option Char) (n : Nat) :
    ∀ (a : Demo1.Ctl) (b : Demo3.Ctl), Demo1.logic a = Demo3.logic b →
      (∀ i, i < n → e1 (a.polls + i) = e3 (b.polls + i)) →
      (Demo1.normal_wait_loop st1 e1 n a).1 = (Demo3.normal_wait_loop st3 e3 n b).1 ∧
      Demo1.logic (Demo1.normal_wait_loop st1 e1 n a).2 =
        Demo3.logic (Demo3.normal_wait_loop st3 e3 n b).2 := by
  induction n with
  | zero => intro a b h _; exact ⟨rfl, h⟩
  | succ n ih =>
    intro a b h he
    obtain ⟨q1, q2⟩ := logic_normal_wait_quantum st1 st3 hty e1 e3 100 100 a b h
      (by simpa using he 0 (by omega))
    have c1 : (Demo1.normal_wait_quantum st1 e1 100 a).2.polls = a.polls + 1 := by
      unfold Demo1.normal_wait_quantum
      simp only []
      split_ifs <;> exact (Demo1.quantum_counters e1 100 a).1
    have c3 : (Demo3.normal_wait_quantum st3 e3 100 b).2.polls = b.polls + 1 := by
      unfold Demo3.normal_wait_quantum
      simp only []
      split_ifs <;> exact (Demo3.d3_quantum_ns e3 100 b).2
    unfold Demo1.normal_wait_loop Demo3.normal_wait_loop
    rcases hx : Demo1.normal_wait_quantum st1 e1 100 a with ⟨x1, x2⟩
    rcases hy : Demo3.normal_wait_quantum st3 e3 100 b with ⟨y1, y2⟩
    rw [hx, hy] at q1 q2
    rw [hx] at c1
    rw [hy] at c3
    simp only at q1 q2 c1 c3
    subst q1
    cases x1
    · refine ih x2 y2 q2 (fun i hi => ?_)
      rw [c1, c3, show a.polls + 1 + i = a.polls + (i + 1) by omega,
        show b.polls + 1 + i = b.polls + (i + 1) by omega]
      exact he (i + 1) (by omega)
    · exact ⟨rfl, q2⟩

/-- The part of `normal_step` after the wait, on both sides: every flag and the train cursor
agree; the ring cursors agree unless the forced-yellow jump is taken, whose targets are
exchanged. -/
theorem logic_normal_after_wait_key (st1 : Demo1.normal_def_t) (st3 : Demo3.normal_def_t)
    (hs : st3.is_safe_allred = st1.is_safe_allred) (hn : st3.next = st1.next)
    (a : Demo1.Ctl) (b : Demo3.Ctl) (h : Demo1.logic a = Demo3.logic b) :
    { Demo1.logic (Demo1.normal_after_wait { st1 with is_prep_y := false } a) with ns := 0 } =
      { Demo3.logic (Demo3.normal_after_wait { st3 with is_prep_y := false } b) with ns := 0 } ∧
    (if (a.train_request && a.train_preempt_to_allred &&
          (a.ns == Demo1.N_R3_RS_Y || a.ns == Demo1.N_R3_L_Y)) = true then
        (Demo1.normal_after_wait { st1 with is_prep_y := false } a).ns = Demo1.N_ALL_RED_1 ∧
        (Demo3.normal_after_wait { st3 with is_prep_y := false } b).ns = Demo3.N_ALL_RED_2 ∧
        (Demo1.normal_after_wait { st1 with is_prep_y := false } a).train_request = true
      else if (a.train_request && a.train_preempt_to_allred &&
          (a.ns == Demo1.N_R1_RS_Y || a.ns == Demo1.N_R1_L_Y)) = true then
        (Demo1.normal_after_wait { st1 with is_prep_y := false } a).ns = Demo1.N_ALL_RED_2 ∧
        (Demo3.normal_after_wait { st3 with is_prep_y := false } b).ns = Demo3.N_ALL_RED_1 ∧
        (Demo1.normal_after_wait { st1 with is_prep_y := false } a).train_request = true
      else (Demo1.normal_after_wait { st1 with is_prep_y := false } a).ns =
        (Demo3.normal_after_wait { st3 with is_prep_y := false } b).ns) := by
  obtain ⟨rq, ac, cp, pr, its, pa, ub, pw, ps, tr, cn, ns, sl, po, out⟩ := a
  obtain ⟨rq2, ac2, cp2, pr2, its2, pa2, ub2, us2, pw2, ps2, tr2, cn2, ns2, sl2, po2, out2⟩ := b
  simp only [logic_eq_iff] at h
  obtain ⟨rfl, rfl, rfl, rfl, rfl, rfl, rfl, rfl, rfl, rfl, rfl, rfl⟩ := h
  unfold Demo1.normal_after_wait Demo3.normal_after_wait
  simp only [Bool.false_eq_true, if_false, hs, hn]
  split_ifs <;>
    simp_all [Demo1.logic, Demo3.logic, Demo1.notify, Demo3.notify]

theorem normal_after_wait_split1 (st : Demo1.normal_def_t) (x : Demo1.Ctl) :
    Demo1.normal_after_wait st x =
      Demo1.normal_after_wait { st with is_prep_y := false }
        (if st.is_prep_y then Demo1.ped_stop_if_prep_finished x else x) := by
  unfold Demo1.normal_after_wait
  simp

theorem normal_after_wait_split3 (st : Demo3.normal_def_t) (x : Demo3.Ctl) :
    Demo3.normal_after_wait st x =
      Demo3.normal_after_wait { st with is_prep_y := false }
        (if st.is_prep_y then Demo3.ped_stop_if_prep_finished x else x) := by
  unfold Demo3.normal_after_wait
  simp

theorem logic_normal_after_wait (st1 : Demo1.normal_def_t) (st3 : Demo3.normal_def_t)
    (hp : st3.is_prep_y = st1.is_prep_y)
    (hs : st3.is_safe_allred = st1.is_safe_allred) (hn : st3.next = st1.next)
    (a : Demo1.Ctl) (b : Demo3.Ctl) (h : Demo1.logic a = Demo3.logic b) :
    { Demo1.logic (Demo1.normal_after_wait st1 a) with ns := 0 } =
      { Demo3.logic (Demo3.normal_after_wait st3 b) with ns := 0 } ∧
    (if (a.train_request && a.train_preempt_to_allred &&
          (a.ns == Demo1.N_R3_RS_Y || a.ns == Demo1.N_R3_L_Y)) = true then
        (Demo1.normal_after_wait st1 a).ns = Demo1.N_ALL_RED_1 ∧
        (Demo3.normal_after_wait st3 b).ns = Demo3.N_ALL_RED_2 ∧
        (Demo1.normal_after_wait st1 a).train_request = true
      else if (a.train_request && a.train_preempt_to_allred &&
          (a.ns == Demo1.N_R1_RS_Y || a.ns == Demo1.N_R1_L_Y)) = true then
        (Demo1.normal_after_wait st1 a).ns = Demo1.N_ALL_RED_2 ∧
        (Demo3.normal_after_wait st3 b).ns = Demo3.N_ALL_RED_1 ∧
        (Demo1.normal_after_wait st1 a).train_request = true
      else (Demo1.normal_after_wait st1 a).ns = (Demo3.normal_after_wait st3 b).ns) := by
  rw [normal_after_wait_split1, normal_after_wait_split3, hp]
  by_cases hpy : st1.is_prep_y = true
  · rw [if_pos hpy, if_pos hpy]
    obtain ⟨q1, q2, q3, -⟩ := Demo1.ped_stop_train_fields a
    have := logic_normal_after_wait_key st1 st3 hs hn _ _ (logic_ped_stop a b h)
    rw [q1, q2, q3] at this
    exact this
  · rw [if_neg hpy, if_neg hpy]
    exact logic_normal_after_wait_key st1 st3 hs hn a b h

theorem normal_wait_eq_loop1 (st : Demo1.normal_def_t) (hst : st ∈ Demo1.NORM)
    (evs : Nat → Option Char) (x : Demo1.Ctl) :
    Demo1.normal_wait st evs x = Demo1.normal_wait_loop st evs (10 * st.dur_s) x := by
  obtain ⟨hsteps, hrem⟩ := Demo1.NORM_steps st hst
  simp only [Demo1.normal_wait, hsteps, hrem, ne_eq, not_true_eq_false, if_false]
  rcases Demo1.normal_wait_loop st evs (10 * st.dur_s) x with ⟨x1, x2⟩
  cases x1 <;> rfl

theorem normal_wait_eq_loop3 (st : Demo3.normal_def_t) (hst : st ∈ Demo3.NORM)
    (evs : Nat → Option Char) (x : Demo3.Ctl) :
    Demo3.normal_wait st evs x = Demo3.normal_wait_loop st evs (10 * st.dur_s) x := by
  obtain ⟨hsteps, hrem⟩ := Demo3.d3_NORM_steps st hst
  simp only [Demo3.normal_wait, hsteps, hrem, ne_eq, not_true_eq_false, if_false]
  rcases Demo3.normal_wait_loop st evs (10 * st.dur_s) x with ⟨x1, x2⟩
  cases x1 <;> rfl

theorem d3_ped_try_start_polls (f : Bool) (s : Demo3.Ctl) :
    (Demo3.ped_try_start_at_safe_allred f s).polls = s.polls := by
  unfold Demo3.ped_try_start_at_safe_allred
  split_ifs <;> rfl

/-- The wait of `normal_step` on both sides: with the polls of a green aligned one by one,
and with the same event bytes received during any other phase, both waits end the same way
with the same flags. -/
theorem logic_normal_wait (st1 : Demo1.normal_def_t) (st3 : Demo3.normal_def_t)
    (e1 e3 : Nat → Option Char) (a : Demo1.Ctl) (b : Demo3.Ctl)
    (h1 : Demo1.find_norm a.ns = some st1) (h3 : Demo3.find_norm b.ns = some st3)
    (hg : st3.is_green = st1.is_green) (hty : st3.to_yellow = st1.to_yellow)
    (hdur : st1.is_green = true → st3.dur_s = st1.dur_s)
    (h : Demo1.logic a = Demo3.logic b)
    (hev1 : st1.is_green = true → ∀ i, i < 10 * st1.dur_s → e1 (a.polls + i) = e3 (b.polls + i))
    (hev2 : st1.is_green = false →
      delivered e1 a.polls (10 * st1.dur_s) = delivered e3 b.polls (10 * st3.dur_s)) :
    (Demo1.normal_wait st1 e1 a).1 = (Demo3.normal_wait st3 e3 b).1 ∧
    Demo1.logic (Demo1.normal_wait st1 e1 a).2 = Demo3.logic (Demo3.normal_wait st3 e3 b).2 := by
  have m1 := (Demo1.find_norm_some h1).1
  have m3 := Demo3.d3_find_norm_mem h3
  rw [normal_wait_eq_loop1 st1 m1, normal_wait_eq_loop3 st3 m3]
  by_cases hgr : st1.is_green = true
  · rw [hdur hgr]
    exact logic_normal_wait_loop st1 st3 hty e1 e3 _ a b h (hev1 hgr)
  · have hgf : st1.is_green = false := by simpa using hgr
    have g1 : Demo1.is_normal_green a.ns = false := by simp [Demo1.is_normal_green, h1, hgf]
    have g3 : Demo3.is_normal_green b.ns = false := by
      simp [Demo3.is_normal_green, h3, hg, hgf]
    rw [Demo1.normal_wait_loop_not_green st1 e1 _ a g1,
      Demo3.d3_normal_wait_loop_not_green st3 e3 _ b g3]
    exact ⟨rfl, logic_wait_poll_loop e1 e3 _ _ a b h (hev2 hgf)⟩

theorem logic_of_erased {l m : Logic} (h : { l with ns := 0 } = { m with ns := 0 })
    (hns : l.ns = m.ns) : l = m := by
  obtain ⟨l1, l2, l3, l4, l5, l6, l7, l8, l9, l10, l11, l12⟩ := l
  obtain ⟨m1, m2, m3, m4, m5, m6, m7, m8, m9, m10, m11, m12⟩ := m
  simp only [Logic.mk.injEq] at h ⊢
  simp only at hns
  obtain ⟨h1, h2, h3, h4, h5, h6, h7, h8, h9, h10, h11, -⟩ := h
  exact ⟨h1, h2, h3, h4, h5, h6, h7, h8, h9, h10, h11, hns⟩

/-- One ring step on both sides. -/
theorem logic_normal_step (e1 e3 : Nat → Option Char) (a : Demo1.Ctl) (b : Demo3.Ctl)
    (h : Demo1.logic a = Demo3.logic b)
    (hev : ∀ st1 st3, Demo1.find_norm a.ns = some st1 → Demo3.find_norm b.ns = some st3 →
      (st1.is_green = true → ∀ i, i < 10 * st1.dur_s → e1 (a.polls + i) = e3 (b.polls + i)) ∧
      (st1.is_green = false →
        delivered e1 a.polls (10 * st1.dur_s) = delivered e3 b.polls (10 * st3.dur_s))) :
    { Demo1.logic (Demo1.normal_step e1 a) with ns := 0 } =
      { Demo3.logic (Demo3.normal_step e3 b) with ns := 0 } ∧
    ((Demo1.normal_step e1 a).ns = (Demo3.normal_step e3 b).ns ∨
      (a.train_preempt_to_allred = true ∧ (Demo1.normal_step e1 a).train_request = true ∧
        (((a.ns = Demo1.N_R3_RS_Y ∨ a.ns = Demo1.N_R3_L_Y) ∧
            (Demo1.normal_step e1 a).ns = Demo1.N_ALL_RED_1 ∧
            (Demo3.normal_step e3 b).ns = Demo3.N_ALL_RED_2) ∨
         ((a.ns = Demo1.N_R1_RS_Y ∨ a.ns = Demo1.N_R1_L_Y) ∧
            (Demo1.normal_step e1 a).ns = Demo1.N_ALL_RED_2 ∧
            (Demo3.normal_step e3 b).ns = Demo3.N_ALL_RED_1)))) := by
  have hns : a.ns = b.ns := ((logic_eq_iff a b).1 h).2.2.2.2.2.2.2.2.2.2.2
  cases hf : Demo1.find_norm a.ns with
  | none =>
    have hf3 : Demo3.find_norm b.ns = none := by rw [← hns]; exact tables_agree_none hf
    have r1 : Demo1.normal_step e1 a = { a with ns := Demo1.N_ALL_RED_1 } := by
      simp [Demo1.normal_step, hf]
    have r3 : Demo3.normal_step e3 b = { b with ns := Demo3.N_ALL_RED_1 } := by
      simp [Demo3.normal_step, hf3]
    rw [r1, r3]
    rw [logic_eq_iff] at h
    obtain ⟨h1, h2, h3, h4, h5, h6, h7, h8, h9, h10, h11, h12⟩ := h
    refine ⟨?_, Or.inl rfl⟩
    simp [Demo1.logic, Demo3.logic, h1, h2, h3, h4, h5, h6, h7, h8, h9, h10, h11]
  | some st1 =>
    obtain ⟨st3, hf3, ts, tp, tg, ty, tn, td⟩ := tables_agree_some hf
    rw [hns] at hf3
    obtain ⟨hev1, hev2⟩ := hev st1 st3 hf hf3
    have ha1 := logic_ped_try_start st1.is_safe_allred a b h
    have hpa := (Demo1.ped_try_start_frame st1.is_safe_allred a).1
    have hpb := d3_ped_try_start_polls st1.is_safe_allred b
    have hna := Demo1.ped_try_start_ns st1.is_safe_allred a
    have hnb : (Demo3.ped_try_start_at_safe_allred st1.is_safe_allred b).ns = b.ns := by
      unfold Demo3.ped_try_start_at_safe_allred
      split_ifs <;> rfl
    have hfa : (Demo1.ped_try_start_at_safe_allred st1.is_safe_allred a).train_preempt_to_allred
        = a.train_preempt_to_allred := by
      unfold Demo1.ped_try_start_at_safe_allred
      split_ifs <;> rfl
    have r1 : Demo1.normal_step e1 a =
        (match Demo1.normal_wait st1 e1 (Demo1.print_normal_line a.ns st1
            (Demo1.ped_try_start_at_safe_allred st1.is_safe_allred a)) with
          | (true, s3) => s3
          | (false, s3) => Demo1.normal_after_wait st1 s3) := by
      simp only [Demo1.normal_step, hf, hna]
    have r3 : Demo3.normal_step e3 b =
        (match Demo3.normal_wait st3 e3 (Demo3.print_normal_line b.ns st3
            (Demo3.ped_try_start_at_safe_allred st1.is_safe_allred b)) with
          | (true, s3) => s3
          | (false, s3) => Demo3.normal_after_wait st3 s3) := by
      simp only [Demo3.normal_step, hf3, hnb, ts]
    obtain ⟨w, hw, hh⟩ := Demo1.normal_wait_shape st1 e1 (Demo1.print_normal_line a.ns st1
      (Demo1.ped_try_start_at_safe_allred st1.is_safe_allred a))
    obtain ⟨q1, q2⟩ := logic_normal_wait st1 st3 e1 e3
      (Demo1.print_normal_line a.ns st1 (Demo1.ped_try_start_at_safe_allred st1.is_safe_allred a))
      (Demo3.print_normal_line b.ns st3 (Demo3.ped_try_start_at_safe_allred st1.is_safe_allred b))
      (by show Demo1.find_norm (Demo1.ped_try_start_at_safe_allred _ a).ns = _; rw [hna]; exact hf)
      (by show Demo3.find_norm (Demo3.ped_try_start_at_safe_allred _ b).ns = _; rw [hnb]; exact hf3)
      tg ty td ha1
      (fun hg i hi => by
        show e1 ((Demo1.ped_try_start_at_safe_allred _ a).polls + i) =
          e3 ((Demo3.ped_try_start_at_safe_allred _ b).polls + i)
        rw [hpa, hpb]; exact hev1 hg i hi)
      (fun hg => by
        show delivered e1 (Demo1.ped_try_start_at_safe_allred _ a).polls _ =
          delivered e3 (Demo3.ped_try_start_at_safe_allred _ b).polls _
        rw [hpa, hpb]; exact hev2 hg)
    rw [r1, r3]
    rcases hx : Demo1.normal_wait st1 e1 (Demo1.print_normal_line a.ns st1
      (Demo1.ped_try_start_at_safe_allred st1.is_safe_allred a)) with ⟨x1, x2⟩
    rcases hy : Demo3.normal_wait st3 e3 (Demo3.print_normal_line b.ns st3
      (Demo3.ped_try_start_at_safe_allred st1.is_safe_allred b)) with ⟨y1, y2⟩
    rw [hx, hy] at q1 q2
    simp only at q1 q2
    subst q1
    cases x1
    · -- the wait ran to completion
      simp only []
      have hxw : x2 = w := by
        rcases hh with hh | ⟨-, -, hh⟩
        · rw [hx] at hh; exact (Prod.mk.inj hh).2
        · rw [hx] at hh; exact absurd (Prod.mk.inj hh).1 (by decide)
      obtain ⟨k1, k2⟩ := logic_normal_after_wait st1 st3 tp ts tn x2 y2 q2
      have hx2ns : x2.ns = a.ns := by
        rw [hxw, hw.2.2.2.2.2.2.2.1]; exact hna
      have hx2f : x2.train_preempt_to_allred = a.train_preempt_to_allred := by
        rw [hxw, hw.2.1]
        show (Demo1.ped_try_start_at_safe_allred _ a).train_preempt_to_allred = _
        exact hfa
      refine ⟨k1, ?_⟩
      rw [hx2ns, hx2f] at k2
      split_ifs at k2 with c1 c2
      · right
        simp only [Bool.and_eq_true, Bool.or_eq_true, beq_iff_eq] at c1
        exact ⟨c1.1.2, k2.2.2, Or.inl ⟨c1.2, k2.1, k2.2.1⟩⟩
      · right
        simp only [Bool.and_eq_true, Bool.or_eq_true, beq_iff_eq] at c2
        exact ⟨c2.1.2, k2.2.2, Or.inr ⟨c2.2, k2.1, k2.2.1⟩⟩
      · exact Or.inl k2
    · -- the wait was cut short
      simp only []
      refine ⟨by rw [q2], Or.inl ?_⟩
      exact ((logic_eq_iff _ _).1 q2).2.2.2.2.2.2.2.2.2.2.2

theorem logic_tr_of_erased {l m : Logic} (h : { l with tr := 0 } = { m with tr := 0 })
    (htr : l.tr = m.tr) : l = m := by
  obtain ⟨l1, l2, l3, l4, l5, l6, l7, l8, l9, l10, l11, l12⟩ := l
  obtain ⟨m1, m2, m3, m4, m5, m6, m7, m8, m9, m10, m11, m12⟩ := m
  simp only [Logic.mk.injEq] at h ⊢
  simp only at htr
  obtain ⟨h1, h2, h3, h4, h5, h6, h7, h8, h9, h10, -, h12⟩ := h
  exact ⟨h1, h2, h3, h4, h5, h6, h7, h8, h9, h10, htr, h12⟩

/-- The part of `train_step` after the wait, on both sides: every flag and the ring cursor
agree; the train cursors agree except in the `else` branch of `TR_S08_ALL_RED_B`, where
demo1.c stays at `TR_S08_ALL_RED_B` and demo3.c goes to `TR_S04_ALL_RED_A`. -/
theorem logic_train_after_wait (a : Demo1.Ctl) (b : Demo3.Ctl)
    (h : Demo1.logic a = Demo3.logic b) :
    { Demo1.logic (Demo1.train_after_wait a) with tr := 0 } =
      { Demo3.logic (Demo3.train_after_wait b) with tr := 0 } ∧
    ((Demo1.train_after_wait a).tr = (Demo3.train_after_wait b).tr ∨
      (a.tr = Demo1.TR_S08_ALL_RED_B ∧
        ((Demo1.train_after_wait a).train_active &&
          !(Demo1.train_after_wait a).train_clear_pending) = false ∧
        (Demo1.train_after_wait a).tr = Demo1.TR_S08_ALL_RED_B ∧
        (Demo3.train_after_wait b).tr = Demo3.TR_S04_ALL_RED_A)) := by
  have key : ∀ (x : Demo1.Ctl) (y : Demo3.Ctl), Demo1.logic x = Demo3.logic y →
      { Demo1.logic { x with tr := Demo1.train_next x } with tr := 0 } =
        { Demo3.logic { y with tr := Demo3.train_next y } with tr := 0 } ∧
      (Demo1.train_next x = Demo3.train_next y ∨
        (x.tr = Demo1.TR_S08_ALL_RED_B ∧ (x.train_active && !x.train_clear_pending) = false ∧
          Demo1.train_next x = Demo1.TR_S08_ALL_RED_B ∧
          Demo3.train_next y = Demo3.TR_S04_ALL_RED_A)) := by
    intro x y hxy
    obtain ⟨rq, ac, cp, pr, its, pa, ub, pw, ps, tr, cn, ns, sl, po, out⟩ := x
    obtain ⟨rq2, ac2, cp2, pr2, its2, pa2, ub2, us2, pw2, ps2, tr2, cn2, ns2, sl2, po2, out2⟩ := y
    simp only [logic_eq_iff] at hxy
    obtain ⟨rfl, rfl, rfl, rfl, rfl, rfl, rfl, rfl, rfl, rfl, rfl, rfl⟩ := hxy
    refine ⟨by simp [Demo1.logic, Demo3.logic], ?_⟩
    by_cases ht : tr ≤ 7
    · interval_cases tr <;> simp [Demo1.train_next, Demo3.train_next] <;>
        cases ac <;> cases cp <;> simp
    · obtain ⟨d, rfl⟩ : ∃ d, tr = d + 8 := ⟨tr - 8, by omega⟩
      simp [Demo1.train_next, Demo3.train_next]
  have hprep : Demo3.train_is_prep b.tr = Demo1.train_is_prep a.tr := by
    rw [((logic_eq_iff a b).1 h).2.2.2.2.2.2.2.2.2.2.1]
    rfl
  unfold Demo1.train_after_wait Demo3.train_after_wait
  simp only []
  rw [hprep]
  by_cases hp : Demo1.train_is_prep a.tr = true
  · rw [if_pos hp, if_pos hp]
    obtain ⟨k1, k2⟩ := key _ _ (logic_ped_stop a b h)
    refine ⟨k1, ?_⟩
    have ht : (Demo1.ped_stop_if_prep_finished a).tr = a.tr := by
      unfold Demo1.ped_stop_if_prep_finished
      split_ifs <;> rfl
    rw [ht] at k2
    exact k2
  · rw [if_neg hp, if_neg hp]
    exact key a b h

/-- One `train_step` on both sides, with the same event bytes received during the wait. -/
theorem logic_train_step (e1 e3 : Nat → Option Char) (a : Demo1.Ctl) (b : Demo3.Ctl)
    (h : Demo1.logic a = Demo3.logic b)
    (hev : delivered e1 a.polls (10 * Demo1.train_duration a.tr) =
      delivered e3 b.polls (10 * Demo3.train_duration b.tr)) :
    { Demo1.logic (Demo1.train_step e1 a) with tr := 0 } =
      { Demo3.logic (Demo3.train_step e3 b) with tr := 0 } ∧
    ((Demo1.train_step e1 a).tr = (Demo3.train_step e3 b).tr ∨
      (a.tr = Demo1.TR_S08_ALL_RED_B ∧
        ((Demo1.train_step e1 a).train_active &&
          !(Demo1.train_step e1 a).train_clear_pending) = false ∧
        (Demo1.train_step e1 a).tr = Demo1.TR_S08_ALL_RED_B ∧
        (Demo3.train_step e3 b).tr = Demo3.TR_S04_ALL_RED_A)) := by
  have htr : a.tr = b.tr := ((logic_eq_iff a b).1 h).2.2.2.2.2.2.2.2.2.2.1
  have hsafe : Demo3.train_is_safe_allred b.tr = Demo1.train_is_safe_allred a.tr := by
    rw [htr]; rfl
  have ta := Demo1.ped_try_start_tr (Demo1.train_is_safe_allred a.tr) a
  have tb : (Demo3.ped_try_start_at_safe_allred (Demo1.train_is_safe_allred a.tr) b).tr = b.tr := by
    unfold Demo3.ped_try_start_at_safe_allred
    split_ifs <;> rfl
  have hpa := (Demo1.ped_try_start_frame (Demo1.train_is_safe_allred a.tr) a).1
  have hpb := d3_ped_try_start_polls (Demo1.train_is_safe_allred a.tr) b
  have r1 : Demo1.train_step e1 a = Demo1.train_after_wait
      (Demo1.wait_poll_loop e1 (10 * Demo1.train_duration a.tr)
        (Demo1.print_train_line a.tr
          (Demo1.ped_try_start_at_safe_allred (Demo1.train_is_safe_allred a.tr) a))) := by
    unfold Demo1.train_step
    simp only []
    rw [ta]
    show Demo1.train_after_wait (Demo1.wait_with_poll_ms
      (Demo1.train_duration (Demo1.ped_try_start_at_safe_allred _ a).tr * 1000 % Demo1.UINT_MOD)
      e1 _) = _
    rw [ta, Demo1.train_wait_uninterrupted]
  have r3 : Demo3.train_step e3 b = Demo3.train_after_wait
      (Demo3.wait_poll_loop e3 (10 * Demo3.train_duration b.tr)
        (Demo3.print_train_line b.tr
          (Demo3.ped_try_start_at_safe_allred (Demo1.train_is_safe_allred a.tr) b))) := by
    unfold Demo3.train_step
    simp only []
    rw [hsafe, tb]
    show Demo3.train_after_wait (Demo3.wait_with_poll_ms
      (Demo3.train_duration (Demo3.ped_try_start_at_safe_allred _ b).tr * 1000 % Demo3.UINT_MOD)
      e3 _) = _
    rw [tb, Demo3.d3_train_wait]
  have hw := logic_wait_poll_loop e1 e3 (10 * Demo1.train_duration a.tr)
    (10 * Demo3.train_duration b.tr)
    (Demo1.print_train_line a.tr
      (Demo1.ped_try_start_at_safe_allred (Demo1.train_is_safe_allred a.tr) a))
    (Demo3.print_train_line b.tr
      (Demo3.ped_try_start_at_safe_allred (Demo1.train_is_safe_allred a.tr) b))
    (logic_ped_try_start _ a b h)
    (by
      show delivered e1 (Demo1.ped_try_start_at_safe_allred _ a).polls _ =
        delivered e3 (Demo3.ped_try_start_at_safe_allred _ b).polls _
      rw [hpa, hpb]; exact hev)
  have hP := Demo1.wait_poll_loop_polled e1 (10 * Demo1.train_duration a.tr)
    (Demo1.print_train_line a.tr
      (Demo1.ped_try_start_at_safe_allred (Demo1.train_is_safe_allred a.tr) a))
  have hwt : (Demo1.wait_poll_loop e1 (10 * Demo1.train_duration a.tr)
      (Demo1.print_train_line a.tr
        (Demo1.ped_try_start_at_safe_allred (Demo1.train_is_safe_allred a.tr) a))).tr = a.tr := by
    rw [hP.2.2.2.2.2.1]; exact ta
  rw [r1, r3]
  obtain ⟨k1, k2⟩ := logic_train_after_wait _ _ hw
  rw [hwt] at k2
  exact ⟨k1, k2⟩

/-- The exit test on both sides, run on states that agree except possibly for a train
cursor at `TR_S08_ALL_RED_B` on one side and `TR_S04_ALL_RED_A` on the other. -/
theorem logic_train_exit_check (a : Demo1.Ctl) (b : Demo3.Ctl)
    (h : { Demo1.logic a with tr := 0 } = { Demo3.logic b with tr := 0 })
    (ht : a.tr = b.tr ∨ (a.tr = Demo1.TR_S08_ALL_RED_B ∧ b.tr = Demo3.TR_S04_ALL_RED_A)) :
    { Demo1.logic (Demo1.train_exit_check a) with tr := 0 } =
      { Demo3.logic (Demo3.train_exit_check b) with tr := 0 } ∧
    (Demo1.train_exit_check a).tr = a.tr ∧ (Demo3.train_exit_check b).tr = b.tr ∧
    (a.train_clear_pending = false →
      (Demo1.train_exit_check a).train_active = a.train_active) ∧
    (a.train_clear_pending = true → Demo1.train_is_safe_allred a.tr = true →
      (Demo1.train_exit_check a).in_train_state = false) := by
  have hsafe : Demo3.train_is_safe_allred b.tr = Demo1.train_is_safe_allred a.tr := by
    rcases ht with ht | ⟨h1, h2⟩
    · rw [ht]; rfl
    · rw [h1, h2]; rfl
  obtain ⟨rq, ac, cp, pr, its, pa, ub, pw, ps, tr, cn, ns, sl, po, out⟩ := a
  obtain ⟨rq2, ac2, cp2, pr2, its2, pa2, ub2, us2, pw2, ps2, tr2, cn2, ns2, sl2, po2, out2⟩ := b
  simp only [Demo1.logic, Demo3.logic, Logic.mk.injEq] at h
  obtain ⟨rfl, rfl, rfl, rfl, rfl, rfl, rfl, rfl, rfl, rfl, -, rfl⟩ := h
  unfold Demo1.train_exit_check Demo3.train_exit_check
  simp only [hsafe]
  simp only at hsafe
  split_ifs with hc <;>
    simp_all [Demo1.logic, Demo3.logic, Demo1.notify, Demo3.notify, Demo1.normal_ui_set_start,
      Demo3.normal_ui_set_start, Demo1.normal_ui_index_raw, Demo3.normal_ui_index_raw,
      Demo1.normal_ui_index_raw_scan, Demo3.normal_ui_index_raw_scan, Demo1.NORM, Demo3.NORM]

theorem clear_notice_frame1 (a : Demo1.Ctl) :
    (Demo1.clear_notice a).polls = a.polls ∧ (Demo1.clear_notice a).tr = a.tr := by
  unfold Demo1.clear_notice
  simp only []
  split_ifs <;> exact ⟨rfl, rfl⟩

theorem clear_notice_frame3 (b : Demo3.Ctl) :
    (Demo3.clear_notice b).polls = b.polls ∧ (Demo3.clear_notice b).tr = b.tr := by
  unfold Demo3.clear_notice
  simp only []
  split_ifs <;> exact ⟨rfl, rfl⟩

/-- One `train_run_until_exit` on both sides, with the same event bytes received during the
wait. -/
theorem logic_train_run (e1 e3 : Nat → Option Char) (a : Demo1.Ctl) (b : Demo3.Ctl)
    (h : Demo1.logic a = Demo3.logic b)
    (hev : delivered e1 a.polls (10 * Demo1.train_duration a.tr) =
      delivered e3 b.polls (10 * Demo3.train_duration b.tr)) :
    { Demo1.logic (Demo1.train_run_until_exit e1 a) with tr := 0 } =
      { Demo3.logic (Demo3.train_run_until_exit e3 b) with tr := 0 } ∧
    ((Demo1.train_run_until_exit e1 a).tr = (Demo3.train_run_until_exit e3 b).tr ∨
      (a.tr = Demo1.TR_S08_ALL_RED_B ∧
        (Demo1.train_run_until_exit e1 a).tr = Demo1.TR_S08_ALL_RED_B ∧
        (Demo3.train_run_until_exit e3 b).tr = Demo3.TR_S04_ALL_RED_A ∧
        ((Demo1.train_run_until_exit e1 a).in_train_state = false ∨
          (Demo1.train_run_until_exit e1 a).train_active = false))) := by
  obtain ⟨c1, c2⟩ := clear_notice_frame1 a
  obtain ⟨d1, d2⟩ := clear_notice_frame3 b
  obtain ⟨k1, k2⟩ := logic_train_step e1 e3 (Demo1.clear_notice a) (Demo3.clear_notice b)
    (logic_clear_notice a b h) (by rw [c1, c2, d1, d2]; exact hev)
  rw [c2] at k2
  unfold Demo1.train_run_until_exit Demo3.train_run_until_exit
  generalize Demo1.train_step e1 (Demo1.clear_notice a) = x at k1 k2
  generalize Demo3.train_step e3 (Demo3.clear_notice b) = y at k1 k2
  have ht : x.tr = y.tr ∨ (x.tr = Demo1.TR_S08_ALL_RED_B ∧ y.tr = Demo3.TR_S04_ALL_RED_A) := by
    rcases k2 with k | ⟨-, -, k3, k4⟩
    · exact Or.inl k
    · exact Or.inr ⟨k3, k4⟩
  obtain ⟨x1, x2, x3, x4, x5⟩ := logic_train_exit_check x y k1 ht
  refine ⟨x1, ?_⟩
  rw [x2, x3]
  rcases k2 with k | ⟨k0, k5, k3, k4⟩
  · exact Or.inl k
  · refine Or.inr ⟨k0, k3, k4, ?_⟩
    cases hp : x.train_clear_pending
    · right
      rw [x4 hp]
      rw [hp] at k5
      simpa using k5
    · left
      exact x5 hp (by rw [k3]; rfl)

/-- C31 (as amended): demo1.c and demo3.c ("Local Control 2", with approach R2 in the place
of R1) implement the same state machine except for two jump targets. With the layer, both
cursors and every flag equal on the two sides:
* the ring tables agree on `id`, the three flags, `to_yellow`, `next` and the duration of
  every green;
* one `normal_step` on each side, with the same poll results during a green and the same
  event bytes received during any other phase, leaves every flag, the layer and the train
  cursor equal, and the ring cursors equal unless the forced-yellow jump is taken (preempt
  flag set, `train_request` set at the end of the yellow): then demo1.c goes to
  `N_ALL_RED_1` from an R3 yellow and `N_ALL_RED_2` from an R1 yellow, and demo3.c to
  `N_ALL_RED_2` from an R3 yellow and `N_ALL_RED_1` from an R2 yellow;
* one `train_step`, and one `train_run_until_exit`, on each side, with the same event bytes
  received during the wait, leave every flag, the layer and the ring cursor equal, and the
  train cursors equal unless the `else` branch of `TR_S08_ALL_RED_B` is taken: then demo1.c
  stays at `TR_S08_ALL_RED_B` and demo3.c goes to `TR_S04_ALL_RED_A`, and after
  `train_run_until_exit` the train layer has been left or `train_active` is clear. -/
theorem C31_same_logic_up_to_two_targets :
    (∀ k, k < 12 →
      (Demo1.find_norm k).isSome = true ∧
      (Demo1.find_norm k).map (fun x => (x.id, x.is_safe_allred, x.is_prep_y, x.is_green,
          x.to_yellow, x.next, if x.is_green then x.dur_s else 0)) =
        (Demo3.find_norm k).map (fun y => (y.id, y.is_safe_allred, y.is_prep_y, y.is_green,
          y.to_yellow, y.next, if y.is_green then y.dur_s else 0))) ∧
    (∀ (e1 e3 : Nat → Option Char) (a : Demo1.Ctl) (b : Demo3.Ctl),
      Demo1.logic a = Demo3.logic b →
      (∀ st1 st3, Demo1.find_norm a.ns = some st1 → Demo3.find_norm b.ns = some st3 →
        (st1.is_green = true →
          ∀ i, i < 10 * st1.dur_s → e1 (a.polls + i) = e3 (b.polls + i)) ∧
        (st1.is_green = false →
          delivered e1 a.polls (10 * st1.dur_s) = delivered e3 b.polls (10 * st3.dur_s))) →
      { Demo1.logic (Demo1.normal_step e1 a) with ns := 0 } =
        { Demo3.logic (Demo3.normal_step e3 b) with ns := 0 } ∧
      ((Demo1.normal_step e1 a).ns = (Demo3.normal_step e3 b).ns ∨
        (a.train_preempt_to_allred = true ∧ (Demo1.normal_step e1 a).train_request = true ∧
          (((a.ns = Demo1.N_R3_RS_Y ∨ a.ns = Demo1.N_R3_L_Y) ∧
              (Demo1.normal_step e1 a).ns = Demo1.N_ALL_RED_1 ∧
              (Demo3.normal_step e3 b).ns = Demo3.N_ALL_RED_2) ∨
           ((a.ns = Demo1.N_R1_RS_Y ∨ a.ns = Demo1.N_R1_L_Y) ∧
              (Demo1.normal_step e1 a).ns = Demo1.N_ALL_RED_2 ∧
              (Demo3.normal_step e3 b).ns = Demo3.N_ALL_RED_1)))) ∧
      ((a.train_preempt_to_allred = false ∨
          (a.ns ≠ Demo1.N_R3_RS_Y ∧ a.ns ≠ Demo1.N_R3_L_Y ∧ a.ns ≠ Demo1.N_R1_RS_Y ∧
            a.ns ≠ Demo1.N_R1_L_Y)) →
        Demo1.logic (Demo1.normal_step e1 a) = Demo3.logic (Demo3.normal_step e3 b))) ∧
    (∀ (e1 e3 : Nat → Option Char) (a : Demo1.Ctl) (b : Demo3.Ctl),
      Demo1.logic a = Demo3.logic b →
      delivered e1 a.polls (10 * Demo1.train_duration a.tr) =
        delivered e3 b.polls (10 * Demo3.train_duration b.tr) →
      ({ Demo1.logic (Demo1.train_step e1 a) with tr := 0 } =
          { Demo3.logic (Demo3.train_step e3 b) with tr := 0 } ∧
        ((Demo1.train_step e1 a).tr = (Demo3.train_step e3 b).tr ∨
          (a.tr = Demo1.TR_S08_ALL_RED_B ∧
            ((Demo1.train_step e1 a).train_active &&
              !(Demo1.train_step e1 a).train_clear_pending) = false ∧
            (Demo1.train_step e1 a).tr = Demo1.TR_S08_ALL_RED_B ∧
            (Demo3.train_step e3 b).tr = Demo3.TR_S04_ALL_RED_A)) ∧
        (a.tr ≠ Demo1.TR_S08_ALL_RED_B →
          Demo1.logic (Demo1.train_step e1 a) = Demo3.logic (Demo3.train_step e3 b))) ∧
      ({ Demo1.logic (Demo1.train_run_until_exit e1 a) with tr := 0 } =
          { Demo3.logic (Demo3.train_run_until_exit e3 b) with tr := 0 } ∧
        ((Demo1.train_run_until_exit e1 a).tr = (Demo3.train_run_until_exit e3 b).tr ∨
          (a.tr = Demo1.TR_S08_ALL_RED_B ∧
            (Demo1.train_run_until_exit e1 a).tr = Demo1.TR_S08_ALL_RED_B ∧
            (Demo3.train_run_until_exit e3 b).tr = Demo3.TR_S04_ALL_RED_A ∧
            ((Demo1.train_run_until_exit e1 a).in_train_state = false ∨
              (Demo1.train_run_until_exit e1 a).train_active = false))) ∧
        (a.tr ≠ Demo1.TR_S08_ALL_RED_B →
          Demo1.logic (Demo1.train_run_until_exit e1 a) =
            Demo3.logic (Demo3.train_run_until_exit e3 b)))) := by
  refine ⟨tables_agree, fun e1 e3 a b h hev => ?_, fun e1 e3 a b h hev => ⟨?_, ?_⟩⟩
  · obtain ⟨k1, k2⟩ := logic_normal_step e1 e3 a b h hev
    refine ⟨k1, k2, fun hno => logic_of_erased k1 ?_⟩
    rcases k2 with k | ⟨f, -, ⟨y, -, -⟩ | ⟨y, -, -⟩⟩
    · exact k
    · rcases hno with hno | hno
      · rw [f] at hno; exact absurd hno (by decide)
      · rcases y with y | y
        · exact absurd y hno.1
        · exact absurd y hno.2.1
    · rcases hno with hno | hno
      · rw [f] at hno; exact absurd hno (by decide)
      · rcases y with y | y
        · exact absurd y hno.2.2.1
        · exact absurd y hno.2.2.2
  · obtain ⟨k1, k2⟩ := logic_train_step e1 e3 a b h hev
    refine ⟨k1, k2, fun hno => logic_tr_of_erased k1 ?_⟩
    rcases k2 with k | ⟨y, -⟩
    · exact k
    · exact absurd y hno
  · obtain ⟨k1, k2⟩ := logic_train_run e1 e3 a b h hev
    refine ⟨k1, k2, fun hno => logic_tr_of_erased k1 ?_⟩
    rcases k2 with k | ⟨y, -⟩
    · exact k
    · exact absurd y hno

set_option maxRecDepth 100000 in
/-- C31 fails as stated. With a TrainDetected received during the first R3 through-green
(poll 120 on both sides), both controllers are preempted into `N_R3_RS_Y` with the same
layer, cursors and flags; the next `normal_step`, with no event received, takes demo1.c to
`N_ALL_RED_1` and demo3.c to `N_ALL_RED_2`. And from `TR_S08_ALL_RED_B` with a clear
pending, `train_step` leaves the train cursor at `TR_S08_ALL_RED_B` in demo1.c and at
`TR_S04_ALL_RED_A` in demo3.c. -/
theorem C31_counterexample :
    (Demo1.logic (Demo1.run (fun i => if i = 120 then some 't' else none) 3 Demo1.init) =
      Demo3.logic (Demo3.run (fun i => if i = 120 then some 't' else none) 3 Demo3.init) ∧
     (Demo1.run (fun i => if i = 120 then some 't' else none) 3 Demo1.init).ns
       = Demo1.N_R3_RS_Y ∧
     (Demo1.normal_step (fun _ => none)
       (Demo1.run (fun i => if i = 120 then some 't' else none) 3 Demo1.init)).ns
       = Demo1.N_ALL_RED_1 ∧
     (Demo3.normal_step (fun _ => none)
       (Demo3.run (fun i => if i = 120 then some 't' else none) 3 Demo3.init)).ns
       = Demo3.N_ALL_RED_2) ∧
    (Demo1.logic
        { Demo1.init with
          in_train_state := true, train_active := true, train_clear_pending := true,
          tr := Demo1.TR_S08_ALL_RED_B } =
      Demo3.logic
        { Demo3.init with
          in_train_state := true, train_active := true, train_clear_pending := true,
          tr := Demo3.TR_S08_ALL_RED_B } ∧
     (Demo1.train_step (fun _ => none)
        { Demo1.init with
          in_train_state := true, train_active := true, train_clear_pending := true,
          tr := Demo1.TR_S08_ALL_RED_B }).tr
       = Demo1.TR_S08_ALL_RED_B ∧
     (Demo3.train_step (fun _ => none)
        { Demo3.init with
          in_train_state := true, train_active := true, train_clear_pending := true,
          tr := Demo3.TR_S08_ALL_RED_B }).tr
       = Demo3.TR_S04_ALL_RED_A) := by
  decide

set_option maxRecDepth 100000 in
theorem C31_same_logic_up_to_two_targets_witness :
    Demo1.logic Demo1.init = Demo3.logic Demo3.init ∧
    Demo1.logic (Demo1.normal_step (fun _ => none) Demo1.init) =
      Demo3.logic (Demo3.normal_step (fun _ => none) Demo3.init) := by
  have h0 : Demo1.logic Demo1.init = Demo3.logic Demo3.init := by decide
  refine ⟨h0, (C31_same_logic_up_to_two_targets.2.1 (fun _ => none) (fun _ => none) Demo1.init
    Demo3.init h0 (fun st1 st3 h1 h3 => ?_)).2.2 (Or.inl (by decide))⟩
  have e1 : st1 = ⟨Demo1.N_ALL_RED_1, Demo1.T_ALL_RED, "RED", "RED", "RED", true, false, false,
      Demo1.N_ALL_RED_1, Demo1.N_PREP_R3⟩ := Option.some.inj (h1.symm.trans (by decide))
  have e3 : st3 = ⟨Demo3.N_ALL_RED_1, Demo3.T_ALL_RED, "RED", "RED", "RED", true, false, false,
      Demo3.N_ALL_RED_1, Demo3.N_PREP_R3⟩ := Option.some.inj (h3.symm.trans (by decide))
  rw [e1, e3]
  exact ⟨fun h => absurd h (by decide), fun _ => by decide⟩
